import Mathlib

/-!
Netplay synchronisation engine: a shallow embedding of
`mupen64plus-core/src/main/netplay_ws.c`, with the MD5 implementation
`mupen64plus-core/src/main/md5.c` and the native `net_recv` of `custom/net_compat.c`.

Conventions of the embedding

* The file-level statics (`l_canFF`, `l_udpChannel`, `l_cin_compats`, ...) and the host
  globals the file writes (`Controls`, the speed limiter, the emulator state, the
  fast-forward override, the log) are the fields of one record, `Netplay`.
* `uint8_t` / `uint32_t` values are natural numbers, reduced `% 2^8` / `% 2^32` where the C
  arithmetic can wrap; `int` values are integers.
* A singly linked list of `struct netplay_event` is a `List netplay_event`, head first.
* The four-entry arrays are functions on `Fin 4`.  An access at an index of 4 or more, a read
  past the end of a packet buffer, or a walk off the end of a linked list is undefined
  behaviour in C; every operation returns `Option` and such an access yields `none`.
* The transport is the external collaborator: the datagram socket is a receive queue
  (`udp_in`) and a record of what was sent (`udp_out`), the stream socket a queue of
  received chunks (`tcp_in`) and a record of the messages sent (`tcp_out`).  What the
  transport returns is part of the state as well: `tcp_send_ret` for the coming `TCP_Send`
  calls, `tcp_recv_ret` for the coming `TCP_Recv` calls (a call can fail with -1 or -2
  instead of delivering bytes).
* The nodes of the event lists live on the heap.  `events_freed i` records that the nodes
  `l_cin_compats[i].event_first` points at have been passed to `free` (the pointer is left
  dangling by `netplay_stop`), `cin_compats_null` that the pointer `l_cin_compats` is `NULL`.
  Freeing a node a second time is undefined behaviour (`none`).  The operations that read
  or change a list are embedded for lists whose nodes are allocated: they do not consult
  `events_freed`.
* The calling thread and the helper thread of `netplay_ensure_valid` are interleaved at the
  granularity of one loop iteration; what the network delivers, which thread runs and what
  `SDL_GetTicks()` returns are given by a trace of events (`wait_event`).
* Memory allocation always succeeds, so the early returns taken on a failed `malloc` or a
  failed packet allocation are not part of the embedding.  The bytes of a freshly allocated
  packet are indeterminate; they are a parameter (`mem`) of the operations that allocate one.
-/

namespace NetplayWs

/-! ## Constants -/

def UINT32_MAX : Nat := 4294967295

def SETTINGS_SIZE : Nat := 24

def UDP_SEND_KEY_INFO : Nat := 0
def UDP_RECEIVE_KEY_INFO : Nat := 1
def UDP_REQUEST_KEY_INFO : Nat := 2
def UDP_RECEIVE_KEY_INFO_GRATUITOUS : Nat := 3
def UDP_SYNC_DATA : Nat := 4

def TCP_SEND_SAVE : Nat := 1
def TCP_RECEIVE_SAVE : Nat := 2
def TCP_SEND_SETTINGS : Nat := 3
def TCP_RECEIVE_SETTINGS : Nat := 4
def TCP_REGISTER_PLAYER : Nat := 5
def TCP_GET_REGISTRATION : Nat := 6
def TCP_DISCONNECT_NOTICE : Nat := 7

/-- Modelled from the spec: the value `M64EMU_STOPPED` of the emulator-state enumeration of the
core API header, which is not part of the sources at hand. -/
def M64EMU_STOPPED : Int := 1

/-- Modelled from the spec: the save-file status enumeration (`file_status_t` of `util.h`),
of which `netplay_read_storage` uses `file_ok` and `file_open_error` (the spec's `OpenError`). -/
inductive file_status_t where
  | file_ok
  | file_open_error
  | file_read_error
  | file_size_error
deriving DecidableEq, Repr

/-! ## Data model -/

/-- One buffered input event, `struct netplay_event`; the `next` pointer is the list tail. -/
structure netplay_event where
  count : Nat
  buttons : Nat
  plugin : Nat
deriving DecidableEq, Repr

/-- The two fields of `struct controller_input_compat` that the netplay code uses. -/
structure controller_input_compat where
  event_first : List netplay_event
  netplay_count : Nat
deriving DecidableEq, Repr

/-- The fields of the host's `CONTROL` record that the netplay code uses. -/
structure CONTROL where
  Present : Int
  RawData : Int
  Plugin : Int
deriving DecidableEq, Repr

/-- The messages `log_cb` is called with. -/
inductive log_message where
  | desync (vi : Nat)
  | player_disconnected (dis : Nat)
  | unknown_message
  | lost_connection
  | could_not_initialize
  | udp_socket_failed
  | could_not_resolve
  | could_not_bind
  | could_not_open_tcp
deriving DecidableEq, Repr

/-- The argument of `RETRO_ENVIRONMENT_SET_FASTFORWARDING_OVERRIDE`. -/
structure retro_fastforwarding_override where
  fastforward : Bool
  inhibit_toggle : Bool
deriving DecidableEq, Repr

/-- The two failure returns of `TCP_Recv` (`custom/sdl_net_websocket.h`: "-1 error, -2 socket
closed sentinel"; spec section 6: `recv_reliable(stream, buf) -> count|error`). -/
inductive tcp_failure where
  | error
  | closed
deriving DecidableEq, Repr

/-- The value `TCP_Recv` returns on a failure. -/
def tcp_failure.ret : tcp_failure → Int
  | tcp_failure.error => -1
  | tcp_failure.closed => -2

/-- The process-wide state of `netplay_ws.c`, the host globals it writes, the transport and
the heap status of the event lists.
* `tcp_recv_ret`: what the coming calls of `TCP_Recv` do, one entry per call: `some f` is a
  call that fails with `f` and writes nothing, `none` a call that delivers bytes of `tcp_in`;
  the calls after the end of the list deliver.
* `cin_compats_null`: the pointer `l_cin_compats` is `NULL` (no table has been installed).
* `events_freed i`: the nodes that `l_cin_compats[i].event_first` points at have been freed. -/
structure Netplay where
  l_canFF : Int
  l_netplay_controller : Int
  l_netplay_control : Fin 4 → Int
  l_udpSocket : Bool
  l_tcpSocket : Bool
  l_udpChannel : Int
  l_spectator : Int
  l_netplay_is_init : Int
  l_vi_counter : Nat
  l_status : Nat
  l_reg_id : Nat
  l_cin_compats : Fin 4 → controller_input_compat
  l_plugin : Fin 4 → Nat
  l_buffer_target : Nat
  l_player_lag : Fin 4 → Nat
  Controls : Fin 4 → CONTROL
  speed_limiter : Int
  emu_state : Int
  ff_override : Option retro_fastforwarding_override
  log : List log_message
  udp_in : List (List Nat)
  udp_out : List (Int × List Nat)
  tcp_in : List (List Nat)
  tcp_out : List (List Nat)
  tcp_send_ret : List Int
  tcp_recv_ret : List (Option tcp_failure)
  cin_compats_null : Bool
  events_freed : Fin 4 → Bool

/-- An index into one of the four-entry tables; `none` when it is out of bounds. -/
def idx4 (i : Nat) : Option (Fin 4) :=
  if h : i < 4 then some ⟨i, h⟩ else none

/-- The entry `l_cin_compats[control_id]`. -/
def Netplay.cin (s : Netplay) (control_id : Nat) : Option controller_input_compat :=
  (idx4 control_id).map s.l_cin_compats

/-! ## Wire codec -/

/-- Modelled from the spec: `Write32` (`SDLNet_Write32` / `WS_Write32`), the four bytes of a
32-bit value, most significant first. -/
def net_write32 (v : Nat) : List Nat :=
  [v / 16777216 % 256, v / 65536 % 256, v / 256 % 256, v % 256]

/-- Modelled from the spec: `Read32` (`SDLNet_Read32` / `WS_Read32`) applied to `&data[curr]`, the
big-endian value of four consecutive bytes; `none` when a byte lies past the buffer. -/
def net_read32 (data : List Nat) (curr : Nat) : Option Nat := do
  let b0 ← data[curr]?
  let b1 ← data[curr + 1]?
  let b2 ← data[curr + 2]?
  let b3 ← data[curr + 3]?
  some (16777216 * b0 + 65536 * b1 + 256 * b2 + b3)

/-- The `uint32_t` difference `a - b`. -/
def u32_sub (a b : Nat) : Nat := (a % 4294967296 + (4294967296 - b % 4294967296)) % 4294967296

/-- The conversion `(uint32_t)x` of an `int32_t`. -/
def to_u32 (x : Int) : Nat := (x % 4294967296).toNat

/-- The conversion `(int32_t)n` of a `uint32_t`. -/
def to_i32 (n : Nat) : Int :=
  if n % 4294967296 < 2147483648 then ((n % 4294967296 : Nat) : Int)
  else ((n % 4294967296 : Nat) : Int) - 4294967296

/-- The conversion `(uint8_t)x` of an `int`. -/
def to_u8 (x : Int) : Nat := (x % 256).toNat

/-! ## Transport -/

/-- The contents of a packet obtained from `alloc_packet(size)`: `size` bytes of indeterminate
content, taken from `mem`. -/
def alloc_packet (size : Nat) (mem : List Nat) : List Nat :=
  (List.range size).map (fun k => mem.getD k 0)

/-- The result of `UDP_Recv` on a packet whose buffer holds `data` when datagram `d` is at the
head of the queue: the first bytes of the buffer are overwritten, the others are kept, and
`len` is the number of bytes received (at most the size of the buffer). -/
def UDP_Recv (data : List Nat) (d : List Nat) : List Nat × Nat :=
  ((d.take data.length) ++ data.drop (d.take data.length).length, (d.take data.length).length)

/-- The call `UDP_Send(l_udpSocket, l_udpChannel, packet)`: the datagram is recorded with its
route. -/
def UDP_Send (s : Netplay) (data : List Nat) : Netplay :=
  { s with udp_out := s.udp_out ++ [(s.l_udpChannel, data)] }

/-- The call `TCP_Send(l_tcpSocket, data, len)`: the message is recorded; the value returned is
the next one the transport reports, `len` when it reports nothing else. -/
def TCP_Send (s : Netplay) (data : List Nat) : Netplay × Int :=
  ({ s with tcp_out := s.tcp_out ++ [data], tcp_send_ret := s.tcp_send_ret.tail },
   s.tcp_send_ret.headD (data.length : Int))

/-- The loop `while (recv < size) recv += TCP_Recv(sock, buf + recv, size - recv)` on a stream
every read of which delivers (no call fails).  Each step is one `TCP_Recv` call: it returns
the bytes of the first chunk of the stream, at most the `need` bytes still missing, and leaves
the rest of the chunk queued.  An empty queue never delivers, so the loop has no result
(`none`).  The result is the bytes read and the queue.  The loop with the failure returns of
`TCP_Recv` is `tcp_recv_while`, which ends in this one once the transport reports no further
failure. -/
def tcp_recv_loop : List (List Nat) → Nat → List Nat → Option (List Nat × List (List Nat))
  | q, 0, acc => some (acc, q)
  | [], _ + 1, _ => none
  | c :: rest, need + 1, acc =>
    if c.length ≤ need + 1 then tcp_recv_loop rest (need + 1 - c.length) (acc ++ c)
    else some (acc ++ c.take (need + 1), c.drop (need + 1) :: rest)

/-- One call `TCP_Recv(sock, buf, maxlen)` when the transport reports `o` for it and the stream
holds the chunks `q`: the value returned, the bytes written to `buf` and the stream
afterwards.  A failing call returns -1 or -2 and writes nothing; a delivering call takes at
most `maxlen` bytes of the first chunk and returns their number; on an empty stream it never
returns (`none`). -/
def TCP_Recv (o : Option tcp_failure) (q : List (List Nat)) (maxlen : Nat) :
    Option (Int × List Nat × List (List Nat)) :=
  match o, q with
  | some f, _ => some (f.ret, [], q)
  | none, [] => none
  | none, c :: rest =>
    if c.length ≤ maxlen then some ((c.length : Int), c, rest)
    else some ((maxlen : Int), c.take maxlen, c.drop maxlen :: rest)

/-- The loop `while (recv < size) recv += TCP_Recv(sock, buf + recv, size - recv)` with the
value of `TCP_Recv` unchecked, as the code has it.  `buf` is the content of the buffer, `recv`
the count so far; the first list holds what the transport reports for the coming calls.  The
result is the buffer, the stream and the remaining reports when the loop ends.

A failure return is added to `recv` like a byte count: `recv` moves back, and the next call
writes over bytes already received.  When the sum is negative, the outcome depends on the type
of `recv`:
* `wraps = true`, `size_t recv` (`netplay_register_player`, `netplay_read_registration`,
  `netplay_read_storage`): the sum wraps to a value of at least `SIZE_MAX - 1`, above the size
  of any buffer, and the loop ends with the bytes still missing unwritten;
* `wraps = false`, `int recv` (`netplay_receive_config`): `recv` is negative, the loop goes on
  and the next call is handed `&buf[recv]`, a pointer before the buffer: undefined behaviour
  (`none`).

Once the transport reports nothing further, every call delivers: the rest of the loop is
`tcp_recv_loop`. -/
def tcp_recv_while (wraps : Bool) (size : Nat) :
    List (Option tcp_failure) → List (List Nat) → List Nat → Nat →
      Option (List Nat × List (List Nat) × List (Option tcp_failure))
  | [], q, buf, recv =>
    (tcp_recv_loop q (size - recv) []).map
      (fun r => (buf.take recv ++ r.1 ++ buf.drop (recv + r.1.length), r.2, []))
  | o :: os, q, buf, recv =>
    if size ≤ recv then some (buf, q, o :: os)
    else
      match TCP_Recv o q (size - recv) with
      | none => none
      | some (ret, bytes, q1) =>
        if (recv : Int) + ret < 0 then (if wraps then some (buf, q1, os) else none)
        else
          tcp_recv_while wraps size os q1
            (buf.take recv ++ bytes ++ buf.drop (recv + bytes.length)) ((recv : Int) + ret).toNat

/-- The content of an uninitialised local array of `size` bytes: indeterminate, taken from
`mem`. -/
def local_array (size : Nat) (mem : List Nat) : List Nat :=
  (List.range size).map (fun k => mem.getD k 0)

/-! ## Event ledger -/

/-- The helper `buffer_size`, on the list: the loop counts the nodes in a `uint8_t`. -/
def buffer_size_list : List netplay_event → Nat → Nat
  | [], counter => counter
  | _ :: next, counter => buffer_size_list next ((counter + 1) % 256)

/-- The function `buffer_size(control_id)`. -/
def buffer_size (s : Netplay) (control_id : Nat) : Option Nat := do
  let c ← s.cin control_id
  some (buffer_size_list c.event_first 0)

/-- The loop of `check_valid`, on the list. -/
def check_valid_list : List netplay_event → Nat → Bool
  | [], _ => false
  | current :: next, count => if current.count = count then true else check_valid_list next count

/-- The function `check_valid(control_id, count)`. -/
def check_valid (s : Netplay) (control_id count : Nat) : Option Bool := do
  let c ← s.cin control_id
  some (check_valid_list c.event_first count)

/-- The store `l_cin_compats[p].event_first = l`. -/
def Netplay.set_event_first (s : Netplay) (p : Fin 4) (l : List netplay_event) : Netplay :=
  { s with l_cin_compats :=
      Function.update s.l_cin_compats p { s.l_cin_compats p with event_first := l } }

/-! ## Requests and local input -/

/-- The function `netplay_request_input(control_id)`. -/
def netplay_request_input (s : Netplay) (control_id : Nat) : Option Netplay := do
  let c ← s.cin control_id
  let size ← buffer_size s control_id
  let data := [UDP_REQUEST_KEY_INFO, control_id] ++ net_write32 s.l_reg_id
    ++ net_write32 c.netplay_count ++ [to_u8 s.l_spectator, size]
  some (UDP_Send s data)

/-- The function `netplay_send_input(control_id, keys)`. -/
def netplay_send_input (s : Netplay) (control_id keys : Nat) : Option Netplay := do
  let c ← s.cin control_id
  let p ← idx4 control_id
  let data := [UDP_SEND_KEY_INFO, control_id] ++ net_write32 c.netplay_count
    ++ net_write32 keys ++ [s.l_plugin p]
  some (UDP_Send s data)

/-! ## Processing received datagrams -/

/-- The log calls made when the status byte `current_status` differs from `l_status`. -/
def status_logs (current_status l_status vi : Nat) : List log_message :=
  (if ((current_status &&& 1) ^^^ (l_status &&& 1)) ≠ 0 then [log_message.desync vi] else [])
  ++ ([1, 2, 3, 4].filter (fun dis =>
        decide (((current_status &&& (1 <<< dis)) ^^^ (l_status &&& (1 <<< dis))) ≠ 0))).map
      log_message.player_disconnected

/-- The `for` loop of `netplay_process` over the events of one datagram: `n` iterations remain
and `curr` is the read offset. -/
def netplay_process_events (data : List Nat) (player : Nat) :
    Nat → Nat → Netplay → Option Netplay
  | 0, _, s => some s
  | n + 1, curr, s => do
    let count ← net_read32 data curr
    let p ← idx4 player
    let c := s.l_cin_compats p
    if u32_sub count c.netplay_count > UINT32_MAX / 2 ∨ check_valid_list c.event_first count then
      netplay_process_events data player n (curr + 9) s
    else do
      let keys ← net_read32 data (curr + 4)
      let plugin ← data[curr + 8]?
      let new_event : netplay_event := { count := count, buttons := keys, plugin := plugin }
      netplay_process_events data player n (curr + 9)
        (s.set_event_first p (new_event :: c.event_first))

/-- The body of the receive loop of `netplay_process` for one received packet whose buffer
holds `data`. -/
def netplay_process_packet (s : Netplay) (data : List Nat) : Option Netplay := do
  let tag ← data[0]?
  if tag = UDP_RECEIVE_KEY_INFO ∨ tag = UDP_RECEIVE_KEY_INFO_GRATUITOUS then do
    let player ← data[1]?
    let current_status ← data[2]?
    let s1 ← (if tag = UDP_RECEIVE_KEY_INFO then do
        let lag ← data[3]?
        let p ← idx4 player
        some { s with l_player_lag := Function.update s.l_player_lag p lag }
      else some s)
    let s2 := (if current_status ≠ s1.l_status then
        { s1 with log := s1.log ++ status_logs current_status s1.l_status s1.l_vi_counter,
                  l_status := current_status }
      else s1)
    let n ← data[4]?
    netplay_process_events data player n 5 s2
  else
    some { s with log := s.log ++ [log_message.unknown_message] }

/-- The receive loop of `netplay_process`: one iteration per datagram of the receive queue,
all into the same packet buffer. -/
def netplay_process_loop : List (List Nat) → List Nat → Netplay → Option Netplay
  | [], _, s => some s
  | d :: q, data, s => do
    let s1 ← netplay_process_packet s (UDP_Recv data d).1
    netplay_process_loop q (UDP_Recv data d).1 s1

/-- The function `netplay_process()`: allocates a 512-byte packet and drains the receive queue. -/
def netplay_process (s : Netplay) (mem : List Nat) : Option Netplay :=
  netplay_process_loop s.udp_in (alloc_packet 512 mem) { s with udp_in := [] }

/-! ## Waiting for the next event -/

/-- What can happen while `netplay_ensure_valid` waits.  The calling thread and the helper
thread it spawns run concurrently; the embedding interleaves them at the granularity of one
loop iteration.
* `arrive d`: the network delivers datagram `d` to the receive queue of the socket;
* `main mem`: the calling thread runs one iteration of its `while` loop (`mem` is the
  indeterminate content of the packet `netplay_process` allocates);
* `helper now`: the helper thread runs one iteration of the loop of
  `netplay_require_response`, in which `SDL_GetTicks()` returns `now`. -/
inductive wait_event where
  | arrive (d : List Nat)
  | main (mem : List Nat)
  | helper (now : Nat)
deriving DecidableEq, Repr

/-- The value `SDL_WaitThread` hands back once the calling thread has left its loop
(`main_done`) and the helper thread has returned (`success`). -/
def joined (main_done : Bool) (success : Option Int) : Option Int :=
  if main_done then success else none

/-- One event of the concurrent part of `netplay_ensure_valid`, on the state, the flag
"the calling thread has left its loop" and the return value of the helper thread, if it has
returned.
* The calling thread: `while (!check_valid(..) && l_udpChannel != -1) netplay_process();`.
* The helper thread, `netplay_require_response` with deadline `timeout`:
  `while (!check_valid(..)) { if (SDL_GetTicks() > timeout) { l_udpChannel = -1; return 0; }
  netplay_request_input(control_id); SDL_Delay(5); } return 1;`. -/
def wait_step (control_id timeout : Nat) (s : Netplay) (main_done : Bool)
    (success : Option Int) : wait_event → Option (Netplay × Bool × Option Int)
  | wait_event.arrive d => some ({ s with udp_in := s.udp_in ++ [d] }, main_done, success)
  | wait_event.main mem =>
    if main_done then some (s, main_done, success)
    else do
      let c ← s.cin control_id
      if check_valid_list c.event_first c.netplay_count = false ∧ s.l_udpChannel ≠ -1 then do
        let s1 ← netplay_process s mem
        some (s1, false, success)
      else some (s, true, success)
  | wait_event.helper now =>
    match success with
    | some r => some (s, main_done, some r)
    | none => do
      let c ← s.cin control_id
      if check_valid_list c.event_first c.netplay_count = false then
        if now > timeout then some ({ s with l_udpChannel := -1 }, main_done, some 0)
        else do
          let s1 ← netplay_request_input s control_id
          some (s1, main_done, none)
      else some (s, main_done, some 1)

/-- The concurrent part of `netplay_ensure_valid`: the two loops run along a trace of events
until both threads have finished.  The result is the state at the join and the helper's
return value; `none` if the trace ends before both threads have finished. -/
def wait_threads (control_id timeout : Nat) :
    List wait_event → Netplay → Bool → Option Int → Option (Netplay × Int)
  | [], s, main_done, success => (joined main_done success).map (fun r => (s, r))
  | ev :: rest, s, main_done, success =>
    match joined main_done success with
    | some r => some (s, r)
    | none =>
      match wait_step control_id timeout s main_done success ev with
      | none => none
      | some st => wait_threads control_id timeout rest st.1 st.2.1 st.2.2

/-- The function `netplay_ensure_valid(control_id)`.  `ticks0` is the value of `SDL_GetTicks()`
when the helper thread starts, `trace` what happens while the two threads run. -/
def netplay_ensure_valid (s : Netplay) (control_id ticks0 : Nat) (trace : List wait_event) :
    Option (Netplay × Int) := do
  let c ← s.cin control_id
  if check_valid_list c.event_first c.netplay_count then some (s, 1)
  else if s.l_udpChannel = -1 then some (s, 0)
  else wait_threads control_id ((ticks0 + 10000) % 4294967296) trace s false none

/-! ## Consuming an event -/

/-- The search loop of `netplay_get_input`, on the list: the position of the first node whose
`count` is the wanted one; `none` when the walk runs off the end of the list. -/
def find_event : List netplay_event → Nat → Option Nat
  | [], _ => none
  | current :: next, count =>
    if current.count = count then some 0 else (find_event next count).map (· + 1)

/-- The first loop of `netplay_delete_event`, on the list; `k` is the position of the node
`current` counted from `find`: the node whose `next` is `current` gets `current->next`. -/
def delete_event_splice : List netplay_event → Nat → List netplay_event
  | [], _ => []
  | find :: next, k =>
    if k = 1 then find :: next.tail else find :: delete_event_splice next (k - 1)

/-- The function `netplay_delete_event(current, control_id)`, where `current` is the node at
position `k` of the list of the slot. -/
def netplay_delete_event (s : Netplay) (k : Nat) (control_id : Nat) : Option Netplay := do
  let p ← idx4 control_id
  let spliced := delete_event_splice (s.l_cin_compats p).event_first k
  some (s.set_event_first p (if k = 0 then spliced.tail else spliced))

/-- What the host supplies during one call of `netplay_get_input`. -/
structure poll_env where
  mem : List Nat
  ticks0 : Nat
  trace : List wait_event

/-- The fast-forward decision of `netplay_get_input`. -/
def netplay_lag_policy (s : Netplay) (control_id : Nat) : Option Netplay := do
  let p ← idx4 control_id
  let size ← buffer_size s control_id
  if s.l_player_lag p > 0 ∧ size > s.l_buffer_target then
    some { s with l_canFF := 1, speed_limiter := 0,
                  ff_override := some { fastforward := true, inhibit_toggle := true } }
  else
    some { s with speed_limiter := 1,
                  ff_override := some { fastforward := false, inhibit_toggle := true },
                  l_canFF := 0 }

/-- The last part of `netplay_get_input`, after `netplay_ensure_valid` has returned `success`. -/
def netplay_consume (s : Netplay) (control_id : Nat) (success : Int) : Option (Netplay × Nat) :=
  if success ≠ 0 then do
    let p ← idx4 control_id
    let c := s.l_cin_compats p
    let k ← find_event c.event_first c.netplay_count
    let current ← c.event_first[k]?
    let control : CONTROL := { s.Controls p with Plugin := (current.plugin : Int) }
    let s1 : Netplay := { s with Controls := Function.update s.Controls p control }
    let s2 ← netplay_delete_event s1 k control_id
    let c2 := s2.l_cin_compats p
    let c3 : controller_input_compat :=
      { c2 with netplay_count := (c2.netplay_count + 1) % 4294967296 }
    some ({ s2 with l_cin_compats := Function.update s2.l_cin_compats p c3 }, current.buttons)
  else
    some ({ s with log := s.log ++ [log_message.lost_connection], emu_state := M64EMU_STOPPED }, 0)

/-- The function `netplay_get_input(control_id)`: the new state and the keys returned. -/
def netplay_get_input (s : Netplay) (control_id : Nat) (env : poll_env) :
    Option (Netplay × Nat) := do
  let s1 ← netplay_process s env.mem
  let s2 ← netplay_request_input s1 control_id
  let s3 ← netplay_lag_policy s2 control_id
  let r ← netplay_ensure_valid s3 control_id env.ticks0 env.trace
  netplay_consume r.1 control_id r.2

/-! ## Settings and save data over the reliable channel -/

/-- The six values `netplay_sync_settings` exchanges. -/
structure settings where
  count_per_op : Nat
  count_per_op_denom_pot : Nat
  disable_extra_mem : Nat
  si_dma_duration : Int
  emumode : Nat
  no_compiled_jump : Int
deriving DecidableEq, Repr

/-- The function `netplay_sync_settings`; the six pointers are passed by value and the values
they hold afterwards are returned.  The branch that pulls the settings is embedded for a
stream that delivers the 24 bytes (`tcp_recv_loop`): it does not consult `tcp_recv_ret`. -/
def netplay_sync_settings (s : Netplay) (v : settings) : Option (Netplay × settings) :=
  if s.l_netplay_is_init = 0 then some (s, v)
  else if s.l_netplay_control 0 ≠ -1 then
    let output_data := [TCP_SEND_SETTINGS] ++ net_write32 v.count_per_op
      ++ net_write32 v.count_per_op_denom_pot ++ net_write32 v.disable_extra_mem
      ++ net_write32 (to_u32 v.si_dma_duration) ++ net_write32 v.emumode
      ++ net_write32 (to_u32 v.no_compiled_jump)
    some ((TCP_Send s output_data).1, v)
  else do
    let s1 := (TCP_Send s [TCP_RECEIVE_SETTINGS]).1
    let r ← tcp_recv_loop s1.tcp_in SETTINGS_SIZE []
    let output_data := r.1
    let a ← net_read32 output_data 0
    let b ← net_read32 output_data 4
    let c ← net_read32 output_data 8
    let d ← net_read32 output_data 12
    let e ← net_read32 output_data 16
    let f ← net_read32 output_data 20
    some ({ s1 with tcp_in := r.2 },
          { count_per_op := a, count_per_op_denom_pot := b, disable_extra_mem := c,
            si_dma_duration := to_i32 d, emumode := e, no_compiled_jump := to_i32 f })

/-- The library function `strrchr(s, c)` on a string given by its bytes: the part of the string
that starts at the last occurrence of `c`, `none` when there is none. -/
def strrchr : List Nat → Nat → Option (List Nat)
  | [], _ => none
  | x :: xs, c =>
    match strrchr xs c with
    | some r => some r
    | none => if x = c then some (x :: xs) else none

/-- The extension `netplay_read_storage` computes from `filename`: what follows the last dot. -/
def file_extension (filename : List Nat) : List Nat :=
  match strrchr filename 46 with
  | none => []
  | some r => r.tail

/-- The loop `for (i = 0; i < size; ++i) sum |= (unsigned char)data_array[i];`. -/
def or_sum (bytes : List Nat) : Nat := bytes.foldl (fun sum b => sum ||| b) 0

/-- The function `netplay_read_storage(filename, data, size)`.  `data` is the content of the
caller's buffer, `ret_init` the indeterminate initial value of the local `ret`.  The result is the
state, the status returned and the content of the caller's buffer afterwards; `none` when
the buffer is shorter than `size`.  The receive loop counts in a `size_t` and does not look at
what `TCP_Recv` returns. -/
def netplay_read_storage (s : Netplay) (filename data : List Nat) (size : Nat)
    (ret_init : file_status_t) : Option (Netplay × file_status_t × List Nat) :=
  if data.length < size then none
  else if s.l_netplay_control 0 ≠ -1 then
    let output_data := [TCP_SEND_SAVE] ++ file_extension filename ++ [0]
      ++ net_write32 size ++ data.take size
    some ((TCP_Send s output_data).1, ret_init, data)
  else do
    let output_data := [TCP_RECEIVE_SAVE] ++ file_extension filename ++ [0]
    let s1 := (TCP_Send s output_data).1
    let r ← tcp_recv_while true size s1.tcp_recv_ret s1.tcp_in data 0
    let data_array := r.1
    let sum := or_sum (data_array.take size)
    some ({ s1 with tcp_in := r.2.1, tcp_recv_ret := r.2.2 },
          (if sum = 0 then file_status_t.file_open_error else file_status_t.file_ok),
          data_array)

/-! ## Session life cycle -/

/-- Modelled from the spec: the error codes of `m64p_error` (core API header, not part of the
sources at hand) that the netplay code returns. -/
inductive m64p_error where
  | M64ERR_SUCCESS
  | M64ERR_NOT_INIT
  | M64ERR_INVALID_STATE
  | M64ERR_SYSTEM_FAIL
deriving DecidableEq, Repr

/-- What the network library answers during one call of `netplay_start`.
* `net_init`: the value of `NET_Init()`;
* `udp_open`: `UDP_Open(0)` returned a socket;
* `resolve_failed`: the native build found `ResolveHost(dest, host, port) < 0` (the Emscripten
  build does not look at the result of `ResolveHost`: `false` there);
* `bind`: the value of `UDP_Bind(l_udpSocket, -1, dest_addr)`;
* `tcp_open`: `TCP_Open(dest_addr)` returned a socket. -/
structure start_env where
  net_init : Int
  udp_open : Bool
  resolve_failed : Bool
  bind : Int
  tcp_open : Bool
deriving DecidableEq, Repr

/-- The function `netplay_start(host, port)`: the new state and the error code returned. -/
def netplay_start (s : Netplay) (env : start_env) : Netplay × m64p_error :=
  if env.net_init ≠ 0 then
    ({ s with log := s.log ++ [log_message.could_not_initialize] },
     m64p_error.M64ERR_SYSTEM_FAIL)
  else
    let s1 : Netplay := { s with l_udpSocket := env.udp_open }
    if env.udp_open = false then
      ({ s1 with log := s1.log ++ [log_message.udp_socket_failed] },
       m64p_error.M64ERR_SYSTEM_FAIL)
    else if env.resolve_failed then
      ({ s1 with log := s1.log ++ [log_message.could_not_resolve] },
       m64p_error.M64ERR_SYSTEM_FAIL)
    else
      let s2 : Netplay := { s1 with l_udpChannel := env.bind }
      if env.bind < 0 then
        ({ s2 with log := s2.log ++ [log_message.could_not_bind], l_udpSocket := false },
         m64p_error.M64ERR_SYSTEM_FAIL)
      else
        let s3 : Netplay := { s2 with l_tcpSocket := env.tcp_open }
        if env.tcp_open = false then
          ({ s3 with log := s3.log ++ [log_message.could_not_open_tcp], l_udpSocket := false },
           m64p_error.M64ERR_SYSTEM_FAIL)
        else
          ({ s3 with l_netplay_control := fun _ => -1, l_plugin := fun _ => 0,
                     l_player_lag := fun _ => 0, l_canFF := 0, l_netplay_controller := 0,
                     l_netplay_is_init := 1, l_spectator := 1, l_vi_counter := 0,
                     l_status := 0, l_reg_id := 0 },
           m64p_error.M64ERR_SUCCESS)

/-- The body of the `for` loop of `netplay_stop` for slot `i`:
`current = l_cin_compats[i].event_first; while (current != NULL) { next = current->next;
free(current); current = next; }`.  Every node of the list is freed and `event_first` is not
reset: it keeps pointing at the freed nodes (`events_freed i`).  When the nodes were freed
before, the loop reads `current->next` in freed memory and frees the node a second time:
undefined behaviour (`none`).  An empty list (`event_first == NULL`) frees nothing. -/
def netplay_stop_free (s : Netplay) (i : Fin 4) : Option Netplay :=
  if (s.l_cin_compats i).event_first = [] then some s
  else if s.events_freed i then none
  else some { s with events_freed := Function.update s.events_freed i true }

/-- The statement `if (l_cin_compats != NULL) { for (int i = 0; i < 4; ++i) ... }` of
`netplay_stop`. -/
def netplay_stop_loop (s : Netplay) : Option Netplay :=
  if s.cin_compats_null then some s
  else do
    let a ← netplay_stop_free s 0
    let b ← netplay_stop_free a 1
    let c ← netplay_stop_free b 2
    netplay_stop_free c 3

/-- The function `netplay_stop()`: the new state and the error code returned; `none` when the
loop that frees the event lists has no defined behaviour. -/
def netplay_stop (s : Netplay) : Option (Netplay × m64p_error) :=
  if s.l_udpSocket = false then some (s, m64p_error.M64ERR_INVALID_STATE)
  else do
    let s0 ← netplay_stop_loop s
    let output_data := [TCP_DISCONNECT_NOTICE] ++ net_write32 s0.l_reg_id
    let s1 : Netplay := if s0.l_tcpSocket then (TCP_Send s0 output_data).1 else s0
    some ({ s1 with l_udpSocket := false, l_tcpSocket := false, l_udpChannel := -1,
                    l_netplay_is_init := 0 },
          m64p_error.M64ERR_SUCCESS)

/-- The function `netplay_is_init()`. -/
def netplay_is_init (s : Netplay) : Int := s.l_netplay_is_init

/-- The function `netplay_lag()`. -/
def netplay_lag (s : Netplay) : Int := s.l_canFF

/-! ## Registration -/

/-- Modelled from the spec: the peripheral kind "none", `PLUGIN_NONE` of the plugin API header,
which is not part of the sources at hand. -/
def PLUGIN_NONE : Nat := 1

/-- Modelled from the spec: the peripheral kind "memory pak", `PLUGIN_MEMPAK` of the plugin API
header. -/
def PLUGIN_MEMPAK : Nat := 2

/-- Modelled from the spec: the peripheral kind "transfer pak", `PLUGIN_TRANSFER_PAK` of the plugin
API header. -/
def PLUGIN_TRANSFER_PAK : Nat := 4

/-- The value of a plain `char` that holds the byte `b`, converted to `int`.  Whether plain
`char` is signed is implementation-defined: it is on x86-64 and wasm32 (`char_signed = true`),
it is not on the AArch64 target of the `HAVE_LIBNX` branch (`char_signed = false`). -/
def to_char (char_signed : Bool) (b : Nat) : Int :=
  if char_signed then
    (if b % 256 < 128 then ((b % 256 : Nat) : Int) else ((b % 256 : Nat) : Int) - 256)
  else ((b % 256 : Nat) : Int)

/-- The function `netplay_register_player(player, plugin, rawdata, reg_id)`: the new state and
the value returned.  `mem` gives the indeterminate content of the local array `response`
before the receive loop, which counts in a `size_t` and does not look at what `TCP_Recv`
returns. -/
def netplay_register_player (s : Netplay) (player plugin rawdata reg_id : Nat)
    (mem : List Nat) : Option (Netplay × Nat) := do
  let s1 : Netplay := { s with l_reg_id := reg_id }
  let output_data := [TCP_REGISTER_PLAYER, player, plugin, rawdata] ++ net_write32 s1.l_reg_id
  let s2 := (TCP_Send s1 output_data).1
  let r ← tcp_recv_while true 2 s2.tcp_recv_ret s2.tcp_in (local_array 2 mem) 0
  let response := r.1
  let status ← response[0]?
  let target ← response[1]?
  some ({ s2 with tcp_in := r.2.1, tcp_recv_ret := r.2.2, l_buffer_target := target }, status)

/-- The body of the `for` loop of `netplay_read_registration` for slot `i`, with the read offset
`curr`; the result is the state and the read offset after the iteration.  The id is read
through a `uint8_t` pointer, the two bytes after it as elements of the `char` array. -/
def read_registration_entry (char_signed : Bool) (input_data : List Nat) (i : Fin 4)
    (curr : Nat) (s : Netplay) : Option (Netplay × Nat) := do
  let reg_id ← net_read32 input_data curr
  if reg_id = 0 then
    let control : CONTROL :=
      { s.Controls i with Present := 0, Plugin := (PLUGIN_NONE : Int), RawData := 0 }
    some ({ s with Controls := Function.update s.Controls i control }, curr + 4 + 2)
  else do
    let b ← input_data[curr + 4]?
    let plugin : Int :=
      if i.val > 0 ∧ to_char char_signed b = (PLUGIN_MEMPAK : Int) then (PLUGIN_NONE : Int)
      else if to_char char_signed b = (PLUGIN_TRANSFER_PAK : Int) then (PLUGIN_NONE : Int)
      else to_char char_signed b
    let raw ← input_data[curr + 4 + 1]?
    let control : CONTROL :=
      { s.Controls i with Present := 1, Plugin := plugin, RawData := to_char char_signed raw }
    some ({ s with Controls := Function.update s.Controls i control,
                   l_plugin := Function.update s.l_plugin i (to_u8 plugin) },
          curr + 4 + 1 + 1)

/-- The `for` loop of `netplay_read_registration` over the slots still to do. -/
def read_registration_loop (char_signed : Bool) (input_data : List Nat) :
    List (Fin 4) → Nat → Netplay → Option Netplay
  | [], _, s => some s
  | i :: rest, curr, s =>
    match read_registration_entry char_signed input_data i curr s with
    | none => none
    | some r => read_registration_loop char_signed input_data rest r.2 r.1

/-- The function `netplay_read_registration(cin_compats)`, on a build whose plain `char` is
signed or not (`char_signed`).  The table `cin_compats` of the caller is installed: the pointer
is no longer `NULL` and the event lists are those of the caller, whose nodes are allocated.
`mem` gives the indeterminate content of the local array `input_data` before the receive
loop, which counts in a `size_t` and does not look at what `TCP_Recv` returns. -/
def netplay_read_registration (char_signed : Bool) (s : Netplay)
    (cin_compats : Fin 4 → controller_input_compat) (mem : List Nat) : Option Netplay :=
  if s.l_netplay_is_init = 0 then some s
  else do
    let s1 : Netplay := { s with l_cin_compats := cin_compats, cin_compats_null := false,
                                 events_freed := fun _ => false }
    let s2 := (TCP_Send s1 [TCP_GET_REGISTRATION]).1
    let r ← tcp_recv_while true 24 s2.tcp_recv_ret s2.tcp_in (local_array 24 mem) 0
    read_registration_loop char_signed r.1 [0, 1, 2, 3] 0
      { s2 with tcp_in := r.2.1, tcp_recv_ret := r.2.2 }

/-! ## Synchronisation check -/

/-- Modelled from the spec: the number `N` of checksum registers, `CP0_REGS_COUNT` of the CP0
header, which is not part of the sources at hand. -/
def CP0_REGS_COUNT : Nat := 32

/-- The function `netplay_check_sync(cp0)`; `cp0_regs i` is the register `cp0_regs[i]` of the
register file `r4300_cp0_regs(cp0)`. -/
def netplay_check_sync (s : Netplay) (cp0_regs : Nat → Nat) : Netplay :=
  if s.l_netplay_is_init = 0 then s
  else
    let s1 : Netplay :=
      if s.l_vi_counter % 600 = 0 then
        UDP_Send s ([UDP_SYNC_DATA] ++ net_write32 s.l_vi_counter
          ++ ((List.range CP0_REGS_COUNT).map (fun i => net_write32 (cp0_regs i))).flatten)
      else s
    { s1 with l_vi_counter := (s1.l_vi_counter + 1) % 4294967296 }

/-! ## Configuration data -/

/-- The function `netplay_send_config(data, size)`; `data` is the content of the caller's
buffer.  The result is `none` when `size` is negative or exceeds the buffer. -/
def netplay_send_config (s : Netplay) (data : List Nat) (size : Int) :
    Option (Netplay × m64p_error) :=
  if s.l_netplay_is_init = 0 then some (s, m64p_error.M64ERR_NOT_INIT)
  else if s.l_netplay_control 0 ≠ -1 ∨ size = 1 then
    if size < 0 ∨ (data.length : Int) < size then none
    else
      let r := TCP_Send s (data.take size.toNat)
      if r.2 < size then some (r.1, m64p_error.M64ERR_SYSTEM_FAIL)
      else some (r.1, m64p_error.M64ERR_SUCCESS)
  else some (s, m64p_error.M64ERR_INVALID_STATE)

/-- The function `netplay_receive_config(data, size)`; `data` is the content of the caller's
buffer.  The result is the state, the error code and the content of the buffer afterwards;
`none` when `size` exceeds the buffer.  The receive loop counts in an `int` and does not look
at what `TCP_Recv` returns. -/
def netplay_receive_config (s : Netplay) (data : List Nat) (size : Int) :
    Option (Netplay × m64p_error × List Nat) :=
  if s.l_netplay_is_init = 0 then some (s, m64p_error.M64ERR_NOT_INIT, data)
  else if s.l_netplay_control 0 = -1 then
    if (data.length : Int) < size then none
    else do
      let r ← tcp_recv_while false size.toNat s.tcp_recv_ret s.tcp_in data 0
      some ({ s with tcp_in := r.2.1, tcp_recv_ret := r.2.2 }, m64p_error.M64ERR_SUCCESS, r.1)
  else some (s, m64p_error.M64ERR_INVALID_STATE, data)

/-! ## Controller assignment -/

/-- The function `netplay_next_controller()`. -/
def netplay_next_controller (s : Netplay) : Int := s.l_netplay_controller

/-- The function `netplay_set_controller(player)`.  The increment of the `int`
`l_netplay_controller` is undefined at `INT_MAX`. -/
def netplay_set_controller (s : Netplay) (player : Nat) : Option Netplay := do
  let p ← idx4 player
  if s.l_netplay_controller = 2147483647 then none
  else
    some { s with l_netplay_control :=
                    Function.update s.l_netplay_control p s.l_netplay_controller,
                  l_netplay_controller := s.l_netplay_controller + 1,
                  l_spectator := 0 }

/-- The function `netplay_get_controller(player)`. -/
def netplay_get_controller (s : Netplay) (player : Nat) : Option Int :=
  (idx4 player).map s.l_netplay_control

/-! ## The native stream transport (`net_compat.c`, built without `__EMSCRIPTEN__`) -/

/-- The status codes `net_status_t` of `net_compat.h`. -/
inductive net_status_t where
  | NET_OK
  | NET_ERR
  | NET_NOT_CONNECTED
deriving DecidableEq, Repr

/-- The size of the array `rd_buf` of a handle, `sizeof(h->rd_buf)`. -/
def RD_BUF_SIZE : Nat := 65536

/-- The native `struct net_handle_t`; `rd_buf` holds the bytes of the array. -/
structure net_handle_t where
  sockfd : Int
  connected : Int
  rd_buf : List Nat
  rd_buf_len : Nat
deriving DecidableEq, Repr

/-- What one call of `recv` on the socket of a handle does:
* `received d`: it stores the bytes `d` and returns their number, which is positive and at most
  the size asked for;
* `closed`: it returns 0;
* `would_block`: it returns -1 with `errno` `EWOULDBLOCK` or `EAGAIN`;
* `failed`: it returns -1 with another `errno`. -/
inductive recv_result where
  | received (d : List Nat)
  | closed
  | would_block
  | failed
deriving DecidableEq, Repr

/-- One iteration of a read loop of `net_recv` up to the update of `rd_buf_len`: the call
`recv(h->sockfd, h->rd_buf + h->rd_buf_len, sizeof(h->rd_buf) - h->rd_buf_len, 0)` and the
tests of its result.  The result is the handle and the status returned, if the function
returns here; `none` when `recv` cannot have answered as `r` says. -/
def net_recv_read (h : net_handle_t) : recv_result → Option (net_handle_t × Option net_status_t)
  | recv_result.closed => some ({ h with connected := 0 }, some net_status_t.NET_NOT_CONNECTED)
  | recv_result.would_block => some (h, some net_status_t.NET_OK)
  | recv_result.failed => some (h, some net_status_t.NET_ERR)
  | recv_result.received d =>
    if d.length = 0 ∨ d.length > RD_BUF_SIZE - h.rd_buf_len
        ∨ h.rd_buf_len + d.length > h.rd_buf.length then none
    else
      some ({ h with rd_buf := h.rd_buf.take h.rd_buf_len ++ d
                        ++ h.rd_buf.drop (h.rd_buf_len + d.length),
                     rd_buf_len := h.rd_buf_len + d.length }, none)

/-- The loop `while (h->rd_buf_len < 4) { ... }` of `net_recv`, along the answers of `recv`.  The
result is the handle, the answers not used and the status returned, if the function returns
from inside the loop; `none` when the loop waits for an answer that never comes. -/
def net_recv_header_loop : List recv_result → net_handle_t →
    Option (net_handle_t × List recv_result × Option net_status_t)
  | [], h => if h.rd_buf_len < 4 then none else some (h, [], none)
  | r :: sock, h =>
    if h.rd_buf_len < 4 then
      match net_recv_read h r with
      | none => none
      | some (h1, some status) => some (h1, sock, some status)
      | some (h1, none) => net_recv_header_loop sock h1
    else some (h, r :: sock, none)

/-- The loop `while (h->rd_buf_len < (size_t)(4 + len)) { ... }` of `net_recv`; `need` is the
value of `(size_t)(4 + len)`. -/
def net_recv_payload_loop (need : Nat) : List recv_result → net_handle_t →
    Option (net_handle_t × List recv_result × Option net_status_t)
  | [], h => if h.rd_buf_len < need then none else some (h, [], none)
  | r :: sock, h =>
    if h.rd_buf_len < need then
      match net_recv_read h r with
      | none => none
      | some (h1, some status) => some (h1, sock, some status)
      | some (h1, none) =>
        if h1.rd_buf_len > RD_BUF_SIZE then some (h1, sock, some net_status_t.NET_ERR)
        else net_recv_payload_loop need sock h1
    else some (h, r :: sock, none)

/-- What a call of `net_recv` leaves: the status returned, the handle, the caller's buffer,
the value of `*out_len` and the answers of `recv` not used. -/
structure net_recv_outcome where
  status : net_status_t
  h : Option net_handle_t
  buf : List Nat
  out_len : Option Nat
  sock : List recv_result
deriving DecidableEq, Repr

/-- The removal of the first `total` bytes of `rd_buf`:
`memmove(h->rd_buf, h->rd_buf + total, h->rd_buf_len - total); h->rd_buf_len -= total;`.
The result is `none` when `total` exceeds `rd_buf_len` (the `size_t` difference wraps) or the
bytes moved do not lie in the array. -/
def net_recv_shift (h : net_handle_t) (total : Nat) : Option net_handle_t :=
  if total > h.rd_buf_len ∨ h.rd_buf_len > h.rd_buf.length then none
  else
    some { h with rd_buf := (h.rd_buf.drop total).take (h.rd_buf_len - total)
                      ++ h.rd_buf.drop (h.rd_buf_len - total),
                  rd_buf_len := h.rd_buf_len - total }

/-- The native function `net_recv(h, buf, bufsize, out_len)`.  A null `h` or `out_len` is
`none`; `buf` is the content of the caller's buffer, `sock` the answers `recv` will give.
The result is `none` when a copy leaves the caller's buffer or the array `rd_buf`, or a loop
waits for ever. -/
def net_recv (h : Option net_handle_t) (buf : List Nat) (bufsize : Nat) (out_len : Option Nat)
    (sock : List recv_result) : Option net_recv_outcome :=
  match h, out_len with
  | none, _ => some ⟨net_status_t.NET_ERR, h, buf, out_len, sock⟩
  | some _, none => some ⟨net_status_t.NET_ERR, h, buf, out_len, sock⟩
  | some h0, some _ =>
    if h0.connected = 0 then some ⟨net_status_t.NET_NOT_CONNECTED, h, buf, out_len, sock⟩
    else
      match net_recv_header_loop sock h0 with
      | none => none
      | some (h1, sock1, some status) => some ⟨status, some h1, buf, some 0, sock1⟩
      | some (h1, sock1, none) =>
        match h1.rd_buf[0]?, h1.rd_buf[1]?, h1.rd_buf[2]?, h1.rd_buf[3]? with
        | some b0, some b1, some b2, some b3 =>
          let len := ((b0 <<< 24) ||| (b1 <<< 16) ||| (b2 <<< 8) ||| b3) % 4294967296
          match net_recv_payload_loop ((4 + len) % 4294967296) sock1 h1 with
          | none => none
          | some (h2, sock2, some status) => some ⟨status, some h2, buf, some 0, sock2⟩
          | some (h2, sock2, none) =>
            if len > bufsize then
              (net_recv_shift h2 ((4 + len) % 4294967296)).map
                (fun h3 => ⟨net_status_t.NET_ERR, some h3, buf, some 0, sock2⟩)
            else if 4 + len > h2.rd_buf.length ∨ len > buf.length then none
            else
              (net_recv_shift h2 ((4 + len) % 4294967296)).map
                (fun h3 => ⟨net_status_t.NET_OK, some h3,
                            (h2.rd_buf.drop 4).take len ++ buf.drop len, some len, sock2⟩)
        | _, _, _, _ => none

/-! ## Reference definitions for the ledger and the update datagrams -/

/-- The staleness test of `netplay_process`: `(count - netplay_count) > UINT32_MAX / 2`. -/
def is_stale (count counter : Nat) : Prop := u32_sub count counter > UINT32_MAX / 2

instance (count counter : Nat) : Decidable (is_stale count counter) := by
  unfold is_stale; infer_instance

/-- The ledger operation `insert` of the specification: nothing happens when the sequence number is
stale or already present, otherwise the event is stored (at the head of the list). -/
def ledger_insert (counter : Nat) (l : List netplay_event) (e : netplay_event) :
    List netplay_event :=
  if is_stale e.count counter ∨ e.count ∈ l.map netplay_event.count then l else e :: l

/-- The nine bytes of one event on the wire. -/
def encode_event (e : netplay_event) : List Nat :=
  net_write32 e.count ++ net_write32 e.buttons ++ [e.plugin]

/-- An input-update (tag 1) or gratuitous-update (tag 3) datagram, by its fields. -/
structure update_datagram where
  tag : Nat
  player : Fin 4
  status : Nat
  lag : Nat
  events : List netplay_event
deriving DecidableEq, Repr

/-- The bytes of an update datagram. -/
def update_datagram.bytes (u : update_datagram) : List Nat :=
  [u.tag, u.player.val, u.status, u.lag, u.events.length] ++ (u.events.map encode_event).flatten

/-- The fields of an update datagram fit the wire format, and the datagram fits the 512-byte
receive packet. -/
def update_datagram.well_formed (u : update_datagram) : Prop :=
  (u.tag = 1 ∨ u.tag = 3) ∧ u.events.length ≤ 56 ∧
  ∀ e ∈ u.events, e.count < 4294967296 ∧ e.buttons < 4294967296

/-- The events a list of update datagrams delivers to slot `p`, in order of arrival. -/
def delivered (p : Fin 4) (us : List update_datagram) : List netplay_event :=
  (us.map (fun u => if u.player = p then u.events else [])).flatten

/-- The effect of one well-formed update datagram on the session, field by field: the lag
indicator (tag 1 only), the status mask with its log lines, and the ledger of the slot. -/
def apply_update (s : Netplay) (u : update_datagram) : Netplay :=
  let s1 : Netplay := if u.tag = UDP_RECEIVE_KEY_INFO then
      { s with l_player_lag := Function.update s.l_player_lag u.player u.lag } else s
  let s2 : Netplay := if u.status ≠ s1.l_status then
      { s1 with log := s1.log ++ status_logs u.status s1.l_status s1.l_vi_counter,
                l_status := u.status } else s1
  s2.set_event_first u.player
    (u.events.foldl (ledger_insert (s2.l_cin_compats u.player).netplay_count)
      (s2.l_cin_compats u.player).event_first)

/-- The 25 bytes the owner of slot 0 sends. -/
def settings_message (v : settings) : List Nat :=
  [3] ++ net_write32 v.count_per_op ++ net_write32 v.count_per_op_denom_pot
    ++ net_write32 v.disable_extra_mem ++ net_write32 (to_u32 v.si_dma_duration)
    ++ net_write32 v.emumode ++ net_write32 (to_u32 v.no_compiled_jump)

/-- The six values are 32-bit values. -/
def settings.in_range (v : settings) : Prop :=
  v.count_per_op < 4294967296 ∧ v.count_per_op_denom_pot < 4294967296 ∧
  v.disable_extra_mem < 4294967296 ∧
  (-2147483648 ≤ v.si_dma_duration ∧ v.si_dma_duration < 2147483648) ∧
  v.emumode < 4294967296 ∧
  (-2147483648 ≤ v.no_compiled_jump ∧ v.no_compiled_jump < 2147483648)

/-- Between two states the counters are kept and every ledger has only changed by a run of
`ledger_insert`. -/
def ledgers_grow (s s1 : Netplay) : Prop :=
  ∀ q : Fin 4, (s1.l_cin_compats q).netplay_count = (s.l_cin_compats q).netplay_count ∧
    ∃ evs : List netplay_event, (s1.l_cin_compats q).event_first
      = evs.foldl (ledger_insert (s.l_cin_compats q).netplay_count)
          (s.l_cin_compats q).event_first

/-- The value `netplay_ensure_valid` returns inside a call of `netplay_get_input`: nonzero when the
call consumes an event, zero when it gives up. -/
def netplay_get_input_success (s : Netplay) (control_id : Nat) (env : poll_env) : Option Int := do
  let s1 ← netplay_process s env.mem
  let s2 ← netplay_request_input s1 control_id
  let s3 ← netplay_lag_policy s2 control_id
  let r ← netplay_ensure_valid s3 control_id env.ticks0 env.trace
  some r.2

/-- An event of the wait in which the datagram that arrives is an update datagram given by its
fields. -/
inductive update_event where
  | arrive (u : update_datagram)
  | main (mem : List Nat)
  | helper (now : Nat)
deriving DecidableEq, Repr

/-- The event of the wait an `update_event` stands for. -/
def update_event.raw : update_event → wait_event
  | update_event.arrive u => wait_event.arrive u.bytes
  | update_event.main mem => wait_event.main mem
  | update_event.helper now => wait_event.helper now

/-- The update datagrams that arrive along a trace, in order. -/
def arrivals : List update_event → List update_datagram
  | [] => []
  | update_event.arrive u :: rest => u :: arrivals rest
  | _ :: rest => arrivals rest

/-- The datagram `u` does not carry the event with sequence number `c` for slot `i`. -/
def misses (i : Fin 4) (c : Nat) (u : update_datagram) : Prop :=
  u.player = i → ∀ e ∈ u.events, e.count ≠ c

/-- The state of slot `i` while it waits in vain for sequence number `c`: the counter is `c`, the
ledger is the ledger `l0` of the start with events on top, each delivered by one of the datagrams
`all` and none with sequence number `c`, and the receive queue holds datagrams of `all`. -/
def waiting (i : Fin 4) (c : Nat) (all : List update_datagram) (l0 : List netplay_event)
    (s : Netplay) : Prop :=
  (s.l_cin_compats i).netplay_count = c ∧
  (∃ added : List netplay_event, (s.l_cin_compats i).event_first = added ++ l0 ∧
    ∀ e ∈ added, e ∈ delivered i all ∧ e.count ≠ c) ∧
  (∃ us : List update_datagram, s.udp_in = us.map update_datagram.bytes ∧ ∀ u ∈ us, u ∈ all)

instance (u : update_datagram) : Decidable u.well_formed := by
  unfold update_datagram.well_formed; infer_instance

instance (i : Fin 4) (c : Nat) (u : update_datagram) : Decidable (misses i c u) := by
  unfold misses; infer_instance

instance (v : settings) : Decidable v.in_range := by
  unfold settings.in_range; infer_instance

/-! ## Concrete sessions -/

/-- The session of the example scenario: four present slots with empty ledgers and counter 5, the
route intact, no slot owned locally, and one input-update datagram for slot 0 in the receive
queue: `{tag 1, slot 0, status 0, lag 0, event_count 1, (sequence 5, buttons 0x0080,
peripheral 1)}`. -/
def scenario_state : Netplay where
  l_canFF := 0
  l_netplay_controller := 0
  l_netplay_control := fun _ => -1
  l_udpSocket := true
  l_tcpSocket := true
  l_udpChannel := 0
  l_spectator := 1
  l_netplay_is_init := 1
  l_vi_counter := 0
  l_status := 0
  l_reg_id := 77
  l_cin_compats := fun _ => { event_first := [], netplay_count := 5 }
  l_plugin := fun _ => 0
  l_buffer_target := 2
  l_player_lag := fun _ => 0
  Controls := fun _ => { Present := 1, RawData := 0, Plugin := 0 }
  speed_limiter := 1
  emu_state := 2
  ff_override := none
  log := []
  udp_in := [[1, 0, 0, 0, 1, 0, 0, 0, 5, 0, 0, 0, 128, 1]]
  udp_out := []
  tcp_in := []
  tcp_out := []
  tcp_send_ret := []
  tcp_recv_ret := []
  cin_compats_null := false
  events_freed := fun _ => false

/-- A call in which nothing happens while waiting: zeroed packet memory, clock at 0. -/
def scenario_env : poll_env := { mem := [], ticks0 := 0, trace := [] }

/-- The scenario session with an empty receive queue. -/
def idle_state : Netplay := { scenario_state with udp_in := [] }

/-- A session whose slot 0 holds three events, the wanted one (sequence 5) in the middle. -/
def buffered_state : Netplay :=
  { scenario_state with
      udp_in := [],
      l_cin_compats := fun _ =>
        { event_first := [⟨7, 1, 0⟩, ⟨5, 128, 1⟩, ⟨6, 2, 0⟩], netplay_count := 5 } }

/-- Two update datagrams for slot 0: sequence 5 twice (buttons 1, then 2), the stale sequence 4
and sequence 6; then sequence 6 again with other buttons. -/
def duplicate_updates : List update_datagram :=
  [{ tag := 1, player := 0, status := 0, lag := 0,
     events := [⟨5, 1, 0⟩, ⟨5, 2, 0⟩, ⟨4, 3, 0⟩, ⟨6, 4, 0⟩] },
   { tag := 3, player := 0, status := 0, lag := 0, events := [⟨6, 9, 0⟩] }]

/-- The idle session with `duplicate_updates` in the receive queue. -/
def duplicate_state : Netplay :=
  { scenario_state with udp_in := duplicate_updates.map update_datagram.bytes }

/-- An update datagram for slot 0 that carries sequence 6, not the wanted sequence 5. -/
def later_update : update_datagram :=
  { tag := 1, player := 0, status := 0, lag := 0, events := [⟨6, 9, 2⟩] }

/-- A wait during which `later_update` arrives and is drained, the helper thread then finds the
clock at 10001, past its deadline 10000, and the calling thread runs once more. -/
def timeout_env : poll_env :=
  { mem := [], ticks0 := 0,
    trace := [wait_event.arrive [1, 0, 0, 0, 1, 0, 0, 0, 6, 0, 0, 0, 9, 2], wait_event.main [],
              wait_event.helper 10001, wait_event.main []] }

/-- The six settings of the round-trip example, the two signed ones negative. -/
def example_settings : settings :=
  { count_per_op := 1, count_per_op_denom_pot := 2, disable_extra_mem := 3,
    si_dma_duration := -1, emumode := 5, no_compiled_jump := -2147483648 }

/-- The session that owns slot 0. -/
def owner_state : Netplay := { idle_state with l_netplay_control := fun _ => 0 }

/-- A session that does not own slot 0 and receives the 24 settings bytes in four reads of 6, 9, 5
and 4 bytes. -/
def peer_state : Netplay :=
  { idle_state with
      tcp_in := [[0, 0, 0, 1, 0, 0], [0, 2, 0, 0, 0, 3, 255, 255, 255], [255, 0, 0, 0, 5],
                 [128, 0, 0, 0]] }

/-- A session that does not own slot 0 and receives 64 zero bytes. -/
def zero_save_state : Netplay := { idle_state with tcp_in := [List.replicate 64 0] }

/-- The deadline of the helper thread of a call: `SDL_GetTicks() + 10000` as a `uint32_t`. -/
def poll_env.deadline (env : poll_env) : Nat := (env.ticks0 + 10000) % 4294967296

/-- An iteration of the helper thread that finds the clock not past the deadline. -/
def retry_only (timeout : Nat) : wait_event → Prop
  | wait_event.helper now => now ≤ timeout
  | _ => False

/-- An event of the wait other than an arrival and other than the helper thread finding the
clock past the deadline. -/
def quiet (timeout : Nat) : wait_event → Prop
  | wait_event.arrive _ => False
  | wait_event.main _ => True
  | wait_event.helper now => now ≤ timeout

instance (timeout : Nat) (ev : wait_event) : Decidable (retry_only timeout ev) := by
  cases ev <;> unfold retry_only <;> infer_instance

instance (timeout : Nat) (ev : wait_event) : Decidable (quiet timeout ev) := by
  cases ev <;> unfold quiet <;> infer_instance

/-- The transport delivers the one datagram `d` to a call of `netplay_get_input`: either `d` is in
the receive queue when the call starts, or the queue is empty, the route is intact and `d`
arrives while the call waits - before the helper thread finds the clock past its deadline -
is drained by the next iteration of the calling thread, and both threads run once more. -/
def delivers_once (s : Netplay) (env : poll_env) (d : List Nat) : Prop :=
  s.udp_in = [d] ∨
  (s.udp_in = [] ∧ s.l_udpChannel ≠ -1 ∧
    ∃ (t1 t2 : List wait_event) (mem : List Nat) (t3 : List wait_event),
      env.trace = t1 ++ wait_event.arrive d :: (t2 ++ wait_event.main mem :: t3) ∧
      (∀ ev ∈ t1, quiet env.deadline ev) ∧ (∀ ev ∈ t2, retry_only env.deadline ev) ∧
      (∃ m, wait_event.main m ∈ t3) ∧ (∃ now, wait_event.helper now ∈ t3))

/-- A wait in which the datagram of the example scenario arrives after the first retry of the helper
thread (clock at 5), is drained after a second retry (clock at 12), and both threads then run
once more. -/
def answered_env : poll_env :=
  { mem := [], ticks0 := 0,
    trace := [wait_event.helper 5,
              wait_event.arrive [1, 0, 0, 0, 1, 0, 0, 0, 5, 0, 0, 0, 128, 1],
              wait_event.helper 12, wait_event.main [], wait_event.main [],
              wait_event.helper 17] }

/-! ## Reference definitions and concrete sessions for the session calls -/

/-- The speed settings the fast-forward decision writes: the value of `netplay_lag()`, the speed
limiter and the fast-forward override. -/
def speed_state (s : Netplay) : Int × Int × Option retro_fastforwarding_override :=
  (s.l_canFF, s.speed_limiter, s.ff_override)

/-- Bit `k` of the status byte differs from bit `k` of the last observed mask. -/
def bit_flipped (status mask k : Nat) : Bool := status.testBit k != mask.testBit k

/-- A ledger of 256 events for slot 0: sequence numbers 5 to 260, sent in five gratuitous-update
datagrams of 56, 56, 56, 56 and 32 events. -/
def full_updates : List update_datagram :=
  (List.range 5).map (fun j =>
    { tag := 3, player := 0, status := 0, lag := 0,
      events := (List.range (if j < 4 then 56 else 32)).map
        (fun k => { count := 5 + 56 * j + k, buttons := 0, plugin := 0 }) })

/-- The idle session with `full_updates` in the receive queue. -/
def full_state : Netplay :=
  { idle_state with udp_in := full_updates.map update_datagram.bytes }

/-- A session that lags: slot 0 holds three events, its lag indicator is 1 and the lag-buffer
target is 2. -/
def lagging_state : Netplay := { buffered_state with l_player_lag := fun _ => 1 }

/-- A well-formed input update for slot 2 whose status byte `0x25` differs from an all-zero mask
in bits 0, 2 and 5. -/
def status_update : update_datagram :=
  { tag := 1, player := 2, status := 37, lag := 0, events := [⟨5, 1, 0⟩] }

/-- The peripheral kind stored for slot `i` when the table holds the peripheral byte `p`:
transfer pak becomes none in every slot, memory pak becomes none in slots 1 to 3, any other
kind is kept as the `char` received. -/
def registered_peripheral (char_signed : Bool) (i : Fin 4) (p : Nat) : Int :=
  if to_char char_signed p = (PLUGIN_TRANSFER_PAK : Int) ∨
      (i ≠ 0 ∧ to_char char_signed p = (PLUGIN_MEMPAK : Int))
  then (PLUGIN_NONE : Int) else to_char char_signed p

/-- The `Controls` entry of slot `i` for a table entry with registration id `id`, peripheral byte
`p` and raw-flag byte `r`. -/
def registered_control (char_signed : Bool) (i : Fin 4) (id p r : Nat) : CONTROL :=
  if id = 0 then { Present := 0, RawData := 0, Plugin := (PLUGIN_NONE : Int) }
  else { Present := 1, RawData := to_char char_signed r,
         Plugin := registered_peripheral char_signed i p }

/-- A live session that receives the registration table in reads of 10, 1 and 13 bytes: slot 0
registered with memory pak and raw flag 1, slot 1 unassigned (with nonzero bytes after the
id), slot 2 registered with memory pak, slot 3 registered with transfer pak. -/
def table_state : Netplay :=
  { idle_state with
      tcp_in := [[0, 0, 0, 9, 2, 1, 0, 0, 0, 0], [7], [7, 0, 0, 0, 1, 2, 0, 0, 0, 0, 1, 4, 0]] }

/-- A live session that receives a table whose slot 0 entry has the peripheral byte 200 and the
raw-flag byte 200. -/
def high_byte_state : Netplay :=
  { idle_state with
      tcp_in := [[0, 0, 0, 9, 200, 200] ++ List.replicate 18 0] }

/-- A live session that receives the response `{0, 3}` to its registration in two reads of one
byte each. -/
def register_state : Netplay := { idle_state with tcp_in := [[0], [3]] }

/-- The statics of `netplay_ws.c` at program start: all zero (static storage), no socket held.
The host globals and the transport are those of `host`; the pointer `l_cin_compats` is `NULL`
(`cin_compats_null`), for which the ledger table of `host` stands in (nothing looks at it
before `netplay_read_registration` installs a table), and no node has been freed. -/
def netplay_initial (host : Netplay) : Netplay :=
  { host with l_canFF := 0, l_netplay_controller := 0, l_netplay_control := fun _ => 0,
              l_udpSocket := false, l_tcpSocket := false, l_udpChannel := 0, l_spectator := 0,
              l_netplay_is_init := 0, l_vi_counter := 0, l_status := 0, l_reg_id := 0,
              l_plugin := fun _ => 0, l_buffer_target := 0, l_player_lag := fun _ => 0,
              cin_compats_null := true, events_freed := fun _ => false }

/-- No session is live: `netplay_is_init()` is 0 and no datagram socket is held. -/
def no_session (s : Netplay) : Prop := s.l_netplay_is_init = 0 ∧ s.l_udpSocket = false

/-- A session is live: `netplay_is_init()` is nonzero and both channel handles are held. -/
def live_session (s : Netplay) : Prop :=
  s.l_netplay_is_init ≠ 0 ∧ s.l_udpSocket = true ∧ s.l_tcpSocket = true

/-- No event list of the session points at freed nodes: no table is installed, or every slot
whose nodes have been freed has an empty list since. -/
def events_allocated (s : Netplay) : Prop :=
  s.cin_compats_null = true ∨
    ∀ i : Fin 4, s.events_freed i = true → (s.l_cin_compats i).event_first = []

/-- The heap status of the event lists after the loop of `netplay_stop`: with a table
installed, the nodes of every non-empty list are freed. -/
def freed_after_stop (s : Netplay) : Fin 4 → Bool :=
  fun i => s.events_freed i ||
    (!s.cin_compats_null && decide ((s.l_cin_compats i).event_first ≠ []))

instance (s : Netplay) : Decidable (events_allocated s) := by
  unfold events_allocated; infer_instance

instance (s : Netplay) : Decidable (no_session s) := by
  unfold no_session; infer_instance

instance (s : Netplay) : Decidable (live_session s) := by
  unfold live_session; infer_instance

/-- A `netplay_start` in which every step of the network library succeeds; the datagram route
is 0. -/
def start_ok : start_env :=
  { net_init := 0, udp_open := true, resolve_failed := false, bind := 0, tcp_open := true }

/-- A `netplay_start` of the native build that fails at host resolution. -/
def start_unresolved : start_env :=
  { net_init := 0, udp_open := true, resolve_failed := true, bind := 0, tcp_open := true }

/-- The session started from the initial statics, whose transport reports 0 bytes sent for
the next message. -/
def started_state : Netplay :=
  (netplay_start (netplay_initial { idle_state with tcp_send_ret := [0] }) start_ok).1

/-- The checksum registers of the examples: register `i` holds `i + 1`. -/
def example_regs : Nat → Nat := fun i => i + 1

/-! ## MD5 (`md5.c`)

The type `md5_word_t` is a 32-bit unsigned integer and `md5_byte_t` a byte.  The width of
`size_t` depends on the target (32 bits on the Emscripten build, 64 bits on a 64-bit native
build); it is the parameter `size_bits` of the operations that compute with a `size_t`. -/

/-- The state `md5_state_t`: `count[0]`, `count[1]`, `abcd[0]` to `abcd[3]` and `buf`. -/
structure md5_state_t where
  count0 : Nat
  count1 : Nat
  abcd0 : Nat
  abcd1 : Nat
  abcd2 : Nat
  abcd3 : Nat
  buf : List Nat
deriving DecidableEq, Repr

/-- The entry `pms->count[i]`. -/
def md5_state_t.count (pms : md5_state_t) (i : Nat) : Nat :=
  if i = 0 then pms.count0 else pms.count1

/-- The entry `pms->abcd[i]`. -/
def md5_state_t.abcd (pms : md5_state_t) (i : Nat) : Nat :=
  if i = 0 then pms.abcd0 else if i = 1 then pms.abcd1 else if i = 2 then pms.abcd2
  else pms.abcd3

def T1 : Nat := 0xd76aa478

def T2 : Nat := 0xe8c7b756

def T3 : Nat := 0x242070db

def T4 : Nat := 0xc1bdceee

def T5 : Nat := 0xf57c0faf

def T6 : Nat := 0x4787c62a

def T7 : Nat := 0xa8304613

def T8 : Nat := 0xfd469501

def T9 : Nat := 0x698098d8

def T10 : Nat := 0x8b44f7af

def T11 : Nat := 0xffff5bb1

def T12 : Nat := 0x895cd7be

def T13 : Nat := 0x6b901122

def T14 : Nat := 0xfd987193

def T15 : Nat := 0xa679438e

def T16 : Nat := 0x49b40821

def T17 : Nat := 0xf61e2562

def T18 : Nat := 0xc040b340

def T19 : Nat := 0x265e5a51

def T20 : Nat := 0xe9b6c7aa

def T21 : Nat := 0xd62f105d

def T22 : Nat := 0x02441453

def T23 : Nat := 0xd8a1e681

def T24 : Nat := 0xe7d3fbc8

def T25 : Nat := 0x21e1cde6

def T26 : Nat := 0xc33707d6

def T27 : Nat := 0xf4d50d87

def T28 : Nat := 0x455a14ed

def T29 : Nat := 0xa9e3e905

def T30 : Nat := 0xfcefa3f8

def T31 : Nat := 0x676f02d9

def T32 : Nat := 0x8d2a4c8a

def T33 : Nat := 0xfffa3942

def T34 : Nat := 0x8771f681

def T35 : Nat := 0x6d9d6122

def T36 : Nat := 0xfde5380c

def T37 : Nat := 0xa4beea44

def T38 : Nat := 0x4bdecfa9

def T39 : Nat := 0xf6bb4b60

def T40 : Nat := 0xbebfbc70

def T41 : Nat := 0x289b7ec6

def T42 : Nat := 0xeaa127fa

def T43 : Nat := 0xd4ef3085

def T44 : Nat := 0x04881d05

def T45 : Nat := 0xd9d4d039

def T46 : Nat := 0xe6db99e5

def T47 : Nat := 0x1fa27cf8

def T48 : Nat := 0xc4ac5665

def T49 : Nat := 0xf4292244

def T50 : Nat := 0x432aff97

def T51 : Nat := 0xab9423a7

def T52 : Nat := 0xfc93a039

def T53 : Nat := 0x655b59c3

def T54 : Nat := 0x8f0ccc92

def T55 : Nat := 0xffeff47d

def T56 : Nat := 0x85845dd1

def T57 : Nat := 0x6fa87e4f

def T58 : Nat := 0xfe2ce6e0

def T59 : Nat := 0xa3014314

def T60 : Nat := 0x4e0811a1

def T61 : Nat := 0xf7537e82

def T62 : Nat := 0xbd3af235

def T63 : Nat := 0x2ad7d2bb

def T64 : Nat := 0xeb86d391

/-- The macro `F(x, y, z)`, on 32-bit words (`~x` is `x ^ 0xffffffff`). -/
def F (x y z : Nat) : Nat := (x &&& y) ||| ((x ^^^ 4294967295) &&& z)

/-- The macro `G(x, y, z)`. -/
def G (x y z : Nat) : Nat := (x &&& z) ||| (y &&& (z ^^^ 4294967295))

/-- The macro `H(x, y, z)`. -/
def H (x y z : Nat) : Nat := x ^^^ y ^^^ z

/-- The macro `I(x, y, z)`. -/
def I (x y z : Nat) : Nat := y ^^^ (x ||| (z ^^^ 4294967295))

/-- The macro `ROTATE_LEFT(x, n)` on a 32-bit word. -/
def ROTATE_LEFT (x n : Nat) : Nat := ((x <<< n) % 4294967296) ||| (x >>> (32 - n))

/-- The macro `STEP(f, a, b, c, d, x, t, s)`: the new value of `a`. -/
def STEP (f : Nat → Nat → Nat → Nat) (a b c d x t s : Nat) : Nat :=
  (ROTATE_LEFT ((a + (f b c d + x + t)) % 4294967296) s + b) % 4294967296

/-- The four rounds of `md5_process`: the 64 `STEP` lines on the locals `a`, `b`, `c`, `d`,
with the decoded words `x`; the result is the final value of `(a, b, c, d)`. -/
def md5_process_rounds (x : Nat → Nat) (a b c d : Nat) : Nat × Nat × Nat × Nat :=
  -- Round 1
  let a := STEP F a b c d (x 0) T1 7
  let d := STEP F d a b c (x 1) T2 12
  let c := STEP F c d a b (x 2) T3 17
  let b := STEP F b c d a (x 3) T4 22
  let a := STEP F a b c d (x 4) T5 7
  let d := STEP F d a b c (x 5) T6 12
  let c := STEP F c d a b (x 6) T7 17
  let b := STEP F b c d a (x 7) T8 22
  let a := STEP F a b c d (x 8) T9 7
  let d := STEP F d a b c (x 9) T10 12
  let c := STEP F c d a b (x 10) T11 17
  let b := STEP F b c d a (x 11) T12 22
  let a := STEP F a b c d (x 12) T13 7
  let d := STEP F d a b c (x 13) T14 12
  let c := STEP F c d a b (x 14) T15 17
  let b := STEP F b c d a (x 15) T16 22
  -- Round 2
  let a := STEP G a b c d (x 1) T17 5
  let d := STEP G d a b c (x 6) T18 9
  let c := STEP G c d a b (x 11) T19 14
  let b := STEP G b c d a (x 0) T20 20
  let a := STEP G a b c d (x 5) T21 5
  let d := STEP G d a b c (x 10) T22 9
  let c := STEP G c d a b (x 15) T23 14
  let b := STEP G b c d a (x 4) T24 20
  let a := STEP G a b c d (x 9) T25 5
  let d := STEP G d a b c (x 14) T26 9
  let c := STEP G c d a b (x 3) T27 14
  let b := STEP G b c d a (x 8) T28 20
  let a := STEP G a b c d (x 13) T29 5
  let d := STEP G d a b c (x 2) T30 9
  let c := STEP G c d a b (x 7) T31 14
  let b := STEP G b c d a (x 12) T32 20
  -- Round 3
  let a := STEP H a b c d (x 5) T33 4
  let d := STEP H d a b c (x 8) T34 11
  let c := STEP H c d a b (x 11) T35 16
  let b := STEP H b c d a (x 14) T36 23
  let a := STEP H a b c d (x 1) T37 4
  let d := STEP H d a b c (x 4) T38 11
  let c := STEP H c d a b (x 7) T39 16
  let b := STEP H b c d a (x 10) T40 23
  let a := STEP H a b c d (x 13) T41 4
  let d := STEP H d a b c (x 0) T42 11
  let c := STEP H c d a b (x 3) T43 16
  let b := STEP H b c d a (x 6) T44 23
  let a := STEP H a b c d (x 9) T45 4
  let d := STEP H d a b c (x 12) T46 11
  let c := STEP H c d a b (x 15) T47 16
  let b := STEP H b c d a (x 2) T48 23
  -- Round 4
  let a := STEP I a b c d (x 0) T49 6
  let d := STEP I d a b c (x 7) T50 10
  let c := STEP I c d a b (x 14) T51 15
  let b := STEP I b c d a (x 5) T52 21
  let a := STEP I a b c d (x 12) T53 6
  let d := STEP I d a b c (x 3) T54 10
  let c := STEP I c d a b (x 10) T55 15
  let b := STEP I b c d a (x 1) T56 21
  let a := STEP I a b c d (x 8) T57 6
  let d := STEP I d a b c (x 15) T58 10
  let c := STEP I c d a b (x 6) T59 15
  let b := STEP I b c d a (x 13) T60 21
  let a := STEP I a b c d (x 4) T61 6
  let d := STEP I d a b c (x 11) T62 10
  let c := STEP I c d a b (x 2) T63 15
  let b := STEP I b c d a (x 9) T64 21
  (a, b, c, d)

/-- The function `md5_process(pms, data)`.  It reads the 64 bytes at `data`; both callers pass
a pointer with 64 bytes behind it (`pms->buf`, or `p` with `left >= 64`). -/
def md5_process (pms : md5_state_t) (data : List Nat) : md5_state_t :=
  let x : Nat → Nat := fun i =>
    data.getD (i * 4) 0 ||| (data.getD (i * 4 + 1) 0 <<< 8) |||
      (data.getD (i * 4 + 2) 0 <<< 16) ||| (data.getD (i * 4 + 3) 0 <<< 24)
  let r := md5_process_rounds x pms.abcd0 pms.abcd1 pms.abcd2 pms.abcd3
  { pms with abcd0 := (pms.abcd0 + r.1) % 4294967296,
              abcd1 := (pms.abcd1 + r.2.1) % 4294967296,
              abcd2 := (pms.abcd2 + r.2.2.1) % 4294967296,
              abcd3 := (pms.abcd3 + r.2.2.2) % 4294967296 }

/-- The function `md5_init(pms)`; `buf` is left as it is. -/
def md5_init (pms : md5_state_t) : md5_state_t :=
  { pms with count0 := 0, count1 := 0, abcd0 := 0x67452301, abcd1 := 0xefcdab89,
              abcd2 := 0x98badcfe, abcd3 := 0x10325476 }

/-- The loop `for (; left >= 64; p += 64, left -= 64) md5_process(pms, p);` of `md5_append`, on
the bytes `p` still to do (`left` is their number); `fuel` bounds the number of iterations.
The result is the state and the bytes left over. -/
def md5_append_loop : Nat → md5_state_t → List Nat → md5_state_t × List Nat
  | 0, pms, p => (pms, p)
  | fuel + 1, pms, p =>
    if p.length ≥ 64 then md5_append_loop fuel (md5_process pms p) (p.drop 64) else (pms, p)

/-- The end of `md5_append`: `if (left) memcpy(pms->buf, p, left);`. -/
def md5_append_rest (pms : md5_state_t) (p : List Nat) : md5_state_t :=
  if p.length ≠ 0 then { pms with buf := p ++ pms.buf.drop p.length } else pms

/-- The function `md5_append(pms, data, nbytes)` for a `size_t` of `size_bits` bits; `data` are
the `nbytes` bytes passed.  The result is `none` when `nbytes` is no value of `size_t` or the
`memcpy` into `buf` would leave the buffer. -/
def md5_append (size_bits : Nat) (pms : md5_state_t) (data : List Nat) : Option md5_state_t :=
  let nbytes := data.length
  if nbytes ≥ 2 ^ size_bits then none
  else
    let offset := (pms.count0 >>> 3) &&& 63
    let nbits := (nbytes <<< 3) % 2 ^ size_bits
    let count0 := (pms.count0 + nbits % 4294967296) % 4294967296
    let count1 := if count0 < nbits then (pms.count1 + 1) % 4294967296 else pms.count1
    let count1 := (count1 + (nbytes >>> 29) % 4294967296) % 4294967296
    let pms : md5_state_t := { pms with count0 := count0, count1 := count1 }
    if offset ≠ 0 then
      let copy := if (offset + nbytes) % 2 ^ size_bits > 64 then 64 - offset else nbytes
      if offset + copy > pms.buf.length then none
      else
        let pms : md5_state_t :=
          { pms with buf := pms.buf.take offset ++ data.take copy
                        ++ pms.buf.drop (offset + copy) }
        if offset + copy < 64 then some pms
        else
          let pms := md5_process pms pms.buf
          let r := md5_append_loop (nbytes - copy) pms (data.drop copy)
          some (md5_append_rest r.1 r.2)
    else
      let r := md5_append_loop nbytes pms data
      some (md5_append_rest r.1 r.2)

/-- The table `pad` of `md5_finish`: `0x80` followed by 63 zero bytes. -/
def md5_pad : List Nat := 128 :: List.replicate 63 0

/-- The function `md5_finish(pms, digest)`: the state afterwards and the 16 bytes of `digest`. -/
def md5_finish (size_bits : Nat) (pms : md5_state_t) : Option (md5_state_t × List Nat) := do
  let data := (List.range 8).map (fun i => (pms.count (i >>> 2) >>> ((i &&& 3) * 8)) % 256)
  let pms1 ← md5_append size_bits pms
    (md5_pad.take ((((4294967296 + 55 - ((pms.count0 >>> 3) &&& 63)) % 4294967296) &&& 63) + 1))
  let pms2 ← md5_append size_bits pms1 data
  some (pms2, (List.range 16).map (fun i => (pms2.abcd (i >>> 2) >>> ((i &&& 3) * 8)) % 256))

/-! ## Reference definition: the MD5 algorithm of RFC 1321 -/

/-- RFC 1321, 3.4: the function `F(X,Y,Z) = XY v not(X) Z` on 32-bit words. -/
def rfc1321_F (x y z : Nat) : Nat := (x &&& y) ||| ((x ^^^ 4294967295) &&& z)

/-- RFC 1321, 3.4: the function `G(X,Y,Z) = XZ v Y not(Z)`. -/
def rfc1321_G (x y z : Nat) : Nat := (x &&& z) ||| (y &&& (z ^^^ 4294967295))

/-- RFC 1321, 3.4: the function `H(X,Y,Z) = X xor Y xor Z`. -/
def rfc1321_H (x y z : Nat) : Nat := x ^^^ y ^^^ z

/-- RFC 1321, 3.4: the function `I(X,Y,Z) = Y xor (X v not(Z))`. -/
def rfc1321_I (x y z : Nat) : Nat := y ^^^ (x ||| (z ^^^ 4294967295))

/-- RFC 1321, 2: `X <<< s`, the 32-bit word `X` rotated left by `s` bit positions. -/
def rfc1321_rotl (x s : Nat) : Nat := ((x <<< s) % 4294967296) ||| (x >>> (32 - s))

/-- RFC 1321, 3.4: the table `T[1 ... 64]`, `T[i]` the integer part of `4294967296 * abs(sin(i))`. -/
def rfc1321_T : List Nat :=
  [0xd76aa478, 0xe8c7b756, 0x242070db, 0xc1bdceee,
   0xf57c0faf, 0x4787c62a, 0xa8304613, 0xfd469501,
   0x698098d8, 0x8b44f7af, 0xffff5bb1, 0x895cd7be,
   0x6b901122, 0xfd987193, 0xa679438e, 0x49b40821,
   0xf61e2562, 0xc040b340, 0x265e5a51, 0xe9b6c7aa,
   0xd62f105d, 0x2441453, 0xd8a1e681, 0xe7d3fbc8,
   0x21e1cde6, 0xc33707d6, 0xf4d50d87, 0x455a14ed,
   0xa9e3e905, 0xfcefa3f8, 0x676f02d9, 0x8d2a4c8a,
   0xfffa3942, 0x8771f681, 0x6d9d6122, 0xfde5380c,
   0xa4beea44, 0x4bdecfa9, 0xf6bb4b60, 0xbebfbc70,
   0x289b7ec6, 0xeaa127fa, 0xd4ef3085, 0x4881d05,
   0xd9d4d039, 0xe6db99e5, 0x1fa27cf8, 0xc4ac5665,
   0xf4292244, 0x432aff97, 0xab9423a7, 0xfc93a039,
   0x655b59c3, 0x8f0ccc92, 0xffeff47d, 0x85845dd1,
   0x6fa87e4f, 0xfe2ce6e0, 0xa3014314, 0x4e0811a1,
   0xf7537e82, 0xbd3af235, 0x2ad7d2bb, 0xeb86d391]

/-- RFC 1321, 3.4: the operations `[abcd k s i]` of the four rounds in order; entry `i - 1`
holds `(k, s)` of operation `i`. -/
def rfc1321_ops : List (Nat × Nat) :=
  [(0, 7), (1, 12), (2, 17), (3, 22), (4, 7), (5, 12), (6, 17), (7, 22), (8, 7), (9, 12), (10, 17), (11, 22), (12, 7), (13, 12), (14, 17), (15, 22),
   (1, 5), (6, 9), (11, 14), (0, 20), (5, 5), (10, 9), (15, 14), (4, 20), (9, 5), (14, 9), (3, 14), (8, 20), (13, 5), (2, 9), (7, 14), (12, 20),
   (5, 4), (8, 11), (11, 16), (14, 23), (1, 4), (4, 11), (7, 16), (10, 23), (13, 4), (0, 11), (3, 16), (6, 23), (9, 4), (12, 11), (15, 16), (2, 23),
   (0, 6), (7, 10), (14, 15), (5, 21), (12, 6), (3, 10), (10, 15), (1, 21), (8, 6), (15, 10), (6, 15), (13, 21), (4, 6), (11, 10), (2, 15), (9, 21)]

/-- RFC 1321, 3.4: the auxiliary function of the round operation `i` (counted from 0) belongs
to. -/
def rfc1321_aux (i : Nat) : Nat → Nat → Nat → Nat :=
  if i < 16 then rfc1321_F else if i < 32 then rfc1321_G else if i < 48 then rfc1321_H
  else rfc1321_I

/-- RFC 1321, 3.4: operation `i` (counted from 0), `a = b + ((a + f(b,c,d) + X[k] + T[i]) <<< s)`,
on the registers in their current roles `(a, b, c, d)`; the roles then rotate to
`(d, a, b, c)`, as in `[ABCD ...] [DABC ...] [CDAB ...] [BCDA ...]`. -/
def rfc1321_op (X : Nat → Nat) (r : Nat × Nat × Nat × Nat) (i : Nat) : Nat × Nat × Nat × Nat :=
  (r.2.2.2,
   (r.2.1 + rfc1321_rotl ((r.1 + rfc1321_aux i r.2.1 r.2.2.1 r.2.2.2 + X (rfc1321_ops.getD i (0, 0)).1
      + rfc1321_T.getD i 0) % 4294967296) (rfc1321_ops.getD i (0, 0)).2) % 4294967296,
   r.2.1, r.2.2.1)

/-- RFC 1321, 2: word `k` of a block, four bytes with the low-order byte first. -/
def rfc1321_word (block : List Nat) (k : Nat) : Nat :=
  block.getD (4 * k) 0 + 256 * block.getD (4 * k + 1) 0 + 65536 * block.getD (4 * k + 2) 0
    + 16777216 * block.getD (4 * k + 3) 0

/-- RFC 1321, 3.4: one 16-word block: the 64 operations, then each register is incremented by
the value it had before the block. -/
def rfc1321_block (r : Nat × Nat × Nat × Nat) (block : List Nat) : Nat × Nat × Nat × Nat :=
  let q := (List.range 64).foldl (rfc1321_op (rfc1321_word block)) r
  ((r.1 + q.1) % 4294967296, (r.2.1 + q.2.1) % 4294967296, (r.2.2.1 + q.2.2.1) % 4294967296,
   (r.2.2.2 + q.2.2.2) % 4294967296)

/-- RFC 1321, 3.4: the first `n` 64-byte blocks of a message, processed in order. -/
def rfc1321_blocks : Nat → Nat × Nat × Nat × Nat → List Nat → Nat × Nat × Nat × Nat
  | 0, r, _ => r
  | n + 1, r, l => rfc1321_blocks n (rfc1321_block r (l.take 64)) (l.drop 64)

/-- RFC 1321, 3.1 and 3.2: the padding of a message of `n` bytes with bit length `b`: the bit 1
and zero bits (the byte `0x80` and zero bytes) up to a length of 56 modulo 64 bytes, at least
one byte and at most 64, then the low-order 64 bits of `b`, low-order byte first. -/
def rfc1321_padding (n b : Nat) : List Nat :=
  [128] ++ List.replicate ((119 - n % 64) % 64) 0
    ++ (List.range 8).map (fun i => b / 256 ^ i % 256)

/-- RFC 1321, 3.5: the registers A, B, C, D as 16 bytes, low-order byte of A first. -/
def rfc1321_output (r : Nat × Nat × Nat × Nat) : List Nat :=
  [r.1 % 256, r.1 / 256 % 256, r.1 / 65536 % 256, r.1 / 16777216 % 256,
   r.2.1 % 256, r.2.1 / 256 % 256, r.2.1 / 65536 % 256, r.2.1 / 16777216 % 256,
   r.2.2.1 % 256, r.2.2.1 / 256 % 256, r.2.2.1 / 65536 % 256, r.2.2.1 / 16777216 % 256,
   r.2.2.2 % 256, r.2.2.2 / 256 % 256, r.2.2.2 / 65536 % 256, r.2.2.2 / 16777216 % 256]

/-- RFC 1321, 3.3: the initial values of the registers A, B, C, D (`01 23 45 67`,
`89 ab cd ef`, `fe dc ba 98`, `76 54 32 10`, low-order bytes first). -/
def rfc1321_init : Nat × Nat × Nat × Nat := (0x67452301, 0xefcdab89, 0x98badcfe, 0x10325476)

/-- RFC 1321: the digest of the message `m` when the length appended by the padding is `b`
bits. -/
def rfc1321_digest_with (m : List Nat) (b : Nat) : List Nat :=
  rfc1321_output (rfc1321_blocks ((m ++ rfc1321_padding m.length b).length / 64)
    rfc1321_init (m ++ rfc1321_padding m.length b))

/-- RFC 1321: the MD5 digest of the byte string `m`; the length appended is the bit length of
`m`. -/
def rfc1321_md5 (m : List Nat) : List Nat := rfc1321_digest_with m (8 * m.length)

/-- The computation `md5_init; md5_append(m); md5_finish` from a state `pms`: the digest. -/
def md5_digest (size_bits : Nat) (pms : md5_state_t) (m : List Nat) : Option (List Nat) := do
  let pms1 ← md5_append size_bits (md5_init pms) m
  let r ← md5_finish size_bits pms1
  some r.2

/-- The registers `abcd[0..3]` of a state, as the four registers A, B, C, D of RFC 1321. -/
def md5_regs (pms : md5_state_t) : Nat × Nat × Nat × Nat :=
  (pms.abcd0, pms.abcd1, pms.abcd2, pms.abcd3)

/-- The state `pms` has absorbed the bytes `M`: `count[0]` holds the low 32 bits of their bit
length, the registers are those of RFC 1321 after the whole blocks of `M`, and `buf` starts
with the bytes of `M` after its last whole block. -/
def md5_absorbed (pms : md5_state_t) (M : List Nat) : Prop :=
  pms.count0 = (8 * M.length) % 4294967296 ∧ pms.buf.length = 64 ∧
  md5_regs pms = rfc1321_blocks (M.length / 64) rfc1321_init M ∧
  pms.buf.take (M.length % 64) = M.drop (64 * (M.length / 64))

/-- A state whose fields are all zero, as a caller's uninitialised `md5_state_t` may be. -/
def md5_zero_state : md5_state_t :=
  { count0 := 0, count1 := 0, abcd0 := 0, abcd1 := 0, abcd2 := 0, abcd3 := 0,
    buf := List.replicate 64 0 }

/-! ## Reference definitions and concrete sessions for the ledger invariant and the stream
transport -/

/-- An input update for slot 1 with the one event of sequence number 0. -/
def wrap_update : update_datagram :=
  { tag := 1, player := 1, status := 0, lag := 0, events := [⟨0, 7, 1⟩] }

/-- The idle session whose slot 1 has the counter `0xFFFFFFFF` and which has `wrap_update` in
the receive queue. -/
def wrap_state : Netplay :=
  { idle_state with
      l_cin_compats := fun _ => { event_first := [], netplay_count := 4294967295 },
      udp_in := [wrap_update.bytes] }

/-- The event whose nine bytes start at `offset` of a datagram: sequence number and buttons as
big-endian 32-bit values, then the peripheral byte. -/
def event_at (data : List Nat) (offset : Nat) : netplay_event :=
  { count := (net_read32 data offset).getD 0,
    buttons := (net_read32 data (offset + 4)).getD 0,
    plugin := data.getD (offset + 8) 0 }

/-- The `n` events of an update datagram: event `k` is the one at byte offset `5 + 9 k`. -/
def datagram_events (data : List Nat) (n : Nat) : List netplay_event :=
  (List.range n).map (fun k => event_at data (5 + 9 * k))

/-- The ledger of slot `i` holds an event with the sequence number of the slot's counter. -/
def slot_valid (s : Netplay) (i : Fin 4) : Prop :=
  check_valid_list (s.l_cin_compats i).event_first (s.l_cin_compats i).netplay_count = true

instance (s : Netplay) (i : Fin 4) : Decidable (slot_valid s i) := by
  unfold slot_valid; infer_instance

/-- The calls `netplay_set_controller(p)` for the players `p` of a list, in order. -/
def set_controllers : List Nat → Netplay → Option Netplay
  | [], s => some s
  | p :: rest, s => (netplay_set_controller s p).bind (set_controllers rest)

/-- A frame of the native stream: the length of the payload as four bytes, most significant
first, then the payload. -/
def net_frame (payload : List Nat) : List Nat := net_write32 payload.length ++ payload

/-- Calls of `net_recv`, `n` of them one after the other, on the same handle and the same
buffer: the messages returned (the `*out_len` first bytes of the buffer after each call, in
order), then the handle, the buffer and the unused answers of `recv`; `none` when a call does
not return `NET_OK`. -/
def net_recv_calls : Nat → net_handle_t → List Nat → Nat → List recv_result →
    Option (List (List Nat) × net_handle_t × List Nat × List recv_result)
  | 0, h, buf, _, sock => some ([], h, buf, sock)
  | n + 1, h, buf, bufsize, sock =>
    (net_recv (some h) buf bufsize (some 0) sock).bind (fun o =>
      if o.status = net_status_t.NET_OK then
        match o.h, o.out_len with
        | some h1, some len =>
          (net_recv_calls n h1 o.buf bufsize o.sock).map
            (fun r => (o.buf.take len :: r.1, r.2))
        | _, _ => none
      else none)

/-- A connected handle whose read buffer holds the frames of `[1, 2, 3]` and `[9]` and then the
two bytes `0, 0` of an incomplete header. -/
def framed_handle : net_handle_t :=
  { sockfd := 3, connected := 1,
    rd_buf := [0, 0, 0, 3, 1, 2, 3, 0, 0, 0, 1, 9, 0, 0] ++ List.replicate 65522 0,
    rd_buf_len := 14 }

/-- What happens to a session between two states: a datagram arrives in the receive queue, the
queue is processed (`netplay_process`), or `netplay_get_input` is called for a slot. -/
inductive session_call where
  | arrive (d : List Nat)
  | process (mem : List Nat)
  | get_input (control_id : Nat) (env : poll_env)

/-- The state after one `session_call`; `none` when the call has no result. -/
def run_call (s : Netplay) : session_call → Option Netplay
  | session_call.arrive d => some { s with udp_in := s.udp_in ++ [d] }
  | session_call.process mem => netplay_process s mem
  | session_call.get_input control_id env => (netplay_get_input s control_id env).map (·.1)

/-- The state after a sequence of calls. -/
def run_calls : List session_call → Netplay → Option Netplay
  | [], s => some s
  | c :: rest, s => (run_call s c).bind (run_calls rest)

/-- The entries of a list are bytes. -/
def bytes_ok (l : List Nat) : Prop := ∀ b ∈ l, b < 256

instance (l : List Nat) : Decidable (bytes_ok l) := by
  unfold bytes_ok; infer_instance

/-- The datagram or packet memory of an event of the wait consists of bytes. -/
def wait_event.bytes_ok : wait_event → Prop
  | wait_event.arrive d => NetplayWs.bytes_ok d
  | wait_event.main mem => NetplayWs.bytes_ok mem
  | wait_event.helper _ => True

instance (ev : wait_event) : Decidable ev.bytes_ok := by
  cases ev <;> unfold wait_event.bytes_ok <;> infer_instance

/-- The datagrams and packet memory of a call consist of bytes. -/
def session_call.bytes_ok : session_call → Prop
  | session_call.arrive d => NetplayWs.bytes_ok d
  | session_call.process mem => NetplayWs.bytes_ok mem
  | session_call.get_input _ env =>
    NetplayWs.bytes_ok env.mem ∧ ∀ ev ∈ env.trace, ev.bytes_ok

instance (c : session_call) : Decidable c.bytes_ok := by
  cases c <;> unfold session_call.bytes_ok <;> infer_instance

/-- A session with empty ledgers: every slot has no buffered event and a 32-bit counter, and the
datagrams in the receive queue consist of bytes. -/
def fresh_session (s : Netplay) : Prop :=
  (∀ q : Fin 4, (s.l_cin_compats q).event_first = [] ∧
    (s.l_cin_compats q).netplay_count < 4294967296) ∧
  ∀ d ∈ s.udp_in, bytes_ok d

instance (s : Netplay) : Decidable (fresh_session s) := by
  unfold fresh_session; infer_instance

/-- The ledger of a slot is in order: the counter and the sequence numbers are 32-bit values,
no buffered event is older than the counter, and no two buffered events share a sequence
number. -/
def slot_inv (c : controller_input_compat) : Prop :=
  c.netplay_count < 4294967296 ∧
  (∀ e ∈ c.event_first, e.count < 4294967296 ∧ u32_sub e.count c.netplay_count ≤ 2147483647) ∧
  (c.event_first.map netplay_event.count).Nodup

/-- Every ledger of the session is in order and the receive queue holds bytes. -/
def session_inv (s : Netplay) : Prop :=
  (∀ q : Fin 4, slot_inv (s.l_cin_compats q)) ∧ ∀ d ∈ s.udp_in, bytes_ok d

/-- Three calls on a session whose slot 0 has the counter `0xFFFFFFFF`: two events arrive, with
the sequence numbers `0xFFFFFFFF` and 0, the first is consumed, and the datagram arrives
again. -/
def wrap_calls : List session_call :=
  [session_call.arrive
     [1, 0, 0, 0, 2, 255, 255, 255, 255, 0, 0, 0, 1, 1, 0, 0, 0, 0, 0, 0, 0, 2, 1],
   session_call.get_input 0 scenario_env,
   session_call.arrive
     [1, 0, 0, 0, 2, 255, 255, 255, 255, 0, 0, 0, 1, 1, 0, 0, 0, 0, 0, 0, 0, 2, 1],
   session_call.process []]

/-- The idle session with the counter `0xFFFFFFFF` in every slot. -/
def wrap_session : Netplay :=
  { idle_state with
      l_cin_compats := fun _ => { event_first := [], netplay_count := 4294967295 } }

/-! ## Concrete sessions for the failure returns of `TCP_Recv` and the free loop -/

/-- The session `buffered_state` (three events buffered in every slot) after `netplay_stop` and
a successful `netplay_start`. -/
def restarted_state : Option Netplay :=
  (netplay_stop buffered_state).map (fun r => (netplay_start r.1 start_ok).1)

/-- A live session whose first `TCP_Recv` fails with -1; the response `{0, 3}` is in the
stream. -/
def register_failed_state : Netplay :=
  { idle_state with tcp_in := [[0], [3]], tcp_recv_ret := [some tcp_failure.error] }

/-- A live session that does not own slot 0, whose stream holds four bytes and whose first
`TCP_Recv` fails with -1. -/
def config_failed_state : Netplay :=
  { idle_state with tcp_in := [[1, 2, 3, 4]], tcp_recv_ret := [some tcp_failure.error] }

/-- A session that does not own slot 0, whose stream holds 64 zero bytes and whose first
`TCP_Recv` reports a closed socket (-2). -/
def save_failed_state : Netplay :=
  { idle_state with tcp_in := [List.replicate 64 0],
                    tcp_recv_ret := [some tcp_failure.closed] }

/-! ## Lemmas -/

theorem idx4_val (i : Fin 4) : idx4 i.val = some i := by
  simp [idx4]

theorem idx4_eq_some {n : Nat} {p : Fin 4} (h : idx4 n = some p) : p.val = n := by
  unfold idx4 at h
  split at h
  · cases h; rfl
  · cases h

theorem cin_val (s : Netplay) (i : Fin 4) : s.cin i.val = some (s.l_cin_compats i) := by
  simp [Netplay.cin, idx4_val]

theorem buffer_size_list_eq (l : List netplay_event) (k : Nat) :
    buffer_size_list l k = if l = [] then k else (k + l.length) % 256 := by
  induction l generalizing k with
  | nil => simp [buffer_size_list]
  | cons e l ih =>
    simp only [buffer_size_list, ih]
    by_cases h : l = []
    · subst h; simp
    · simp [h]; omega

theorem buffer_size_val (s : Netplay) (i : Fin 4) :
    buffer_size s i.val = some ((s.l_cin_compats i).event_first.length % 256) := by
  simp only [buffer_size, cin_val, Option.bind_eq_bind, Option.some_bind, buffer_size_list_eq]
  by_cases h : (s.l_cin_compats i).event_first = []
  · simp [h]
  · simp [h]

theorem getElem?_append_add {α : Type} (pre l : List α) (k : Nat) :
    (pre ++ l)[pre.length + k]? = l[k]? := by
  rw [List.getElem?_append_right (Nat.le_add_right _ _)]
  simp

theorem getElem?_append_zero {α : Type} (pre l : List α) :
    (pre ++ l)[pre.length]? = l[0]? := by
  simpa using getElem?_append_add pre l 0

theorem net_read32_append (pre l : List Nat) (k : Nat) :
    net_read32 (pre ++ l) (pre.length + k) = net_read32 l k := by
  simp only [net_read32, Nat.add_assoc, getElem?_append_add]

theorem net_read32_write32 (v : Nat) (h : v < 4294967296) (post : List Nat) :
    net_read32 (net_write32 v ++ post) 0 = some v := by
  simp [net_read32, net_write32]
  omega

theorem net_read32_at (pre post : List Nat) (v k : Nat) (h : v < 4294967296)
    (hk : pre.length = k) : net_read32 (pre ++ (net_write32 v ++ post)) k = some v := by
  subst hk
  have := net_read32_append pre (net_write32 v ++ post) 0
  simp only [Nat.add_zero] at this
  rw [this, net_read32_write32 v h]

theorem check_valid_list_iff (l : List netplay_event) (count : Nat) :
    check_valid_list l count = true ↔ count ∈ l.map netplay_event.count := by
  induction l with
  | nil => simp [check_valid_list]
  | cons e l ih =>
    by_cases h : e.count = count
    · simp [check_valid_list, h]
    · have h' : ¬ count = e.count := fun h2 => h h2.symm
      simp [check_valid_list, h, h', ih]

theorem set_event_first_cin (s : Netplay) (p : Fin 4) (l : List netplay_event) :
    (s.set_event_first p l).l_cin_compats p
      = { event_first := l, netplay_count := (s.l_cin_compats p).netplay_count } := by
  simp [Netplay.set_event_first]

theorem set_event_first_cin_ne (s : Netplay) (p q : Fin 4) (l : List netplay_event)
    (h : q ≠ p) : (s.set_event_first p l).l_cin_compats q = s.l_cin_compats q := by
  simp [Netplay.set_event_first, Function.update_noteq h]

theorem set_event_first_twice (s : Netplay) (p : Fin 4) (l l2 : List netplay_event) :
    (s.set_event_first p l).set_event_first p l2 = s.set_event_first p l2 := by
  simp [Netplay.set_event_first]

theorem set_event_first_self (s : Netplay) (p : Fin 4) :
    s.set_event_first p (s.l_cin_compats p).event_first = s := by
  simp [Netplay.set_event_first]

/-- The event loop, for any buffer: if it returns, the ledger of the slot is the result of inserting
`n` events, and nothing else has changed. -/
theorem netplay_process_events_frame (data : List Nat) (p : Fin 4) :
    ∀ (n curr : Nat) (s s1 : Netplay),
      netplay_process_events data p.val n curr s = some s1 →
      ∃ evs : List netplay_event, evs.length = n ∧
        s1 = s.set_event_first p
          (evs.foldl (ledger_insert (s.l_cin_compats p).netplay_count)
            (s.l_cin_compats p).event_first) := by
  intro n
  induction n with
  | zero =>
    intro curr s s1 h
    simp only [netplay_process_events, Option.some.injEq] at h
    exact ⟨[], rfl, by simp [← h, set_event_first_self]⟩
  | succ n ih =>
    intro curr s s1 h
    simp only [netplay_process_events, idx4_val, Option.bind_eq_bind, Option.some_bind] at h
    cases hc : net_read32 data curr with
    | none => simp [hc] at h
    | some count =>
      simp only [hc, Option.some_bind] at h
      by_cases hskip : u32_sub count (s.l_cin_compats p).netplay_count > UINT32_MAX / 2 ∨
          check_valid_list (s.l_cin_compats p).event_first count = true
      · rw [if_pos hskip] at h
        obtain ⟨evs, hl, hs⟩ := ih _ _ _ h
        refine ⟨⟨count, 0, 0⟩ :: evs, by simp [hl], ?_⟩
        have hins : ledger_insert (s.l_cin_compats p).netplay_count
            (s.l_cin_compats p).event_first ⟨count, 0, 0⟩ = (s.l_cin_compats p).event_first := by
          unfold ledger_insert is_stale
          rw [if_pos]
          rw [← check_valid_list_iff]; exact hskip
        simp only [List.foldl_cons, hins]
        exact hs
      · rw [if_neg hskip] at h
        cases hk : net_read32 data (curr + 4) with
        | none => simp [hk] at h
        | some keys =>
          cases hp : data[curr + 8]? with
          | none => simp [hk, hp] at h
          | some plugin =>
            simp only [hk, hp, Option.some_bind] at h
            obtain ⟨evs, hl, hs⟩ := ih _ _ _ h
            refine ⟨⟨count, keys, plugin⟩ :: evs, by simp [hl], ?_⟩
            have hins : ledger_insert (s.l_cin_compats p).netplay_count
                (s.l_cin_compats p).event_first ⟨count, keys, plugin⟩
                  = ⟨count, keys, plugin⟩ :: (s.l_cin_compats p).event_first := by
              unfold ledger_insert is_stale
              rw [if_neg]
              rw [← check_valid_list_iff]; exact hskip
            simp only [List.foldl_cons, hins]
            rw [hs, set_event_first_cin, set_event_first_twice]

theorem encode_event_length (e : netplay_event) : (encode_event e).length = 9 := rfl

theorem flatten_encode_length (es : List netplay_event) :
    (es.map encode_event).flatten.length = 9 * es.length := by
  induction es with
  | nil => rfl
  | cons e es ih => simp only [List.map_cons, List.flatten_cons, List.length_append,
      encode_event_length, ih, List.length_cons]; omega

theorem read_event (pre post : List Nat) (e : netplay_event)
    (hc : e.count < 4294967296) (hb : e.buttons < 4294967296) :
    net_read32 (pre ++ (encode_event e ++ post)) pre.length = some e.count ∧
    net_read32 (pre ++ (encode_event e ++ post)) (pre.length + 4) = some e.buttons ∧
    (pre ++ (encode_event e ++ post))[pre.length + 8]? = some e.plugin := by
  refine ⟨?_, ?_, ?_⟩
  · have := net_read32_at pre (net_write32 e.buttons ++ [e.plugin] ++ post) e.count
      pre.length hc rfl
    simpa only [encode_event, List.append_assoc] using this
  · have := net_read32_at (pre ++ net_write32 e.count) ([e.plugin] ++ post) e.buttons
      (pre.length + 4) hb (by simp [net_write32])
    simpa only [encode_event, List.append_assoc] using this
  · rw [getElem?_append_add]
    simp [encode_event, net_write32]

/-- The event loop on the events of a well-formed datagram. -/
theorem netplay_process_events_wf (p : Fin 4) (post : List Nat) :
    ∀ (es : List netplay_event) (pre : List Nat) (s : Netplay),
      (∀ e ∈ es, e.count < 4294967296 ∧ e.buttons < 4294967296) →
      netplay_process_events (pre ++ ((es.map encode_event).flatten ++ post)) p.val
          es.length pre.length s
        = some (s.set_event_first p
            (es.foldl (ledger_insert (s.l_cin_compats p).netplay_count)
              (s.l_cin_compats p).event_first)) := by
  intro es
  induction es with
  | nil =>
    intro pre s _
    simp [netplay_process_events, set_event_first_self]
  | cons e es ih =>
    intro pre s hr
    have he := hr e (List.mem_cons_self _ _)
    have hes : ∀ x ∈ es, x.count < 4294967296 ∧ x.buttons < 4294967296 :=
      fun x hx => hr x (List.mem_cons_of_mem _ hx)
    have hdata : pre ++ (((e :: es).map encode_event).flatten ++ post)
        = pre ++ (encode_event e ++ ((es.map encode_event).flatten ++ post)) := by
      simp
    obtain ⟨r1, r2, r3⟩ := read_event pre ((es.map encode_event).flatten ++ post) e he.1 he.2
    have hnext : pre ++ (encode_event e ++ ((es.map encode_event).flatten ++ post))
        = (pre ++ encode_event e) ++ ((es.map encode_event).flatten ++ post) := by
      simp
    have hlen : (pre ++ encode_event e).length = pre.length + 9 := by
      simp [encode_event_length]
    rw [hdata, List.length_cons]
    simp only [netplay_process_events, idx4_val, Option.bind_eq_bind, Option.some_bind, r1, r2, r3]
    by_cases hskip : u32_sub e.count (s.l_cin_compats p).netplay_count > UINT32_MAX / 2 ∨
        check_valid_list (s.l_cin_compats p).event_first e.count = true
    · rw [if_pos hskip, hnext, ← hlen, ih _ _ hes]
      have hins : ledger_insert (s.l_cin_compats p).netplay_count
          (s.l_cin_compats p).event_first e = (s.l_cin_compats p).event_first := by
        unfold ledger_insert is_stale
        rw [if_pos]
        rw [← check_valid_list_iff]; exact hskip
      simp only [List.foldl_cons, hins]
    · rw [if_neg hskip, hnext, ← hlen, ih _ _ hes]
      have hins : ledger_insert (s.l_cin_compats p).netplay_count
          (s.l_cin_compats p).event_first e = e :: (s.l_cin_compats p).event_first := by
        unfold ledger_insert is_stale
        rw [if_neg]
        rw [← check_valid_list_iff]; exact hskip
      simp only [List.foldl_cons, hins, set_event_first_cin, set_event_first_twice]

theorem tcp_recv_loop_spec (q : List (List Nat)) :
    ∀ (need : Nat) (acc : List Nat), need ≤ q.flatten.length →
      ∃ q', tcp_recv_loop q need acc = some (acc ++ q.flatten.take need, q') ∧
        q'.flatten = q.flatten.drop need := by
  induction q with
  | nil =>
    intro need acc h
    have : need = 0 := by simpa using h
    subst this
    exact ⟨[], by simp [tcp_recv_loop]⟩
  | cons c rest ih =>
    intro need acc h
    cases need with
    | zero => exact ⟨c :: rest, by simp [tcp_recv_loop]⟩
    | succ n =>
      simp only [tcp_recv_loop]
      by_cases hc : c.length ≤ n + 1
      · simp only [hc, if_true]
        have h2 : n + 1 - c.length ≤ rest.flatten.length := by
          simp only [List.flatten_cons, List.length_append] at h; omega
        obtain ⟨q', hq, hj⟩ := ih (n + 1 - c.length) (acc ++ c) h2
        refine ⟨q', ?_, ?_⟩
        · rw [hq]
          simp [List.take_append_eq_append_take, List.take_of_length_le hc]
        · rw [hj]
          simp [List.drop_append_eq_append_drop, List.drop_of_length_le hc]
      · simp only [hc, if_false]
        have hlt : n + 1 < c.length := by omega
        refine ⟨c.drop (n + 1) :: rest, ?_, ?_⟩
        · simp [List.take_append_eq_append_take]
          have : n + 1 - c.length = 0 := by omega
          simp [this]
        · simp [List.drop_append_eq_append_drop]
          have : n + 1 - c.length = 0 := by omega
          simp [this]

theorem lor_eq_zero (a b : Nat) : a ||| b = 0 ↔ a = 0 ∧ b = 0 := by
  constructor
  · intro h
    have key : ∀ i, (a.testBit i || b.testBit i) = false := by
      intro i
      rw [← Nat.testBit_or, h, Nat.zero_testBit]
    constructor
    · apply Nat.eq_of_testBit_eq
      intro i
      have := key i
      simp only [Bool.or_eq_false_iff] at this
      simp [this.1]
    · apply Nat.eq_of_testBit_eq
      intro i
      have := key i
      simp only [Bool.or_eq_false_iff] at this
      simp [this.2]
  · rintro ⟨rfl, rfl⟩
    rfl

theorem or_sum_foldl (l : List Nat) (a : Nat) :
    l.foldl (fun sum b => sum ||| b) a = 0 ↔ a = 0 ∧ ∀ b ∈ l, b = 0 := by
  induction l generalizing a with
  | nil => simp
  | cons x l ih =>
    simp only [List.foldl_cons, ih, List.mem_cons, forall_eq_or_imp, lor_eq_zero]
    tauto

theorem or_sum_eq_zero (l : List Nat) : or_sum l = 0 ↔ ∀ b ∈ l, b = 0 := by
  simp [or_sum, or_sum_foldl]

theorem to_i32_to_u32 (x : Int) (h1 : -2147483648 ≤ x) (h2 : x < 2147483648) :
    to_i32 (to_u32 x) = x := by
  unfold to_i32 to_u32
  split <;> omega

theorem to_u32_lt (x : Int) : to_u32 x < 4294967296 := by
  unfold to_u32; omega

theorem net_write32_length (v : Nat) : (net_write32 v).length = 4 := rfl

theorem read_settings (v : settings) (hv : v.in_range) :
    net_read32 (settings_message v).tail 0 = some v.count_per_op ∧
    net_read32 (settings_message v).tail 4 = some v.count_per_op_denom_pot ∧
    net_read32 (settings_message v).tail 8 = some v.disable_extra_mem ∧
    net_read32 (settings_message v).tail 12 = some (to_u32 v.si_dma_duration) ∧
    net_read32 (settings_message v).tail 16 = some v.emumode ∧
    net_read32 (settings_message v).tail 20 = some (to_u32 v.no_compiled_jump) := by
  obtain ⟨h1, h2, h3, _, h5, _⟩ := hv
  have h4 := to_u32_lt v.si_dma_duration
  have h6 := to_u32_lt v.no_compiled_jump
  have e : (settings_message v).tail = net_write32 v.count_per_op
      ++ net_write32 v.count_per_op_denom_pot ++ net_write32 v.disable_extra_mem
      ++ net_write32 (to_u32 v.si_dma_duration) ++ net_write32 v.emumode
      ++ net_write32 (to_u32 v.no_compiled_jump) := by
    simp [settings_message]
  rw [e]
  refine ⟨?_, ?_, ?_, ?_, ?_, ?_⟩
  · have := net_read32_at [] (net_write32 v.count_per_op_denom_pot
      ++ net_write32 v.disable_extra_mem ++ net_write32 (to_u32 v.si_dma_duration)
      ++ net_write32 v.emumode ++ net_write32 (to_u32 v.no_compiled_jump)) _ 0 h1 rfl
    simpa only [List.nil_append, List.append_assoc] using this
  · have := net_read32_at (net_write32 v.count_per_op) (net_write32 v.disable_extra_mem
      ++ net_write32 (to_u32 v.si_dma_duration)
      ++ net_write32 v.emumode ++ net_write32 (to_u32 v.no_compiled_jump)) _ 4 h2 rfl
    simpa only [List.nil_append, List.append_assoc] using this
  · have := net_read32_at (net_write32 v.count_per_op ++ net_write32 v.count_per_op_denom_pot)
      (net_write32 (to_u32 v.si_dma_duration)
      ++ net_write32 v.emumode ++ net_write32 (to_u32 v.no_compiled_jump)) _ 8 h3 rfl
    simpa only [List.nil_append, List.append_assoc] using this
  · have := net_read32_at (net_write32 v.count_per_op ++ net_write32 v.count_per_op_denom_pot
      ++ net_write32 v.disable_extra_mem)
      (net_write32 v.emumode ++ net_write32 (to_u32 v.no_compiled_jump)) _ 12 h4 rfl
    simpa only [List.nil_append, List.append_assoc] using this
  · have := net_read32_at (net_write32 v.count_per_op ++ net_write32 v.count_per_op_denom_pot
      ++ net_write32 v.disable_extra_mem ++ net_write32 (to_u32 v.si_dma_duration))
      (net_write32 (to_u32 v.no_compiled_jump)) _ 16 h5 rfl
    simpa only [List.nil_append, List.append_assoc] using this
  · have := net_read32_at (net_write32 v.count_per_op ++ net_write32 v.count_per_op_denom_pot
      ++ net_write32 v.disable_extra_mem ++ net_write32 (to_u32 v.si_dma_duration)
      ++ net_write32 v.emumode) [] _ 20 h6 rfl
    simpa only [List.nil_append, List.append_nil, List.append_assoc] using this

theorem netplay_sync_settings_pull (peer : Netplay) (old : settings) (t : List Nat)
    (rest : List (List Nat)) (a b c d e f : Nat)
    (hi : peer.l_netplay_is_init ≠ 0) (hc : peer.l_netplay_control 0 = -1)
    (hr : tcp_recv_loop peer.tcp_in 24 [] = some (t, rest))
    (r1 : net_read32 t 0 = some a) (r2 : net_read32 t 4 = some b)
    (r3 : net_read32 t 8 = some c) (r4 : net_read32 t 12 = some d)
    (r5 : net_read32 t 16 = some e) (r6 : net_read32 t 20 = some f) :
    netplay_sync_settings peer old
      = some ({ peer with tcp_out := peer.tcp_out ++ [[4]],
                          tcp_send_ret := peer.tcp_send_ret.tail,
                          tcp_in := rest },
              { count_per_op := a, count_per_op_denom_pot := b, disable_extra_mem := c,
                si_dma_duration := to_i32 d, emumode := e, no_compiled_jump := to_i32 f }) := by
  simp only [netplay_sync_settings, hi, hc, if_false, ne_eq, not_true_eq_false, TCP_Send,
    SETTINGS_SIZE, hr, Option.bind_eq_bind, Option.some_bind,
    r1, r2, r3, r4, r5, r6, TCP_RECEIVE_SETTINGS]

theorem update_bytes_length (u : update_datagram) :
    u.bytes.length = 5 + 9 * u.events.length := by
  simp only [update_datagram.bytes, List.length_append, flatten_encode_length]
  simp

/-- One packet holding a well-formed update datagram. -/
theorem netplay_process_packet_wf (s : Netplay) (u : update_datagram) (post : List Nat)
    (hu : u.well_formed) :
    netplay_process_packet s (u.bytes ++ post) = some (apply_update s u) := by
  obtain ⟨htag, _, hev⟩ := hu
  have hdata : u.bytes ++ post = [u.tag, u.player.val, u.status, u.lag, u.events.length]
      ++ ((u.events.map encode_event).flatten ++ post) := by
    simp [update_datagram.bytes]
  have hev2 := fun (s2 : Netplay) => netplay_process_events_wf u.player post u.events
    [u.tag, u.player.val, u.status, u.lag, u.events.length] s2 hev
  rw [← hdata] at hev2
  have h0 : (u.bytes ++ post)[0]? = some u.tag := by simp [update_datagram.bytes]
  have h1 : (u.bytes ++ post)[1]? = some u.player.val := by simp [update_datagram.bytes]
  have h2 : (u.bytes ++ post)[2]? = some u.status := by simp [update_datagram.bytes]
  have h3 : (u.bytes ++ post)[3]? = some u.lag := by simp [update_datagram.bytes]
  have h4 : (u.bytes ++ post)[4]? = some u.events.length := by simp [update_datagram.bytes]
  have hl : [u.tag, u.player.val, u.status, u.lag, u.events.length].length = 5 := rfl
  rw [hl] at hev2
  have htag2 : u.tag = UDP_RECEIVE_KEY_INFO ∨ u.tag = UDP_RECEIVE_KEY_INFO_GRATUITOUS := htag
  unfold netplay_process_packet
  simp only [h0, h1, h2, h3, h4, Option.bind_eq_bind, Option.some_bind, if_pos htag2]
  by_cases ht : u.tag = UDP_RECEIVE_KEY_INFO
  · simp only [ht, if_true, idx4_val, Option.some_bind, hev2, apply_update]
  · simp only [ht, if_false, Option.some_bind, hev2, apply_update]

theorem UDP_Recv_fits (data d : List Nat) (h : d.length ≤ data.length) :
    (UDP_Recv data d).1 = d ++ data.drop d.length ∧
    ((UDP_Recv data d).1).length = data.length := by
  have ht : d.take data.length = d := List.take_of_length_le h
  simp only [UDP_Recv, ht, List.length_append, List.length_drop, true_and]
  omega

/-- The receive loop on a queue of well-formed update datagrams. -/
theorem netplay_process_loop_wf :
    ∀ (us : List update_datagram) (data : List Nat) (s : Netplay),
      (∀ u ∈ us, u.well_formed) → 509 ≤ data.length →
      netplay_process_loop (us.map update_datagram.bytes) data s
        = some (us.foldl apply_update s) := by
  intro us
  induction us with
  | nil => intro data s _ _; rfl
  | cons u us ih =>
    intro data s hwf hlen
    have hu := hwf u (List.mem_cons_self _ _)
    have hfit : u.bytes.length ≤ data.length := by
      rw [update_bytes_length]; have := hu.2.1; omega
    obtain ⟨hrecv, hrlen⟩ := UDP_Recv_fits data u.bytes hfit
    simp only [List.map_cons, netplay_process_loop, hrecv, netplay_process_packet_wf s u _ hu,
      Option.bind_eq_bind, Option.some_bind, List.foldl_cons]
    rw [← hrecv]
    exact ih _ _ (fun x hx => hwf x (List.mem_cons_of_mem _ hx)) (by rw [hrlen]; exact hlen)

theorem alloc_packet_length (size : Nat) (mem : List Nat) :
    (alloc_packet size mem).length = size := by
  simp [alloc_packet]

/-- The function `netplay_process` on a receive queue of well-formed update datagrams. -/
theorem netplay_process_wf (s : Netplay) (mem : List Nat) (us : List update_datagram)
    (hq : s.udp_in = us.map update_datagram.bytes) (hwf : ∀ u ∈ us, u.well_formed) :
    netplay_process s mem = some (us.foldl apply_update { s with udp_in := [] }) := by
  unfold netplay_process
  rw [hq]
  exact netplay_process_loop_wf us _ _ hwf (by rw [alloc_packet_length]; omega)

theorem apply_update_cin (s : Netplay) (u : update_datagram) (q : Fin 4) :
    (apply_update s u).l_cin_compats q
      = if q = u.player then
          { event_first := u.events.foldl (ledger_insert (s.l_cin_compats q).netplay_count)
              (s.l_cin_compats q).event_first,
            netplay_count := (s.l_cin_compats q).netplay_count }
        else s.l_cin_compats q := by
  have key : ∀ s2 : Netplay, s2.l_cin_compats = s.l_cin_compats →
      (s2.set_event_first u.player
        (u.events.foldl (ledger_insert (s2.l_cin_compats u.player).netplay_count)
          (s2.l_cin_compats u.player).event_first)).l_cin_compats q
      = if q = u.player then
          { event_first := u.events.foldl (ledger_insert (s.l_cin_compats q).netplay_count)
              (s.l_cin_compats q).event_first,
            netplay_count := (s.l_cin_compats q).netplay_count }
        else s.l_cin_compats q := by
    intro s2 h2
    by_cases hq : q = u.player
    · subst hq; simp [set_event_first_cin, h2]
    · simp [set_event_first_cin_ne _ _ _ _ hq, h2, hq]
  unfold apply_update
  apply key
  by_cases ht : u.tag = UDP_RECEIVE_KEY_INFO <;> by_cases hst : u.status = s.l_status <;>
    simp [ht, hst]

theorem foldl_apply_update_cin (q : Fin 4) :
    ∀ (us : List update_datagram) (s : Netplay),
      (us.foldl apply_update s).l_cin_compats q
        = { event_first := (delivered q us).foldl
              (ledger_insert (s.l_cin_compats q).netplay_count) (s.l_cin_compats q).event_first,
            netplay_count := (s.l_cin_compats q).netplay_count } := by
  intro us
  induction us with
  | nil => intro s; simp [delivered]
  | cons u us ih =>
    intro s
    rw [List.foldl_cons, ih, apply_update_cin]
    by_cases hq : q = u.player
    · subst hq
      simp [delivered, List.foldl_append]
    · have hq2 : ¬ u.player = q := fun h => hq h.symm
      simp [delivered, hq, hq2]

theorem ledger_insert_skip (c : Nat) (l : List netplay_event) (e : netplay_event)
    (h : is_stale e.count c ∨ e.count ∈ l.map netplay_event.count) :
    ledger_insert c l e = l := by
  unfold ledger_insert; rw [if_pos h]

theorem ledger_insert_new (c : Nat) (l : List netplay_event) (e : netplay_event)
    (h : ¬ (is_stale e.count c ∨ e.count ∈ l.map netplay_event.count)) :
    ledger_insert c l e = e :: l := by
  unfold ledger_insert; rw [if_neg h]

theorem ledger_insert_nodup (c : Nat) (l : List netplay_event) (e : netplay_event)
    (h : (l.map netplay_event.count).Nodup) :
    ((ledger_insert c l e).map netplay_event.count).Nodup := by
  unfold ledger_insert
  split
  · exact h
  · next hn =>
    simp only [not_or] at hn
    simp only [List.map_cons, List.nodup_cons]
    exact ⟨hn.2, h⟩

theorem foldl_ledger_insert_nodup (c : Nat) :
    ∀ (evs l : List netplay_event), (l.map netplay_event.count).Nodup →
      ((evs.foldl (ledger_insert c) l).map netplay_event.count).Nodup := by
  intro evs
  induction evs with
  | nil => intro l h; exact h
  | cons e evs ih => intro l h; exact ih _ (ledger_insert_nodup c l e h)

theorem foldl_ledger_insert_suffix (c : Nat) :
    ∀ (evs l : List netplay_event), ∃ added, evs.foldl (ledger_insert c) l = added ++ l ∧
      ∀ e ∈ added, e ∈ evs ∧ ¬ is_stale e.count c := by
  intro evs
  induction evs with
  | nil => intro l; exact ⟨[], rfl, by simp⟩
  | cons x evs ih =>
    intro l
    obtain ⟨added, h, hm⟩ := ih (ledger_insert c l x)
    by_cases hs : is_stale x.count c ∨ x.count ∈ l.map netplay_event.count
    · rw [ledger_insert_skip c l x hs] at h
      refine ⟨added, ?_, ?_⟩
      · rw [List.foldl_cons, ledger_insert_skip c l x hs, h]
      · intro e he; exact ⟨List.mem_cons_of_mem _ (hm e he).1, (hm e he).2⟩
    · rw [ledger_insert_new c l x hs] at h
      refine ⟨added ++ [x], ?_, ?_⟩
      · rw [List.foldl_cons, ledger_insert_new c l x hs, h, List.append_assoc,
          List.singleton_append]
      · intro e he
        rcases List.mem_append.1 he with he | he
        · exact ⟨List.mem_cons_of_mem _ (hm e he).1, (hm e he).2⟩
        · have : e = x := by simpa using he
          subst this
          exact ⟨List.mem_cons_self _ _, fun h => hs (Or.inl h)⟩

/-- After a run of inserts, the ledger holds the events it held before and, for every other
non-stale sequence number that was delivered, the first event delivered with it. -/
theorem foldl_ledger_insert_mem (c : Nat) (e : netplay_event) :
    ∀ (evs l : List netplay_event),
      e ∈ evs.foldl (ledger_insert c) l ↔
        e ∈ l ∨ (e.count ∉ l.map netplay_event.count ∧ ¬ is_stale e.count c ∧
          evs.find? (fun x => decide (x.count = e.count)) = some e) := by
  intro evs
  induction evs with
  | nil => intro l; simp
  | cons x evs ih =>
    intro l
    rw [List.foldl_cons, ih]
    unfold ledger_insert
    by_cases hs : is_stale x.count c ∨ x.count ∈ l.map netplay_event.count
    · rw [if_pos hs]
      by_cases hx : x.count = e.count
      · have hfalse : ¬ (e.count ∉ l.map netplay_event.count ∧ ¬ is_stale e.count c) := by
          rw [← hx]; tauto
        constructor
        · rintro (h | h)
          · exact Or.inl h
          · exact absurd ⟨h.1, h.2.1⟩ hfalse
        · rintro (h | h)
          · exact Or.inl h
          · exact absurd ⟨h.1, h.2.1⟩ hfalse
      · simp [List.find?_cons, hx]
    · rw [if_neg hs]
      simp only [not_or] at hs
      by_cases hx : x.count = e.count
      · simp only [List.find?_cons, hx, decide_True, Option.some.injEq, List.mem_cons,
          List.map_cons, not_or, not_true_eq_false, false_and, or_false]
        have hnl : e ∉ l := by
          intro hel
          apply hs.2
          rw [hx]
          exact List.mem_map_of_mem _ hel
        constructor
        · rintro (h | h)
          · subst h
            exact Or.inr ⟨hs.2, hs.1, rfl⟩
          · exact absurd h hnl
        · rintro (h | h)
          · exact absurd h hnl
          · exact Or.inl h.2.2.symm
      · have hne : e ≠ x := fun h => hx (by rw [h])
        have hne2 : ¬ e.count = x.count := fun h => hx h.symm
        simp [List.find?_cons, hx, hne, hne2]

theorem netplay_request_input_eq (s : Netplay) (i : Fin 4) :
    netplay_request_input s i.val = some (UDP_Send s
      ([UDP_REQUEST_KEY_INFO, i.val] ++ net_write32 s.l_reg_id
        ++ net_write32 (s.l_cin_compats i).netplay_count
        ++ [to_u8 s.l_spectator, (s.l_cin_compats i).event_first.length % 256])) := by
  simp [netplay_request_input, cin_val, buffer_size_val]

/-- The request and the fast-forward decision of `netplay_get_input` touch neither the ledgers nor
the counters, the controller table, the route, the receive queue, the log or the emulator
state. -/
theorem netplay_lag_policy_frame (s : Netplay) (i : Fin 4) :
    ∃ s3, netplay_lag_policy s i.val = some s3 ∧
      s3.l_cin_compats = s.l_cin_compats ∧ s3.Controls = s.Controls ∧
      s3.l_udpChannel = s.l_udpChannel ∧ s3.udp_in = s.udp_in ∧ s3.log = s.log ∧
      s3.emu_state = s.emu_state := by
  simp only [netplay_lag_policy, idx4_val, buffer_size_val, Option.bind_eq_bind,
    Option.some_bind]
  split
  · exact ⟨_, rfl, rfl, rfl, rfl, rfl, rfl, rfl⟩
  · exact ⟨_, rfl, rfl, rfl, rfl, rfl, rfl, rfl⟩

theorem request_lag_frame (s : Netplay) (i : Fin 4) :
    ∃ s2 s3, netplay_request_input s i.val = some s2 ∧ netplay_lag_policy s2 i.val = some s3 ∧
      s3.l_cin_compats = s.l_cin_compats ∧ s3.Controls = s.Controls ∧
      s3.l_udpChannel = s.l_udpChannel ∧ s3.udp_in = s.udp_in ∧ s3.log = s.log ∧
      s3.emu_state = s.emu_state := by
  obtain ⟨s3, h, h1, h2, h3, h4, h5, h6⟩ := netplay_lag_policy_frame (UDP_Send s
      ([UDP_REQUEST_KEY_INFO, i.val] ++ net_write32 s.l_reg_id
        ++ net_write32 (s.l_cin_compats i).netplay_count
        ++ [to_u8 s.l_spectator, (s.l_cin_compats i).event_first.length % 256])) i
  exact ⟨_, s3, netplay_request_input_eq s i, h, h1, h2, h3, h4, h5, h6⟩

theorem netplay_ensure_valid_ready (s : Netplay) (i : Fin 4) (ticks0 : Nat)
    (trace : List wait_event)
    (h : check_valid_list (s.l_cin_compats i).event_first (s.l_cin_compats i).netplay_count = true) :
    netplay_ensure_valid s i.val ticks0 trace = some (s, 1) := by
  simp [netplay_ensure_valid, cin_val, h]

theorem find_event_append (pre post : List netplay_event) (e : netplay_event) (c : Nat)
    (he : e.count = c) (hpre : ∀ x ∈ pre, x.count ≠ c) :
    find_event (pre ++ e :: post) c = some pre.length := by
  induction pre with
  | nil => simp [find_event, he]
  | cons a pre ih =>
    have ha : a.count ≠ c := hpre a (List.mem_cons_self _ _)
    have := ih (fun x hx => hpre x (List.mem_cons_of_mem _ hx))
    simp [find_event, ha, this]

theorem delete_event_splice_zero (l : List netplay_event) : delete_event_splice l 0 = l := by
  induction l with
  | nil => rfl
  | cons a l ih => simp [delete_event_splice, ih]

theorem delete_event_splice_append (e : netplay_event) (post : List netplay_event) :
    ∀ (a : netplay_event) (pre : List netplay_event),
      delete_event_splice (a :: pre ++ e :: post) (pre.length + 1) = a :: pre ++ post := by
  intro a pre
  induction pre generalizing a with
  | nil => simp [delete_event_splice]
  | cons b pre ih =>
    have := ih b
    simp only [List.cons_append, List.length_cons] at this ⊢
    rw [delete_event_splice]
    simp [this]

/-- Deleting the node at position `pre.length` removes exactly that node. -/
theorem netplay_delete_event_append (s : Netplay) (i : Fin 4) (pre post : List netplay_event)
    (e : netplay_event) (h : (s.l_cin_compats i).event_first = pre ++ e :: post) :
    netplay_delete_event s pre.length i.val = some (s.set_event_first i (pre ++ post)) := by
  simp only [netplay_delete_event, idx4_val, Option.bind_eq_bind, Option.some_bind, h]
  cases pre with
  | nil => simp [delete_event_splice_zero]
  | cons a pre =>
    have := delete_event_splice_append e post a pre
    simp only [List.cons_append] at this
    simp [this]

/-- The consume step of `netplay_get_input` on a ledger in which `e` is the first event
with the wanted sequence number. -/
theorem netplay_consume_found (s : Netplay) (i : Fin 4) (success : Int) (hs : success ≠ 0)
    (pre post : List netplay_event) (e : netplay_event)
    (h : (s.l_cin_compats i).event_first = pre ++ e :: post)
    (he : e.count = (s.l_cin_compats i).netplay_count)
    (hpre : ∀ x ∈ pre, x.count ≠ (s.l_cin_compats i).netplay_count) :
    netplay_consume s i.val success = some
      ({ s with
          Controls := Function.update s.Controls i
            { Present := (s.Controls i).Present, RawData := (s.Controls i).RawData,
              Plugin := (e.plugin : Int) },
          l_cin_compats := Function.update s.l_cin_compats i
            { event_first := pre ++ post,
              netplay_count := ((s.l_cin_compats i).netplay_count + 1) % 4294967296 } },
       e.buttons) := by
  have hfind := find_event_append pre post e _ he hpre
  rw [← h] at hfind
  have hget : (s.l_cin_compats i).event_first[pre.length]? = some e := by
    rw [h, getElem?_append_zero]; simp
  have hdel := netplay_delete_event_append
    { s with Controls := Function.update s.Controls i
                { Present := (s.Controls i).Present, RawData := (s.Controls i).RawData,
                  Plugin := (e.plugin : Int) } } i pre post e h
  simp only [netplay_consume, hs, ne_eq, not_false_eq_true, if_true, idx4_val,
    Option.bind_eq_bind, Option.some_bind, hfind, hget]
  rw [hdel, Option.some_bind]
  simp [Netplay.set_event_first]

/-- A call of `netplay_get_input` that finds the wanted event buffered after the drain step
consumes it. -/
theorem netplay_get_input_buffered (s s1 : Netplay) (i : Fin 4) (env : poll_env)
    (pre post : List netplay_event) (e : netplay_event)
    (h_drain : netplay_process s env.mem = some s1)
    (h_ledger : (s1.l_cin_compats i).event_first = pre ++ e :: post)
    (h_seq : e.count = (s1.l_cin_compats i).netplay_count)
    (h_first : ∀ x ∈ pre, x.count ≠ (s1.l_cin_compats i).netplay_count) :
    ∃ s4, netplay_get_input s i.val env = some (s4, e.buttons) ∧
      (s4.Controls i).Plugin = (e.plugin : Int) ∧
      (s4.l_cin_compats i).event_first = pre ++ post ∧
      (s4.l_cin_compats i).netplay_count
        = ((s1.l_cin_compats i).netplay_count + 1) % 4294967296 ∧
      (∀ q, q ≠ i → s4.l_cin_compats q = s1.l_cin_compats q) ∧
      (∀ q, q ≠ i → s4.Controls q = s1.Controls q) ∧
      (s4.Controls i).Present = (s1.Controls i).Present ∧
      (s4.Controls i).RawData = (s1.Controls i).RawData := by
  obtain ⟨s2, s3, hreq, hlag, hcin, hctl, -, -, -, -⟩ := request_lag_frame s1 i
  have h3 : (s3.l_cin_compats i).event_first = pre ++ e :: post := by rw [hcin]; exact h_ledger
  have hseq3 : e.count = (s3.l_cin_compats i).netplay_count := by rw [hcin]; exact h_seq
  have hfirst3 : ∀ x ∈ pre, x.count ≠ (s3.l_cin_compats i).netplay_count := by
    rw [hcin]; exact h_first
  have hvalid : check_valid_list (s3.l_cin_compats i).event_first
      (s3.l_cin_compats i).netplay_count = true := by
    rw [check_valid_list_iff, h3, ← hseq3]
    simp
  have hens := netplay_ensure_valid_ready s3 i env.ticks0 env.trace hvalid
  have hcons := netplay_consume_found s3 i 1 (by decide) pre post e h3 hseq3 hfirst3
  have hget : netplay_get_input s i.val env = netplay_consume s3 i.val 1 := by
    simp only [netplay_get_input, h_drain, hreq, hlag, hens, Option.bind_eq_bind,
      Option.some_bind]
  refine ⟨_, hget.trans hcons, ?_, ?_, ?_, ?_, ?_, ?_, ?_⟩
  · simp
  · simp
  · simp [hcin]
  · intro q hq; simp [Function.update_noteq hq, hcin]
  · intro q hq; simp [Function.update_noteq hq, hctl]
  · simp [hctl]
  · simp [hctl]

theorem ledgers_grow_refl (s : Netplay) : ledgers_grow s s :=
  fun _ => ⟨rfl, [], rfl⟩

theorem ledgers_grow_of_cin_eq {s s1 : Netplay} (h : s1.l_cin_compats = s.l_cin_compats) :
    ledgers_grow s s1 :=
  fun q => ⟨by rw [h], [], by rw [h]; rfl⟩

theorem ledgers_grow_trans {s s1 s2 : Netplay} (h1 : ledgers_grow s s1)
    (h2 : ledgers_grow s1 s2) : ledgers_grow s s2 := by
  intro q
  obtain ⟨c1, e1, he1⟩ := h1 q
  obtain ⟨c2, e2, he2⟩ := h2 q
  refine ⟨c2.trans c1, e1 ++ e2, ?_⟩
  rw [he2, he1, c1, List.foldl_append]

theorem netplay_process_events_grow (data : List Nat) (p : Fin 4) (n curr : Nat)
    (s s1 : Netplay) (h : netplay_process_events data p.val n curr s = some s1) :
    ledgers_grow s s1 := by
  obtain ⟨evs, -, hs⟩ := netplay_process_events_frame data p n curr s s1 h
  intro q
  by_cases hq : q = p
  · subst hq
    rw [hs, set_event_first_cin]
    exact ⟨rfl, evs, rfl⟩
  · rw [hs, set_event_first_cin_ne _ _ _ _ hq]
    exact ⟨rfl, [], rfl⟩

theorem netplay_process_events_zero_or_idx (data : List Nat) (player n curr : Nat)
    (s s1 : Netplay) (h : netplay_process_events data player n curr s = some s1) :
    s1 = s ∨ ∃ p : Fin 4, p.val = player := by
  cases n with
  | zero => left; simpa [netplay_process_events] using h.symm
  | succ n =>
    right
    cases hp : idx4 player with
    | none =>
      simp only [netplay_process_events, hp, Option.bind_eq_bind, Option.none_bind,
        Option.bind_none] at h
      cases hc : net_read32 data curr <;> simp [hc] at h
    | some p => exact ⟨p, idx4_eq_some hp⟩

theorem netplay_process_packet_grow (s s1 : Netplay) (data : List Nat)
    (h : netplay_process_packet s data = some s1) : ledgers_grow s s1 := by
  unfold netplay_process_packet at h
  simp only [Option.bind_eq_bind, Option.bind_eq_some] at h
  obtain ⟨tag, -, h⟩ := h
  by_cases htag : tag = UDP_RECEIVE_KEY_INFO ∨ tag = UDP_RECEIVE_KEY_INFO_GRATUITOUS
  · rw [if_pos htag] at h
    simp only [Option.bind_eq_some] at h
    obtain ⟨player, -, status, -, sa, hsa, n, -, hev⟩ := h
    have ha : sa.l_cin_compats = s.l_cin_compats := by
      split at hsa
      · simp only [Option.bind_eq_some, Option.some.injEq] at hsa
        obtain ⟨lag, -, p, -, rfl⟩ := hsa
        rfl
      · simp only [Option.some.injEq] at hsa
        rw [← hsa]
    have hb : ∀ sb : Netplay, sb.l_cin_compats = s.l_cin_compats →
        netplay_process_events data player n 5 sb = some s1 → ledgers_grow s s1 := by
      intro sb hsb hev
      rcases netplay_process_events_zero_or_idx data player n 5 sb s1 hev with h0 | ⟨p, hp⟩
      · rw [h0]; exact ledgers_grow_of_cin_eq hsb
      · subst hp
        exact ledgers_grow_trans (ledgers_grow_of_cin_eq hsb)
          (netplay_process_events_grow data p n 5 sb s1 hev)
    split at hev
    · exact hb _ (by exact ha) hev
    · exact hb _ ha hev
  · rw [if_neg htag] at h
    simp only [Option.some.injEq] at h
    exact ledgers_grow_of_cin_eq (by rw [← h])

theorem netplay_process_loop_grow :
    ∀ (q : List (List Nat)) (data : List Nat) (s s1 : Netplay),
      netplay_process_loop q data s = some s1 → ledgers_grow s s1 := by
  intro q
  induction q with
  | nil =>
    intro data s s1 h
    simp only [netplay_process_loop, Option.some.injEq] at h
    rw [← h]; exact ledgers_grow_refl s
  | cons d q ih =>
    intro data s s1 h
    simp only [netplay_process_loop, Option.bind_eq_bind, Option.bind_eq_some] at h
    obtain ⟨sa, hsa, hrest⟩ := h
    exact ledgers_grow_trans (netplay_process_packet_grow _ _ _ hsa) (ih _ _ _ hrest)

theorem netplay_process_grow (s s1 : Netplay) (mem : List Nat)
    (h : netplay_process s mem = some s1) : ledgers_grow s s1 :=
  @ledgers_grow_trans s { s with udp_in := [] } s1 (ledgers_grow_of_cin_eq rfl)
    (netplay_process_loop_grow _ _ _ _ h)

theorem netplay_request_input_cin (s s1 : Netplay) (control_id : Nat)
    (h : netplay_request_input s control_id = some s1) :
    s1.l_cin_compats = s.l_cin_compats ∧ s1.Controls = s.Controls ∧
    s1.l_udpChannel = s.l_udpChannel ∧ s1.udp_in = s.udp_in ∧ s1.log = s.log ∧
    s1.emu_state = s.emu_state := by
  simp only [netplay_request_input, Option.bind_eq_bind, Option.bind_eq_some,
    Option.some.injEq] at h
  obtain ⟨c, -, size, -, rfl⟩ := h
  exact ⟨rfl, rfl, rfl, rfl, rfl, rfl⟩

theorem wait_step_grow (control_id timeout : Nat) (s : Netplay) (main_done : Bool)
    (success : Option Int) (ev : wait_event) (st : Netplay × Bool × Option Int)
    (h : wait_step control_id timeout s main_done success ev = some st) :
    ledgers_grow s st.1 := by
  cases ev with
  | arrive d =>
    simp only [wait_step, Option.some.injEq] at h
    rw [← h]; exact ledgers_grow_of_cin_eq rfl
  | main mem =>
    simp only [wait_step] at h
    split at h
    · simp only [Option.some.injEq] at h
      rw [← h]; exact ledgers_grow_refl _
    · simp only [Option.bind_eq_bind, Option.bind_eq_some] at h
      obtain ⟨c, -, h⟩ := h
      split at h
      · simp only [Option.bind_eq_some, Option.some.injEq] at h
        obtain ⟨sa, hsa, rfl⟩ := h
        exact netplay_process_grow _ _ _ hsa
      · simp only [Option.some.injEq] at h
        rw [← h]; exact ledgers_grow_refl _
  | helper now =>
    simp only [wait_step] at h
    split at h
    · simp only [Option.some.injEq] at h
      rw [← h]; exact ledgers_grow_refl _
    · simp only [Option.bind_eq_bind, Option.bind_eq_some] at h
      obtain ⟨c, -, h⟩ := h
      split at h
      · split at h
        · simp only [Option.some.injEq] at h
          rw [← h]; exact ledgers_grow_of_cin_eq rfl
        · simp only [Option.bind_eq_some, Option.some.injEq] at h
          obtain ⟨sa, hsa, rfl⟩ := h
          exact ledgers_grow_of_cin_eq (netplay_request_input_cin _ _ _ hsa).1
      · simp only [Option.some.injEq] at h
        rw [← h]; exact ledgers_grow_refl _

/-- While the two threads of `netplay_ensure_valid` run, counters are kept and ledgers only
change by inserts. -/
theorem wait_threads_grow (control_id timeout : Nat) :
    ∀ (trace : List wait_event) (s : Netplay) (main_done : Bool) (success : Option Int)
      (s1 : Netplay) (r : Int),
      wait_threads control_id timeout trace s main_done success = some (s1, r) →
      ledgers_grow s s1 := by
  intro trace
  induction trace with
  | nil =>
    intro s md hr s1 r h
    simp only [wait_threads, Option.map_eq_some', Prod.mk.injEq] at h
    obtain ⟨_, -, rfl, -⟩ := h
    exact ledgers_grow_refl _
  | cons ev rest ih =>
    intro s md hr s1 r h
    simp only [wait_threads] at h
    split at h
    · simp only [Option.some.injEq, Prod.mk.injEq] at h
      rw [← h.1]; exact ledgers_grow_refl _
    · split at h
      · cases h
      · next st hst =>
        exact ledgers_grow_trans (wait_step_grow _ _ _ _ _ _ _ hst) (ih _ _ _ _ _ h)

theorem netplay_ensure_valid_grow (s s1 : Netplay) (control_id ticks0 : Nat)
    (trace : List wait_event) (r : Int)
    (h : netplay_ensure_valid s control_id ticks0 trace = some (s1, r)) :
    ledgers_grow s s1 := by
  simp only [netplay_ensure_valid, Option.bind_eq_bind, Option.bind_eq_some] at h
  obtain ⟨c, -, h⟩ := h
  split at h
  · simp only [Option.some.injEq, Prod.mk.injEq] at h
    rw [← h.1]; exact ledgers_grow_refl _
  · split at h
    · simp only [Option.some.injEq, Prod.mk.injEq] at h
      rw [← h.1]; exact ledgers_grow_refl _
    · exact wait_threads_grow _ _ _ _ _ _ _ _ h

theorem netplay_lag_policy_cin (s s1 : Netplay) (control_id : Nat)
    (h : netplay_lag_policy s control_id = some s1) :
    s1.l_cin_compats = s.l_cin_compats ∧ s1.Controls = s.Controls ∧
    s1.l_udpChannel = s.l_udpChannel ∧ s1.udp_in = s.udp_in ∧ s1.log = s.log ∧
    s1.emu_state = s.emu_state := by
  simp only [netplay_lag_policy, Option.bind_eq_bind, Option.bind_eq_some] at h
  obtain ⟨p, -, size, -, h⟩ := h
  split at h
  · simp only [Option.some.injEq] at h
    rw [← h]; exact ⟨rfl, rfl, rfl, rfl, rfl, rfl⟩
  · simp only [Option.some.injEq] at h
    rw [← h]; exact ⟨rfl, rfl, rfl, rfl, rfl, rfl⟩

theorem netplay_send_input_cin (s s1 : Netplay) (control_id keys : Nat)
    (h : netplay_send_input s control_id keys = some s1) :
    s1.l_cin_compats = s.l_cin_compats := by
  simp only [netplay_send_input, Option.bind_eq_bind, Option.bind_eq_some,
    Option.some.injEq] at h
  obtain ⟨c, -, p, -, rfl⟩ := h
  rfl

theorem netplay_delete_event_count (s s1 : Netplay) (k control_id : Nat)
    (h : netplay_delete_event s k control_id = some s1) (q : Fin 4) :
    (s1.l_cin_compats q).netplay_count = (s.l_cin_compats q).netplay_count := by
  simp only [netplay_delete_event, Option.bind_eq_bind, Option.bind_eq_some,
    Option.some.injEq] at h
  obtain ⟨p, -, rfl⟩ := h
  by_cases hq : q = p
  · subst hq; rw [set_event_first_cin]
  · rw [set_event_first_cin_ne _ _ _ _ hq]

/-- The consume step advances the counter of the slot by one, modulo `2^32`, when the wait
succeeded, and changes no counter otherwise. -/
theorem netplay_consume_count (s s1 : Netplay) (control_id keys : Nat) (success : Int)
    (h : netplay_consume s control_id success = some (s1, keys)) (q : Fin 4) :
    (s1.l_cin_compats q).netplay_count
      = if success ≠ 0 ∧ control_id = q.val
        then ((s.l_cin_compats q).netplay_count + 1) % 4294967296
        else (s.l_cin_compats q).netplay_count := by
  unfold netplay_consume at h
  split at h
  · next hs =>
    simp only [Option.bind_eq_bind, Option.bind_eq_some, Option.some.injEq, Prod.mk.injEq] at h
    obtain ⟨p, hp, k, -, current, -, sa, hsa, rfl, -⟩ := h
    have hc := netplay_delete_event_count _ _ _ _ hsa
    have hpv := idx4_eq_some hp
    by_cases hq : q = p
    · subst hq
      simp only [Function.update_same, hc, hs, hpv, ne_eq, not_false_eq_true, and_self, if_true]
    · have : ¬ control_id = q.val := by
        rw [← hpv]; intro h2; exact hq (Fin.ext h2.symm)
      simp only [Function.update_noteq hq, hc, this, and_false, if_false]
  · next hs =>
    simp only [Option.some.injEq, Prod.mk.injEq] at h
    have : ¬ (success ≠ 0 ∧ control_id = q.val) := fun h2 => hs h2.1
    rw [if_neg this, ← h.1]

theorem mem_delivered (p : Fin 4) (us : List update_datagram) (e : netplay_event) :
    e ∈ delivered p us ↔ ∃ u ∈ us, u.player = p ∧ e ∈ u.events := by
  simp only [delivered, List.mem_flatten, List.mem_map]
  constructor
  · rintro ⟨l, ⟨u, hu, rfl⟩, he⟩
    by_cases hp : u.player = p
    · rw [if_pos hp] at he; exact ⟨u, hu, hp, he⟩
    · rw [if_neg hp] at he; cases he
  · rintro ⟨u, hu, hp, he⟩
    exact ⟨_, ⟨u, hu, rfl⟩, by rw [if_pos hp]; exact he⟩

theorem apply_update_frame (s : Netplay) (u : update_datagram) :
    (apply_update s u).l_udpChannel = s.l_udpChannel ∧ (apply_update s u).udp_in = s.udp_in := by
  unfold apply_update
  by_cases ht : u.tag = UDP_RECEIVE_KEY_INFO <;> by_cases hst : u.status = s.l_status <;>
    simp [ht, hst, Netplay.set_event_first]

theorem foldl_apply_update_frame :
    ∀ (us : List update_datagram) (s : Netplay),
      (us.foldl apply_update s).l_udpChannel = s.l_udpChannel ∧
      (us.foldl apply_update s).udp_in = s.udp_in := by
  intro us
  induction us with
  | nil => intro s; exact ⟨rfl, rfl⟩
  | cons u us ih =>
    intro s
    rw [List.foldl_cons]
    exact ⟨(ih _).1.trans (apply_update_frame s u).1, (ih _).2.trans (apply_update_frame s u).2⟩

theorem waiting_not_valid (i : Fin 4) (c : Nat) (all : List update_datagram)
    (l0 : List netplay_event) (h0 : c ∉ l0.map netplay_event.count) (s : Netplay)
    (h : waiting i c all l0 s) :
    check_valid_list (s.l_cin_compats i).event_first (s.l_cin_compats i).netplay_count
      = false := by
  obtain ⟨hc, ⟨added, hl, hadd⟩, -⟩ := h
  rw [Bool.eq_false_iff]
  intro hv
  rw [check_valid_list_iff, hc, hl, List.map_append, List.mem_append] at hv
  rcases hv with hv | hv
  · obtain ⟨e, he, hec⟩ := List.mem_map.1 hv
    exact (hadd e he).2 hec
  · exact h0 hv

theorem waiting_arrive (i : Fin 4) (c : Nat) (all : List update_datagram)
    (l0 : List netplay_event) (s : Netplay) (h : waiting i c all l0 s) (u : update_datagram)
    (hu : u ∈ all) : waiting i c all l0 { s with udp_in := s.udp_in ++ [u.bytes] } := by
  obtain ⟨hc, hl, us, hq, hus⟩ := h
  refine ⟨hc, hl, us ++ [u], ?_, ?_⟩
  · simp [hq]
  · intro x hx
    rcases List.mem_append.1 hx with hx | hx
    · exact hus x hx
    · have : x = u := by simpa using hx
      rw [this]; exact hu

theorem waiting_of_frame (i : Fin 4) (c : Nat) (all : List update_datagram)
    (l0 : List netplay_event) (s s1 : Netplay) (h : waiting i c all l0 s)
    (h1 : s1.l_cin_compats = s.l_cin_compats) (h2 : s1.udp_in = s.udp_in) :
    waiting i c all l0 s1 := by
  unfold waiting at h ⊢
  rw [h1, h2]; exact h

theorem waiting_process (i : Fin 4) (c : Nat) (all : List update_datagram)
    (l0 : List netplay_event) (hall : ∀ u ∈ all, u.well_formed ∧ misses i c u)
    (s : Netplay) (h : waiting i c all l0 s) (mem : List Nat) :
    ∃ s1, netplay_process s mem = some s1 ∧ waiting i c all l0 s1 ∧
      s1.l_udpChannel = s.l_udpChannel := by
  obtain ⟨hc, ⟨added, hl, hadd⟩, us, hq, hus⟩ := h
  have hwf : ∀ u ∈ us, u.well_formed := fun u hu => (hall u (hus u hu)).1
  refine ⟨_, netplay_process_wf s mem us hq hwf, ⟨?_, ?_, ?_⟩, ?_⟩
  · rw [foldl_apply_update_cin]; exact hc
  · rw [foldl_apply_update_cin]
    obtain ⟨new, hnew, hmem⟩ := foldl_ledger_insert_suffix (s.l_cin_compats i).netplay_count
      (delivered i us) (s.l_cin_compats i).event_first
    refine ⟨new ++ added, ?_, ?_⟩
    · show List.foldl _ _ _ = _
      rw [hnew, hl, List.append_assoc]
    · intro e he
      rcases List.mem_append.1 he with he | he
      · have hd := (hmem e he).1
        obtain ⟨u, hu, hp, heu⟩ := (mem_delivered i us e).1 hd
        exact ⟨(mem_delivered i all e).2 ⟨u, hus u hu, hp, heu⟩,
          (hall u (hus u hu)).2 hp e heu⟩
      · exact hadd e he
  · exact ⟨[], by rw [(foldl_apply_update_frame us _).2]; rfl, by simp⟩
  · rw [(foldl_apply_update_frame us _).1]

theorem wait_step_main_closed (i : Fin 4) (timeout : Nat) (s : Netplay) (success : Option Int)
    (mem : List Nat) (hc : s.l_udpChannel = -1) :
    wait_step i.val timeout s false success (wait_event.main mem) = some (s, true, success) := by
  simp [wait_step, cin_val, hc]

theorem wait_step_main_open (i : Fin 4) (timeout : Nat) (s : Netplay) (success : Option Int)
    (mem : List Nat) (hc : s.l_udpChannel ≠ -1)
    (hv : check_valid_list (s.l_cin_compats i).event_first (s.l_cin_compats i).netplay_count
      = false) :
    wait_step i.val timeout s false success (wait_event.main mem)
      = (netplay_process s mem).bind (fun s1 => some (s1, false, success)) := by
  simp [wait_step, cin_val, hc, hv]

theorem wait_step_helper_timeout (i : Fin 4) (timeout : Nat) (s : Netplay) (main_done : Bool)
    (now : Nat) (hnow : now > timeout)
    (hv : check_valid_list (s.l_cin_compats i).event_first (s.l_cin_compats i).netplay_count
      = false) :
    wait_step i.val timeout s main_done none (wait_event.helper now)
      = some ({ s with l_udpChannel := -1 }, main_done, some 0) := by
  simp [wait_step, cin_val, hv, hnow]

theorem wait_step_helper_retry (i : Fin 4) (timeout : Nat) (s : Netplay) (main_done : Bool)
    (now : Nat) (hnow : ¬ now > timeout)
    (hv : check_valid_list (s.l_cin_compats i).event_first (s.l_cin_compats i).netplay_count
      = false) :
    wait_step i.val timeout s main_done none (wait_event.helper now)
      = (netplay_request_input s i.val).bind (fun s1 => some (s1, main_done, none)) := by
  simp [wait_step, cin_val, hv, hnow]

theorem wait_threads_cons_running (control_id timeout : Nat) (s : Netplay) (main_done : Bool)
    (success : Option Int) (ev : wait_event) (rest : List wait_event)
    (st : Netplay × Bool × Option Int) (hj : joined main_done success = none)
    (hstep : wait_step control_id timeout s main_done success ev = some st) :
    wait_threads control_id timeout (ev :: rest) s main_done success
      = wait_threads control_id timeout rest st.1 st.2.1 st.2.2 := by
  simp only [wait_threads, hj, hstep]

theorem joined_false (success : Option Int) : joined false success = none := rfl

theorem joined_none (main_done : Bool) : joined main_done none = none := by
  cases main_done <;> rfl

theorem wait_threads_joined (control_id timeout : Nat) (trace : List wait_event) (s : Netplay)
    (r : Int) : wait_threads control_id timeout trace s true (some r) = some (s, r) := by
  cases trace <;> simp [wait_threads, joined]

/-- Once the helper thread has given up, the wait ends at the next iteration of the calling
thread, with the failure value. -/
theorem wait_threads_after_timeout (i : Fin 4) (c timeout : Nat) (all : List update_datagram)
    (l0 : List netplay_event) :
    ∀ (tt : List update_event) (s : Netplay) (main_done : Bool),
      waiting i c all l0 s → s.l_udpChannel = -1 →
      (main_done = true ∨ ∃ mem, update_event.main mem ∈ tt) →
      (∀ u, update_event.arrive u ∈ tt → u ∈ all) →
      ∃ s1, wait_threads i.val timeout (tt.map update_event.raw) s main_done (some 0)
          = some (s1, 0) ∧ waiting i c all l0 s1 ∧ s1.l_udpChannel = -1 := by
  intro tt
  induction tt with
  | nil =>
    intro s md hw hc hmain _
    have hmd : md = true := by
      rcases hmain with h | ⟨mem, h⟩
      · exact h
      · cases h
    subst hmd
    exact ⟨s, wait_threads_joined _ _ _ _ _, hw, hc⟩
  | cons ev rest ih =>
    intro s md hw hc hmain harr
    cases md with
    | true => exact ⟨s, wait_threads_joined _ _ _ _ _, hw, hc⟩
    | false =>
      have harr2 : ∀ u, update_event.arrive u ∈ rest → u ∈ all :=
        fun u hu => harr u (List.mem_cons_of_mem _ hu)
      cases ev with
      | arrive u =>
        have hmain2 : false = true ∨ ∃ mem, update_event.main mem ∈ rest := by
          rcases hmain with h | ⟨mem, h⟩
          · cases h
          · right
            rcases List.mem_cons.1 h with h | h
            · cases h
            · exact ⟨mem, h⟩
        obtain ⟨s1, h1, h2, h3⟩ := ih _ false
          (waiting_arrive i c all l0 s hw u (harr u (List.mem_cons_self _ _))) hc hmain2 harr2
        refine ⟨s1, ?_, h2, h3⟩
        rw [List.map_cons, update_event.raw,
          wait_threads_cons_running i.val timeout s false (some 0) (wait_event.arrive u.bytes) _
            ({ s with udp_in := s.udp_in ++ [u.bytes] }, false, some 0) (joined_false _) rfl]
        exact h1
      | main mem =>
        obtain ⟨s1, h1, h2, h3⟩ := ih s true hw hc (Or.inl rfl) harr2
        refine ⟨s1, ?_, h2, h3⟩
        rw [List.map_cons, update_event.raw,
          wait_threads_cons_running i.val timeout s false (some 0) (wait_event.main mem) _
            (s, true, some 0) (joined_false _) (wait_step_main_closed i timeout s (some 0) mem hc)]
        exact h1
      | helper now =>
        have hmain2 : false = true ∨ ∃ mem, update_event.main mem ∈ rest := by
          rcases hmain with h | ⟨mem, h⟩
          · cases h
          · right
            rcases List.mem_cons.1 h with h | h
            · cases h
            · exact ⟨mem, h⟩
        obtain ⟨s1, h1, h2, h3⟩ := ih s false hw hc hmain2 harr2
        refine ⟨s1, ?_, h2, h3⟩
        rw [List.map_cons, update_event.raw,
          wait_threads_cons_running i.val timeout s false (some 0) (wait_event.helper now) _
            (s, false, some 0) (joined_false _) rfl]
        exact h1

/-- If the event never arrives, the helper thread gives up at its first iteration past the
deadline and the wait ends with the failure value. -/
theorem wait_threads_timeout (i : Fin 4) (c timeout : Nat) (all : List update_datagram)
    (l0 : List netplay_event) (hall : ∀ u ∈ all, u.well_formed ∧ misses i c u)
    (h0 : c ∉ l0.map netplay_event.count)
    (now : Nat) (hnow : now > timeout) (t2 : List update_event)
    (hmain : ∃ mem, update_event.main mem ∈ t2) :
    ∀ (t1 : List update_event) (s : Netplay),
      waiting i c all l0 s → s.l_udpChannel ≠ -1 →
      (∀ u, update_event.arrive u ∈ t1 ++ update_event.helper now :: t2 → u ∈ all) →
      ∃ s1, wait_threads i.val timeout
          ((t1 ++ update_event.helper now :: t2).map update_event.raw) s false none
          = some (s1, 0) ∧ waiting i c all l0 s1 ∧ s1.l_udpChannel = -1 := by
  intro t1
  induction t1 with
  | nil =>
    intro s hw hc harr
    have hv := waiting_not_valid i c all l0 h0 s hw
    have hw2 : waiting i c all l0 { s with l_udpChannel := -1 } :=
      waiting_of_frame i c all l0 s _ hw rfl rfl
    obtain ⟨s1, h1, h2, h3⟩ := wait_threads_after_timeout i c timeout all l0 t2
      { s with l_udpChannel := -1 } false hw2 rfl (Or.inr hmain)
      (fun u hu => harr u (List.mem_cons_of_mem _ hu))
    refine ⟨s1, ?_, h2, h3⟩
    rw [List.nil_append, List.map_cons, update_event.raw,
      wait_threads_cons_running i.val timeout s false none (wait_event.helper now) _
        ({ s with l_udpChannel := -1 }, false, some 0) (joined_false _)
        (wait_step_helper_timeout i timeout s false now hnow hv)]
    exact h1
  | cons ev rest ih =>
    intro s hw hc harr
    have hv := waiting_not_valid i c all l0 h0 s hw
    have harr2 : ∀ u, update_event.arrive u ∈ rest ++ update_event.helper now :: t2 → u ∈ all :=
      fun u hu => harr u (List.mem_cons_of_mem _ hu)
    cases ev with
    | arrive u =>
      obtain ⟨s1, h1, h2, h3⟩ := ih _
        (waiting_arrive i c all l0 s hw u (harr u (List.mem_cons_self _ _))) hc harr2
      refine ⟨s1, ?_, h2, h3⟩
      rw [List.cons_append, List.map_cons, update_event.raw,
        wait_threads_cons_running i.val timeout s false none (wait_event.arrive u.bytes) _
          ({ s with udp_in := s.udp_in ++ [u.bytes] }, false, none) (joined_false _) rfl]
      exact h1
    | main mem =>
      obtain ⟨sa, hsa, hwa, hca⟩ := waiting_process i c all l0 hall s hw mem
      obtain ⟨s1, h1, h2, h3⟩ := ih sa hwa (by rw [hca]; exact hc) harr2
      refine ⟨s1, ?_, h2, h3⟩
      rw [List.cons_append, List.map_cons, update_event.raw,
        wait_threads_cons_running i.val timeout s false none (wait_event.main mem) _
          (sa, false, none) (joined_false _)
          (by rw [wait_step_main_open i timeout s none mem hc hv, hsa]; rfl)]
      exact h1
    | helper now1 =>
      by_cases hn : now1 > timeout
      · have hw2 : waiting i c all l0 { s with l_udpChannel := -1 } :=
          waiting_of_frame i c all l0 s _ hw rfl rfl
        have hmain2 : ∃ mem, update_event.main mem ∈ rest ++ update_event.helper now :: t2 := by
          obtain ⟨mem, hm⟩ := hmain
          exact ⟨mem, List.mem_append_right _ (List.mem_cons_of_mem _ hm)⟩
        obtain ⟨s1, h1, h2, h3⟩ := wait_threads_after_timeout i c timeout all l0
          (rest ++ update_event.helper now :: t2) { s with l_udpChannel := -1 } false hw2 rfl
          (Or.inr hmain2) harr2
        refine ⟨s1, ?_, h2, h3⟩
        rw [List.cons_append, List.map_cons, update_event.raw,
          wait_threads_cons_running i.val timeout s false none (wait_event.helper now1) _
            ({ s with l_udpChannel := -1 }, false, some 0) (joined_false _)
            (wait_step_helper_timeout i timeout s false now1 hn hv)]
        exact h1
      · obtain ⟨fr1, -, fr3, fr4, -, -⟩ := netplay_request_input_cin s _ i.val
          (netplay_request_input_eq s i)
        obtain ⟨s1, h1, h2, h3⟩ := ih _ (waiting_of_frame i c all l0 s _ hw fr1 fr4)
          (by rw [fr3]; exact hc) harr2
        refine ⟨s1, ?_, h2, h3⟩
        rw [List.cons_append, List.map_cons, update_event.raw,
          wait_threads_cons_running i.val timeout s false none (wait_event.helper now1) _
            (_, false, none) (joined_false _)
            (by rw [wait_step_helper_retry i timeout s false now1 hn hv,
              netplay_request_input_eq s i]; rfl)]
        exact h1

theorem mem_arrivals (u : update_datagram) :
    ∀ tt : List update_event, update_event.arrive u ∈ tt ↔ u ∈ arrivals tt := by
  intro tt
  induction tt with
  | nil => simp [arrivals]
  | cons ev rest ih =>
    cases ev with
    | arrive v => simp [arrivals, ih]
    | main mem => simp [arrivals, ih]
    | helper now => simp [arrivals, ih]

theorem foldl_ledger_insert_present (c : Nat) :
    ∀ (evs l : List netplay_event), (∀ e ∈ evs, e.count ∈ l.map netplay_event.count) →
      evs.foldl (ledger_insert c) l = l := by
  intro evs
  induction evs with
  | nil => intro l _; rfl
  | cons x evs ih =>
    intro l h
    rw [List.foldl_cons, ledger_insert_skip c l x (Or.inr (h x (List.mem_cons_self _ _)))]
    exact ih l (fun e he => h e (List.mem_cons_of_mem _ he))

theorem cin_ext (a b : controller_input_compat) (h1 : a.event_first = b.event_first)
    (h2 : a.netplay_count = b.netplay_count) : a = b := by
  cases a; cases b; simp only at h1 h2; rw [h1, h2]

theorem net_read32_some (data : List Nat) (curr : Nat) (h : curr + 3 < data.length) :
    ∃ v, net_read32 data curr = some v := by
  have h0 : curr < data.length := by omega
  have h1 : curr + 1 < data.length := by omega
  have h2 : curr + 2 < data.length := by omega
  simp [net_read32, List.getElem?_eq_getElem h0, List.getElem?_eq_getElem h1,
    List.getElem?_eq_getElem h2, List.getElem?_eq_getElem h]

/-- The event loop returns whenever the events it is told to read lie inside the buffer. -/
theorem netplay_process_events_total (data : List Nat) (p : Fin 4) :
    ∀ (n curr : Nat) (s : Netplay), curr + 9 * n ≤ data.length →
      ∃ s1, netplay_process_events data p.val n curr s = some s1 := by
  intro n
  induction n with
  | zero => intro curr s _; exact ⟨s, rfl⟩
  | succ n ih =>
    intro curr s h
    obtain ⟨count, hc⟩ := net_read32_some data curr (by omega)
    obtain ⟨keys, hk⟩ := net_read32_some data (curr + 4) (by omega)
    have hp : curr + 8 < data.length := by omega
    simp only [netplay_process_events, hc, hk, idx4_val, Option.bind_eq_bind, Option.some_bind,
      List.getElem?_eq_getElem hp]
    split
    · exact ih _ _ (by omega)
    · exact ih _ _ (by omega)

/-- A packet that starts with the five header bytes of an update and is long enough for the
events it announces is decoded without a fault, whatever its bytes are. -/
theorem netplay_process_packet_decodes (s : Netplay) (p : Fin 4) (tag status lag n : Nat)
    (rest : List Nat) (h_tag : tag = 1 ∨ tag = 3) (h_n : 9 * n ≤ rest.length) :
    ∃ s1, netplay_process_packet s ([tag, p.val, status, lag, n] ++ rest) = some s1 ∧
      s1.l_status = status ∧
      s1.l_player_lag = (if tag = 1 then Function.update s.l_player_lag p lag
        else s.l_player_lag) ∧
      ledgers_grow s s1 := by
  have key : ∀ sb : Netplay, ∃ s1,
      netplay_process_events ([tag, p.val, status, lag, n] ++ rest) p.val n 5 sb = some s1 ∧
      s1.l_status = sb.l_status ∧ s1.l_player_lag = sb.l_player_lag := by
    intro sb
    obtain ⟨s1, h1⟩ := netplay_process_events_total ([tag, p.val, status, lag, n] ++ rest) p n 5
      sb (by simp; omega)
    obtain ⟨evs, -, hs⟩ := netplay_process_events_frame _ p n 5 sb s1 h1
    exact ⟨s1, h1, by rw [hs]; rfl, by rw [hs]; rfl⟩
  have htag2 : tag = UDP_RECEIVE_KEY_INFO ∨ tag = UDP_RECEIVE_KEY_INFO_GRATUITOUS := h_tag
  have hpk : ∀ s1, netplay_process_packet s ([tag, p.val, status, lag, n] ++ rest) = some s1 →
      ledgers_grow s s1 := fun s1 h => netplay_process_packet_grow s s1 _ h
  unfold netplay_process_packet at hpk ⊢
  simp only [List.cons_append, List.nil_append, List.getElem?_cons_zero, List.getElem?_cons_succ,
    Option.bind_eq_bind, Option.some_bind, if_pos htag2, idx4_val] at hpk ⊢
  by_cases ht : tag = UDP_RECEIVE_KEY_INFO <;> by_cases hst : status = s.l_status
  · obtain ⟨s1, h1, h2, h3⟩ := key
      { s with l_player_lag := Function.update s.l_player_lag p lag }
    have ht1 : tag = 1 := ht
    simp only [ht, if_true, Option.some_bind, hst, ne_eq, not_true_eq_false, if_false,
      List.cons_append, List.nil_append] at h1 hpk ⊢
    exact ⟨s1, h1, by rw [h2], by rw [h3]; rfl, hpk s1 h1⟩
  · obtain ⟨s1, h1, h2, h3⟩ := key
      { s with l_player_lag := Function.update s.l_player_lag p lag,
               log := s.log ++ status_logs status s.l_status s.l_vi_counter,
               l_status := status }
    simp only [ht, if_true, Option.some_bind, hst, ne_eq, not_false_eq_true,
      List.cons_append, List.nil_append] at h1 hpk ⊢
    exact ⟨s1, h1, h2, by rw [h3]; rfl, hpk s1 h1⟩
  · obtain ⟨s1, h1, h2, h3⟩ := key s
    have ht1 : ¬ tag = 1 := ht
    simp only [ht, if_false, Option.some_bind, hst, ne_eq, not_true_eq_false,
      List.cons_append, List.nil_append] at h1 hpk ⊢
    exact ⟨s1, h1, by rw [h2], by rw [h3, if_neg ht1], hpk s1 h1⟩
  · obtain ⟨s1, h1, h2, h3⟩ := key
      { s with log := s.log ++ status_logs status s.l_status s.l_vi_counter,
               l_status := status }
    have ht1 : ¬ tag = 1 := ht
    simp only [ht, if_false, Option.some_bind, hst, ne_eq, not_false_eq_true, if_true,
      List.cons_append, List.nil_append] at h1 hpk ⊢
    exact ⟨s1, h1, h2, by rw [h3, if_neg ht1], hpk s1 h1⟩

theorem netplay_process_empty (s : Netplay) (mem : List Nat) (h : s.udp_in = []) :
    netplay_process s mem = some s := by
  unfold netplay_process
  rw [h]
  simp only [netplay_process_loop]
  congr 1
  cases s
  simp only at h
  subst h
  rfl

/-- Once the wanted event is buffered, the wait ends with the success value as soon as both
threads have run once more; the ledgers, counters and the controller table stay as they
are. -/
theorem wait_threads_valid (i : Fin 4) (timeout : Nat) :
    ∀ (t3 : List wait_event) (s : Netplay) (main_done : Bool) (success : Option Int),
      check_valid_list (s.l_cin_compats i).event_first (s.l_cin_compats i).netplay_count = true →
      (success = none ∨ success = some 1) →
      (main_done = true ∨ ∃ m, wait_event.main m ∈ t3) →
      (success = some 1 ∨ ∃ now, wait_event.helper now ∈ t3) →
      ∃ s1, wait_threads i.val timeout t3 s main_done success = some (s1, 1) ∧
        s1.l_cin_compats = s.l_cin_compats ∧ s1.Controls = s.Controls := by
  intro t3
  induction t3 with
  | nil =>
    intro s md hr _ _ hmain hhelper
    have hmd : md = true := by
      rcases hmain with h | ⟨m, h⟩
      · exact h
      · cases h
    have hhr : hr = some 1 := by
      rcases hhelper with h | ⟨m, h⟩
      · exact h
      · cases h
    subst hmd; subst hhr
    exact ⟨s, wait_threads_joined _ _ _ _ _, rfl, rfl⟩
  | cons ev rest ih =>
    intro s md hr hv hhr hmain hhelper
    by_cases hdone : md = true ∧ hr = some 1
    · obtain ⟨hmd, hhr1⟩ := hdone
      subst hmd; subst hhr1
      exact ⟨s, wait_threads_joined _ _ _ _ _, rfl, rfl⟩
    · have hj : joined md hr = none := by
        cases md with
        | false => rfl
        | true =>
          rcases hhr with h | h
          · subst h; rfl
          · exact absurd ⟨rfl, h⟩ hdone
      cases ev with
      | arrive d =>
        have hmain2 : md = true ∨ ∃ m, wait_event.main m ∈ rest := by
          rcases hmain with h | ⟨m, h⟩
          · exact Or.inl h
          · rcases List.mem_cons.1 h with h | h
            · cases h
            · exact Or.inr ⟨m, h⟩
        have hhelper2 : hr = some 1 ∨ ∃ now, wait_event.helper now ∈ rest := by
          rcases hhelper with h | ⟨m, h⟩
          · exact Or.inl h
          · rcases List.mem_cons.1 h with h | h
            · cases h
            · exact Or.inr ⟨m, h⟩
        obtain ⟨s1, h1, h2, h3⟩ := ih { s with udp_in := s.udp_in ++ [d] } md hr hv hhr
          hmain2 hhelper2
        refine ⟨s1, ?_, h2, h3⟩
        rw [wait_threads_cons_running i.val timeout s md hr (wait_event.arrive d) rest
          ({ s with udp_in := s.udp_in ++ [d] }, md, hr) hj rfl]
        exact h1
      | main mem =>
        have hhelper2 : hr = some 1 ∨ ∃ now, wait_event.helper now ∈ rest := by
          rcases hhelper with h | ⟨m, h⟩
          · exact Or.inl h
          · rcases List.mem_cons.1 h with h | h
            · cases h
            · exact Or.inr ⟨m, h⟩
        obtain ⟨s1, h1, h2, h3⟩ := ih s true hr hv hhr (Or.inl rfl) hhelper2
        refine ⟨s1, ?_, h2, h3⟩
        rw [wait_threads_cons_running i.val timeout s md hr (wait_event.main mem) rest
          (s, true, hr) hj (by cases md <;> simp [wait_step, cin_val, hv])]
        exact h1
      | helper now =>
        have hmain2 : md = true ∨ ∃ m, wait_event.main m ∈ rest := by
          rcases hmain with h | ⟨m, h⟩
          · exact Or.inl h
          · rcases List.mem_cons.1 h with h | h
            · cases h
            · exact Or.inr ⟨m, h⟩
        obtain ⟨s1, h1, h2, h3⟩ := ih s md (some 1) hv (Or.inr rfl) hmain2 (Or.inl rfl)
        refine ⟨s1, ?_, h2, h3⟩
        rw [wait_threads_cons_running i.val timeout s md hr (wait_event.helper now) rest
          (s, md, some 1) hj (by rcases hhr with h | h <;> subst h <;>
            simp [wait_step, cin_val, hv])]
        exact h1

/-- While nothing arrives and the deadline has not passed, the wait only sends requests. -/
theorem wait_threads_quiet (i : Fin 4) (timeout : Nat) (rest : List wait_event) :
    ∀ (t1 : List wait_event) (s : Netplay),
      (∀ ev ∈ t1, quiet timeout ev) → s.udp_in = [] → s.l_udpChannel ≠ -1 →
      check_valid_list (s.l_cin_compats i).event_first (s.l_cin_compats i).netplay_count
        = false →
      ∃ s1, wait_threads i.val timeout (t1 ++ rest) s false none
          = wait_threads i.val timeout rest s1 false none ∧
        s1.l_cin_compats = s.l_cin_compats ∧ s1.udp_in = [] ∧
        s1.l_udpChannel = s.l_udpChannel := by
  intro t1
  induction t1 with
  | nil => intro s _ hq _ _; exact ⟨s, rfl, rfl, hq, rfl⟩
  | cons ev t1 ih =>
    intro s hquiet hq hc hv
    have hquiet2 : ∀ x ∈ t1, quiet timeout x := fun x hx => hquiet x (List.mem_cons_of_mem _ hx)
    have hev := hquiet ev (List.mem_cons_self _ _)
    cases ev with
    | arrive d => exact absurd hev (by simp [quiet])
    | main mem =>
      obtain ⟨s1, h1, h2, h3, h4⟩ := ih s hquiet2 hq hc hv
      refine ⟨s1, ?_, h2, h3, h4⟩
      rw [List.cons_append, wait_threads_cons_running i.val timeout s false none
        (wait_event.main mem) _ (s, false, none) (joined_false _)
        (by rw [wait_step_main_open i timeout s none mem hc hv, netplay_process_empty s mem hq];
            rfl)]
      exact h1
    | helper now =>
      have hn : ¬ now > timeout := by
        have : now ≤ timeout := hev
        omega
      obtain ⟨fr1, -, fr3, fr4, -, -⟩ := netplay_request_input_cin s _ i.val
        (netplay_request_input_eq s i)
      obtain ⟨s1, h1, h2, h3, h4⟩ := ih _ hquiet2 (fr4.trans hq) (by rw [fr3]; exact hc)
        (by rw [fr1]; exact hv)
      refine ⟨s1, ?_, h2.trans fr1, h3, h4.trans fr3⟩
      rw [List.cons_append, wait_threads_cons_running i.val timeout s false none
        (wait_event.helper now) _ (_, false, none) (joined_false _)
        (by rw [wait_step_helper_retry i timeout s false now hn hv,
          netplay_request_input_eq s i]; rfl)]
      exact h1

/-- While only the helper thread runs, before its deadline, the wait only sends requests. -/
theorem wait_threads_retry (i : Fin 4) (timeout : Nat) (rest : List wait_event) :
    ∀ (t2 : List wait_event) (s : Netplay),
      (∀ ev ∈ t2, retry_only timeout ev) →
      check_valid_list (s.l_cin_compats i).event_first (s.l_cin_compats i).netplay_count
        = false →
      ∃ s1, wait_threads i.val timeout (t2 ++ rest) s false none
          = wait_threads i.val timeout rest s1 false none ∧
        s1.l_cin_compats = s.l_cin_compats ∧ s1.udp_in = s.udp_in ∧
        s1.l_udpChannel = s.l_udpChannel := by
  intro t2
  induction t2 with
  | nil => intro s _ _; exact ⟨s, rfl, rfl, rfl, rfl⟩
  | cons ev t2 ih =>
    intro s hretry hv
    have hretry2 : ∀ x ∈ t2, retry_only timeout x :=
      fun x hx => hretry x (List.mem_cons_of_mem _ hx)
    have hev := hretry ev (List.mem_cons_self _ _)
    cases ev with
    | arrive d => exact absurd hev (by simp [retry_only])
    | main mem => exact absurd hev (by simp [retry_only])
    | helper now =>
      have hn : ¬ now > timeout := by
        have : now ≤ timeout := hev
        omega
      obtain ⟨fr1, -, fr3, fr4, -, -⟩ := netplay_request_input_cin s _ i.val
        (netplay_request_input_eq s i)
      obtain ⟨s1, h1, h2, h3, h4⟩ := ih _ hretry2 (by rw [fr1]; exact hv)
      refine ⟨s1, ?_, h2.trans fr1, h3.trans fr4, h4.trans fr3⟩
      rw [List.cons_append, wait_threads_cons_running i.val timeout s false none
        (wait_event.helper now) _ (_, false, none) (joined_false _)
        (by rw [wait_step_helper_retry i timeout s false now hn hv,
          netplay_request_input_eq s i]; rfl)]
      exact h1

/-- Draining a queue that holds the one datagram with the wanted event into an empty ledger. -/
theorem netplay_process_single (s : Netplay) (i : Fin 4) (c b p status lag : Nat)
    (mem : List Nat) (hc : c < 4294967296) (hb : b < 4294967296)
    (h_empty : (s.l_cin_compats i).event_first = [])
    (h_counter : (s.l_cin_compats i).netplay_count = c)
    (h_queue : s.udp_in
      = [[1, i.val, status, lag, 1] ++ net_write32 c ++ net_write32 b ++ [p]]) :
    ∃ s1, netplay_process s mem = some s1 ∧
      s1.l_cin_compats i = { event_first := [⟨c, b, p⟩], netplay_count := c } := by
  have hwf : ∀ u ∈ [(⟨1, i, status, lag, [⟨c, b, p⟩]⟩ : update_datagram)], u.well_formed := by
    intro u hu
    have : u = ⟨1, i, status, lag, [⟨c, b, p⟩]⟩ := by simpa using hu
    subst this
    refine ⟨Or.inl rfl, by simp, ?_⟩
    intro e he
    have : e = ⟨c, b, p⟩ := by simpa using he
    subst this
    exact ⟨hc, hb⟩
  have hq : s.udp_in = [(⟨1, i, status, lag, [⟨c, b, p⟩]⟩ : update_datagram)].map
      update_datagram.bytes := by
    rw [h_queue]
    simp [update_datagram.bytes, encode_event]
  have hns : ¬ is_stale c c := by
    unfold is_stale u32_sub UINT32_MAX
    omega
  refine ⟨_, netplay_process_wf s mem _ hq hwf, ?_⟩
  rw [foldl_apply_update_cin]
  simp only [delivered, List.map_cons, List.map_nil, if_true, List.flatten_cons,
    List.flatten_nil, List.append_nil, List.foldl_cons, List.foldl_nil, h_empty, h_counter]
  rw [ledger_insert_new]
  simp [hns]

/-- A call of `netplay_get_input` during whose wait the datagram with the wanted event arrives. -/
theorem netplay_get_input_answered (s : Netplay) (i : Fin 4) (c b p status lag : Nat)
    (env : poll_env) (hc : c < 4294967296) (hb : b < 4294967296)
    (h_empty : (s.l_cin_compats i).event_first = [])
    (h_counter : (s.l_cin_compats i).netplay_count = c)
    (h_queue : s.udp_in = []) (h_route : s.l_udpChannel ≠ -1)
    (t1 t2 : List wait_event) (mem : List Nat) (t3 : List wait_event)
    (h_trace : env.trace = t1 ++ wait_event.arrive
      ([1, i.val, status, lag, 1] ++ net_write32 c ++ net_write32 b ++ [p])
        :: (t2 ++ wait_event.main mem :: t3))
    (h1 : ∀ ev ∈ t1, quiet env.deadline ev) (h2 : ∀ ev ∈ t2, retry_only env.deadline ev)
    (h3 : ∃ m, wait_event.main m ∈ t3) (h4 : ∃ now, wait_event.helper now ∈ t3) :
    ∃ s4, netplay_get_input s i.val env = some (s4, b) ∧
      (s4.Controls i).Plugin = (p : Int) ∧
      (s4.l_cin_compats i).netplay_count = (c + 1) % 4294967296 ∧
      (s4.l_cin_compats i).event_first = [] := by
  obtain ⟨sb, sc, hsb, hsc, f1, -, f3, f4, -, -⟩ := request_lag_frame s i
  have hv : check_valid_list (sc.l_cin_compats i).event_first
      (sc.l_cin_compats i).netplay_count = false := by
    rw [f1, h_empty]; rfl
  have hch : sc.l_udpChannel ≠ -1 := by rw [f3]; exact h_route
  obtain ⟨sd, hd, d1, d2, d3⟩ := wait_threads_quiet i env.deadline
    (wait_event.arrive ([1, i.val, status, lag, 1] ++ net_write32 c ++ net_write32 b ++ [p])
      :: (t2 ++ wait_event.main mem :: t3)) t1 sc h1 (f4.trans h_queue) hch hv
  have hvd : check_valid_list (sd.l_cin_compats i).event_first
      (sd.l_cin_compats i).netplay_count = false := by rw [d1]; exact hv
  obtain ⟨se, he, e1, e2, e3⟩ := wait_threads_retry i env.deadline (wait_event.main mem :: t3) t2
    { sd with udp_in := sd.udp_in ++
        [[1, i.val, status, lag, 1] ++ net_write32 c ++ net_write32 b ++ [p]] }
    h2 hvd
  have hve : check_valid_list (se.l_cin_compats i).event_first
      (se.l_cin_compats i).netplay_count = false := by rw [e1]; exact hvd
  have hche : se.l_udpChannel ≠ -1 := by rw [e3]; show sd.l_udpChannel ≠ -1; rw [d3]; exact hch
  have hcine : se.l_cin_compats i = s.l_cin_compats i := by
    rw [e1]; show sd.l_cin_compats i = _; rw [d1, f1]
  obtain ⟨sf, hf, hfc⟩ := netplay_process_single se i c b p status lag mem hc hb
    (by rw [hcine]; exact h_empty) (by rw [hcine]; exact h_counter)
    (by rw [e2]; show sd.udp_in ++ _ = _; rw [d2]; rfl)
  have hvf : check_valid_list (sf.l_cin_compats i).event_first
      (sf.l_cin_compats i).netplay_count = true := by
    rw [hfc]; simp [check_valid_list]
  obtain ⟨sg, hg, g1, -⟩ := wait_threads_valid i env.deadline t3 sf false none hvf (Or.inl rfl)
    (Or.inr h3) (Or.inr h4)
  have hwait : wait_threads i.val env.deadline env.trace sc false none = some (sg, 1) := by
    rw [h_trace, hd, wait_threads_cons_running i.val env.deadline sd false none
      (wait_event.arrive _) _ (_, false, none) (joined_false _) rfl, he,
      wait_threads_cons_running i.val env.deadline se false none (wait_event.main mem) _
        (sf, false, none) (joined_false _)
        (by rw [wait_step_main_open i env.deadline se none mem hche hve, hf]; rfl)]
    exact hg
  have hens : netplay_ensure_valid sc i.val env.ticks0 env.trace = some (sg, 1) := by
    simp only [netplay_ensure_valid, cin_val, hv, hch, Option.bind_eq_bind, Option.some_bind,
      Bool.false_eq_true, if_false]
    exact hwait
  have hcg : sg.l_cin_compats i = { event_first := [⟨c, b, p⟩], netplay_count := c } := by
    rw [g1, hfc]
  have hcons := netplay_consume_found sg i 1 (by decide) [] [] ⟨c, b, p⟩
    (by rw [hcg]; rfl) (by rw [hcg]) (by simp)
  have hget : netplay_get_input s i.val env = netplay_consume sg i.val 1 := by
    simp only [netplay_get_input, netplay_process_empty s env.mem h_queue, hsb, hsc, hens,
      Option.bind_eq_bind, Option.some_bind]
  refine ⟨_, hget.trans hcons, ?_, ?_, ?_⟩
  · simp
  · simp [hcg]
  · simp

theorem and_two_pow_eq_iff (a b k : Nat) :
    a &&& 2 ^ k = b &&& 2 ^ k ↔ a.testBit k = b.testBit k := by
  constructor
  · intro h
    have := congrArg (fun x => Nat.testBit x k) h
    simpa [Nat.testBit_and, Nat.testBit_two_pow_self] using this
  · intro h
    apply Nat.eq_of_testBit_eq
    intro j
    simp only [Nat.testBit_and, Nat.testBit_two_pow]
    by_cases hj : k = j
    · subst hj; simp [h]
    · simp [hj]

theorem status_bit_flipped (status mask k : Nat) :
    (((status &&& (1 <<< k)) ^^^ (mask &&& (1 <<< k))) ≠ 0) ↔ bit_flipped status mask k = true := by
  rw [Nat.one_shiftLeft, Ne, Nat.xor_eq_zero, and_two_pow_eq_iff]
  simp [bit_flipped]

theorem status_logs_eq (status mask vi : Nat) :
    status_logs status mask vi
      = (if bit_flipped status mask 0 then [log_message.desync vi] else [])
        ++ ([1, 2, 3, 4].filter (bit_flipped status mask)).map log_message.player_disconnected := by
  have h0 : (((status &&& 1) ^^^ (mask &&& 1)) ≠ 0) ↔ bit_flipped status mask 0 = true := by
    simpa using status_bit_flipped status mask 0
  have hf : ∀ dis : Nat,
      decide (((status &&& (1 <<< dis)) ^^^ (mask &&& (1 <<< dis))) ≠ 0)
        = bit_flipped status mask dis := by
    intro dis
    by_cases h : bit_flipped status mask dis = true
    · rw [h]; exact decide_eq_true ((status_bit_flipped status mask dis).2 h)
    · have h2 : bit_flipped status mask dis = false := by simpa using h
      rw [h2]; exact decide_eq_false (fun hx => h ((status_bit_flipped status mask dis).1 hx))
  unfold status_logs
  congr 1
  · by_cases h : bit_flipped status mask 0 = true
    · rw [if_pos (h0.2 h), if_pos h]
    · rw [if_neg (fun hx => h (h0.1 hx)), if_neg h]
  · congr 1
    apply List.filter_congr
    intro x _
    exact hf x

theorem status_logs_self (status vi : Nat) : status_logs status status vi = [] := by
  rw [status_logs_eq]
  simp [bit_flipped]

theorem netplay_process_events_speed (data : List Nat) (player n curr : Nat)
    (s s1 : Netplay) (h : netplay_process_events data player n curr s = some s1) :
    speed_state s1 = speed_state s := by
  rcases netplay_process_events_zero_or_idx data player n curr s s1 h with h0 | ⟨p, hp⟩
  · rw [h0]
  · subst hp
    obtain ⟨evs, -, hs⟩ := netplay_process_events_frame data p n curr s s1 h
    rw [hs]; rfl

theorem netplay_process_packet_speed (s s1 : Netplay) (data : List Nat)
    (h : netplay_process_packet s data = some s1) : speed_state s1 = speed_state s := by
  unfold netplay_process_packet at h
  simp only [Option.bind_eq_bind, Option.bind_eq_some] at h
  obtain ⟨tag, -, h⟩ := h
  by_cases htag : tag = UDP_RECEIVE_KEY_INFO ∨ tag = UDP_RECEIVE_KEY_INFO_GRATUITOUS
  · rw [if_pos htag] at h
    simp only [Option.bind_eq_some] at h
    obtain ⟨player, -, status, -, sa, hsa, n, -, hev⟩ := h
    have ha : speed_state sa = speed_state s := by
      split at hsa
      · simp only [Option.bind_eq_some, Option.some.injEq] at hsa
        obtain ⟨lag, -, p, -, rfl⟩ := hsa
        rfl
      · simp only [Option.some.injEq] at hsa
        rw [← hsa]
    split at hev
    · exact (netplay_process_events_speed _ _ _ _ _ _ hev).trans ha
    · exact (netplay_process_events_speed _ _ _ _ _ _ hev).trans ha
  · rw [if_neg htag] at h
    simp only [Option.some.injEq] at h
    rw [← h]; rfl

theorem netplay_process_loop_speed :
    ∀ (q : List (List Nat)) (data : List Nat) (s s1 : Netplay),
      netplay_process_loop q data s = some s1 → speed_state s1 = speed_state s := by
  intro q
  induction q with
  | nil =>
    intro data s s1 h
    simp only [netplay_process_loop, Option.some.injEq] at h
    rw [← h]
  | cons d q ih =>
    intro data s s1 h
    simp only [netplay_process_loop, Option.bind_eq_bind, Option.bind_eq_some] at h
    obtain ⟨sa, hsa, hrest⟩ := h
    exact (ih _ _ _ hrest).trans (netplay_process_packet_speed _ _ _ hsa)

theorem netplay_process_speed (s s1 : Netplay) (mem : List Nat)
    (h : netplay_process s mem = some s1) : speed_state s1 = speed_state s :=
  netplay_process_loop_speed s.udp_in (alloc_packet 512 mem) { s with udp_in := [] } s1 h

theorem netplay_request_input_speed (s s1 : Netplay) (control_id : Nat)
    (h : netplay_request_input s control_id = some s1) :
    speed_state s1 = speed_state s ∧ s1.l_player_lag = s.l_player_lag ∧
    s1.l_buffer_target = s.l_buffer_target := by
  simp only [netplay_request_input, Option.bind_eq_bind, Option.bind_eq_some,
    Option.some.injEq] at h
  obtain ⟨c, -, size, -, rfl⟩ := h
  exact ⟨rfl, rfl, rfl⟩

theorem wait_step_speed (control_id timeout : Nat) (s : Netplay) (main_done : Bool)
    (success : Option Int) (ev : wait_event) (st : Netplay × Bool × Option Int)
    (h : wait_step control_id timeout s main_done success ev = some st) :
    speed_state st.1 = speed_state s := by
  cases ev with
  | arrive d =>
    simp only [wait_step, Option.some.injEq] at h
    rw [← h]; rfl
  | main mem =>
    simp only [wait_step] at h
    split at h
    · simp only [Option.some.injEq] at h
      rw [← h]
    · simp only [Option.bind_eq_bind, Option.bind_eq_some] at h
      obtain ⟨c, -, h⟩ := h
      split at h
      · simp only [Option.bind_eq_some, Option.some.injEq] at h
        obtain ⟨sa, hsa, rfl⟩ := h
        exact netplay_process_speed _ _ _ hsa
      · simp only [Option.some.injEq] at h
        rw [← h]
  | helper now =>
    simp only [wait_step] at h
    split at h
    · simp only [Option.some.injEq] at h
      rw [← h]
    · simp only [Option.bind_eq_bind, Option.bind_eq_some] at h
      obtain ⟨c, -, h⟩ := h
      split at h
      · split at h
        · simp only [Option.some.injEq] at h
          rw [← h]; rfl
        · simp only [Option.bind_eq_some, Option.some.injEq] at h
          obtain ⟨sa, hsa, rfl⟩ := h
          exact (netplay_request_input_speed _ _ _ hsa).1
      · simp only [Option.some.injEq] at h
        rw [← h]

theorem wait_threads_speed (control_id timeout : Nat) :
    ∀ (trace : List wait_event) (s : Netplay) (main_done : Bool) (success : Option Int)
      (s1 : Netplay) (r : Int),
      wait_threads control_id timeout trace s main_done success = some (s1, r) →
      speed_state s1 = speed_state s := by
  intro trace
  induction trace with
  | nil =>
    intro s md hr s1 r h
    simp only [wait_threads, Option.map_eq_some', Prod.mk.injEq] at h
    obtain ⟨_, -, rfl, -⟩ := h
    rfl
  | cons ev rest ih =>
    intro s md hr s1 r h
    simp only [wait_threads] at h
    split at h
    · simp only [Option.some.injEq, Prod.mk.injEq] at h
      rw [← h.1]
    · split at h
      · cases h
      · next st hst =>
        exact (ih _ _ _ _ _ h).trans (wait_step_speed _ _ _ _ _ _ _ hst)

theorem netplay_ensure_valid_speed (s s1 : Netplay) (control_id ticks0 : Nat)
    (trace : List wait_event) (r : Int)
    (h : netplay_ensure_valid s control_id ticks0 trace = some (s1, r)) :
    speed_state s1 = speed_state s := by
  simp only [netplay_ensure_valid, Option.bind_eq_bind, Option.bind_eq_some] at h
  obtain ⟨c, -, h⟩ := h
  split at h
  · simp only [Option.some.injEq, Prod.mk.injEq] at h
    rw [← h.1]
  · split at h
    · simp only [Option.some.injEq, Prod.mk.injEq] at h
      rw [← h.1]
    · exact wait_threads_speed _ _ _ _ _ _ _ _ h

theorem netplay_consume_speed (s s1 : Netplay) (control_id keys : Nat) (success : Int)
    (h : netplay_consume s control_id success = some (s1, keys)) :
    speed_state s1 = speed_state s := by
  unfold netplay_consume at h
  split at h
  · simp only [Option.bind_eq_bind, Option.bind_eq_some, Option.some.injEq, Prod.mk.injEq] at h
    obtain ⟨p, hp, k, -, current, -, sa, hsa, rfl, -⟩ := h
    simp only [netplay_delete_event, Option.bind_eq_bind, Option.bind_eq_some,
      Option.some.injEq] at hsa
    obtain ⟨p2, -, rfl⟩ := hsa
    rfl
  · simp only [Option.some.injEq, Prod.mk.injEq] at h
    rw [← h.1]; rfl

/-- The fast-forward decision, spelled out on the state it is taken in. -/
theorem netplay_lag_policy_eq (s : Netplay) (i : Fin 4) :
    ∃ s3, netplay_lag_policy s i.val = some s3 ∧
      speed_state s3 =
        (if s.l_player_lag i ≠ 0 ∧
            (s.l_cin_compats i).event_first.length % 256 > s.l_buffer_target
         then ((1 : Int), (0 : Int), some { fastforward := true, inhibit_toggle := true })
         else ((0 : Int), (1 : Int), some { fastforward := false, inhibit_toggle := true })) := by
  simp only [netplay_lag_policy, idx4_val, buffer_size_val, Option.bind_eq_bind,
    Option.some_bind]
  by_cases h : s.l_player_lag i > 0 ∧
      (s.l_cin_compats i).event_first.length % 256 > s.l_buffer_target
  · have h2 : s.l_player_lag i ≠ 0 ∧
        (s.l_cin_compats i).event_first.length % 256 > s.l_buffer_target :=
      ⟨by omega, h.2⟩
    rw [if_pos h, if_pos h2]
    exact ⟨_, rfl, rfl⟩
  · have h2 : ¬ (s.l_player_lag i ≠ 0 ∧
        (s.l_cin_compats i).event_first.length % 256 > s.l_buffer_target) := by
      intro hx; exact h ⟨by omega, hx.2⟩
    rw [if_neg h, if_neg h2]
    exact ⟨_, rfl, rfl⟩

theorem foldl_ledger_insert_length (c : Nat) :
    ∀ (evs l : List netplay_event), (∀ e ∈ evs, ¬ is_stale e.count c) →
      (evs.map netplay_event.count ++ l.map netplay_event.count).Nodup →
      (evs.foldl (ledger_insert c) l).length = evs.length + l.length := by
  intro evs
  induction evs with
  | nil => intro l _ _; simp
  | cons x evs ih =>
    intro l hs hn
    have hx : ¬ (is_stale x.count c ∨ x.count ∈ l.map netplay_event.count) := by
      rintro (h | h)
      · exact hs x (List.mem_cons_self _ _) h
      · simp only [List.map_cons, List.cons_append, List.nodup_cons, List.mem_append] at hn
        exact hn.1 (Or.inr h)
    rw [List.foldl_cons, ledger_insert_new c l x hx,
      ih (x :: l) (fun e he => hs e (List.mem_cons_of_mem _ he))]
    · simp only [List.length_cons]; omega
    · simp only [List.map_cons, List.cons_append, List.nodup_cons, List.mem_append] at hn
      rw [List.map_cons, List.nodup_middle, List.nodup_cons]
      exact ⟨by simpa [List.mem_append] using hn.1, hn.2⟩

theorem apply_update_status (s : Netplay) (u : update_datagram) :
    (apply_update s u).log = s.log ++ status_logs u.status s.l_status s.l_vi_counter ∧
    (apply_update s u).l_status = u.status := by
  unfold apply_update
  by_cases ht : u.tag = UDP_RECEIVE_KEY_INFO <;> by_cases hst : u.status = s.l_status
  · simp [ht, hst, Netplay.set_event_first, status_logs_self]
  · simp [ht, hst, Netplay.set_event_first]
  · simp [ht, hst, Netplay.set_event_first, status_logs_self]
  · simp [ht, hst, Netplay.set_event_first]

set_option maxRecDepth 100000 in
theorem full_updates_length :
    ((full_updates.foldl apply_update
      { full_state with udp_in := [] }).l_cin_compats 0).event_first.length = 256 := by
  have hl : ((delivered 0 full_updates).foldl (ledger_insert 5) []).length = 256 := by
    rw [foldl_ledger_insert_length]
    · decide
    · decide
    · have : (delivered 0 full_updates).map netplay_event.count = List.range' 5 256 := by decide
      rw [this, List.map_nil, List.append_nil]
      exact List.nodup_range' 5 256
  have hl2 : ∀ c : controller_input_compat, c.event_first = [] → c.netplay_count = 5 →
      ((delivered 0 full_updates).foldl (ledger_insert c.netplay_count) c.event_first).length
        = 256 := by
    intro c h1 h2
    rw [h1, h2]
    exact hl
  have hc := foldl_apply_update_cin 0 full_updates { full_state with udp_in := [] }
  have h3 := hl2 (({ full_state with udp_in := [] } : Netplay).l_cin_compats 0) rfl rfl
  rw [hc]
  dsimp only
  rw [h3]

theorem to_char_small (cs : Bool) (b : Nat) (h : b < 128) : to_char cs b = (b : Int) := by
  unfold to_char
  have : b % 256 = b := Nat.mod_eq_of_lt (by omega)
  rw [this, if_pos h]
  simp

theorem to_char_unsigned (b : Nat) (h : b < 256) : to_char false b = (b : Int) := by
  unfold to_char
  have : b % 256 = b := Nat.mod_eq_of_lt h
  rw [this]
  simp

theorem to_u8_to_char (cs : Bool) (b : Nat) (h : b < 256) : to_u8 (to_char cs b) = b := by
  unfold to_u8 to_char
  have : b % 256 = b := Nat.mod_eq_of_lt h
  rw [this]
  cases cs
  · simp only [Bool.false_eq_true, if_false]
    omega
  · simp only [if_true]
    split <;> omega

theorem read_registration_entry_eq (cs : Bool) (input_data : List Nat) (i : Fin 4)
    (curr : Nat) (s : Netplay) (id p r : Nat)
    (h1 : net_read32 input_data curr = some id) (h2 : input_data[curr + 4]? = some p)
    (h3 : input_data[curr + 4 + 1]? = some r) :
    read_registration_entry cs input_data i curr s = some
      ({ s with Controls := Function.update s.Controls i (registered_control cs i id p r),
                l_plugin := if id = 0 then s.l_plugin
                  else Function.update s.l_plugin i (to_u8 (registered_peripheral cs i p)) },
       curr + 6) := by
  have hp : (if i.val > 0 ∧ to_char cs p = (PLUGIN_MEMPAK : Int) then (PLUGIN_NONE : Int)
      else if to_char cs p = (PLUGIN_TRANSFER_PAK : Int) then (PLUGIN_NONE : Int)
      else to_char cs p) = registered_peripheral cs i p := by
    unfold registered_peripheral
    have hi : i.val > 0 ↔ i ≠ 0 := by
      constructor
      · intro h he; rw [he] at h; exact absurd h (by decide)
      · intro h
        rcases Nat.eq_zero_or_pos i.val with h0 | h0
        · exact absurd (Fin.ext h0) h
        · exact h0
    by_cases ha : i ≠ 0 ∧ to_char cs p = (PLUGIN_MEMPAK : Int)
    · rw [if_pos ⟨hi.2 ha.1, ha.2⟩, if_pos (Or.inr ha)]
    · have ha2 : ¬ (i.val > 0 ∧ to_char cs p = (PLUGIN_MEMPAK : Int)) :=
        fun hx => ha ⟨hi.1 hx.1, hx.2⟩
      rw [if_neg ha2]
      by_cases hb : to_char cs p = (PLUGIN_TRANSFER_PAK : Int)
      · rw [if_pos hb, if_pos (Or.inl hb)]
      · rw [if_neg hb, if_neg (fun hx => hx.elim hb ha)]
  unfold read_registration_entry
  simp only [h1, Option.bind_eq_bind, Option.some_bind]
  by_cases hid : id = 0
  · simp only [hid, if_true, registered_control]
  · simp only [hid, if_false, h2, h3, Option.some_bind, hp, registered_control]

theorem netplay_stop_free_eq (s : Netplay) (i : Fin 4)
    (h : s.events_freed i = true → (s.l_cin_compats i).event_first = []) :
    netplay_stop_free s i
      = some { s with
          events_freed :=
            Function.update s.events_freed i
              (s.events_freed i || decide ((s.l_cin_compats i).event_first ≠ [])) } := by
  unfold netplay_stop_free
  by_cases he : (s.l_cin_compats i).event_first = []
  · rw [if_pos he]
    simp [he]
  · rw [if_neg he]
    have hf : s.events_freed i = false := by
      cases hx : s.events_freed i
      · rfl
      · exact absurd (h hx) he
    simp [hf, he]

theorem netplay_stop_loop_eq (s : Netplay) (h : events_allocated s) :
    netplay_stop_loop s = some { s with events_freed := freed_after_stop s } := by
  unfold netplay_stop_loop
  by_cases hn : s.cin_compats_null = true
  · rw [if_pos hn]
    have : freed_after_stop s = s.events_freed := by
      funext i
      simp [freed_after_stop, hn]
    rw [this]
  · rw [if_neg hn]
    have hn2 : s.cin_compats_null = false := by simpa using hn
    have ha : ∀ i : Fin 4, s.events_freed i = true → (s.l_cin_compats i).event_first = [] :=
      h.resolve_left hn
    have h01 : (1 : Fin 4) ≠ 0 := by decide
    have h02 : (2 : Fin 4) ≠ 0 := by decide
    have h03 : (3 : Fin 4) ≠ 0 := by decide
    have h12 : (2 : Fin 4) ≠ 1 := by decide
    have h13 : (3 : Fin 4) ≠ 1 := by decide
    have h23 : (3 : Fin 4) ≠ 2 := by decide
    rw [netplay_stop_free_eq s 0 (ha 0)]
    simp only [Option.bind_eq_bind, Option.some_bind]
    rw [netplay_stop_free_eq _ 1 (by
      simp only [Function.update_noteq h01]; exact ha 1)]
    simp only [Option.some_bind]
    rw [netplay_stop_free_eq _ 2 (by
      simp only [Function.update_noteq h12, Function.update_noteq h02]; exact ha 2)]
    simp only [Option.some_bind]
    rw [netplay_stop_free_eq _ 3 (by
      simp only [Function.update_noteq h23, Function.update_noteq h13,
        Function.update_noteq h03]; exact ha 3)]
    have : freed_after_stop s
        = Function.update (Function.update (Function.update (Function.update s.events_freed 0
            (s.events_freed 0 || decide ((s.l_cin_compats 0).event_first ≠ []))) 1
            (s.events_freed 1 || decide ((s.l_cin_compats 1).event_first ≠ []))) 2
            (s.events_freed 2 || decide ((s.l_cin_compats 2).event_first ≠ []))) 3
            (s.events_freed 3 || decide ((s.l_cin_compats 3).event_first ≠ [])) := by
      funext i
      fin_cases i <;>
        simp [freed_after_stop, hn2, Function.update_noteq h01, Function.update_noteq h02,
          Function.update_noteq h03, Function.update_noteq h12, Function.update_noteq h13,
          Function.update_noteq h23, Function.update_noteq h01.symm,
          Function.update_noteq h02.symm, Function.update_noteq h03.symm,
          Function.update_noteq h12.symm, Function.update_noteq h13.symm,
          Function.update_noteq h23.symm]
    simp only [Function.update_noteq h01, Function.update_noteq h02, Function.update_noteq h03,
      Function.update_noteq h12, Function.update_noteq h13, Function.update_noteq h23]
    rw [this]

theorem netplay_stop_free_frame (s a : Netplay) (j : Fin 4)
    (h : netplay_stop_free s j = some a) :
    a.l_cin_compats = s.l_cin_compats ∧
      ∀ i : Fin 4, s.events_freed i = true → a.events_freed i = true := by
  unfold netplay_stop_free at h
  split_ifs at h with h1 h2
  · cases h; exact ⟨rfl, fun _ hi => hi⟩
  · cases h
    refine ⟨rfl, fun i hi => ?_⟩
    by_cases hij : i = j
    · subst hij; simp
    · simp only [Function.update_noteq hij]; exact hi

theorem netplay_stop_free_twice (s : Netplay) (i : Fin 4) (hf : s.events_freed i = true)
    (he : (s.l_cin_compats i).event_first ≠ []) : netplay_stop_free s i = none := by
  unfold netplay_stop_free
  rw [if_neg he, if_pos hf]

theorem netplay_stop_loop_twice (s : Netplay) (i : Fin 4) (hn : s.cin_compats_null = false)
    (hf : s.events_freed i = true) (he : (s.l_cin_compats i).event_first ≠ []) :
    netplay_stop_loop s = none := by
  unfold netplay_stop_loop
  rw [hn]
  simp only [Bool.false_eq_true, if_false, Option.bind_eq_bind]
  cases h0 : netplay_stop_free s 0 with
  | none => rfl
  | some a =>
    obtain ⟨ca, fa⟩ := netplay_stop_free_frame s a 0 h0
    simp only [Option.some_bind]
    cases h1 : netplay_stop_free a 1 with
    | none => rfl
    | some b =>
      obtain ⟨cb, fb⟩ := netplay_stop_free_frame a b 1 h1
      simp only [Option.some_bind]
      cases h2 : netplay_stop_free b 2 with
      | none => rfl
      | some c =>
        obtain ⟨cc, fc⟩ := netplay_stop_free_frame b c 2 h2
        simp only [Option.some_bind]
        fin_cases i
        · rw [netplay_stop_free_twice s 0 hf he] at h0; cases h0
        · rw [netplay_stop_free_twice a 1 (fa _ hf) (by rw [ca]; exact he)] at h1; cases h1
        · rw [netplay_stop_free_twice b 2 (fb _ (fa _ hf)) (by rw [cb, ca]; exact he)] at h2
          cases h2
        · exact netplay_stop_free_twice c 3 (fc _ (fb _ (fa _ hf)))
            (by rw [cc, cb, ca]; exact he)

theorem netplay_stop_live (s : Netplay) (h_udp : s.l_udpSocket = true)
    (h_tcp : s.l_tcpSocket = true) (h_alloc : events_allocated s) :
    netplay_stop s
      = some ({ s with events_freed := freed_after_stop s,
                       tcp_out := s.tcp_out ++ [[7] ++ net_write32 s.l_reg_id],
                       tcp_send_ret := s.tcp_send_ret.tail,
                       l_udpSocket := false, l_tcpSocket := false, l_udpChannel := -1,
                       l_netplay_is_init := 0 },
              m64p_error.M64ERR_SUCCESS) := by
  unfold netplay_stop
  rw [netplay_stop_loop_eq s h_alloc]
  simp [h_udp, h_tcp, TCP_Send, TCP_DISCONNECT_NOTICE]

theorem netplay_stop_closed (s : Netplay) (h_udp : s.l_udpSocket = false) :
    netplay_stop s = some (s, m64p_error.M64ERR_INVALID_STATE) := by
  simp [netplay_stop, h_udp]

theorem netplay_stop_twice (s : Netplay) (i : Fin 4) (h_udp : s.l_udpSocket = true)
    (hn : s.cin_compats_null = false) (hf : s.events_freed i = true)
    (he : (s.l_cin_compats i).event_first ≠ []) : netplay_stop s = none := by
  unfold netplay_stop
  rw [netplay_stop_loop_twice s i hn hf he]
  simp [h_udp]

theorem netplay_start_live (s : Netplay) (env : start_env)
    (h : (netplay_start s env).2 = m64p_error.M64ERR_SUCCESS) :
    live_session (netplay_start s env).1 ∧ (netplay_start s env).1.l_vi_counter = 0 ∧
    (netplay_start s env).1.udp_out = s.udp_out := by
  unfold netplay_start at h ⊢
  split_ifs at h ⊢ with h1 h2 h3 h4 h5
  refine ⟨⟨?_, ?_, ?_⟩, rfl, rfl⟩
  · simp
  · simpa using h2
  · simpa using h5

theorem netplay_start_failed (s : Netplay) (env : start_env) (hs : no_session s)
    (h : (netplay_start s env).2 ≠ m64p_error.M64ERR_SUCCESS)
    (hr : ¬ (env.net_init = 0 ∧ env.udp_open = true ∧ env.resolve_failed = true)) :
    no_session (netplay_start s env).1 := by
  unfold netplay_start at h ⊢
  split_ifs at h ⊢ with h1 h2 h3 h4 h5
  · exact hs
  · exact ⟨hs.1, h2⟩
  · exact absurd ⟨by simpa using h1, by simpa using h2, h3⟩ hr
  · exact ⟨hs.1, rfl⟩
  · exact ⟨hs.1, rfl⟩
  · exact absurd rfl h

theorem netplay_stop_success (s s1 : Netplay)
    (h : netplay_stop s = some (s1, m64p_error.M64ERR_SUCCESS)) : no_session s1 := by
  unfold netplay_stop at h
  by_cases h1 : s.l_udpSocket = false
  · rw [if_pos h1] at h; cases h
  · rw [if_neg h1] at h
    simp only [Option.bind_eq_bind, Option.bind_eq_some] at h
    obtain ⟨s0, -, h⟩ := h
    simp only [Option.some.injEq, Prod.mk.injEq, and_true] at h
    subst h
    exact ⟨rfl, rfl⟩

theorem netplay_check_sync_live (s : Netplay) (cp0_regs : Nat → Nat)
    (h : s.l_netplay_is_init ≠ 0) :
    (netplay_check_sync s cp0_regs).l_netplay_is_init = s.l_netplay_is_init ∧
    (netplay_check_sync s cp0_regs).l_vi_counter = (s.l_vi_counter + 1) % 4294967296 ∧
    (netplay_check_sync s cp0_regs).l_udpChannel = s.l_udpChannel ∧
    (netplay_check_sync s cp0_regs).udp_out = s.udp_out ++
      (if s.l_vi_counter % 600 = 0 then
        [(s.l_udpChannel, [4] ++ net_write32 s.l_vi_counter
          ++ ((List.range CP0_REGS_COUNT).map (fun i => net_write32 (cp0_regs i))).flatten)]
       else []) := by
  unfold netplay_check_sync
  rw [if_neg h]
  by_cases hc : s.l_vi_counter % 600 = 0
  · rw [if_pos hc, if_pos hc]
    exact ⟨rfl, rfl, rfl, rfl⟩
  · rw [if_neg hc, if_neg hc, List.append_nil]
    exact ⟨rfl, rfl, rfl, rfl⟩

theorem check_sync_calls_counter :
    ∀ (regs : List (Nat → Nat)) (s : Netplay), s.l_netplay_is_init ≠ 0 →
      s.l_vi_counter < 4294967296 →
      (regs.foldl netplay_check_sync s).l_netplay_is_init ≠ 0 ∧
      (regs.foldl netplay_check_sync s).l_vi_counter
        = (s.l_vi_counter + regs.length) % 4294967296 := by
  intro regs
  induction regs with
  | nil =>
    intro s h hlt
    refine ⟨h, ?_⟩
    rw [List.foldl_nil, List.length_nil, Nat.add_zero, Nat.mod_eq_of_lt hlt]
  | cons r regs ih =>
    intro s h hlt
    obtain ⟨h1, h2, -, -⟩ := netplay_check_sync_live s r h
    obtain ⟨g1, g2⟩ := ih (netplay_check_sync s r) (by rw [h1]; exact h)
      (by rw [h2]; exact Nat.mod_lt _ (by decide))
    rw [List.foldl_cons]
    refine ⟨g1, ?_⟩
    rw [g2, h2, List.length_cons]
    omega

theorem strrchr_none (c : Nat) : ∀ l : List Nat, strrchr l c = none ↔ c ∉ l := by
  intro l
  induction l with
  | nil => simp [strrchr]
  | cons x xs ih =>
    unfold strrchr
    cases hx : strrchr xs c with
    | some r =>
      have : c ∈ xs := by
        by_contra hc
        rw [ih.2 hc] at hx
        cases hx
      simp [this]
    | none =>
      have hc : c ∉ xs := ih.1 hx
      by_cases hxc : x = c
      · simp [hxc]
      · simp only [hxc, if_false, List.mem_cons, true_iff, not_or]
        exact ⟨fun h => hxc h.symm, hc⟩

theorem strrchr_some (c : Nat) : ∀ (l r : List Nat), strrchr l c = some r →
    ∃ pre tl, l = pre ++ c :: tl ∧ r = c :: tl ∧ c ∉ tl := by
  intro l
  induction l with
  | nil => intro r h; simp [strrchr] at h
  | cons x xs ih =>
    intro r h
    unfold strrchr at h
    cases hx : strrchr xs c with
    | some r2 =>
      rw [hx] at h
      simp only [Option.some.injEq] at h
      obtain ⟨pre, tl, h1, h2, h3⟩ := ih r2 hx
      exact ⟨x :: pre, tl, by rw [h1]; rfl, by rw [← h, h2], h3⟩
    | none =>
      rw [hx] at h
      by_cases hxc : x = c
      · simp only [hxc, if_true, Option.some.injEq] at h
        exact ⟨[], xs, by rw [hxc]; rfl, h.symm, (strrchr_none c xs).1 hx⟩
      · simp only [hxc, if_false] at h
        cases h

/-- The extension is what follows the last dot of the name; it is empty when the name has no
dot. -/
theorem file_extension_spec (filename : List Nat) :
    (46 ∉ filename ∧ file_extension filename = []) ∨
    (∃ pre, filename = pre ++ [46] ++ file_extension filename ∧
      46 ∉ file_extension filename) := by
  unfold file_extension
  cases h : strrchr filename 46 with
  | none => exact Or.inl ⟨(strrchr_none 46 filename).1 h, rfl⟩
  | some r =>
    obtain ⟨pre, tl, h1, h2, h3⟩ := strrchr_some 46 filename r h
    refine Or.inr ⟨pre, ?_, ?_⟩
    · simp only [h2, List.tail_cons]
      rw [h1]; simp
    · simp only [h2, List.tail_cons]
      exact h3

theorem flatten_net_write32_length (f : Nat → Nat) (l : List Nat) :
    ((l.map (fun i => net_write32 (f i))).flatten).length = 4 * l.length := by
  induction l with
  | nil => rfl
  | cons x l ih =>
    rw [List.map_cons, List.flatten_cons, List.length_append, ih, net_write32_length,
      List.length_cons]
    omega

theorem STEP_eq (f : Nat → Nat → Nat → Nat) (a b c d x t s : Nat) :
    STEP f a b c d x t s
      = (b + rfc1321_rotl ((a + f b c d + x + t) % 4294967296) s) % 4294967296 := by
  unfold STEP ROTATE_LEFT rfc1321_rotl
  rw [Nat.add_comm b, ← Nat.add_assoc, ← Nat.add_assoc]

theorem range64 : List.range 64 = [0, 1, 2, 3, 4, 5, 6, 7, 8, 9, 10, 11, 12, 13, 14, 15, 16, 17,
    18, 19, 20, 21, 22, 23, 24, 25, 26, 27, 28, 29, 30, 31, 32, 33, 34, 35, 36, 37, 38, 39, 40,
    41, 42, 43, 44, 45, 46, 47, 48, 49, 50, 51, 52, 53, 54, 55, 56, 57, 58, 59, 60, 61, 62,
    63] := by decide

theorem rfc1321_op_eq (x : Nat → Nat) (p q r s i k sh t : Nat) (f : Nat → Nat → Nat → Nat)
    (hf : rfc1321_aux i = f) (hk : rfc1321_ops.getD i (0, 0) = (k, sh))
    (ht : rfc1321_T.getD i 0 = t) :
    rfc1321_op x (p, q, r, s) i = (s, STEP f p q r s (x k) t sh, q, r) := by
  unfold rfc1321_op
  rw [hf, hk, ht, STEP_eq]

theorem md5_process_rounds_eq (x : Nat → Nat) (a b c d : Nat) :
    md5_process_rounds x a b c d = (List.range 64).foldl (rfc1321_op x) (a, b, c, d) := by
  unfold md5_process_rounds
  lift_lets
  intro a1 d1 c1 b1 a2 d2 c2 b2 a3 d3 c3 b3 a4 d4 c4 b4 a5 d5 c5 b5 a6 d6 c6 b6 a7 d7 c7 b7 a8 d8 c8 b8 a9 d9 c9 b9 a10 d10 c10 b10 a11 d11 c11 b11 a12 d12 c12 b12 a13 d13 c13 b13 a14 d14 c14 b14 a15 d15 c15 b15 a16 d16 c16 b16
  rw [range64]
  rw [List.foldl_cons, rfc1321_op_eq x a b c d 0 0 7 T1 F rfl rfl rfl,
    show STEP F a b c d (x 0) T1 7 = a1 from rfl]
  rw [List.foldl_cons, rfc1321_op_eq x d a1 b c 1 1 12 T2 F rfl rfl rfl,
    show STEP F d a1 b c (x 1) T2 12 = d1 from rfl]
  rw [List.foldl_cons, rfc1321_op_eq x c d1 a1 b 2 2 17 T3 F rfl rfl rfl,
    show STEP F c d1 a1 b (x 2) T3 17 = c1 from rfl]
  rw [List.foldl_cons, rfc1321_op_eq x b c1 d1 a1 3 3 22 T4 F rfl rfl rfl,
    show STEP F b c1 d1 a1 (x 3) T4 22 = b1 from rfl]
  rw [List.foldl_cons, rfc1321_op_eq x a1 b1 c1 d1 4 4 7 T5 F rfl rfl rfl,
    show STEP F a1 b1 c1 d1 (x 4) T5 7 = a2 from rfl]
  rw [List.foldl_cons, rfc1321_op_eq x d1 a2 b1 c1 5 5 12 T6 F rfl rfl rfl,
    show STEP F d1 a2 b1 c1 (x 5) T6 12 = d2 from rfl]
  rw [List.foldl_cons, rfc1321_op_eq x c1 d2 a2 b1 6 6 17 T7 F rfl rfl rfl,
    show STEP F c1 d2 a2 b1 (x 6) T7 17 = c2 from rfl]
  rw [List.foldl_cons, rfc1321_op_eq x b1 c2 d2 a2 7 7 22 T8 F rfl rfl rfl,
    show STEP F b1 c2 d2 a2 (x 7) T8 22 = b2 from rfl]
  rw [List.foldl_cons, rfc1321_op_eq x a2 b2 c2 d2 8 8 7 T9 F rfl rfl rfl,
    show STEP F a2 b2 c2 d2 (x 8) T9 7 = a3 from rfl]
  rw [List.foldl_cons, rfc1321_op_eq x d2 a3 b2 c2 9 9 12 T10 F rfl rfl rfl,
    show STEP F d2 a3 b2 c2 (x 9) T10 12 = d3 from rfl]
  rw [List.foldl_cons, rfc1321_op_eq x c2 d3 a3 b2 10 10 17 T11 F rfl rfl rfl,
    show STEP F c2 d3 a3 b2 (x 10) T11 17 = c3 from rfl]
  rw [List.foldl_cons, rfc1321_op_eq x b2 c3 d3 a3 11 11 22 T12 F rfl rfl rfl,
    show STEP F b2 c3 d3 a3 (x 11) T12 22 = b3 from rfl]
  rw [List.foldl_cons, rfc1321_op_eq x a3 b3 c3 d3 12 12 7 T13 F rfl rfl rfl,
    show STEP F a3 b3 c3 d3 (x 12) T13 7 = a4 from rfl]
  rw [List.foldl_cons, rfc1321_op_eq x d3 a4 b3 c3 13 13 12 T14 F rfl rfl rfl,
    show STEP F d3 a4 b3 c3 (x 13) T14 12 = d4 from rfl]
  rw [List.foldl_cons, rfc1321_op_eq x c3 d4 a4 b3 14 14 17 T15 F rfl rfl rfl,
    show STEP F c3 d4 a4 b3 (x 14) T15 17 = c4 from rfl]
  rw [List.foldl_cons, rfc1321_op_eq x b3 c4 d4 a4 15 15 22 T16 F rfl rfl rfl,
    show STEP F b3 c4 d4 a4 (x 15) T16 22 = b4 from rfl]
  rw [List.foldl_cons, rfc1321_op_eq x a4 b4 c4 d4 16 1 5 T17 G rfl rfl rfl,
    show STEP G a4 b4 c4 d4 (x 1) T17 5 = a5 from rfl]
  rw [List.foldl_cons, rfc1321_op_eq x d4 a5 b4 c4 17 6 9 T18 G rfl rfl rfl,
    show STEP G d4 a5 b4 c4 (x 6) T18 9 = d5 from rfl]
  rw [List.foldl_cons, rfc1321_op_eq x c4 d5 a5 b4 18 11 14 T19 G rfl rfl rfl,
    show STEP G c4 d5 a5 b4 (x 11) T19 14 = c5 from rfl]
  rw [List.foldl_cons, rfc1321_op_eq x b4 c5 d5 a5 19 0 20 T20 G rfl rfl rfl,
    show STEP G b4 c5 d5 a5 (x 0) T20 20 = b5 from rfl]
  rw [List.foldl_cons, rfc1321_op_eq x a5 b5 c5 d5 20 5 5 T21 G rfl rfl rfl,
    show STEP G a5 b5 c5 d5 (x 5) T21 5 = a6 from rfl]
  rw [List.foldl_cons, rfc1321_op_eq x d5 a6 b5 c5 21 10 9 T22 G rfl rfl rfl,
    show STEP G d5 a6 b5 c5 (x 10) T22 9 = d6 from rfl]
  rw [List.foldl_cons, rfc1321_op_eq x c5 d6 a6 b5 22 15 14 T23 G rfl rfl rfl,
    show STEP G c5 d6 a6 b5 (x 15) T23 14 = c6 from rfl]
  rw [List.foldl_cons, rfc1321_op_eq x b5 c6 d6 a6 23 4 20 T24 G rfl rfl rfl,
    show STEP G b5 c6 d6 a6 (x 4) T24 20 = b6 from rfl]
  rw [List.foldl_cons, rfc1321_op_eq x a6 b6 c6 d6 24 9 5 T25 G rfl rfl rfl,
    show STEP G a6 b6 c6 d6 (x 9) T25 5 = a7 from rfl]
  rw [List.foldl_cons, rfc1321_op_eq x d6 a7 b6 c6 25 14 9 T26 G rfl rfl rfl,
    show STEP G d6 a7 b6 c6 (x 14) T26 9 = d7 from rfl]
  rw [List.foldl_cons, rfc1321_op_eq x c6 d7 a7 b6 26 3 14 T27 G rfl rfl rfl,
    show STEP G c6 d7 a7 b6 (x 3) T27 14 = c7 from rfl]
  rw [List.foldl_cons, rfc1321_op_eq x b6 c7 d7 a7 27 8 20 T28 G rfl rfl rfl,
    show STEP G b6 c7 d7 a7 (x 8) T28 20 = b7 from rfl]
  rw [List.foldl_cons, rfc1321_op_eq x a7 b7 c7 d7 28 13 5 T29 G rfl rfl rfl,
    show STEP G a7 b7 c7 d7 (x 13) T29 5 = a8 from rfl]
  rw [List.foldl_cons, rfc1321_op_eq x d7 a8 b7 c7 29 2 9 T30 G rfl rfl rfl,
    show STEP G d7 a8 b7 c7 (x 2) T30 9 = d8 from rfl]
  rw [List.foldl_cons, rfc1321_op_eq x c7 d8 a8 b7 30 7 14 T31 G rfl rfl rfl,
    show STEP G c7 d8 a8 b7 (x 7) T31 14 = c8 from rfl]
  rw [List.foldl_cons, rfc1321_op_eq x b7 c8 d8 a8 31 12 20 T32 G rfl rfl rfl,
    show STEP G b7 c8 d8 a8 (x 12) T32 20 = b8 from rfl]
  rw [List.foldl_cons, rfc1321_op_eq x a8 b8 c8 d8 32 5 4 T33 H rfl rfl rfl,
    show STEP H a8 b8 c8 d8 (x 5) T33 4 = a9 from rfl]
  rw [List.foldl_cons, rfc1321_op_eq x d8 a9 b8 c8 33 8 11 T34 H rfl rfl rfl,
    show STEP H d8 a9 b8 c8 (x 8) T34 11 = d9 from rfl]
  rw [List.foldl_cons, rfc1321_op_eq x c8 d9 a9 b8 34 11 16 T35 H rfl rfl rfl,
    show STEP H c8 d9 a9 b8 (x 11) T35 16 = c9 from rfl]
  rw [List.foldl_cons, rfc1321_op_eq x b8 c9 d9 a9 35 14 23 T36 H rfl rfl rfl,
    show STEP H b8 c9 d9 a9 (x 14) T36 23 = b9 from rfl]
  rw [List.foldl_cons, rfc1321_op_eq x a9 b9 c9 d9 36 1 4 T37 H rfl rfl rfl,
    show STEP H a9 b9 c9 d9 (x 1) T37 4 = a10 from rfl]
  rw [List.foldl_cons, rfc1321_op_eq x d9 a10 b9 c9 37 4 11 T38 H rfl rfl rfl,
    show STEP H d9 a10 b9 c9 (x 4) T38 11 = d10 from rfl]
  rw [List.foldl_cons, rfc1321_op_eq x c9 d10 a10 b9 38 7 16 T39 H rfl rfl rfl,
    show STEP H c9 d10 a10 b9 (x 7) T39 16 = c10 from rfl]
  rw [List.foldl_cons, rfc1321_op_eq x b9 c10 d10 a10 39 10 23 T40 H rfl rfl rfl,
    show STEP H b9 c10 d10 a10 (x 10) T40 23 = b10 from rfl]
  rw [List.foldl_cons, rfc1321_op_eq x a10 b10 c10 d10 40 13 4 T41 H rfl rfl rfl,
    show STEP H a10 b10 c10 d10 (x 13) T41 4 = a11 from rfl]
  rw [List.foldl_cons, rfc1321_op_eq x d10 a11 b10 c10 41 0 11 T42 H rfl rfl rfl,
    show STEP H d10 a11 b10 c10 (x 0) T42 11 = d11 from rfl]
  rw [List.foldl_cons, rfc1321_op_eq x c10 d11 a11 b10 42 3 16 T43 H rfl rfl rfl,
    show STEP H c10 d11 a11 b10 (x 3) T43 16 = c11 from rfl]
  rw [List.foldl_cons, rfc1321_op_eq x b10 c11 d11 a11 43 6 23 T44 H rfl rfl rfl,
    show STEP H b10 c11 d11 a11 (x 6) T44 23 = b11 from rfl]
  rw [List.foldl_cons, rfc1321_op_eq x a11 b11 c11 d11 44 9 4 T45 H rfl rfl rfl,
    show STEP H a11 b11 c11 d11 (x 9) T45 4 = a12 from rfl]
  rw [List.foldl_cons, rfc1321_op_eq x d11 a12 b11 c11 45 12 11 T46 H rfl rfl rfl,
    show STEP H d11 a12 b11 c11 (x 12) T46 11 = d12 from rfl]
  rw [List.foldl_cons, rfc1321_op_eq x c11 d12 a12 b11 46 15 16 T47 H rfl rfl rfl,
    show STEP H c11 d12 a12 b11 (x 15) T47 16 = c12 from rfl]
  rw [List.foldl_cons, rfc1321_op_eq x b11 c12 d12 a12 47 2 23 T48 H rfl rfl rfl,
    show STEP H b11 c12 d12 a12 (x 2) T48 23 = b12 from rfl]
  rw [List.foldl_cons, rfc1321_op_eq x a12 b12 c12 d12 48 0 6 T49 I rfl rfl rfl,
    show STEP I a12 b12 c12 d12 (x 0) T49 6 = a13 from rfl]
  rw [List.foldl_cons, rfc1321_op_eq x d12 a13 b12 c12 49 7 10 T50 I rfl rfl rfl,
    show STEP I d12 a13 b12 c12 (x 7) T50 10 = d13 from rfl]
  rw [List.foldl_cons, rfc1321_op_eq x c12 d13 a13 b12 50 14 15 T51 I rfl rfl rfl,
    show STEP I c12 d13 a13 b12 (x 14) T51 15 = c13 from rfl]
  rw [List.foldl_cons, rfc1321_op_eq x b12 c13 d13 a13 51 5 21 T52 I rfl rfl rfl,
    show STEP I b12 c13 d13 a13 (x 5) T52 21 = b13 from rfl]
  rw [List.foldl_cons, rfc1321_op_eq x a13 b13 c13 d13 52 12 6 T53 I rfl rfl rfl,
    show STEP I a13 b13 c13 d13 (x 12) T53 6 = a14 from rfl]
  rw [List.foldl_cons, rfc1321_op_eq x d13 a14 b13 c13 53 3 10 T54 I rfl rfl rfl,
    show STEP I d13 a14 b13 c13 (x 3) T54 10 = d14 from rfl]
  rw [List.foldl_cons, rfc1321_op_eq x c13 d14 a14 b13 54 10 15 T55 I rfl rfl rfl,
    show STEP I c13 d14 a14 b13 (x 10) T55 15 = c14 from rfl]
  rw [List.foldl_cons, rfc1321_op_eq x b13 c14 d14 a14 55 1 21 T56 I rfl rfl rfl,
    show STEP I b13 c14 d14 a14 (x 1) T56 21 = b14 from rfl]
  rw [List.foldl_cons, rfc1321_op_eq x a14 b14 c14 d14 56 8 6 T57 I rfl rfl rfl,
    show STEP I a14 b14 c14 d14 (x 8) T57 6 = a15 from rfl]
  rw [List.foldl_cons, rfc1321_op_eq x d14 a15 b14 c14 57 15 10 T58 I rfl rfl rfl,
    show STEP I d14 a15 b14 c14 (x 15) T58 10 = d15 from rfl]
  rw [List.foldl_cons, rfc1321_op_eq x c14 d15 a15 b14 58 6 15 T59 I rfl rfl rfl,
    show STEP I c14 d15 a15 b14 (x 6) T59 15 = c15 from rfl]
  rw [List.foldl_cons, rfc1321_op_eq x b14 c15 d15 a15 59 13 21 T60 I rfl rfl rfl,
    show STEP I b14 c15 d15 a15 (x 13) T60 21 = b15 from rfl]
  rw [List.foldl_cons, rfc1321_op_eq x a15 b15 c15 d15 60 4 6 T61 I rfl rfl rfl,
    show STEP I a15 b15 c15 d15 (x 4) T61 6 = a16 from rfl]
  rw [List.foldl_cons, rfc1321_op_eq x d15 a16 b15 c15 61 11 10 T62 I rfl rfl rfl,
    show STEP I d15 a16 b15 c15 (x 11) T62 10 = d16 from rfl]
  rw [List.foldl_cons, rfc1321_op_eq x c15 d16 a16 b15 62 2 15 T63 I rfl rfl rfl,
    show STEP I c15 d16 a16 b15 (x 2) T63 15 = c16 from rfl]
  rw [List.foldl_cons, rfc1321_op_eq x b15 c16 d16 a16 63 9 21 T64 I rfl rfl rfl,
    show STEP I b15 c16 d16 a16 (x 9) T64 21 = b16 from rfl]
  rfl

theorem or_shift_bytes (b0 b1 b2 b3 : Nat) (h0 : b0 < 256) (h1 : b1 < 256) (h2 : b2 < 256) :
    b0 ||| (b1 <<< 8) ||| (b2 <<< 16) ||| (b3 <<< 24)
      = b0 + 256 * b1 + 65536 * b2 + 16777216 * b3 := by
  have e1 : b0 ||| (b1 <<< 8) = b0 + 256 * b1 := by
    rw [Nat.shiftLeft_eq, Nat.or_comm, Nat.mul_comm b1]
    have := Nat.mul_add_lt_is_or (show b0 < 2 ^ 8 from h0) b1
    rw [← this]; omega
  have e2 : (b0 + 256 * b1) ||| (b2 <<< 16) = b0 + 256 * b1 + 65536 * b2 := by
    rw [Nat.shiftLeft_eq, Nat.or_comm, Nat.mul_comm b2]
    have := Nat.mul_add_lt_is_or (show b0 + 256 * b1 < 2 ^ 16 by omega) b2
    rw [← this]; omega
  have e3 : (b0 + 256 * b1 + 65536 * b2) ||| (b3 <<< 24)
      = b0 + 256 * b1 + 65536 * b2 + 16777216 * b3 := by
    rw [Nat.shiftLeft_eq, Nat.or_comm, Nat.mul_comm b3]
    have := Nat.mul_add_lt_is_or (show b0 + 256 * b1 + 65536 * b2 < 2 ^ 24 by omega) b3
    rw [← this]; omega
  rw [e1, e2, e3]

theorem getD_lt_of_forall (l : List Nat) (k : Nat) (h : ∀ b ∈ l, b < 256) : l.getD k 0 < 256 := by
  by_cases hk : k < l.length
  · rw [List.getD_eq_getElem l 0 hk]
    exact h _ (List.getElem_mem hk)
  · rw [List.getD_eq_default l 0 (by omega)]
    decide

theorem getD_take (l : List Nat) (n k : Nat) (h : k < n) : (l.take n).getD k 0 = l.getD k 0 := by
  simp only [List.getD_eq_getElem?_getD]
  rw [List.getElem?_take_of_lt h]

/-- The words `md5_process` decodes are the words of the block in the sense of RFC 1321. -/
theorem md5_word_eq (data : List Nat) (h : ∀ b ∈ data.take 64, b < 256) (k : Nat) (hk : k < 16) :
    (data.getD (k * 4) 0 ||| (data.getD (k * 4 + 1) 0 <<< 8) |||
      (data.getD (k * 4 + 2) 0 <<< 16) ||| (data.getD (k * 4 + 3) 0 <<< 24))
      = rfc1321_word (data.take 64) k := by
  unfold rfc1321_word
  rw [Nat.mul_comm k 4, ← getD_take data 64 (4 * k) (by omega),
    ← getD_take data 64 (4 * k + 1) (by omega), ← getD_take data 64 (4 * k + 2) (by omega),
    ← getD_take data 64 (4 * k + 3) (by omega)]
  exact or_shift_bytes _ _ _ _ (getD_lt_of_forall _ _ h) (getD_lt_of_forall _ _ h)
    (getD_lt_of_forall _ _ h)

theorem rfc1321_ops_lt : ∀ i, i < 64 → (rfc1321_ops.getD i (0, 0)).1 < 16 := by decide

theorem rfc1321_op_congr (x y : Nat → Nat) (h : ∀ k, k < 16 → x k = y k)
    (r : Nat × Nat × Nat × Nat) (i : Nat) (hi : i < 64) :
    rfc1321_op x r i = rfc1321_op y r i := by
  unfold rfc1321_op
  rw [h _ (rfc1321_ops_lt i hi)]

theorem foldl_op_congr (x y : Nat → Nat) (h : ∀ k, k < 16 → x k = y k) :
    ∀ (l : List Nat) (r : Nat × Nat × Nat × Nat), (∀ i ∈ l, i < 64) →
      l.foldl (rfc1321_op x) r = l.foldl (rfc1321_op y) r := by
  intro l
  induction l with
  | nil => intro r _; rfl
  | cons i l ih =>
    intro r hl
    rw [List.foldl_cons, List.foldl_cons,
      rfc1321_op_congr x y h r i (hl i (List.mem_cons_self _ _)),
      ih _ (fun j hj => hl j (List.mem_cons_of_mem _ hj))]

/-- One call of `md5_process` is one block step of RFC 1321 on the registers; the counters and
the buffer are kept. -/
theorem md5_process_eq (pms : md5_state_t) (data : List Nat)
    (h : ∀ b ∈ data.take 64, b < 256) :
    md5_regs (md5_process pms data) = rfc1321_block (md5_regs pms) (data.take 64) ∧
    (md5_process pms data).count0 = pms.count0 ∧ (md5_process pms data).count1 = pms.count1 ∧
    (md5_process pms data).buf = pms.buf := by
  refine ⟨?_, ?_, ?_, ?_⟩
  · unfold md5_process rfc1321_block md5_regs
    simp only
    rw [md5_process_rounds_eq,
      foldl_op_congr _ (rfc1321_word (data.take 64)) (fun k hk => md5_word_eq data h k hk)
        (List.range 64) _ (fun i hi => List.mem_range.1 hi)]
  · unfold md5_process; simp only
  · unfold md5_process; simp only
  · unfold md5_process; simp only

theorem rfc1321_blocks_append :
    ∀ (n1 n2 : Nat) (r : Nat × Nat × Nat × Nat) (l1 l2 : List Nat), l1.length = 64 * n1 →
      rfc1321_blocks (n1 + n2) r (l1 ++ l2) = rfc1321_blocks n2 (rfc1321_blocks n1 r l1) l2 := by
  intro n1
  induction n1 with
  | zero =>
    intro n2 r l1 l2 h
    have : l1 = [] := List.length_eq_zero.1 (by omega)
    subst this
    simp [rfc1321_blocks]
  | succ n ih =>
    intro n2 r l1 l2 h
    have e : n + 1 + n2 = (n + n2) + 1 := by omega
    rw [e]
    simp only [rfc1321_blocks]
    have h1 : (l1 ++ l2).take 64 = l1.take 64 := by
      rw [List.take_append_of_le_length (by omega)]
    have h2 : (l1 ++ l2).drop 64 = l1.drop 64 ++ l2 := by
      rw [List.drop_append_of_le_length (by omega)]
    rw [h1, h2, ih n2 _ (l1.drop 64) l2 (by rw [List.length_drop]; omega)]

theorem rfc1321_blocks_initial :
    ∀ (n : Nat) (r : Nat × Nat × Nat × Nat) (l extra : List Nat), 64 * n ≤ l.length →
      rfc1321_blocks n r (l ++ extra) = rfc1321_blocks n r l := by
  intro n
  induction n with
  | zero => intro r l extra _; rfl
  | succ n ih =>
    intro r l extra h
    simp only [rfc1321_blocks]
    have h1 : (l ++ extra).take 64 = l.take 64 := by
      rw [List.take_append_of_le_length (by omega)]
    have h2 : (l ++ extra).drop 64 = l.drop 64 ++ extra := by
      rw [List.drop_append_of_le_length (by omega)]
    rw [h1, h2, ih _ (l.drop 64) extra (by rw [List.length_drop]; omega)]

/-- The block loop of `md5_append` processes the whole blocks of `p` in order and leaves the
rest. -/
theorem md5_append_loop_eq :
    ∀ (fuel : Nat) (pms : md5_state_t) (p : List Nat), p.length / 64 ≤ fuel →
      (∀ b ∈ p, b < 256) →
      md5_regs (md5_append_loop fuel pms p).1
        = rfc1321_blocks (p.length / 64) (md5_regs pms) p ∧
      (md5_append_loop fuel pms p).2 = p.drop (64 * (p.length / 64)) ∧
      (md5_append_loop fuel pms p).1.buf = pms.buf ∧
      (md5_append_loop fuel pms p).1.count0 = pms.count0 ∧
      (md5_append_loop fuel pms p).1.count1 = pms.count1 := by
  intro fuel
  induction fuel with
  | zero =>
    intro pms p hf _
    have h0 : p.length / 64 = 0 := by omega
    simp [md5_append_loop, h0, rfc1321_blocks]
  | succ fuel ih =>
    intro pms p hf hb
    unfold md5_append_loop
    by_cases hp : p.length ≥ 64
    · rw [if_pos hp]
      have hb2 : ∀ b ∈ p.drop 64, b < 256 := fun b hb1 => hb b (List.mem_of_mem_drop hb1)
      have hlen : (p.drop 64).length = p.length - 64 := List.length_drop 64 p
      obtain ⟨i1, i2, i3, i4, i5⟩ := ih (md5_process pms p) (p.drop 64)
        (by rw [hlen]; omega) hb2
      obtain ⟨j1, j2, j3, j4⟩ := md5_process_eq pms p
        (fun b hb1 => hb b (List.mem_of_mem_take hb1))
      have hn : p.length / 64 = (p.length - 64) / 64 + 1 := by omega
      refine ⟨?_, ?_, i3.trans j4, i4.trans j2, i5.trans j3⟩
      · rw [i1, hlen, j1, hn]
        simp only [rfc1321_blocks]
      · rw [i2, hlen, List.drop_drop]
        congr 1
        omega
    · rw [if_neg hp]
      have h0 : p.length / 64 = 0 := by omega
      simp [h0, rfc1321_blocks]

theorem md5_offset (c L : Nat) (h : c = (8 * L) % 4294967296) : (c >>> 3) &&& 63 = L % 64 := by
  have e : (63 : Nat) = 2 ^ 6 - 1 := by decide
  rw [Nat.shiftRight_eq_div_pow, e, Nat.and_pow_two_sub_one_eq_mod, h]
  omega

theorem md5_append_rest_eq (r0 : md5_state_t) (rest : List Nat) (h : rest.length < 64)
    (hb : r0.buf.length = 64) :
    (md5_append_rest r0 rest).buf.length = 64 ∧
    (md5_append_rest r0 rest).buf.take rest.length = rest ∧
    md5_regs (md5_append_rest r0 rest) = md5_regs r0 ∧
    (md5_append_rest r0 rest).count0 = r0.count0 ∧
    (md5_append_rest r0 rest).count1 = r0.count1 := by
  unfold md5_append_rest
  by_cases hr : rest.length ≠ 0
  · rw [if_pos hr]
    refine ⟨?_, ?_, rfl, rfl, rfl⟩
    · simp only [List.length_append, List.length_drop]; omega
    · simp only; rw [List.take_left]
  · rw [if_neg hr]
    have : rest = [] := List.length_eq_zero.1 (by omega)
    subst this
    exact ⟨hb, rfl, rfl, rfl, rfl⟩

/-- The block loop followed by the final copy, from a state that has absorbed a whole number of
blocks. -/
theorem md5_append_tail_eq (q0 : md5_state_t) (M0 p : List Nat) (k fuel : Nat)
    (hM0 : M0.length = 64 * k) (hregs : md5_regs q0 = rfc1321_blocks k rfc1321_init M0)
    (hbuf : q0.buf.length = 64) (hfuel : p.length / 64 ≤ fuel) (hp : ∀ b ∈ p, b < 256) :
    md5_regs (md5_append_rest (md5_append_loop fuel q0 p).1 (md5_append_loop fuel q0 p).2)
      = rfc1321_blocks ((M0 ++ p).length / 64) rfc1321_init (M0 ++ p) ∧
    (md5_append_rest (md5_append_loop fuel q0 p).1 (md5_append_loop fuel q0 p).2).buf.length
      = 64 ∧
    (md5_append_rest (md5_append_loop fuel q0 p).1 (md5_append_loop fuel q0 p).2).buf.take
        ((M0 ++ p).length % 64) = (M0 ++ p).drop (64 * ((M0 ++ p).length / 64)) ∧
    (md5_append_rest (md5_append_loop fuel q0 p).1 (md5_append_loop fuel q0 p).2).count0
      = q0.count0 ∧
    (md5_append_rest (md5_append_loop fuel q0 p).1 (md5_append_loop fuel q0 p).2).count1
      = q0.count1 := by
  obtain ⟨i1, i2, i3, i4, i5⟩ := md5_append_loop_eq fuel q0 p hfuel hp
  have hrl : (md5_append_loop fuel q0 p).2.length = p.length % 64 := by
    rw [i2, List.length_drop]; omega
  obtain ⟨j1, j2, j3, j4, j5⟩ := md5_append_rest_eq (md5_append_loop fuel q0 p).1
    (md5_append_loop fuel q0 p).2 (by rw [hrl]; omega) (by rw [i3]; exact hbuf)
  have hlen : (M0 ++ p).length = 64 * k + p.length := by rw [List.length_append, hM0]
  have hdiv : (M0 ++ p).length / 64 = k + p.length / 64 := by rw [hlen]; omega
  have hmod : (M0 ++ p).length % 64 = p.length % 64 := by rw [hlen]; omega
  refine ⟨?_, j1, ?_, j4.trans i4, j5.trans i5⟩
  · rw [j3, i1, hregs, hdiv, rfc1321_blocks_append k _ _ M0 p hM0]
  · have e1 : (M0 ++ p).drop (64 * (k + p.length / 64)) = p.drop (64 * (p.length / 64)) := by
      rw [List.drop_append_eq_append_drop, List.drop_of_length_le (by rw [hM0]; omega),
        List.nil_append]
      congr 1
      rw [hM0]; omega
    rw [hmod, hdiv, e1, ← i2]
    rw [hrl] at j2
    exact j2

theorem md5_count0_step (w c L n : Nat) (hw : w = 32 ∨ w = 64) (hc : c = (8 * L) % 4294967296) :
    (c + ((n <<< 3) % 2 ^ w) % 4294967296) % 4294967296 = (8 * (L + n)) % 4294967296 := by
  rw [Nat.shiftLeft_eq, hc]
  rcases hw with rfl | rfl
  · norm_num; omega
  · norm_num; omega

/-- The case `offset = 0` of `md5_append`. -/
theorem md5_append_aligned (q : md5_state_t) (M data : List Nat)
    (hregs : md5_regs q = rfc1321_blocks (M.length / 64) rfc1321_init M)
    (hbuf : q.buf.length = 64) (ho : M.length % 64 = 0) (hd : ∀ b ∈ data, b < 256)
    (hc : q.count0 = (8 * (M ++ data).length) % 4294967296) :
    md5_absorbed (md5_append_rest (md5_append_loop data.length q data).1
      (md5_append_loop data.length q data).2) (M ++ data) ∧
    (md5_append_rest (md5_append_loop data.length q data).1
      (md5_append_loop data.length q data).2).count1 = q.count1 := by
  obtain ⟨t1, t2, t3, t4, t5⟩ := md5_append_tail_eq q M data (M.length / 64) data.length
    (by omega) hregs hbuf (Nat.div_le_self _ _) hd
  exact ⟨⟨t4.trans hc, t2, t1, t3⟩, t5⟩

/-- The case of `md5_append` in which the bytes only fill the buffer further. -/
theorem md5_append_short (q : md5_state_t) (M data : List Nat)
    (hregs : md5_regs q = rfc1321_blocks (M.length / 64) rfc1321_init M)
    (hbuf : q.buf.length = 64)
    (hpend : q.buf.take (M.length % 64) = M.drop (64 * (M.length / 64)))
    (hs : M.length % 64 + data.length < 64)
    (hc : q.count0 = (8 * (M ++ data).length) % 4294967296) :
    md5_absorbed
      { q with buf := q.buf.take (M.length % 64) ++ data.take data.length
                        ++ q.buf.drop (M.length % 64 + data.length) }
      (M ++ data) := by
  have hlen : (M ++ data).length = M.length + data.length := List.length_append _ _
  have hdiv : (M ++ data).length / 64 = M.length / 64 := by rw [hlen]; omega
  have hmod : (M ++ data).length % 64 = M.length % 64 + data.length := by rw [hlen]; omega
  refine ⟨hc, ?_, ?_, ?_⟩
  · simp only [List.length_append, List.length_take, List.length_drop, hbuf]
    omega
  · rw [hdiv, rfc1321_blocks_initial _ _ M data (by omega)]
    exact hregs
  · rw [hmod, hdiv, List.take_length, List.drop_append_of_le_length (by omega), ← hpend]
    simp only
    have h1 : (q.buf.take (M.length % 64)).length = M.length % 64 := by
      rw [List.length_take, hbuf]; omega
    have h3 : (q.buf.take (M.length % 64) ++ data).length = M.length % 64 + data.length := by
      rw [List.length_append, h1]
    rw [List.take_append_eq_append_take, h3, Nat.sub_self, List.take_zero, List.append_nil,
      List.take_of_length_le (by rw [h3])]

/-- The case of `md5_append` in which the buffer is completed, processed, and the block loop
runs on the bytes that follow. -/
theorem md5_append_long (q : md5_state_t) (M data : List Nat)
    (hregs : md5_regs q = rfc1321_blocks (M.length / 64) rfc1321_init M)
    (hbuf : q.buf.length = 64)
    (hpend : q.buf.take (M.length % 64) = M.drop (64 * (M.length / 64)))
    (hl : ¬ M.length % 64 + data.length < 64)
    (hM : ∀ b ∈ M, b < 256) (hd : ∀ b ∈ data, b < 256)
    (hc : q.count0 = (8 * (M ++ data).length) % 4294967296)
    (buf1 : List Nat)
    (hbuf1 : buf1 = q.buf.take (M.length % 64) ++ data.take (64 - M.length % 64)
      ++ q.buf.drop (M.length % 64 + (64 - M.length % 64)))
    (fuel : Nat) (hfuel : fuel = data.length - (64 - M.length % 64)) :
    md5_absorbed
      (md5_append_rest
        (md5_append_loop fuel (md5_process { q with buf := buf1 } buf1)
          (data.drop (64 - M.length % 64))).1
        (md5_append_loop fuel (md5_process { q with buf := buf1 } buf1)
          (data.drop (64 - M.length % 64))).2)
      (M ++ data) ∧
    (md5_append_rest
        (md5_append_loop fuel (md5_process { q with buf := buf1 } buf1)
          (data.drop (64 - M.length % 64))).1
        (md5_append_loop fuel (md5_process { q with buf := buf1 } buf1)
          (data.drop (64 - M.length % 64))).2).count1 = q.count1 := by
  have hMlen : M.length = 64 * (M.length / 64) + M.length % 64 := by omega
  have hP : (q.buf.take (M.length % 64)).length = M.length % 64 := by
    rw [List.length_take, hbuf]; omega
  have hT : (data.take (64 - M.length % 64)).length = 64 - M.length % 64 := by
    rw [List.length_take]; omega
  have hD : q.buf.drop (M.length % 64 + (64 - M.length % 64)) = [] :=
    List.drop_of_length_le (by rw [hbuf]; omega)
  have hb1 : buf1 = M.drop (64 * (M.length / 64)) ++ data.take (64 - M.length % 64) := by
    rw [hbuf1, hD, List.append_nil, hpend]
  have hb1len : buf1.length = 64 := by
    rw [hbuf1, hD, List.append_nil, List.length_append, hP, hT]; omega
  have hb1bytes : ∀ b ∈ buf1.take 64, b < 256 := by
    intro b hb
    have hb2 := List.mem_of_mem_take hb
    rw [hb1, List.mem_append] at hb2
    rcases hb2 with h | h
    · exact hM b (List.mem_of_mem_drop h)
    · exact hd b (List.mem_of_mem_take h)
  obtain ⟨j1, j2, j3, j4⟩ := md5_process_eq { q with buf := buf1 } buf1 hb1bytes
  have hM0 : (M ++ data.take (64 - M.length % 64)).length = 64 * (M.length / 64 + 1) := by
    rw [List.length_append, hT]; omega
  have hsplit : M ++ data.take (64 - M.length % 64)
      = M.take (64 * (M.length / 64)) ++ buf1 := by
    rw [hb1, ← List.append_assoc, List.take_append_drop]
  have htake : (M.take (64 * (M.length / 64))).length = 64 * (M.length / 64) := by
    rw [List.length_take]; omega
  have hpre : rfc1321_blocks (M.length / 64) rfc1321_init (M.take (64 * (M.length / 64)))
      = rfc1321_blocks (M.length / 64) rfc1321_init M := by
    have := rfc1321_blocks_initial (M.length / 64) rfc1321_init
      (M.take (64 * (M.length / 64))) (M.drop (64 * (M.length / 64))) (by rw [htake])
    rw [List.take_append_drop] at this
    exact this.symm
  have hregs0 : md5_regs (md5_process { q with buf := buf1 } buf1)
      = rfc1321_blocks (M.length / 64 + 1) rfc1321_init
          (M ++ data.take (64 - M.length % 64)) := by
    have hq : md5_regs ({ q with buf := buf1 } : md5_state_t)
        = rfc1321_blocks (M.length / 64) rfc1321_init M := hregs
    rw [j1, hq, hsplit, rfc1321_blocks_append (M.length / 64) 1 _ _ buf1 htake, hpre]
    simp only [rfc1321_blocks]
  have hbytes2 : ∀ b ∈ data.drop (64 - M.length % 64), b < 256 :=
    fun b hb => hd b (List.mem_of_mem_drop hb)
  obtain ⟨t1, t2, t3, t4, t5⟩ := md5_append_tail_eq
    (md5_process { q with buf := buf1 } buf1) (M ++ data.take (64 - M.length % 64))
    (data.drop (64 - M.length % 64)) (M.length / 64 + 1) fuel hM0 hregs0
    (by rw [j4]; exact hb1len)
    (by rw [hfuel, List.length_drop]; exact Nat.div_le_self _ _) hbytes2
  have hjoin : M ++ data.take (64 - M.length % 64) ++ data.drop (64 - M.length % 64)
      = M ++ data := by
    rw [List.append_assoc, List.take_append_drop]
  rw [hjoin] at t1 t3
  exact ⟨⟨(t4.trans j2).trans hc, t2, t1, t3⟩, t5.trans j3⟩

/-- One call of `md5_append` from a state that has absorbed `M`: the call returns, the state
has then absorbed `M ++ data`, and `count[1]` is what the carry code computes. -/
theorem md5_append_absorbed (w : Nat) (pms : md5_state_t) (M data : List Nat)
    (hw : w = 32 ∨ w = 64) (habs : md5_absorbed pms M)
    (hM : ∀ b ∈ M, b < 256) (hd : ∀ b ∈ data, b < 256)
    (hn : M.length % 64 + data.length < 2 ^ w) :
    ∃ pms1, md5_append w pms data = some pms1 ∧ md5_absorbed pms1 (M ++ data) ∧
      pms1.count1 = ((if (pms.count0 + ((data.length <<< 3) % 2 ^ w) % 4294967296) % 4294967296
            < (data.length <<< 3) % 2 ^ w
          then (pms.count1 + 1) % 4294967296 else pms.count1)
        + (data.length >>> 29) % 4294967296) % 4294967296 := by
  obtain ⟨hc, hbl, hregs, hpend⟩ := habs
  have hq : ∃ q : md5_state_t, q = { pms with
      count0 := (pms.count0 + ((data.length <<< 3) % 2 ^ w) % 4294967296) % 4294967296,
      count1 := ((if (pms.count0 + ((data.length <<< 3) % 2 ^ w) % 4294967296) % 4294967296
            < (data.length <<< 3) % 2 ^ w
          then (pms.count1 + 1) % 4294967296 else pms.count1)
        + (data.length >>> 29) % 4294967296) % 4294967296 } := ⟨_, rfl⟩
  obtain ⟨q, hq⟩ := hq
  have hoff := md5_offset pms.count0 M.length hc
  have hc0 := md5_count0_step w pms.count0 M.length data.length hw hc
  rw [← List.length_append] at hc0
  have hqc : q.count0 = (8 * (M ++ data).length) % 4294967296 := by rw [hq]; exact hc0
  have hqr : md5_regs q = rfc1321_blocks (M.length / 64) rfc1321_init M := by
    rw [hq]; exact hregs
  have hqb : q.buf = pms.buf := by rw [hq]
  have hql : q.buf.length = 64 := by rw [hqb]; exact hbl
  have hqp : q.buf.take (M.length % 64) = M.drop (64 * (M.length / 64)) := by
    rw [hqb]; exact hpend
  have hq1 : q.count1 = ((if (pms.count0 + ((data.length <<< 3) % 2 ^ w) % 4294967296) % 4294967296
            < (data.length <<< 3) % 2 ^ w
          then (pms.count1 + 1) % 4294967296 else pms.count1)
        + (data.length >>> 29) % 4294967296) % 4294967296 := by rw [hq]
  have hnb : ¬ data.length ≥ 2 ^ w := by omega
  unfold md5_append
  simp only [hnb, if_false, hoff, Nat.mod_eq_of_lt hn]
  rw [← hq, ← hq1, ← hqb]
  by_cases ho : M.length % 64 = 0
  · simp only [ho, ne_eq, not_true_eq_false, if_false]
    exact ⟨_, rfl, md5_append_aligned q M data hqr hql ho hd hqc⟩
  · simp only [ho, ne_eq, not_false_eq_true, if_true]
    by_cases hs : M.length % 64 + data.length < 64
    · have hcopy : (if M.length % 64 + data.length > 64 then 64 - M.length % 64
          else data.length) = data.length := by
        rw [if_neg]; omega
      simp only [hcopy, hql]
      rw [if_neg (by omega), if_pos hs]
      subst hq
      exact ⟨_, rfl, md5_append_short _ M data hqr hql hqp hs hqc, rfl⟩
    · have hcopy : (if M.length % 64 + data.length > 64 then 64 - M.length % 64
          else data.length) = 64 - M.length % 64 := by
        split <;> omega
      simp only [hcopy, hql]
      rw [if_neg (by omega), if_neg (by omega)]
      subst hq
      exact ⟨_, rfl, md5_append_long _ M data hqr hql hqp hs hM hd hqc _ rfl _ rfl⟩

theorem md5_init_absorbed (pms : md5_state_t) (h : pms.buf.length = 64) :
    md5_absorbed (md5_init pms) [] :=
  ⟨rfl, h, rfl, rfl⟩

theorem md5_pad_length (o : Nat) (ho : o < 64) :
    (((4294967296 + 55 - o) % 4294967296) &&& 63) + 1 = (119 - o) % 64 + 1 := by
  have e : (63 : Nat) = 2 ^ 6 - 1 := by decide
  rw [e, Nat.and_pow_two_sub_one_eq_mod]
  omega

theorem md5_pad_take (p : Nat) (hp : p ≤ 63) :
    md5_pad.take (p + 1) = [128] ++ List.replicate p 0 := by
  unfold md5_pad
  rw [List.take_succ_cons, List.take_replicate, Nat.min_eq_left hp]
  rfl

theorem and_three (i : Nat) : i &&& 3 = i % 4 := Nat.and_pow_two_sub_one_eq_mod i 2

theorem md5_count_bytes (c0 c1 : Nat) (h0 : c0 < 4294967296) :
    (List.range 8).map (fun i =>
        ((if i >>> 2 = 0 then c0 else c1) >>> ((i &&& 3) * 8)) % 256)
      = (List.range 8).map (fun i => (c0 + 4294967296 * c1) / 256 ^ i % 256) := by
  have e : List.range 8 = [0, 1, 2, 3, 4, 5, 6, 7] := by decide
  rw [e]
  simp only [List.map_cons, List.map_nil, and_three,
    Nat.shiftRight_eq_div_pow]
  norm_num
  refine ⟨?_, ?_, ?_, ?_, ?_, ?_, ?_, ?_⟩ <;> omega

theorem md5_output_bytes (pms : md5_state_t) :
    (List.range 16).map (fun i => (pms.abcd (i >>> 2) >>> ((i &&& 3) * 8)) % 256)
      = rfc1321_output (md5_regs pms) := by
  have e : List.range 16 = [0, 1, 2, 3, 4, 5, 6, 7, 8, 9, 10, 11, 12, 13, 14, 15] := by decide
  rw [e]
  simp only [List.map_cons, List.map_nil, and_three,
    Nat.shiftRight_eq_div_pow, md5_state_t.abcd, rfc1321_output, md5_regs]
  norm_num

/-- The function `md5_finish` from a state that has absorbed `m`: it returns, and the digest is
that of RFC 1321 for `m` with the appended length taken from `count`. -/
theorem md5_finish_eq (w : Nat) (pms : md5_state_t) (m : List Nat)
    (hw : w = 32 ∨ w = 64) (habs : md5_absorbed pms m) (hm : ∀ b ∈ m, b < 256) :
    ∃ pms2, md5_finish w pms
      = some (pms2, rfc1321_digest_with m (pms.count0 + 4294967296 * pms.count1)) := by
  have h2w : 4294967296 ≤ 2 ^ w := by rcases hw with rfl | rfl <;> norm_num
  have hc := habs.1
  have hoff := md5_offset pms.count0 m.length hc
  have ho : m.length % 64 < 64 := Nat.mod_lt _ (by decide)
  have hc0 : pms.count0 < 4294967296 := by rw [hc]; exact Nat.mod_lt _ (by decide)
  have hpad : md5_pad.take ((((4294967296 + 55 - ((pms.count0 >>> 3) &&& 63)) % 4294967296)
      &&& 63) + 1) = [128] ++ List.replicate ((119 - m.length % 64) % 64) 0 := by
    rw [hoff, md5_pad_length _ ho, md5_pad_take _ (by omega)]
  have hdata : (List.range 8).map (fun i => (pms.count (i >>> 2) >>> ((i &&& 3) * 8)) % 256)
      = (List.range 8).map
          (fun i => (pms.count0 + 4294967296 * pms.count1) / 256 ^ i % 256) :=
    md5_count_bytes pms.count0 pms.count1 hc0
  have hpb : ∀ b ∈ [128] ++ List.replicate ((119 - m.length % 64) % 64) 0, b < 256 := by
    intro b hb
    rcases List.mem_append.1 hb with h | h
    · rw [List.mem_singleton.1 h]; decide
    · rw [List.eq_of_mem_replicate h]; decide
  have hdb : ∀ b ∈ (List.range 8).map
      (fun i => (pms.count0 + 4294967296 * pms.count1) / 256 ^ i % 256), b < 256 := by
    intro b hb
    obtain ⟨i, -, rfl⟩ := List.mem_map.1 hb
    exact Nat.mod_lt _ (by decide)
  obtain ⟨pmsA, hA, habsA, -⟩ := md5_append_absorbed w pms m
    ([128] ++ List.replicate ((119 - m.length % 64) % 64) 0) hw habs hm hpb
    (by simp only [List.length_append, List.length_singleton, List.length_replicate]; omega)
  have hmb : ∀ b ∈ m ++ ([128] ++ List.replicate ((119 - m.length % 64) % 64) 0), b < 256 := by
    intro b hb
    rcases List.mem_append.1 hb with h | h
    · exact hm b h
    · exact hpb b h
  obtain ⟨pms2, h2, habs2, -⟩ := md5_append_absorbed w pmsA
    (m ++ ([128] ++ List.replicate ((119 - m.length % 64) % 64) 0))
    ((List.range 8).map (fun i => (pms.count0 + 4294967296 * pms.count1) / 256 ^ i % 256))
    hw habsA hmb hdb
    (by
      have := Nat.mod_lt (m ++ ([128] ++ List.replicate ((119 - m.length % 64) % 64) 0)).length
        (show 64 > 0 by decide)
      simp only [List.length_map, List.length_range]
      omega)
  refine ⟨pms2, ?_⟩
  unfold md5_finish
  simp only [Option.bind_eq_bind]
  rw [hpad, hdata, hA, Option.some_bind, h2, Option.some_bind, md5_output_bytes, habs2.2.2.1]
  unfold rfc1321_digest_with rfc1321_padding
  rw [List.append_assoc, List.append_assoc]

theorem u32_sub_int (a b : Nat) :
    ((u32_sub a b : Nat) : Int) = ((a : Int) - (b : Int)) % 4294967296 := by
  unfold u32_sub
  omega

theorem not_stale_iff (count counter : Nat) :
    ¬ is_stale count counter ↔ u32_sub count counter ≤ 2147483647 := by
  unfold is_stale UINT32_MAX
  omega

theorem ledger_insert_eq (c : Nat) (l : List netplay_event) (e : netplay_event) :
    ledger_insert c l e
      = if u32_sub e.count c ≤ 2147483647 ∧ e.count ∉ l.map netplay_event.count
        then e :: l else l := by
  unfold ledger_insert
  by_cases h1 : is_stale e.count c
  · rw [if_pos (Or.inl h1), if_neg]
    intro h; exact (not_stale_iff _ _).2 h.1 h1
  · by_cases h2 : e.count ∈ l.map netplay_event.count
    · rw [if_pos (Or.inr h2), if_neg]
      intro h; exact h.2 h2
    · rw [if_neg (by rintro (h | h); exact h1 h; exact h2 h),
        if_pos ⟨(not_stale_iff _ _).1 h1, h2⟩]

theorem netplay_process_events_decode (data : List Nat) (p : Fin 4) :
    ∀ (n curr : Nat) (s : Netplay), curr + 9 * n ≤ data.length →
      netplay_process_events data p.val n curr s
        = some (s.set_event_first p
            (((List.range n).map (fun k => event_at data (curr + 9 * k))).foldl
              (ledger_insert (s.l_cin_compats p).netplay_count)
              (s.l_cin_compats p).event_first)) := by
  intro n
  induction n with
  | zero =>
    intro curr s _
    rw [List.range_zero, List.map_nil, List.foldl_nil, set_event_first_self]
    rfl
  | succ n ih =>
    intro curr s hlen
    obtain ⟨count, hcount⟩ := net_read32_some data curr (by omega)
    obtain ⟨keys, hkeys⟩ := net_read32_some data (curr + 4) (by omega)
    have hplug : data[curr + 8]? = some (data.getD (curr + 8) 0) := by
      rw [List.getD_eq_getElem?_getD]
      have : curr + 8 < data.length := by omega
      rw [List.getElem?_eq_getElem this]
      rfl
    have hev : event_at data curr = ⟨count, keys, data.getD (curr + 8) 0⟩ := by
      unfold event_at
      rw [hcount, hkeys]
      rfl
    have hrange : (List.range (n + 1)).map (fun k => event_at data (curr + 9 * k))
        = event_at data curr
          :: (List.range n).map (fun k => event_at data (curr + 9 + 9 * k)) := by
      rw [List.range_succ_eq_map, List.map_cons, List.map_map]
      congr 1
      apply List.map_congr_left
      intro k _
      simp only [Function.comp]
      congr 1
      omega
    rw [hrange, List.foldl_cons, hev]
    unfold netplay_process_events
    simp only [hcount, Option.bind_eq_bind, Option.some_bind, idx4_val]
    by_cases hskip : u32_sub count (s.l_cin_compats p).netplay_count > UINT32_MAX / 2 ∨
        check_valid_list (s.l_cin_compats p).event_first count = true
    · rw [if_pos hskip, ih (curr + 9) s (by omega)]
      rw [ledger_insert_skip]
      rcases hskip with h | h
      · exact Or.inl h
      · exact Or.inr ((check_valid_list_iff _ _).1 h)
    · rw [if_neg hskip]
      simp only [hkeys, hplug, Option.some_bind]
      rw [ih (curr + 9) _ (by omega), set_event_first_cin, set_event_first_twice]
      rw [ledger_insert_new]
      intro h
      apply hskip
      rcases h with h | h
      · exact Or.inl h
      · exact Or.inr ((check_valid_list_iff _ _).2 h)

theorem netplay_process_packet_raw (s : Netplay) (p : Fin 4) (tag status lag n : Nat)
    (rest : List Nat) (h_tag : tag = 1 ∨ tag = 3) (h_n : 9 * n ≤ rest.length) :
    netplay_process_packet s ([tag, p.val, status, lag, n] ++ rest)
      = some (apply_update s
          { tag := tag, player := p, status := status, lag := lag,
            events := datagram_events ([tag, p.val, status, lag, n] ++ rest) n }) := by
  have hlen : 5 + 9 * n ≤ ([tag, p.val, status, lag, n] ++ rest).length := by
    simp only [List.length_append, List.length_cons, List.length_nil]; omega
  have hev := netplay_process_events_decode ([tag, p.val, status, lag, n] ++ rest) p n 5
  unfold netplay_process_packet apply_update datagram_events
  have h0 : ([tag, p.val, status, lag, n] ++ rest)[0]? = some tag := by simp
  have h1 : ([tag, p.val, status, lag, n] ++ rest)[1]? = some p.val := by simp
  have h2 : ([tag, p.val, status, lag, n] ++ rest)[2]? = some status := by simp
  have h3 : ([tag, p.val, status, lag, n] ++ rest)[3]? = some lag := by simp
  have h4 : ([tag, p.val, status, lag, n] ++ rest)[4]? = some n := by simp
  have ht : tag = UDP_RECEIVE_KEY_INFO ∨ tag = UDP_RECEIVE_KEY_INFO_GRATUITOUS := h_tag
  simp only [h0, h1, h2, h3, h4, Option.bind_eq_bind, Option.some_bind, if_pos ht]
  by_cases hk : tag = UDP_RECEIVE_KEY_INFO
  · simp only [if_pos hk, Option.some_bind, idx4_val]
    rw [hev _ hlen]
  · simp only [if_neg hk, Option.some_bind]
    rw [hev _ hlen]

theorem event_at_shift (pre rest : List Nat) (k : Nat) :
    event_at (pre ++ rest) (pre.length + k) = event_at rest k := by
  unfold event_at
  rw [net_read32_append, Nat.add_assoc, net_read32_append, Nat.add_assoc,
    List.getD_eq_getElem?_getD, List.getD_eq_getElem?_getD, getElem?_append_add]

theorem datagram_events_rest (tag player status lag m : Nat) (rest : List Nat) (n : Nat) :
    datagram_events ([tag, player, status, lag, m] ++ rest) n
      = (List.range n).map (fun k => event_at rest (9 * k)) := by
  unfold datagram_events
  apply List.map_congr_left
  intro k _
  exact event_at_shift [tag, player, status, lag, m] rest (9 * k)

theorem apply_update_tags (s : Netplay) (p : Fin 4) (status lag : Nat)
    (events : List netplay_event) :
    apply_update s { tag := 1, player := p, status := status, lag := lag, events := events }
      = { apply_update s
            { tag := 3, player := p, status := status, lag := lag, events := events } with
          l_player_lag := Function.update s.l_player_lag p lag } := by
  unfold apply_update
  by_cases hst : status = s.l_status
  · simp [hst, UDP_RECEIVE_KEY_INFO, Netplay.set_event_first]
  · simp [hst, UDP_RECEIVE_KEY_INFO, Netplay.set_event_first]

theorem apply_update_gratuitous_lag (s : Netplay) (p : Fin 4) (status lag : Nat)
    (events : List netplay_event) :
    (apply_update s
      { tag := 3, player := p, status := status, lag := lag, events := events }).l_player_lag
      = s.l_player_lag := by
  unfold apply_update
  by_cases hst : status = s.l_status
  · simp [hst, UDP_RECEIVE_KEY_INFO, Netplay.set_event_first]
  · simp [hst, UDP_RECEIVE_KEY_INFO, Netplay.set_event_first]

theorem netplay_process_events_lag (data : List Nat) (player n curr : Nat) (s s1 : Netplay)
    (h : netplay_process_events data player n curr s = some s1) :
    s1.l_player_lag = s.l_player_lag := by
  rcases netplay_process_events_zero_or_idx data player n curr s s1 h with h0 | ⟨p, hp⟩
  · rw [h0]
  · subst hp
    obtain ⟨evs, -, hs⟩ := netplay_process_events_frame data p n curr s s1 h
    rw [hs]
    rfl

theorem netplay_process_packet_gratuitous (s t : Netplay) (data : List Nat)
    (h0 : data[0]? = some 3) (h : netplay_process_packet s data = some t) :
    t.l_player_lag = s.l_player_lag := by
  unfold netplay_process_packet at h
  simp only [h0, Option.bind_eq_bind, Option.some_bind, UDP_RECEIVE_KEY_INFO,
    UDP_RECEIVE_KEY_INFO_GRATUITOUS, or_true, if_true,
    show ¬ (3 = 1) by decide, if_false] at h
  cases h1 : data[1]? with
  | none => rw [h1] at h; cases h
  | some player =>
    cases h2 : data[2]? with
    | none => rw [h1, h2] at h; cases h
    | some status =>
      cases h4 : data[4]? with
      | none => rw [h1, h2, h4] at h; simp at h
      | some n =>
        rw [h1, h2, h4] at h
        simp only [Option.some_bind] at h
        have := netplay_process_events_lag _ _ _ _ _ _ h
        rw [this]
        by_cases hst : status = s.l_status
        · simp [hst]
        · simp [hst]

theorem slot_valid_grow (s s1 : Netplay) (i : Fin 4) (hg : ledgers_grow s s1)
    (h : slot_valid s i) : slot_valid s1 i := by
  unfold slot_valid at h ⊢
  obtain ⟨hc, evs, he⟩ := hg i
  obtain ⟨added, ha, -⟩ := foldl_ledger_insert_suffix (s.l_cin_compats i).netplay_count evs
    (s.l_cin_compats i).event_first
  rw [check_valid_list_iff] at h ⊢
  rw [hc, he, ha, List.map_append]
  exact List.mem_append_right _ h

theorem wait_step_valid (i : Fin 4) (timeout : Nat) (s : Netplay) (main_done : Bool)
    (success : Option Int) (ev : wait_event) (st : Netplay × Bool × Option Int)
    (h : wait_step i.val timeout s main_done success ev = some st)
    (hinv : ∀ r, success = some r → r ≠ 0 → slot_valid s i) :
    ∀ r, st.2.2 = some r → r ≠ 0 → slot_valid st.1 i := by
  have hgrow := wait_step_grow i.val timeout s main_done success ev st h
  cases ev with
  | arrive d =>
    simp only [wait_step, Option.some.injEq] at h
    subst h
    exact hinv
  | main mem =>
    intro r hr hr0
    have hs : st.2.2 = success := by
      simp only [wait_step] at h
      split at h
      · simp only [Option.some.injEq] at h
        rw [← h]
      · simp only [Option.bind_eq_bind, Option.bind_eq_some] at h
        obtain ⟨c, -, h⟩ := h
        split at h
        · simp only [Option.bind_eq_some, Option.some.injEq] at h
          obtain ⟨sa, -, rfl⟩ := h
          rfl
        · simp only [Option.some.injEq] at h
          rw [← h]
    rw [hs] at hr
    exact slot_valid_grow s st.1 i hgrow (hinv r hr hr0)
  | helper now =>
    intro r hr hr0
    simp only [wait_step] at h
    split at h
    · rename_i r0
      simp only [Option.some.injEq] at h
      rw [← h] at hr ⊢
      simp only [Option.some.injEq] at hr
      exact hinv r0 rfl (by rw [hr]; exact hr0)
    · simp only [Option.bind_eq_bind, Option.bind_eq_some] at h
      obtain ⟨c, hc, h⟩ := h
      rw [cin_val] at hc
      simp only [Option.some.injEq] at hc
      subst hc
      split at h
      · split at h
        · simp only [Option.some.injEq] at h
          rw [← h] at hr
          simp only [Option.some.injEq] at hr
          exact absurd hr.symm hr0
        · simp only [Option.bind_eq_some, Option.some.injEq] at h
          obtain ⟨sa, -, rfl⟩ := h
          cases hr
      · rename_i hv
        simp only [Option.some.injEq] at h
        rw [← h]
        unfold slot_valid
        simpa using hv

theorem wait_threads_success_valid (i : Fin 4) (timeout : Nat) :
    ∀ (trace : List wait_event) (s : Netplay) (main_done : Bool) (success : Option Int)
      (s1 : Netplay) (r : Int),
      wait_threads i.val timeout trace s main_done success = some (s1, r) →
      (∀ r0, success = some r0 → r0 ≠ 0 → slot_valid s i) → r ≠ 0 → slot_valid s1 i := by
  intro trace
  induction trace with
  | nil =>
    intro s main_done success s1 r h hinv hr
    unfold wait_threads joined at h
    by_cases hm : main_done = true
    · rw [if_pos hm] at h
      cases hs : success with
      | none => rw [hs] at h; cases h
      | some r0 =>
        rw [hs] at h
        simp only [Option.map_some', Option.some.injEq, Prod.mk.injEq] at h
        rw [← h.1]
        exact hinv r0 hs (by rw [h.2]; exact hr)
    · rw [if_neg hm] at h
      cases h
  | cons ev rest ih =>
    intro s main_done success s1 r h hinv hr
    unfold wait_threads at h
    cases hj : joined main_done success with
    | some r0 =>
      rw [hj] at h
      simp only [Option.some.injEq, Prod.mk.injEq] at h
      unfold joined at hj
      by_cases hm : main_done = true
      · rw [if_pos hm] at hj
        rw [← h.1]
        exact hinv r0 hj (by rw [h.2]; exact hr)
      · rw [if_neg hm] at hj
        cases hj
    | none =>
      rw [hj] at h
      cases hstep : wait_step i.val timeout s main_done success ev with
      | none => rw [hstep] at h; cases h
      | some st =>
        rw [hstep] at h
        exact ih st.1 st.2.1 st.2.2 s1 r h
          (wait_step_valid i timeout s main_done success ev st hstep hinv) hr

theorem netplay_ensure_valid_success (s s1 : Netplay) (i : Fin 4) (ticks0 : Nat)
    (trace : List wait_event) (r : Int)
    (h : netplay_ensure_valid s i.val ticks0 trace = some (s1, r)) (hr : r ≠ 0) :
    slot_valid s1 i := by
  unfold netplay_ensure_valid at h
  rw [cin_val] at h
  simp only [Option.bind_eq_bind, Option.some_bind] at h
  split_ifs at h with hv hc
  · simp only [Option.some.injEq, Prod.mk.injEq] at h
    rw [← h.1]
    exact hv
  · simp only [Option.some.injEq, Prod.mk.injEq] at h
    exact absurd h.2.symm hr
  · exact wait_threads_success_valid i _ trace s false none s1 r h
      (fun r0 h0 => by cases h0) hr

theorem find_event_split : ∀ (l : List netplay_event) (c : Nat),
    check_valid_list l c = true →
    ∃ pre e post, l = pre ++ e :: post ∧ e.count = c ∧ (∀ x ∈ pre, x.count ≠ c) ∧
      find_event l c = some pre.length := by
  intro l
  induction l with
  | nil => intro c h; cases h
  | cons x l ih =>
    intro c h
    unfold check_valid_list at h
    by_cases hx : x.count = c
    · refine ⟨[], x, l, rfl, hx, by simp, ?_⟩
      unfold find_event
      rw [if_pos hx]
      rfl
    · rw [if_neg hx] at h
      obtain ⟨pre, e, post, hl, he, hpre, hf⟩ := ih c h
      refine ⟨x :: pre, e, post, by rw [hl]; rfl, he, ?_, ?_⟩
      · intro y hy
        rcases List.mem_cons.1 hy with h1 | h1
        · rw [h1]; exact hx
        · exact hpre y h1
      · unfold find_event
        rw [if_neg hx, hf]
        rfl

theorem netplay_set_controller_eq (s : Netplay) (p : Fin 4)
    (h : s.l_netplay_controller ≠ 2147483647) :
    netplay_set_controller s p.val
      = some { s with l_netplay_control :=
                        Function.update s.l_netplay_control p s.l_netplay_controller,
                      l_netplay_controller := s.l_netplay_controller + 1,
                      l_spectator := 0 } := by
  unfold netplay_set_controller
  rw [idx4_val]
  simp only [Option.bind_eq_bind, Option.some_bind]
  rw [if_neg h]

theorem set_controllers_spec :
    ∀ (players : List (Fin 4)) (s : Netplay), players.Nodup →
      0 ≤ s.l_netplay_controller →
      s.l_netplay_controller + (players.length : Int) ≤ 2147483647 →
      ∃ s1, set_controllers (players.map Fin.val) s = some s1 ∧
        s1.l_netplay_controller = s.l_netplay_controller + (players.length : Int) ∧
        (∀ (j : Nat) (p : Fin 4), players[j]? = some p →
          s1.l_netplay_control p = s.l_netplay_controller + (j : Int)) ∧
        (∀ q : Fin 4, q ∉ players → s1.l_netplay_control q = s.l_netplay_control q) ∧
        (players ≠ [] → s1.l_spectator = 0) ∧ (players = [] → s1 = s) := by
  intro players
  induction players with
  | nil =>
    intro s _ _ _
    refine ⟨s, rfl, by simp, ?_, fun _ _ => rfl, fun h => absurd rfl h, fun _ => rfl⟩
    intro j p h
    simp at h
  | cons p rest ih =>
    intro s hnd h0 hmax
    have hp : p ∉ rest := (List.nodup_cons.1 hnd).1
    have hne : s.l_netplay_controller ≠ 2147483647 := by
      simp only [List.length_cons, Nat.cast_add, Nat.cast_one] at hmax
      omega
    obtain ⟨s1, hrun, hc, hctl, hother, hspec, hnil⟩ := ih
      { s with l_netplay_control :=
                 Function.update s.l_netplay_control p s.l_netplay_controller,
               l_netplay_controller := s.l_netplay_controller + 1,
               l_spectator := 0 }
      (List.nodup_cons.1 hnd).2 (by simp only; omega)
      (by simp only [List.length_cons, Nat.cast_add, Nat.cast_one] at hmax ⊢; omega)
    refine ⟨s1, ?_, ?_, ?_, ?_, ?_, fun h => by cases h⟩
    · rw [List.map_cons, set_controllers, netplay_set_controller_eq s p hne, Option.some_bind]
      exact hrun
    · rw [hc]
      simp only [List.length_cons, Nat.cast_add, Nat.cast_one]
      omega
    · intro j q hq
      cases j with
      | zero =>
        simp only [List.getElem?_cons_zero, Option.some.injEq] at hq
        subst hq
        rw [hother p hp]
        simp
      | succ j =>
        simp only [List.getElem?_cons_succ] at hq
        rw [hctl j q hq]
        simp only [Nat.cast_add, Nat.cast_one]
        omega
    · intro q hq
      have hq1 : q ≠ p := fun h => hq (by rw [h]; exact List.mem_cons_self _ _)
      have hq2 : q ∉ rest := fun h => hq (List.mem_cons_of_mem _ h)
      rw [hother q hq2]
      simp [Function.update_noteq hq1]
    · intro _
      by_cases hr : rest = []
      · rw [hnil hr]
      · exact hspec hr

theorem net_recv_header_loop_ready (sock : List recv_result) (h : net_handle_t)
    (hl : ¬ h.rd_buf_len < 4) : net_recv_header_loop sock h = some (h, sock, none) := by
  cases sock with
  | nil => rw [net_recv_header_loop, if_neg hl]
  | cons r sock => rw [net_recv_header_loop, if_neg hl]

theorem net_recv_payload_loop_ready (need : Nat) (sock : List recv_result) (h : net_handle_t)
    (hl : ¬ h.rd_buf_len < need) : net_recv_payload_loop need sock h = some (h, sock, none) := by
  cases sock with
  | nil => rw [net_recv_payload_loop, if_neg hl]
  | cons r sock => rw [net_recv_payload_loop, if_neg hl]

theorem read_be32 (v : Nat) (hv : v < 4294967296) :
    (((v / 16777216 % 256) <<< 24) ||| ((v / 65536 % 256) <<< 16)
      ||| ((v / 256 % 256) <<< 8) ||| (v % 256)) % 4294967296 = v := by
  have e := or_shift_bytes (v % 256) (v / 256 % 256) (v / 65536 % 256) (v / 16777216 % 256)
    (Nat.mod_lt _ (by decide)) (Nat.mod_lt _ (by decide)) (Nat.mod_lt _ (by decide))
  have c : ((v / 16777216 % 256) <<< 24) ||| ((v / 65536 % 256) <<< 16)
      ||| ((v / 256 % 256) <<< 8) ||| (v % 256)
      = (v % 256) ||| ((v / 256 % 256) <<< 8) ||| ((v / 65536 % 256) <<< 16)
        ||| ((v / 16777216 % 256) <<< 24) := by
    apply Nat.eq_of_testBit_eq
    intro i
    simp only [Nat.testBit_or]
    cases Nat.testBit ((v / 16777216 % 256) <<< 24) i <;>
      cases Nat.testBit ((v / 65536 % 256) <<< 16) i <;>
      cases Nat.testBit ((v / 256 % 256) <<< 8) i <;>
      cases Nat.testBit (v % 256) i <;> rfl
  rw [c, e]
  omega

/-- One call of `net_recv` on a handle whose array starts with a complete frame. -/
theorem net_recv_explicit (fd c : Int) (payload rest tail buf : List Nat) (bufsize ol : Nat)
    (sock : List recv_result) (hc : c ≠ 0) (hL : 4 + payload.length < 4294967296)
    (hsize : payload.length ≤ bufsize) (hcaller : bufsize ≤ buf.length) :
    net_recv (some ⟨fd, c, net_frame payload ++ (rest ++ tail), 4 + payload.length + rest.length⟩)
        buf bufsize (some ol) sock
      = some ⟨net_status_t.NET_OK, some ⟨fd, c, rest ++ (List.drop rest.length
                 (net_frame payload ++ (rest ++ tail))), rest.length⟩,
              payload ++ buf.drop payload.length, some payload.length, sock⟩ := by
  have hlen : payload.length < 4294967296 := by omega
  have hb := read_be32 payload.length hlen
  have hframe : net_frame payload ++ (rest ++ tail)
      = payload.length / 16777216 % 256 :: payload.length / 65536 % 256 ::
          payload.length / 256 % 256 :: payload.length % 256 :: (payload ++ (rest ++ tail)) := rfl
  have htot : (4 + payload.length) % 4294967296 = 4 + payload.length := Nat.mod_eq_of_lt hL
  unfold net_recv
  simp only
  rw [if_neg hc, net_recv_header_loop_ready _ _ (by simp only; omega)]
  simp only [hframe, List.getElem?_cons_zero, List.getElem?_cons_succ, hb, htot]
  rw [net_recv_payload_loop_ready _ _ _ (by simp only; omega)]
  simp only
  rw [if_neg (by omega), if_neg]
  · unfold net_recv_shift
    simp only
    rw [if_neg]
    · simp only [Option.map_some', Option.some.injEq]
      have e1 : List.take payload.length
          (List.drop 4 (payload.length / 16777216 % 256 :: payload.length / 65536 % 256 ::
            payload.length / 256 % 256 :: payload.length % 256 :: (payload ++ (rest ++ tail))))
          = payload := by
        simp only [List.drop_succ_cons, List.drop_zero]
        exact List.take_left' rfl
      have e2 : 4 + payload.length + rest.length - (4 + payload.length) = rest.length := by
        omega
      have e3 : List.take rest.length
          (List.drop (4 + payload.length)
            (payload.length / 16777216 % 256 :: payload.length / 65536 % 256 ::
              payload.length / 256 % 256 :: payload.length % 256 :: (payload ++ (rest ++ tail))))
          = rest := by
        rw [Nat.add_comm 4 payload.length]
        simp only [List.drop_succ_cons, List.drop_zero]
        rw [List.drop_left' rfl]
        exact List.take_left' rfl
      rw [e1, e2, e3]
    · simp only [List.length_cons, List.length_append]
      omega
  · simp only [List.length_cons, List.length_append]
    omega

/-- One call of `net_recv` on a handle whose read buffer starts with a complete frame. -/
theorem net_recv_frame (h : net_handle_t) (buf : List Nat) (bufsize ol : Nat)
    (sock : List recv_result) (payload rest : List Nat)
    (h_conn : h.connected ≠ 0) (h_cap : h.rd_buf.length = RD_BUF_SIZE)
    (h_len : h.rd_buf_len ≤ RD_BUF_SIZE)
    (h_buf : h.rd_buf.take h.rd_buf_len = net_frame payload ++ rest)
    (h_size : payload.length ≤ bufsize) (h_caller : bufsize ≤ buf.length) :
    ∃ h1, net_recv (some h) buf bufsize (some ol) sock
        = some ⟨net_status_t.NET_OK, some h1, payload ++ buf.drop payload.length,
                some payload.length, sock⟩ ∧
      h1.connected = h.connected ∧ h1.sockfd = h.sockfd ∧
      h1.rd_buf.length = RD_BUF_SIZE ∧ h1.rd_buf_len = rest.length ∧
      h1.rd_buf_len ≤ RD_BUF_SIZE ∧ h1.rd_buf.take h1.rd_buf_len = rest := by
  have hl1 : (h.rd_buf.take h.rd_buf_len).length = h.rd_buf_len := by
    rw [List.length_take, h_cap, Nat.min_eq_left h_len]
  have hl2 : h.rd_buf_len = 4 + payload.length + rest.length := by
    rw [← hl1, h_buf]
    simp only [net_frame, List.length_append, net_write32_length]
  have hsplit : h.rd_buf = net_frame payload ++ (rest ++ h.rd_buf.drop h.rd_buf_len) := by
    rw [← List.append_assoc, ← h_buf, List.take_append_drop]
  have hh : h = ⟨h.sockfd, h.connected, net_frame payload ++ (rest ++ h.rd_buf.drop h.rd_buf_len),
      4 + payload.length + rest.length⟩ := by
    cases h with
    | mk fd c rb rl =>
      simp only at hsplit hl2
      simp only [net_handle_t.mk.injEq, true_and]
      exact ⟨hsplit, hl2⟩
  have hL : 4 + payload.length < 4294967296 := by
    unfold RD_BUF_SIZE at h_len
    omega
  have hrun := net_recv_explicit h.sockfd h.connected payload rest
    (h.rd_buf.drop h.rd_buf_len) buf bufsize ol sock h_conn hL h_size h_caller
  rw [← hh] at hrun
  refine ⟨_, hrun, rfl, rfl, ?_, rfl, ?_, ?_⟩
  · have hf : (net_frame payload).length = 4 + payload.length := by
      simp only [net_frame, List.length_append, net_write32_length]
    simp only [List.length_append, List.length_drop]
    rw [hf, h_cap]
    unfold RD_BUF_SIZE at h_len ⊢
    omega
  · simp only
    omega
  · simp only
    exact List.take_left' rfl

theorem net_recv_calls_frames :
    ∀ (payloads : List (List Nat)) (h : net_handle_t) (buf : List Nat) (bufsize : Nat)
      (sock : List recv_result) (rest : List Nat),
      h.connected ≠ 0 → h.rd_buf.length = RD_BUF_SIZE → h.rd_buf_len ≤ RD_BUF_SIZE →
      h.rd_buf.take h.rd_buf_len = (payloads.map net_frame).flatten ++ rest →
      (∀ p ∈ payloads, p.length ≤ bufsize) → bufsize ≤ buf.length →
      ∃ hn bufn, net_recv_calls payloads.length h buf bufsize sock
          = some (payloads, hn, bufn, sock) ∧
        hn.connected = h.connected ∧ hn.rd_buf_len = rest.length ∧
        hn.rd_buf.take hn.rd_buf_len = rest := by
  intro payloads
  induction payloads with
  | nil =>
    intro h buf bufsize sock rest _ hcap hlen hbuf _ _
    refine ⟨h, buf, rfl, rfl, ?_, hbuf⟩
    have := congrArg List.length hbuf
    rw [List.length_take, hcap, Nat.min_eq_left hlen] at this
    exact this
  | cons p ps ih =>
    intro h buf bufsize sock rest hconn hcap hlen hbuf hsize hcaller
    have hp : p.length ≤ bufsize := hsize p (List.mem_cons_self _ _)
    rw [List.map_cons, List.flatten_cons, List.append_assoc] at hbuf
    obtain ⟨h1, hrun, hc1, -, hcap1, -, hlen1, hbuf1⟩ := net_recv_frame h buf bufsize 0 sock p
      ((ps.map net_frame).flatten ++ rest) hconn hcap hlen hbuf hp hcaller
    have hb1 : bufsize ≤ (p ++ buf.drop p.length).length := by
      rw [List.length_append, List.length_drop]
      omega
    obtain ⟨hn, bufn, hrest, hcn, hln, hbn⟩ := ih h1 (p ++ buf.drop p.length) bufsize sock rest
      (by rw [hc1]; exact hconn) hcap1 hlen1 hbuf1
      (fun q hq => hsize q (List.mem_cons_of_mem _ hq)) hb1
    refine ⟨hn, bufn, ?_, by rw [hcn, hc1], hln, hbn⟩
    rw [List.length_cons, net_recv_calls, hrun]
    simp only [Option.some_bind, if_true, hrest, Option.map_some']
    rw [List.take_left' rfl]

theorem framed_handle_length : framed_handle.rd_buf.length = RD_BUF_SIZE := by
  rw [show framed_handle.rd_buf
    = [0, 0, 0, 3, 1, 2, 3, 0, 0, 0, 1, 9, 0, 0] ++ List.replicate 65522 0 from rfl,
    List.length_append, List.length_replicate]
  rfl

theorem framed_handle_frames :
    framed_handle.rd_buf.take framed_handle.rd_buf_len
      = ([[1, 2, 3], [9]].map net_frame).flatten ++ [0, 0] := by
  rw [show framed_handle.rd_buf
    = [0, 0, 0, 3, 1, 2, 3, 0, 0, 0, 1, 9, 0, 0] ++ List.replicate 65522 0 from rfl,
    show framed_handle.rd_buf_len = 14 from rfl,
    @List.take_left' Nat [0, 0, 0, 3, 1, 2, 3, 0, 0, 0, 1, 9, 0, 0] (List.replicate 65522 0) 14 rfl]
  decide

theorem session_inv_of_eq (s s1 : Netplay) (h1 : s1.l_cin_compats = s.l_cin_compats)
    (h2 : s1.udp_in = s.udp_in) (h : session_inv s) : session_inv s1 := by
  unfold session_inv at h ⊢
  rw [h1, h2]
  exact h

theorem session_inv_of_cin (s s1 : Netplay) (h1 : s1.l_cin_compats = s.l_cin_compats)
    (h2 : ∀ d ∈ s1.udp_in, bytes_ok d) (h : session_inv s) : session_inv s1 := by
  unfold session_inv at h ⊢
  rw [h1]
  exact ⟨h.1, h2⟩

theorem fresh_session_inv (s : Netplay) (h : fresh_session s) : session_inv s := by
  refine ⟨fun q => ?_, h.2⟩
  obtain ⟨h1, h2⟩ := h.1 q
  refine ⟨h2, ?_, ?_⟩
  · rw [h1]; intro e he; cases he
  · rw [h1]; exact List.nodup_nil

theorem net_read32_lt (data : List Nat) (k v : Nat) (hb : bytes_ok data)
    (h : net_read32 data k = some v) : v < 4294967296 := by
  unfold net_read32 at h
  simp only [Option.bind_eq_bind, Option.bind_eq_some, Option.some.injEq] at h
  obtain ⟨b0, h0, b1, h1, b2, h2, b3, h3, rfl⟩ := h
  have g : ∀ (j b : Nat), data[j]? = some b → b < 256 := by
    intro j b hj
    exact hb b (List.getElem?_mem hj)
  have := g _ _ h0
  have := g _ _ h1
  have := g _ _ h2
  have := g _ _ h3
  omega

theorem slot_inv_cons (c : Nat) (l : List netplay_event) (e : netplay_event)
    (h : slot_inv ⟨l, c⟩) (he : e.count < 4294967296)
    (hnew : ¬ (u32_sub e.count c > UINT32_MAX / 2 ∨ check_valid_list l e.count = true)) :
    slot_inv ⟨e :: l, c⟩ := by
  obtain ⟨h1, h2, h3⟩ := h
  refine ⟨h1, ?_, ?_⟩
  · intro x hx
    rcases List.mem_cons.1 hx with hx | hx
    · rw [hx]
      refine ⟨he, ?_⟩
      have : ¬ u32_sub e.count c > UINT32_MAX / 2 := fun h => hnew (Or.inl h)
      unfold UINT32_MAX at this
      simp only at this ⊢
      omega
    · exact h2 x hx
  · simp only [List.map_cons, List.nodup_cons]
    refine ⟨?_, h3⟩
    intro hm
    exact hnew (Or.inr ((check_valid_list_iff _ _).2 hm))

theorem slot_inv_consume (c : Nat) (pre post : List netplay_event) (e : netplay_event)
    (h : slot_inv ⟨pre ++ e :: post, c⟩) (he : e.count = c) :
    slot_inv ⟨pre ++ post, (c + 1) % 4294967296⟩ := by
  obtain ⟨h1, h2, h3⟩ := h
  simp only at h1 h2 h3
  refine ⟨Nat.mod_lt _ (by decide), ?_, ?_⟩
  · intro x hx
    simp only at hx ⊢
    have hx2 : x ∈ pre ++ e :: post := by
      rcases List.mem_append.1 hx with h | h
      · exact List.mem_append_left _ h
      · exact List.mem_append_right _ (List.mem_cons_of_mem _ h)
    obtain ⟨hb, hw⟩ := h2 x hx2
    refine ⟨hb, ?_⟩
    have hne : x.count ≠ c := by
      rw [List.map_append, List.map_cons] at h3
      have hmid := List.nodup_middle.1 h3
      rw [List.nodup_cons] at hmid
      intro hxc
      apply hmid.1
      rw [he, ← hxc, ← List.map_append]
      exact List.mem_map_of_mem _ hx
    unfold u32_sub at hw ⊢
    omega
  · simp only
    rw [List.map_append, List.map_cons] at h3
    have hmid := List.nodup_middle.1 h3
    rw [List.nodup_cons] at hmid
    rw [List.map_append]
    exact hmid.2

theorem session_inv_set (s : Netplay) (p : Fin 4) (l : List netplay_event)
    (h : session_inv s) (hl : slot_inv ⟨l, (s.l_cin_compats p).netplay_count⟩) :
    session_inv (s.set_event_first p l) := by
  refine ⟨fun q => ?_, h.2⟩
  by_cases hq : q = p
  · rw [hq, set_event_first_cin]
    exact hl
  · rw [set_event_first_cin_ne s p q l hq]
    exact h.1 q

theorem netplay_process_events_inv (data : List Nat) (hb : bytes_ok data) (player : Nat) :
    ∀ (n curr : Nat) (s s1 : Netplay),
      netplay_process_events data player n curr s = some s1 → session_inv s →
      session_inv s1 := by
  intro n
  induction n with
  | zero =>
    intro curr s s1 h hinv
    simp only [netplay_process_events, Option.some.injEq] at h
    rw [← h]
    exact hinv
  | succ n ih =>
    intro curr s s1 h hinv
    simp only [netplay_process_events, Option.bind_eq_bind, Option.bind_eq_some] at h
    obtain ⟨count, hc, p, -, h⟩ := h
    split at h
    · exact ih _ _ _ h hinv
    · rename_i hnew
      simp only [Option.bind_eq_some] at h
      obtain ⟨keys, -, plugin, -, h⟩ := h
      refine ih _ _ _ h (session_inv_set s p _ hinv ?_)
      exact slot_inv_cons _ _ ⟨count, keys, plugin⟩ (hinv.1 p)
        (net_read32_lt data curr count hb hc) hnew

theorem netplay_process_packet_inv (s s1 : Netplay) (data : List Nat) (hb : bytes_ok data)
    (h : netplay_process_packet s data = some s1) (hinv : session_inv s) :
    session_inv s1 := by
  unfold netplay_process_packet at h
  simp only [Option.bind_eq_bind, Option.bind_eq_some] at h
  obtain ⟨tag, -, h⟩ := h
  by_cases htag : tag = UDP_RECEIVE_KEY_INFO ∨ tag = UDP_RECEIVE_KEY_INFO_GRATUITOUS
  · rw [if_pos htag] at h
    simp only [Option.bind_eq_some] at h
    obtain ⟨player, -, status, -, sa, hsa, n, -, hev⟩ := h
    have ha : sa.l_cin_compats = s.l_cin_compats ∧ sa.udp_in = s.udp_in := by
      split at hsa
      · simp only [Option.bind_eq_some, Option.some.injEq] at hsa
        obtain ⟨lag, -, p, -, rfl⟩ := hsa
        exact ⟨rfl, rfl⟩
      · simp only [Option.some.injEq] at hsa
        rw [← hsa]
        exact ⟨rfl, rfl⟩
    have hia : session_inv sa := session_inv_of_eq s sa ha.1 ha.2 hinv
    split at hev
    · exact netplay_process_events_inv data hb player n 5 _ s1 hev
        (session_inv_of_eq sa _ rfl rfl hia)
    · exact netplay_process_events_inv data hb player n 5 _ s1 hev hia
  · rw [if_neg htag] at h
    simp only [Option.some.injEq] at h
    rw [← h]
    exact session_inv_of_eq s _ rfl rfl hinv

theorem UDP_Recv_bytes (data d : List Nat) (h1 : bytes_ok data) (h2 : bytes_ok d) :
    bytes_ok (UDP_Recv data d).1 := by
  unfold UDP_Recv
  intro b hb
  rcases List.mem_append.1 hb with h | h
  · exact h2 b (List.mem_of_mem_take h)
  · exact h1 b (List.mem_of_mem_drop h)

theorem alloc_packet_bytes (size : Nat) (mem : List Nat) (h : bytes_ok mem) :
    bytes_ok (alloc_packet size mem) := by
  unfold alloc_packet
  intro b hb
  obtain ⟨k, -, rfl⟩ := List.mem_map.1 hb
  rw [List.getD_eq_getElem?_getD]
  cases hk : mem[k]? with
  | none => exact (by decide : (0 : Nat) < 256)
  | some v => exact h v (List.getElem?_mem hk)

theorem netplay_process_loop_inv :
    ∀ (q : List (List Nat)) (data : List Nat) (s s1 : Netplay),
      netplay_process_loop q data s = some s1 → bytes_ok data → (∀ d ∈ q, bytes_ok d) →
      session_inv s → session_inv s1 := by
  intro q
  induction q with
  | nil =>
    intro data s s1 h _ _ hinv
    simp only [netplay_process_loop, Option.some.injEq] at h
    rw [← h]
    exact hinv
  | cons d q ih =>
    intro data s s1 h hb hq hinv
    simp only [netplay_process_loop, Option.bind_eq_bind, Option.bind_eq_some] at h
    obtain ⟨sa, hsa, hrest⟩ := h
    have hd := UDP_Recv_bytes data d hb (hq d (List.mem_cons_self _ _))
    exact ih _ _ _ hrest hd (fun x hx => hq x (List.mem_cons_of_mem _ hx))
      (netplay_process_packet_inv s sa _ hd hsa hinv)

theorem netplay_process_inv (s s1 : Netplay) (mem : List Nat) (hm : bytes_ok mem)
    (h : netplay_process s mem = some s1) (hinv : session_inv s) : session_inv s1 :=
  netplay_process_loop_inv s.udp_in (alloc_packet 512 mem) { s with udp_in := [] } s1 h
    (alloc_packet_bytes 512 mem hm) hinv.2
    (session_inv_of_cin s _ rfl (fun d hd => by cases hd) hinv)

theorem wait_step_inv (control_id timeout : Nat) (s : Netplay) (main_done : Bool)
    (success : Option Int) (ev : wait_event) (st : Netplay × Bool × Option Int)
    (h : wait_step control_id timeout s main_done success ev = some st)
    (hev : ev.bytes_ok) (hinv : session_inv s) : session_inv st.1 := by
  cases ev with
  | arrive d =>
    simp only [wait_step, Option.some.injEq] at h
    rw [← h]
    refine session_inv_of_cin s _ rfl ?_ hinv
    intro x hx
    rcases List.mem_append.1 hx with h1 | h1
    · exact hinv.2 x h1
    · rw [List.mem_singleton.1 h1]
      exact hev
  | main mem =>
    simp only [wait_step] at h
    split at h
    · simp only [Option.some.injEq] at h
      rw [← h]; exact hinv
    · simp only [Option.bind_eq_bind, Option.bind_eq_some] at h
      obtain ⟨c, -, h⟩ := h
      split at h
      · simp only [Option.bind_eq_some, Option.some.injEq] at h
        obtain ⟨sa, hsa, rfl⟩ := h
        exact netplay_process_inv _ _ _ hev hsa hinv
      · simp only [Option.some.injEq] at h
        rw [← h]; exact hinv
  | helper now =>
    simp only [wait_step] at h
    split at h
    · simp only [Option.some.injEq] at h
      rw [← h]; exact hinv
    · simp only [Option.bind_eq_bind, Option.bind_eq_some] at h
      obtain ⟨c, -, h⟩ := h
      split at h
      · split at h
        · simp only [Option.some.injEq] at h
          rw [← h]; exact session_inv_of_eq s _ rfl rfl hinv
        · simp only [Option.bind_eq_some, Option.some.injEq] at h
          obtain ⟨sa, hsa, rfl⟩ := h
          have hf := netplay_request_input_cin _ _ _ hsa
          exact session_inv_of_eq s sa hf.1 hf.2.2.2.1 hinv
      · simp only [Option.some.injEq] at h
        rw [← h]; exact hinv

theorem wait_threads_inv (control_id timeout : Nat) :
    ∀ (trace : List wait_event) (s : Netplay) (main_done : Bool) (success : Option Int)
      (s1 : Netplay) (r : Int),
      wait_threads control_id timeout trace s main_done success = some (s1, r) →
      (∀ ev ∈ trace, ev.bytes_ok) → session_inv s → session_inv s1 := by
  intro trace
  induction trace with
  | nil =>
    intro s md hr s1 r h _ hinv
    simp only [wait_threads, Option.map_eq_some', Prod.mk.injEq] at h
    obtain ⟨_, -, rfl, -⟩ := h
    exact hinv
  | cons ev rest ih =>
    intro s md hr s1 r h hev hinv
    simp only [wait_threads] at h
    split at h
    · simp only [Option.some.injEq, Prod.mk.injEq] at h
      rw [← h.1]; exact hinv
    · split at h
      · cases h
      · next st hst =>
        exact ih _ _ _ _ _ h (fun x hx => hev x (List.mem_cons_of_mem _ hx))
          (wait_step_inv _ _ _ _ _ _ _ hst (hev ev (List.mem_cons_self _ _)) hinv)

theorem netplay_ensure_valid_inv (s s1 : Netplay) (control_id ticks0 : Nat)
    (trace : List wait_event) (r : Int)
    (h : netplay_ensure_valid s control_id ticks0 trace = some (s1, r))
    (hev : ∀ ev ∈ trace, ev.bytes_ok) (hinv : session_inv s) : session_inv s1 := by
  simp only [netplay_ensure_valid, Option.bind_eq_bind, Option.bind_eq_some] at h
  obtain ⟨c, -, h⟩ := h
  split at h
  · simp only [Option.some.injEq, Prod.mk.injEq] at h
    rw [← h.1]; exact hinv
  · split at h
    · simp only [Option.some.injEq, Prod.mk.injEq] at h
      rw [← h.1]; exact hinv
    · exact wait_threads_inv _ _ _ _ _ _ _ _ h hev hinv

theorem find_event_some_split : ∀ (l : List netplay_event) (c k : Nat),
    find_event l c = some k →
    ∃ pre e post, l = pre ++ e :: post ∧ e.count = c ∧ (∀ x ∈ pre, x.count ≠ c) := by
  intro l
  induction l with
  | nil => intro c k h; cases h
  | cons x l ih =>
    intro c k h
    unfold find_event at h
    by_cases hx : x.count = c
    · exact ⟨[], x, l, rfl, hx, by simp⟩
    · rw [if_neg hx] at h
      simp only [Option.map_eq_some'] at h
      obtain ⟨k1, hk1, -⟩ := h
      obtain ⟨pre, e, post, hl, he, hpre⟩ := ih c k1 hk1
      refine ⟨x :: pre, e, post, by rw [hl]; rfl, he, ?_⟩
      intro y hy
      rcases List.mem_cons.1 hy with h1 | h1
      · rw [h1]; exact hx
      · exact hpre y h1

theorem netplay_consume_inv (s s1 : Netplay) (control_id keys : Nat) (success : Int)
    (h : netplay_consume s control_id success = some (s1, keys)) (hinv : session_inv s) :
    session_inv s1 := by
  by_cases hs : success ≠ 0
  · have h0 := h
    unfold netplay_consume at h0
    rw [if_pos hs] at h0
    simp only [Option.bind_eq_bind, Option.bind_eq_some] at h0
    obtain ⟨p, hp, k, hk, -⟩ := h0
    have hpv := idx4_eq_some hp
    subst hpv
    obtain ⟨pre, e, post, hl, he, hpre⟩ := find_event_some_split _ _ _ hk
    rw [netplay_consume_found s p success hs pre post e hl he hpre] at h
    simp only [Option.some.injEq, Prod.mk.injEq] at h
    rw [← h.1]
    refine ⟨fun q => ?_, hinv.2⟩
    by_cases hq : q = p
    · rw [hq]
      simp only [Function.update_same]
      have := hinv.1 p
      have e1 : s.l_cin_compats p = ⟨pre ++ e :: post, (s.l_cin_compats p).netplay_count⟩ :=
        cin_ext _ _ hl rfl
      rw [e1] at this
      exact slot_inv_consume _ pre post e this he
    · simp only [Function.update_noteq hq]
      exact hinv.1 q
  · unfold netplay_consume at h
    rw [if_neg hs] at h
    simp only [Option.some.injEq, Prod.mk.injEq] at h
    rw [← h.1]
    exact session_inv_of_eq s _ rfl rfl hinv

theorem netplay_get_input_inv (s s1 : Netplay) (control_id keys : Nat) (env : poll_env)
    (h : netplay_get_input s control_id env = some (s1, keys))
    (hm : bytes_ok env.mem) (ht : ∀ ev ∈ env.trace, ev.bytes_ok) (hinv : session_inv s) :
    session_inv s1 := by
  unfold netplay_get_input at h
  simp only [Option.bind_eq_bind, Option.bind_eq_some] at h
  obtain ⟨sa, hsa, sb, hsb, sc, hsc, r, hr, hcons⟩ := h
  have ia := netplay_process_inv s sa env.mem hm hsa hinv
  have fb := netplay_request_input_cin _ _ _ hsb
  have ib := session_inv_of_eq sa sb fb.1 fb.2.2.2.1 ia
  have fc := netplay_lag_policy_cin _ _ _ hsc
  have ic := session_inv_of_eq sb sc fc.1 fc.2.2.2.1 ib
  have id := netplay_ensure_valid_inv sc r.1 control_id env.ticks0 env.trace r.2 hr ht ic
  exact netplay_consume_inv r.1 s1 control_id keys r.2 hcons id

theorem run_calls_inv : ∀ (calls : List session_call) (s s1 : Netplay),
    run_calls calls s = some s1 → (∀ c ∈ calls, c.bytes_ok) → session_inv s →
    session_inv s1 := by
  intro calls
  induction calls with
  | nil =>
    intro s s1 h _ hinv
    simp only [run_calls, Option.some.injEq] at h
    rw [← h]
    exact hinv
  | cons c rest ih =>
    intro s s1 h hc hinv
    simp only [run_calls, Option.bind_eq_some] at h
    obtain ⟨sa, hsa, hrest⟩ := h
    refine ih sa s1 hrest (fun x hx => hc x (List.mem_cons_of_mem _ hx)) ?_
    have hcb := hc c (List.mem_cons_self _ _)
    cases c with
    | arrive d =>
      simp only [run_call, Option.some.injEq] at hsa
      rw [← hsa]
      refine session_inv_of_cin s _ rfl ?_ hinv
      intro x hx
      rcases List.mem_append.1 hx with h1 | h1
      · exact hinv.2 x h1
      · rw [List.mem_singleton.1 h1]
        exact hcb
    | process mem =>
      exact netplay_process_inv s sa mem hcb hsa hinv
    | get_input control_id env =>
      simp only [run_call, Option.map_eq_some'] at hsa
      obtain ⟨r, hr, rfl⟩ := hsa
      exact netplay_get_input_inv s r.1 control_id r.2 env hr hcb.1 hcb.2 hinv

theorem tcp_recv_while_fail_first (w : Bool) (size : Nat) (f : tcp_failure)
    (os : List (Option tcp_failure)) (q : List (List Nat)) (buf : List Nat) (h : 0 < size) :
    tcp_recv_while w size (some f :: os) q buf 0 = if w then some (buf, q, os) else none := by
  have hs : ¬ size ≤ 0 := by omega
  cases f <;> simp [tcp_recv_while, TCP_Recv, tcp_failure.ret, hs]

theorem tcp_recv_while_delivers (w : Bool) (size : Nat) :
    ∀ (os : List (Option tcp_failure)) (q : List (List Nat)) (buf : List Nat) (recv : Nat),
      (∀ o ∈ os, o = none) → recv ≤ size → size ≤ buf.length →
      size - recv ≤ q.flatten.length →
      ∃ q1 os1, tcp_recv_while w size os q buf recv
          = some (buf.take recv ++ q.flatten.take (size - recv) ++ buf.drop size, q1, os1) ∧
        q1.flatten = q.flatten.drop (size - recv) ∧ (∀ o ∈ os1, o = none) := by
  intro os
  induction os with
  | nil =>
    intro q buf recv _ hrecv hbuf hq
    obtain ⟨q1, hr, hq1⟩ := tcp_recv_loop_spec q (size - recv) [] hq
    refine ⟨q1, [], ?_, hq1, by simp⟩
    have hl : (q.flatten.take (size - recv)).length = size - recv := by
      rw [List.length_take]; omega
    simp only [tcp_recv_while, hr, Option.map_some', List.nil_append, hl]
    have : recv + (size - recv) = size := by omega
    rw [this]
  | cons o os ih =>
    intro q buf recv hos hrecv hbuf hq
    have ho : o = none := hos o (List.mem_cons_self _ _)
    have hos2 : ∀ o ∈ os, o = none := fun x hx => hos x (List.mem_cons_of_mem _ hx)
    subst ho
    unfold tcp_recv_while
    by_cases hdone : size ≤ recv
    · rw [if_pos hdone]
      have : recv = size := by omega
      subst this
      refine ⟨q, none :: os, ?_, by simp, hos⟩
      simp
    · rw [if_neg hdone]
      cases q with
      | nil => simp at hq; omega
      | cons c rest =>
        simp only [List.flatten_cons, List.length_append] at hq
        by_cases hc : c.length ≤ size - recv
        · simp only [TCP_Recv, if_pos hc]
          have hnn : ¬ ((recv : Int) + (c.length : Int) < 0) := by omega
          rw [if_neg hnn]
          have htn : ((recv : Int) + (c.length : Int)).toNat = recv + c.length := by omega
          rw [htn]
          have hlen : (buf.take recv ++ c ++ buf.drop (recv + c.length)).length = buf.length := by
            simp only [List.length_append, List.length_take, List.length_drop]; omega
          obtain ⟨q1, os1, hr, hq1, hos1⟩ := ih rest
            (buf.take recv ++ c ++ buf.drop (recv + c.length)) (recv + c.length) hos2
            (by omega) (by rw [hlen]; exact hbuf) (by omega)
          refine ⟨q1, os1, ?_, ?_, hos1⟩
          · rw [hr]
            have h1 : (buf.take recv ++ c ++ buf.drop (recv + c.length)).take (recv + c.length)
                = buf.take recv ++ c := by
              rw [List.take_append_eq_append_take]
              have : (buf.take recv ++ c).length = recv + c.length := by
                simp only [List.length_append, List.length_take]; omega
              rw [this, List.take_of_length_le (by rw [this])]
              simp
            have h2 : (buf.take recv ++ c ++ buf.drop (recv + c.length)).drop size
                = buf.drop size := by
              rw [List.drop_append_eq_append_drop]
              have : (buf.take recv ++ c).length = recv + c.length := by
                simp only [List.length_append, List.length_take]; omega
              rw [this, List.drop_of_length_le (by rw [this]; omega), List.nil_append,
                List.drop_drop]
              congr 1; omega
            have h3 : (c ++ rest.flatten).take (size - recv)
                = c ++ rest.flatten.take (size - (recv + c.length)) := by
              rw [List.take_append_eq_append_take, List.take_of_length_le hc]
              congr 2; omega
            rw [h1, h2, List.flatten_cons, h3]
            simp only [List.append_assoc]
          · rw [hq1, List.flatten_cons, List.drop_append_eq_append_drop,
              List.drop_of_length_le hc, List.nil_append]
            congr 1; omega
        · simp only [TCP_Recv, if_neg hc]
          have hnn : ¬ ((recv : Int) + ((size - recv : Nat) : Int) < 0) := by omega
          rw [if_neg hnn]
          have htn : ((recv : Int) + ((size - recv : Nat) : Int)).toNat = size := by omega
          rw [htn]
          have hct : (c.take (size - recv)).length = size - recv := by
            rw [List.length_take]; omega
          have hlen : (buf.take recv ++ c.take (size - recv)
              ++ buf.drop (recv + (c.take (size - recv)).length)).length = buf.length := by
            simp only [List.length_append, List.length_take, List.length_drop]; omega
          obtain ⟨q1, os1, hr, hq1, hos1⟩ := ih (c.drop (size - recv) :: rest)
            (buf.take recv ++ c.take (size - recv)
              ++ buf.drop (recv + (c.take (size - recv)).length)) size hos2
            (le_refl _) (by rw [hlen]; exact hbuf) (by omega)
          refine ⟨q1, os1, ?_, ?_, hos1⟩
          · rw [hr]
            simp only [Nat.sub_self, List.take_zero, List.append_nil, List.take_append_drop]
            rw [hct]
            have h3 : (c ++ rest.flatten).take (size - recv) = c.take (size - recv) := by
              rw [List.take_append_eq_append_take]
              have : size - recv - c.length = 0 := by omega
              rw [this]; simp
            have : recv + (size - recv) = size := by omega
            rw [List.flatten_cons, h3, this]
          · rw [hq1]
            simp only [Nat.sub_self, List.drop_zero, List.flatten_cons]
            rw [List.drop_append_eq_append_drop]
            have : size - recv - c.length = 0 := by omega
            rw [this]; simp

theorem netplay_start_heap (s : Netplay) (env : start_env) :
    (netplay_start s env).1.cin_compats_null = s.cin_compats_null ∧
    (netplay_start s env).1.events_freed = s.events_freed ∧
    (netplay_start s env).1.l_cin_compats = s.l_cin_compats := by
  unfold netplay_start
  split_ifs <;> exact ⟨rfl, rfl, rfl⟩

theorem local_array_length (size : Nat) (mem : List Nat) :
    (local_array size mem).length = size := by
  simp [local_array]

theorem local_array_two (mem : List Nat) : local_array 2 mem = [mem.getD 0 0, mem.getD 1 0] := by
  simp [local_array, List.range, List.range.loop]

theorem read_registration_loop_table (cs : Bool) (table : List Nat)
    (h_len : table.length = 24) (s : Netplay) :
    ∃ s1, read_registration_loop cs table [0, 1, 2, 3] 0 s = some s1 ∧
      s1.tcp_out = s.tcp_out ∧ s1.tcp_in = s.tcp_in ∧ s1.l_cin_compats = s.l_cin_compats ∧
      (∀ i : Fin 4, ∃ id p r, net_read32 table (6 * i.val) = some id ∧
        table[6 * i.val + 4]? = some p ∧ table[6 * i.val + 5]? = some r ∧
        s1.Controls i =
          (if id = 0 then { Present := 0, RawData := 0, Plugin := (PLUGIN_NONE : Int) }
           else { Present := 1, RawData := to_char cs r,
                  Plugin := if to_char cs p = (PLUGIN_TRANSFER_PAK : Int) ∨
                      (i ≠ 0 ∧ to_char cs p = (PLUGIN_MEMPAK : Int))
                    then (PLUGIN_NONE : Int) else to_char cs p })) := by
  obtain ⟨id0, hid0⟩ := net_read32_some table 0 (by omega)
  obtain ⟨id1, hid1⟩ := net_read32_some table (0 + 6) (by omega)
  obtain ⟨id2, hid2⟩ := net_read32_some table (0 + 6 + 6) (by omega)
  obtain ⟨id3, hid3⟩ := net_read32_some table (0 + 6 + 6 + 6) (by omega)
  have hget : ∀ k : Nat, k < 24 → ∃ b, table[k]? = some b := by
    intro k hk
    exact ⟨table[k], List.getElem?_eq_getElem (by omega)⟩
  obtain ⟨p0, hp0⟩ := hget (0 + 4) (by omega)
  obtain ⟨r0, hr0⟩ := hget (0 + 4 + 1) (by omega)
  obtain ⟨p1, hp1⟩ := hget (0 + 6 + 4) (by omega)
  obtain ⟨r1, hr1⟩ := hget (0 + 6 + 4 + 1) (by omega)
  obtain ⟨p2, hp2⟩ := hget (0 + 6 + 6 + 4) (by omega)
  obtain ⟨r2, hr2⟩ := hget (0 + 6 + 6 + 4 + 1) (by omega)
  obtain ⟨p3, hp3⟩ := hget (0 + 6 + 6 + 6 + 4) (by omega)
  obtain ⟨r3, hr3⟩ := hget (0 + 6 + 6 + 6 + 4 + 1) (by omega)
  simp only [read_registration_loop,
    read_registration_entry_eq cs table _ _ _ _ _ _ hid0 hp0 hr0,
    read_registration_entry_eq cs table _ _ _ _ _ _ hid1 hp1 hr1,
    read_registration_entry_eq cs table _ _ _ _ _ _ hid2 hp2 hr2,
    read_registration_entry_eq cs table _ _ _ _ _ _ hid3 hp3 hr3]
  refine ⟨_, rfl, rfl, rfl, rfl, ?_⟩
  · intro i
    have h01 : (0 : Fin 4) ≠ 1 := by decide
    have h02 : (0 : Fin 4) ≠ 2 := by decide
    have h03 : (0 : Fin 4) ≠ 3 := by decide
    have h12 : (1 : Fin 4) ≠ 2 := by decide
    have h13 : (1 : Fin 4) ≠ 3 := by decide
    have h23 : (2 : Fin 4) ≠ 3 := by decide
    fin_cases i
    · refine ⟨id0, p0, r0, hid0, hp0, hr0, ?_⟩
      simp only [Fin.zero_eta, Function.update_noteq h03, Function.update_noteq h02,
        Function.update_noteq h01, Function.update_same, registered_control,
        registered_peripheral]
    · refine ⟨id1, p1, r1, hid1, hp1, hr1, ?_⟩
      simp only [Fin.mk_one, Function.update_noteq h13, Function.update_noteq h12,
        Function.update_same, registered_control, registered_peripheral]
    · refine ⟨id2, p2, r2, hid2, hp2, hr2, ?_⟩
      simp only [Fin.reduceFinMk, Function.update_noteq h23, Function.update_same,
        registered_control, registered_peripheral]
    · refine ⟨id3, p3, r3, hid3, hp3, hr3, ?_⟩
      simp only [Fin.reduceFinMk, Function.update_same, registered_control,
        registered_peripheral]

/-! ## The claims -/

/-- C1. Starting from a session whose ledger for slot `i` is empty and whose slot-`i` counter is
`c`, when the transport delivers the one input-update datagram `{tag 1, slot i, status, lag,
event_count 1, (sequence c, buttons b, peripheral p)}` - it is in the receive queue when the
call starts, or the route is intact and it arrives while the call waits, before the deadline
(`delivers_once`) - `netplay_get_input(i)` returns `b`, sets `Controls[i].Plugin` to `p`,
leaves the counter at `c + 1` (the increment of the 32-bit counter, which is `c + 1` itself
unless `c = 0xFFFFFFFF`) and leaves the ledger empty, for every status and lag byte. -/
theorem netplay_get_input_delivered (s : Netplay) (i : Fin 4) (c b p status lag : Nat)
    (env : poll_env)
    (hc : c < 4294967296) (hb : b < 4294967296)
    (h_empty : (s.l_cin_compats i).event_first = [])
    (h_counter : (s.l_cin_compats i).netplay_count = c)
    (h_delivered : delivers_once s env
      ([1, i.val, status, lag, 1] ++ net_write32 c ++ net_write32 b ++ [p])) :
    ∃ s4, netplay_get_input s i.val env = some (s4, b) ∧
      (s4.Controls i).Plugin = (p : Int) ∧
      (s4.l_cin_compats i).netplay_count = (c + 1) % 4294967296 ∧
      (c < 4294967295 → (s4.l_cin_compats i).netplay_count = c + 1) ∧
      (s4.l_cin_compats i).event_first = [] := by
  have key : ∃ s4, netplay_get_input s i.val env = some (s4, b) ∧
      (s4.Controls i).Plugin = (p : Int) ∧
      (s4.l_cin_compats i).netplay_count = (c + 1) % 4294967296 ∧
      (s4.l_cin_compats i).event_first = [] := by
    rcases h_delivered with hq | ⟨hq, hroute, t1, t2, mem, t3, htrace, h1, h2, h3, h4⟩
    · obtain ⟨s1, hproc, hcin⟩ := netplay_process_single s i c b p status lag env.mem hc hb
        h_empty h_counter hq
      obtain ⟨s4, g1, g2, g3, g4, -⟩ := netplay_get_input_buffered s s1 i env [] []
        ⟨c, b, p⟩ hproc (by rw [hcin]; rfl) (by rw [hcin]) (by simp)
      rw [hcin] at g4
      exact ⟨s4, g1, g2, g4, by simpa using g3⟩
    · exact netplay_get_input_answered s i c b p status lag env hc hb h_empty h_counter hq
        hroute t1 t2 mem t3 htrace h1 h2 h3 h4
  obtain ⟨s4, g1, g2, g3, g4⟩ := key
  refine ⟨s4, g1, g2, g3, ?_, g4⟩
  intro hlt
  rw [g3]
  omega

set_option maxRecDepth 100000 in
/-- C1, the example scenario: slot 0, counter 5, buttons `0x0080`, peripheral 1 gives the return
value `0x0080`, peripheral 1, counter 6 and an empty ledger - with the datagram in the
receive queue at the call, and with the datagram arriving while the call waits. -/
theorem netplay_get_input_delivered_witness :
    (delivers_once scenario_state scenario_env
        ([1, (0 : Fin 4).val, 0, 0, 1] ++ net_write32 5 ++ net_write32 128 ++ [1]) ∧
      ∃ s4, netplay_get_input scenario_state 0 scenario_env = some (s4, 128) ∧
        (s4.Controls 0).Plugin = 1 ∧
        (s4.l_cin_compats 0).netplay_count = (5 + 1) % 4294967296 ∧
        (5 < 4294967295 → (s4.l_cin_compats 0).netplay_count = 5 + 1) ∧
        (s4.l_cin_compats 0).event_first = []) ∧
    (delivers_once idle_state answered_env
        ([1, (0 : Fin 4).val, 0, 0, 1] ++ net_write32 5 ++ net_write32 128 ++ [1]) ∧
      ∃ s4, netplay_get_input idle_state 0 answered_env = some (s4, 128) ∧
        (s4.Controls 0).Plugin = 1 ∧
        (s4.l_cin_compats 0).netplay_count = (5 + 1) % 4294967296 ∧
        (5 < 4294967295 → (s4.l_cin_compats 0).netplay_count = 5 + 1) ∧
        (s4.l_cin_compats 0).event_first = []) :=
  ⟨⟨Or.inl (by decide),
    netplay_get_input_delivered scenario_state 0 5 128 1 0 0 scenario_env (by decide)
      (by decide) rfl rfl (Or.inl (by decide))⟩,
   ⟨Or.inr ⟨rfl, by decide, [wait_event.helper 5], [wait_event.helper 12], [],
      [wait_event.main [], wait_event.helper 17], by decide, by decide, by decide,
      ⟨[], by decide⟩, ⟨17, by decide⟩⟩,
    netplay_get_input_delivered idle_state 0 5 128 1 0 0 answered_env (by decide)
      (by decide) rfl rfl
      (Or.inr ⟨rfl, by decide, [wait_event.helper 5], [wait_event.helper 12], [],
        [wait_event.main [], wait_event.helper 17], by decide, by decide, by decide,
        ⟨[], by decide⟩, ⟨17, by decide⟩⟩)⟩⟩

/-- C4. When, after the drain step (`netplay_process`), the ledger of slot `i` is
`pre ++ e :: post` with `e` the event whose sequence number is the counter of the slot - the
first one, which under the no-duplicates invariant of the ledger is the only one -
`netplay_get_input(i)` returns the buttons of `e`, sets `Controls[i].Plugin` to its peripheral,
leaves the ledger `pre ++ post` (whatever `pre` and `post` are: head, middle or tail),
advances the counter of slot `i` by one and leaves the ledger and counter of every other slot,
and the rest of the controller table, as they were after the drain. -/
theorem netplay_get_input_consumes (s s1 : Netplay) (i : Fin 4) (env : poll_env)
    (pre post : List netplay_event) (e : netplay_event)
    (h_drain : netplay_process s env.mem = some s1)
    (h_ledger : (s1.l_cin_compats i).event_first = pre ++ e :: post)
    (h_seq : e.count = (s1.l_cin_compats i).netplay_count)
    (h_first : ∀ x ∈ pre, x.count ≠ (s1.l_cin_compats i).netplay_count) :
    ∃ s4, netplay_get_input s i.val env = some (s4, e.buttons) ∧
      (s4.Controls i).Plugin = (e.plugin : Int) ∧
      (s4.l_cin_compats i).event_first = pre ++ post ∧
      (s4.l_cin_compats i).netplay_count
        = ((s1.l_cin_compats i).netplay_count + 1) % 4294967296 ∧
      (∀ q, q ≠ i → s4.l_cin_compats q = s1.l_cin_compats q) ∧
      (∀ q, q ≠ i → s4.Controls q = s1.Controls q) ∧
      (s4.Controls i).Present = (s1.Controls i).Present ∧
      (s4.Controls i).RawData = (s1.Controls i).RawData :=
  netplay_get_input_buffered s s1 i env pre post e h_drain h_ledger h_seq h_first

/-- C4, an instance: slot 0 holds the events with sequence numbers 7, 5, 6 and its counter is 5;
the call returns the buttons of the middle event and leaves the events 7 and 6. -/
theorem netplay_get_input_consumes_witness :
    ∃ s4, netplay_get_input buffered_state 0 scenario_env = some (s4, 128) ∧
      (s4.Controls 0).Plugin = 1 ∧
      (s4.l_cin_compats 0).event_first = [⟨7, 1, 0⟩] ++ [⟨6, 2, 0⟩] ∧
      (s4.l_cin_compats 0).netplay_count
        = ((buffered_state.l_cin_compats 0).netplay_count + 1) % 4294967296 ∧
      (∀ q, q ≠ 0 → s4.l_cin_compats q = buffered_state.l_cin_compats q) ∧
      (∀ q, q ≠ 0 → s4.Controls q = buffered_state.Controls q) ∧
      (s4.Controls 0).Present = (buffered_state.Controls 0).Present ∧
      (s4.Controls 0).RawData = (buffered_state.Controls 0).RawData :=
  netplay_get_input_consumes buffered_state buffered_state 0 scenario_env
    [⟨7, 1, 0⟩] [⟨6, 2, 0⟩] ⟨5, 128, 1⟩ rfl rfl rfl (by decide)

/-- C9. The call `netplay_request_input(slot)` sends exactly one datagram, of which byte 0 is 2, byte 1
the slot, bytes 2..5 the registration id and bytes 6..9 the counter of the slot, both most
significant byte first, byte 10 the spectator flag (the flag is 0 or 1, sent as the byte 0
or 1) and byte 11 the value of `buffer_size(slot)`; every other field of the session is
unchanged. -/
theorem netplay_request_input_datagram (s : Netplay) (i : Fin 4) :
    netplay_request_input s i.val = some { s with udp_out := s.udp_out ++ [(s.l_udpChannel,
      [2, i.val,
       s.l_reg_id / 16777216 % 256, s.l_reg_id / 65536 % 256, s.l_reg_id / 256 % 256,
       s.l_reg_id % 256,
       (s.l_cin_compats i).netplay_count / 16777216 % 256,
       (s.l_cin_compats i).netplay_count / 65536 % 256,
       (s.l_cin_compats i).netplay_count / 256 % 256,
       (s.l_cin_compats i).netplay_count % 256,
       to_u8 s.l_spectator,
       (s.l_cin_compats i).event_first.length % 256])] } ∧
    buffer_size s i.val = some ((s.l_cin_compats i).event_first.length % 256) ∧
    to_u8 0 = 0 ∧ to_u8 1 = 1 := by
  refine ⟨?_, buffer_size_val s i, by decide, by decide⟩
  simp [netplay_request_input, cin_val, buffer_size_val, UDP_Send, net_write32,
    UDP_REQUEST_KEY_INFO]

/-- C10. The call `netplay_send_input(slot, keys)` sends exactly one datagram of 11 bytes: 0, the slot, the
counter of the slot and `keys`, both most significant byte first, and `l_plugin[slot]`;
every other field of the session, the counter and the ledger included, is unchanged. -/
theorem netplay_send_input_datagram (s : Netplay) (i : Fin 4) (keys : Nat) :
    netplay_send_input s i.val keys = some { s with udp_out := s.udp_out ++ [(s.l_udpChannel,
      [0, i.val,
       (s.l_cin_compats i).netplay_count / 16777216 % 256,
       (s.l_cin_compats i).netplay_count / 65536 % 256,
       (s.l_cin_compats i).netplay_count / 256 % 256,
       (s.l_cin_compats i).netplay_count % 256,
       keys / 16777216 % 256, keys / 65536 % 256, keys / 256 % 256, keys % 256,
       s.l_plugin i])] } := by
  simp [netplay_send_input, cin_val, idx4_val, UDP_Send, net_write32, UDP_SEND_KEY_INFO]

/-- C2. Processing any queue of update datagrams (tag 1 or 3, slot below 4, at most 56 events so
that the datagram fits the 512-byte packet, 32-bit fields) from empty ledgers: `netplay_process`
returns, keeps every counter, and the ledger of each slot `q` is the result of inserting the
delivered events in order with the insert of the specification (`ledger_insert`).  Hence no two
buffered events of a slot share a sequence number, and an event is buffered if and only if its
sequence number is not stale and it is the first event delivered to the slot with that sequence
number (the buttons and peripheral stored first are kept).  Afterwards, a datagram all of whose
events have a sequence number that is already buffered leaves every ledger unchanged. -/
theorem netplay_process_ledger_unique (s : Netplay) (mem : List Nat)
    (us : List update_datagram)
    (h_queue : s.udp_in = us.map update_datagram.bytes)
    (h_wf : ∀ u ∈ us, u.well_formed)
    (h_empty : ∀ q : Fin 4, (s.l_cin_compats q).event_first = []) :
    ∃ s1, netplay_process s mem = some s1 ∧
      (∀ q : Fin 4,
        (s1.l_cin_compats q).netplay_count = (s.l_cin_compats q).netplay_count ∧
        (s1.l_cin_compats q).event_first
          = (delivered q us).foldl (ledger_insert (s.l_cin_compats q).netplay_count) [] ∧
        ((s1.l_cin_compats q).event_first.map netplay_event.count).Nodup ∧
        ∀ e : netplay_event, e ∈ (s1.l_cin_compats q).event_first ↔
          (¬ is_stale e.count (s.l_cin_compats q).netplay_count ∧
            (delivered q us).find? (fun x => decide (x.count = e.count)) = some e)) ∧
      (∀ u : update_datagram, u.well_formed →
        (∀ e ∈ u.events, e.count ∈ (s1.l_cin_compats u.player).event_first.map
          netplay_event.count) →
        ∃ s2, netplay_process { s1 with udp_in := [u.bytes] } mem = some s2 ∧
          s2.l_cin_compats = s1.l_cin_compats) := by
  refine ⟨_, netplay_process_wf s mem us h_queue h_wf, ?_, ?_⟩
  · intro q
    rw [foldl_apply_update_cin]
    have hq0 : (({ s with udp_in := [] } : Netplay).l_cin_compats q).event_first = [] := h_empty q
    rw [hq0]
    refine ⟨rfl, rfl, ?_, ?_⟩
    · exact foldl_ledger_insert_nodup _ _ _ (by simp)
    · intro e
      rw [foldl_ledger_insert_mem]
      simp
  · intro u hu hdup
    refine ⟨_, netplay_process_wf _ mem [u] rfl (by simpa using hu), ?_⟩
    funext q
    rw [foldl_apply_update_cin]
    apply cin_ext
    · simp only
      by_cases hq : u.player = q
      · subst hq
        simp only [delivered, List.map_cons, List.map_nil, if_true, List.flatten_cons,
          List.flatten_nil, List.append_nil]
        exact foldl_ledger_insert_present _ _ _ hdup
      · simp [delivered, hq]
    · rfl

set_option maxRecDepth 100000 in
/-- C2, an instance: sequence 5 delivered twice, the stale sequence 4, and sequence 6 delivered
in two datagrams, to slot 0 with counter 5. -/
theorem netplay_process_ledger_unique_witness :
    ∃ s1, netplay_process duplicate_state [] = some s1 ∧
      (∀ q : Fin 4,
        (s1.l_cin_compats q).netplay_count = (duplicate_state.l_cin_compats q).netplay_count ∧
        (s1.l_cin_compats q).event_first
          = (delivered q duplicate_updates).foldl
              (ledger_insert (duplicate_state.l_cin_compats q).netplay_count) [] ∧
        ((s1.l_cin_compats q).event_first.map netplay_event.count).Nodup ∧
        ∀ e : netplay_event, e ∈ (s1.l_cin_compats q).event_first ↔
          (¬ is_stale e.count (duplicate_state.l_cin_compats q).netplay_count ∧
            (delivered q duplicate_updates).find? (fun x => decide (x.count = e.count))
              = some e)) ∧
      (∀ u : update_datagram, u.well_formed →
        (∀ e ∈ u.events, e.count ∈ (s1.l_cin_compats u.player).event_first.map
          netplay_event.count) →
        ∃ s2, netplay_process { s1 with udp_in := [u.bytes] } [] = some s2 ∧
          s2.l_cin_compats = s1.l_cin_compats) :=
  netplay_process_ledger_unique duplicate_state [] duplicate_updates rfl (by decide)
    (fun _ => rfl)

/-- C3. From any state in which the counter of slot `p` is below `0xFFFFFFFF`: processing
datagrams, sending input and sending a request leave the counter unchanged, and a call of
`netplay_get_input` sets it to exactly `old + 1` when it is a call for slot `p` that succeeds
(`netplay_ensure_valid` returned nonzero) and leaves it unchanged otherwise.  The calls are
arbitrary (any slot, any environment), so this holds along every interleaving of them. -/
theorem netplay_counter_step (s : Netplay) (p : Fin 4)
    (h : (s.l_cin_compats p).netplay_count < 4294967295) :
    (∀ mem s1, netplay_process s mem = some s1 →
      (s1.l_cin_compats p).netplay_count = (s.l_cin_compats p).netplay_count) ∧
    (∀ control_id keys s1, netplay_send_input s control_id keys = some s1 →
      (s1.l_cin_compats p).netplay_count = (s.l_cin_compats p).netplay_count) ∧
    (∀ control_id s1, netplay_request_input s control_id = some s1 →
      (s1.l_cin_compats p).netplay_count = (s.l_cin_compats p).netplay_count) ∧
    (∀ control_id env s1 keys, netplay_get_input s control_id env = some (s1, keys) →
      ∃ success, netplay_get_input_success s control_id env = some success ∧
        (s1.l_cin_compats p).netplay_count
          = if success ≠ 0 ∧ control_id = p.val
            then (s.l_cin_compats p).netplay_count + 1
            else (s.l_cin_compats p).netplay_count) := by
  refine ⟨?_, ?_, ?_, ?_⟩
  · intro mem s1 h1
    exact (netplay_process_grow _ _ _ h1 p).1
  · intro control_id keys s1 h1
    rw [netplay_send_input_cin _ _ _ _ h1]
  · intro control_id s1 h1
    rw [(netplay_request_input_cin _ _ _ h1).1]
  · intro control_id env s1 keys h1
    simp only [netplay_get_input, Option.bind_eq_bind, Option.bind_eq_some] at h1
    obtain ⟨sa, hsa, sb, hsb, sc, hsc, r, hr, hcons⟩ := h1
    refine ⟨r.2, ?_, ?_⟩
    · simp only [netplay_get_input_success, hsa, hsb, hsc, hr, Option.bind_eq_bind,
        Option.some_bind]
    · have e1 := (netplay_process_grow _ _ _ hsa p).1
      have e2 := (netplay_request_input_cin _ _ _ hsb).1
      have e3 := (netplay_lag_policy_cin _ _ _ hsc).1
      have e4 := (netplay_ensure_valid_grow _ _ _ _ _ _ hr p).1
      have e5 := netplay_consume_count _ _ _ _ _ hcons p
      have e : (r.1.l_cin_compats p).netplay_count = (s.l_cin_compats p).netplay_count := by
        rw [e4, e3, e2, e1]
      rw [e5, e]
      split
      · omega
      · rfl

set_option maxRecDepth 100000 in
/-- C3, an instance: the scenario session, where the call for slot 0 succeeds and moves the
counter from 5 to 6. -/
theorem netplay_counter_step_witness :
    (scenario_state.l_cin_compats 0).netplay_count < 4294967295 ∧
    (netplay_get_input scenario_state 0 scenario_env).map
        (fun r => (r.1.l_cin_compats 0).netplay_count) = some 6 ∧
    ∀ control_id env s1 keys,
      netplay_get_input scenario_state control_id env = some (s1, keys) →
      ∃ success, netplay_get_input_success scenario_state control_id env = some success ∧
        (s1.l_cin_compats 0).netplay_count
          = if success ≠ 0 ∧ control_id = (0 : Fin 4).val
            then (scenario_state.l_cin_compats 0).netplay_count + 1
            else (scenario_state.l_cin_compats 0).netplay_count :=
  ⟨by decide, by decide, (netplay_counter_step scenario_state 0 (by decide)).2.2.2⟩

/-- C7. For all six setting values in their 32-bit ranges (the two signed ones possibly negative),
the owner of slot 0 sends one message of 25 bytes, the tag 3 followed by the six values most
significant byte first, and keeps its own six values; when the 24 bytes after the tag are
what a session that does not own slot 0 receives, split into reads in any way, that session
sends the tag 4 and stores exactly the original six values. -/
theorem netplay_sync_settings_roundtrip (v : settings) (hv : v.in_range)
    (owner : Netplay) (h_init : owner.l_netplay_is_init ≠ 0)
    (h_owner : owner.l_netplay_control 0 ≠ -1) :
    netplay_sync_settings owner v
        = some ({ owner with tcp_out := owner.tcp_out ++ [settings_message v],
                             tcp_send_ret := owner.tcp_send_ret.tail }, v) ∧
    (settings_message v).length = 25 ∧
    ∀ (peer : Netplay) (old : settings),
      peer.l_netplay_is_init ≠ 0 → peer.l_netplay_control 0 = -1 →
      peer.tcp_in.flatten = (settings_message v).tail →
      ∃ rest, netplay_sync_settings peer old
        = some ({ peer with tcp_out := peer.tcp_out ++ [[4]],
                            tcp_send_ret := peer.tcp_send_ret.tail,
                            tcp_in := rest }, v) ∧ rest.flatten = [] := by
  refine ⟨?_, ?_, ?_⟩
  · simp [netplay_sync_settings, h_init, h_owner, TCP_Send, settings_message, TCP_SEND_SETTINGS]
  · simp [settings_message, net_write32]
  · intro peer old hi hc hfl
    have hlen : 24 ≤ peer.tcp_in.flatten.length := by
      rw [hfl]; simp [settings_message, net_write32]
    obtain ⟨rest, hr, hrest⟩ := tcp_recv_loop_spec peer.tcp_in 24 [] hlen
    have htake : [] ++ peer.tcp_in.flatten.take 24 = (settings_message v).tail := by
      rw [hfl]; simp [settings_message, net_write32]
    have hdrop : peer.tcp_in.flatten.drop 24 = [] := by
      rw [hfl]; simp [settings_message, net_write32]
    rw [htake] at hr
    rw [hdrop] at hrest
    obtain ⟨r1, r2, r3, r4, r5, r6⟩ := read_settings v hv
    refine ⟨rest, ?_, hrest⟩
    rw [netplay_sync_settings_pull peer old _ rest _ _ _ _ _ _ hi hc hr r1 r2 r3 r4 r5 r6,
      to_i32_to_u32 v.si_dma_duration hv.2.2.2.1.1 hv.2.2.2.1.2,
      to_i32_to_u32 v.no_compiled_jump hv.2.2.2.2.2.1 hv.2.2.2.2.2.2]

/-- C7, an instance: the values 1, 2, 3, -1, 5, -2147483648, received in reads of 6, 9, 5 and
4 bytes. -/
theorem netplay_sync_settings_roundtrip_witness :
    example_settings.in_range ∧
    ∃ rest, netplay_sync_settings peer_state ⟨0, 0, 0, 0, 0, 0⟩
        = some ({ peer_state with tcp_out := peer_state.tcp_out ++ [[4]],
                                  tcp_send_ret := peer_state.tcp_send_ret.tail,
                                  tcp_in := rest }, example_settings) ∧ rest.flatten = [] :=
  ⟨by decide,
   (netplay_sync_settings_roundtrip example_settings (by decide) owner_state (by decide)
      (by decide)).2.2 peer_state ⟨0, 0, 0, 0, 0, 0⟩ (by decide) (by decide) (by decide)⟩

/-- C8. When slot 0 is not owned locally and the caller's buffer holds at least `size` bytes,
`netplay_read_storage` sends the one message `{2, extension, NUL}`, where the extension is
made of the characters of `filename` after its last `'.'` (none if it has no `'.'`).  When no
read fails and the stream delivers at least `size` bytes, it fills the first `size` bytes of
the caller's buffer with the first `size` bytes received, and returns `file_open_error` if and
only if all of these bytes are zero (so also when `size = 0`), and `file_ok` otherwise.
When `size` is positive and the first read fails (`TCP_Recv` returns -1 or -2), the call
returns all the same: the failure is added to the byte count, which ends the loop, no byte is
taken from the stream, the caller's buffer is left as it was, and the status is computed
from the bytes the buffer held before the call. -/
theorem netplay_read_storage_pull (s : Netplay) (filename data : List Nat) (size : Nat)
    (ret_init : file_status_t)
    (h_peer : s.l_netplay_control 0 = -1)
    (h_buf : size ≤ data.length) :
    ((∀ o ∈ s.tcp_recv_ret, o = none) → size ≤ s.tcp_in.flatten.length →
      ∃ rest os status, netplay_read_storage s filename data size ret_init
          = some ({ s with tcp_out := s.tcp_out ++ [[2] ++ file_extension filename ++ [0]],
                           tcp_send_ret := s.tcp_send_ret.tail,
                           tcp_in := rest, tcp_recv_ret := os },
                  status, s.tcp_in.flatten.take size ++ data.drop size) ∧
        rest.flatten = s.tcp_in.flatten.drop size ∧ (∀ o ∈ os, o = none) ∧
        (status = file_status_t.file_open_error ↔ ∀ b ∈ s.tcp_in.flatten.take size, b = 0) ∧
        (status = file_status_t.file_ok ↔ ¬ ∀ b ∈ s.tcp_in.flatten.take size, b = 0)) ∧
    ((46 ∉ filename ∧ file_extension filename = []) ∨
      (∃ pre, filename = pre ++ [46] ++ file_extension filename ∧
        46 ∉ file_extension filename)) ∧
    (0 < size → ∀ (f : tcp_failure) (os : List (Option tcp_failure)),
      s.tcp_recv_ret = some f :: os →
      ∃ status, netplay_read_storage s filename data size ret_init
          = some ({ s with tcp_out := s.tcp_out ++ [[2] ++ file_extension filename ++ [0]],
                           tcp_send_ret := s.tcp_send_ret.tail,
                           tcp_in := s.tcp_in, tcp_recv_ret := os },
                  status, data) ∧
        (status = file_status_t.file_open_error ↔ ∀ b ∈ data.take size, b = 0) ∧
        (status = file_status_t.file_ok ↔ ¬ ∀ b ∈ data.take size, b = 0)) := by
  have hnot : ¬ data.length < size := by omega
  refine ⟨?_, file_extension_spec filename, ?_⟩
  · intro h_ok h_stream
    obtain ⟨rest, os, hr, hrest, hos⟩ := tcp_recv_while_delivers true size s.tcp_recv_ret
      s.tcp_in data 0 h_ok (by omega) h_buf (by omega)
    simp only [List.take_zero, List.nil_append, Nat.sub_zero] at hr hrest
    have hlen : (s.tcp_in.flatten.take size).length = size := by
      rw [List.length_take]; omega
    have htake : (s.tcp_in.flatten.take size ++ data.drop size).take size
        = s.tcp_in.flatten.take size := by
      rw [List.take_append_eq_append_take, hlen]; simp
    by_cases hz : ∀ b ∈ s.tcp_in.flatten.take size, b = 0
    · refine ⟨rest, os, file_status_t.file_open_error, ?_, hrest, hos, ?_, ?_⟩
      · simp only [netplay_read_storage, hnot, h_peer, if_false, ne_eq, not_true_eq_false,
          TCP_Send, hr, Option.bind_eq_bind, Option.some_bind, htake, (or_sum_eq_zero _).2 hz,
          if_true, TCP_RECEIVE_SAVE]
      · exact ⟨fun _ => hz, fun _ => rfl⟩
      · exact ⟨fun h => (by cases h), fun h => absurd hz h⟩
    · refine ⟨rest, os, file_status_t.file_ok, ?_, hrest, hos, ?_, ?_⟩
      · have hne : or_sum (s.tcp_in.flatten.take size) ≠ 0 :=
          fun h => hz ((or_sum_eq_zero _).1 h)
        simp only [netplay_read_storage, hnot, h_peer, if_false, ne_eq, not_true_eq_false,
          TCP_Send, hr, Option.bind_eq_bind, Option.some_bind, htake, hne, TCP_RECEIVE_SAVE]
      · exact ⟨fun h => (by cases h), fun h => absurd h hz⟩
      · exact ⟨fun _ => hz, fun _ => rfl⟩
  · intro hpos f os hf
    have hr := tcp_recv_while_fail_first true size f os s.tcp_in data hpos
    simp only [if_true] at hr
    by_cases hz : ∀ b ∈ data.take size, b = 0
    · refine ⟨file_status_t.file_open_error, ?_, ?_, ?_⟩
      · simp only [netplay_read_storage, hnot, h_peer, if_false, ne_eq, not_true_eq_false,
          TCP_Send, hf, hr, Option.bind_eq_bind, Option.some_bind, (or_sum_eq_zero _).2 hz,
          if_true, TCP_RECEIVE_SAVE]
      · exact ⟨fun _ => hz, fun _ => rfl⟩
      · exact ⟨fun h => (by cases h), fun h => absurd hz h⟩
    · refine ⟨file_status_t.file_ok, ?_, ?_, ?_⟩
      · have hne : or_sum (data.take size) ≠ 0 := fun h => hz ((or_sum_eq_zero _).1 h)
        simp only [netplay_read_storage, hnot, h_peer, if_false, ne_eq, not_true_eq_false,
          TCP_Send, hf, hr, Option.bind_eq_bind, Option.some_bind, hne, TCP_RECEIVE_SAVE]
      · exact ⟨fun h => (by cases h), fun h => absurd h hz⟩
      · exact ⟨fun _ => hz, fun _ => rfl⟩

set_option maxRecDepth 100000 in
/-- C8, the example scenario: for the file name `"g.sra"` the request is `{2, 's', 'r', 'a',
0}`; 64 zero bytes give `file_open_error` and leave the caller's 64-byte buffer all zero.
And the same stream when the first `TCP_Recv` reports a closed socket while the caller's
buffer holds 64 bytes of value 9: the call returns `file_ok`, the buffer is as before and the
64 bytes are still in the stream. -/
theorem netplay_read_storage_pull_witness :
    (zero_save_state.l_netplay_control 0 = -1 ∧ 64 ≤ (List.replicate 64 9).length ∧
      (∀ o ∈ zero_save_state.tcp_recv_ret, o = none) ∧
      64 ≤ zero_save_state.tcp_in.flatten.length) ∧
    (∃ rest os status, netplay_read_storage zero_save_state [103, 46, 115, 114, 97]
        (List.replicate 64 9) 64 file_status_t.file_ok
        = some ({ zero_save_state with
                    tcp_out := zero_save_state.tcp_out
                      ++ [[2] ++ file_extension [103, 46, 115, 114, 97] ++ [0]],
                    tcp_send_ret := zero_save_state.tcp_send_ret.tail,
                    tcp_in := rest, tcp_recv_ret := os },
                status, zero_save_state.tcp_in.flatten.take 64
                  ++ (List.replicate 64 9).drop 64) ∧
      rest.flatten = zero_save_state.tcp_in.flatten.drop 64 ∧ (∀ o ∈ os, o = none) ∧
      (status = file_status_t.file_open_error ↔
        ∀ b ∈ zero_save_state.tcp_in.flatten.take 64, b = 0) ∧
      (status = file_status_t.file_ok ↔
        ¬ ∀ b ∈ zero_save_state.tcp_in.flatten.take 64, b = 0)) ∧
    (netplay_read_storage zero_save_state [103, 46, 115, 114, 97] (List.replicate 64 9) 64
        file_status_t.file_ok).map (fun r => (r.1.tcp_out, r.2))
      = some ([[2, 115, 114, 97, 0]], file_status_t.file_open_error, List.replicate 64 0) ∧
    (save_failed_state.l_netplay_control 0 = -1 ∧
      save_failed_state.tcp_recv_ret = [some tcp_failure.closed]) ∧
    (netplay_read_storage save_failed_state [103, 46, 115, 114, 97] (List.replicate 64 9) 64
        file_status_t.file_open_error).map (fun r => (r.1.tcp_out, r.1.tcp_in, r.2))
      = some ([[2, 115, 114, 97, 0]], [List.replicate 64 0], file_status_t.file_ok,
              List.replicate 64 9) :=
  ⟨⟨by decide, by decide, by decide, by decide⟩,
   (netplay_read_storage_pull zero_save_state [103, 46, 115, 114, 97] (List.replicate 64 9) 64
     file_status_t.file_ok (by decide) (by decide)).1 (by decide) (by decide),
   by decide, ⟨by decide, by decide⟩, by decide⟩

/-- C5, as amended.  The datagrams in the receive queue at the call (`us0`) and those that arrive
during the wait are update datagrams none of which carries the wanted sequence number for slot
`i`, that number is not buffered, and at some iteration the helper thread finds the clock past
its deadline `ticks0 + 10000`, after which the calling thread runs once more.  Then
`netplay_get_input(i)` returns 0 with the route marked broken (`l_udpChannel = -1`) and the
emulator state set to stopped; the counter of the slot is unchanged and no event has been
removed from its ledger, which has only gained events delivered by those datagrams; if
they delivered nothing to the slot, its ledger is unchanged. -/
theorem netplay_get_input_timeout (s : Netplay) (i : Fin 4) (env : poll_env)
    (us0 : List update_datagram) (t1 t2 : List update_event) (now : Nat)
    (h_queue : s.udp_in = us0.map update_datagram.bytes)
    (h_trace : env.trace = (t1 ++ update_event.helper now :: t2).map update_event.raw)
    (h_deadline : now > (env.ticks0 + 10000) % 4294967296)
    (h_main : ∃ mem, update_event.main mem ∈ t2)
    (h_wf : ∀ u ∈ us0 ++ arrivals (t1 ++ update_event.helper now :: t2), u.well_formed)
    (h_missing : ∀ u ∈ us0 ++ arrivals (t1 ++ update_event.helper now :: t2),
      misses i (s.l_cin_compats i).netplay_count u)
    (h_not_buffered : (s.l_cin_compats i).netplay_count
      ∉ (s.l_cin_compats i).event_first.map netplay_event.count) :
    ∃ s1 added, netplay_get_input s i.val env = some (s1, 0) ∧
      s1.l_udpChannel = -1 ∧ s1.emu_state = M64EMU_STOPPED ∧
      (s1.l_cin_compats i).netplay_count = (s.l_cin_compats i).netplay_count ∧
      (s1.l_cin_compats i).event_first = added ++ (s.l_cin_compats i).event_first ∧
      (∀ e ∈ added,
        e ∈ delivered i (us0 ++ arrivals (t1 ++ update_event.helper now :: t2)) ∧
        e.count ≠ (s.l_cin_compats i).netplay_count) ∧
      (delivered i (us0 ++ arrivals (t1 ++ update_event.helper now :: t2)) = [] →
        s1.l_cin_compats i = s.l_cin_compats i) := by
  have hall : ∀ u ∈ us0 ++ arrivals (t1 ++ update_event.helper now :: t2),
      u.well_formed ∧ misses i (s.l_cin_compats i).netplay_count u :=
    fun u hu => ⟨h_wf u hu, h_missing u hu⟩
  have hw : waiting i (s.l_cin_compats i).netplay_count
      (us0 ++ arrivals (t1 ++ update_event.helper now :: t2)) (s.l_cin_compats i).event_first s :=
    ⟨rfl, ⟨[], rfl, by simp⟩, us0, h_queue, fun u hu => List.mem_append_left _ hu⟩
  obtain ⟨sa, hsa, hwa, hca⟩ := waiting_process i _ _ _ hall s hw env.mem
  obtain ⟨sb, sc, hsb, hsc, f1, -, f3, f4, -, -⟩ := request_lag_frame sa i
  have hwc := waiting_of_frame i _ _ _ sa sc hwa f1 f4
  have hv := waiting_not_valid i _ _ _ h_not_buffered sc hwc
  have hens : ∃ s1, netplay_ensure_valid sc i.val env.ticks0 env.trace = some (s1, 0) ∧
      waiting i (s.l_cin_compats i).netplay_count
        (us0 ++ arrivals (t1 ++ update_event.helper now :: t2))
        (s.l_cin_compats i).event_first s1 ∧ s1.l_udpChannel = -1 := by
    by_cases hch : sc.l_udpChannel = -1
    · exact ⟨sc, by simp [netplay_ensure_valid, cin_val, hv, hch], hwc, hch⟩
    · obtain ⟨s1, h1, h2, h3⟩ := wait_threads_timeout i _ _ _ _ hall h_not_buffered now
        h_deadline t2 h_main t1 sc hwc hch
        (fun u hu => List.mem_append_right _ ((mem_arrivals u _).1 hu))
      refine ⟨s1, ?_, h2, h3⟩
      simp only [netplay_ensure_valid, cin_val, hv, hch, Option.bind_eq_bind, Option.some_bind,
        Bool.false_eq_true, if_false, h_trace]
      exact h1
  obtain ⟨s1, h1, ⟨hc1, ⟨added, hl1, hadd⟩, -⟩, hch1⟩ := hens
  refine ⟨{ s1 with log := s1.log ++ [log_message.lost_connection],
                    emu_state := M64EMU_STOPPED }, added, ?_, hch1, rfl, hc1, hl1, hadd, ?_⟩
  · simp only [netplay_get_input, hsa, hsb, hsc, h1, Option.bind_eq_bind, Option.some_bind,
      netplay_consume, ne_eq, not_true_eq_false, if_false]
  · intro hnone
    have : added = [] := by
      cases added with
      | nil => rfl
      | cons e rest =>
        have := (hadd e (List.mem_cons_self _ _)).1
        rw [hnone] at this
        cases this
    subst this
    show s1.l_cin_compats i = s.l_cin_compats i
    have e1 : (s1.l_cin_compats i).event_first = (s.l_cin_compats i).event_first := by
      simpa using hl1
    cases hx : s1.l_cin_compats i with
    | mk ef nc =>
      cases hy : s.l_cin_compats i with
      | mk ef2 nc2 =>
        rw [hx, hy] at e1 hc1
        simp only at e1 hc1
        rw [e1, hc1]

set_option maxRecDepth 100000 in
/-- C5, an instance of the amended statement: the wait of `timeout_env`, during which an update
with sequence 6 arrives for slot 0 while sequence 5 is awaited. -/
theorem netplay_get_input_timeout_witness :
    ∃ s1 added, netplay_get_input idle_state 0 timeout_env = some (s1, 0) ∧
      s1.l_udpChannel = -1 ∧ s1.emu_state = M64EMU_STOPPED ∧
      (s1.l_cin_compats 0).netplay_count = (idle_state.l_cin_compats 0).netplay_count ∧
      (s1.l_cin_compats 0).event_first = added ++ (idle_state.l_cin_compats 0).event_first ∧
      (∀ e ∈ added,
        e ∈ delivered 0 ([] ++ arrivals ([update_event.arrive later_update,
          update_event.main []] ++ update_event.helper 10001 :: [update_event.main []])) ∧
        e.count ≠ (idle_state.l_cin_compats 0).netplay_count) ∧
      (delivered 0 ([] ++ arrivals ([update_event.arrive later_update,
          update_event.main []] ++ update_event.helper 10001 :: [update_event.main []])) = [] →
        s1.l_cin_compats 0 = idle_state.l_cin_compats 0) :=
  netplay_get_input_timeout idle_state 0 timeout_env [] [update_event.arrive later_update,
    update_event.main []] [update_event.main []] 10001 rfl (by decide) (by decide)
    ⟨[], by decide⟩ (by decide) (by decide) (by decide)

set_option maxRecDepth 100000 in
/-- C5, the claim as stated fails: slot 0 awaits sequence 5, which is not buffered and never
arrives; the route is intact; during the wait a datagram with sequence 6 for slot 0 arrives.
The call returns 0, marks the route broken and stops the emulator with the counter still 5,
but the ledger of slot 0, empty before the call, now holds the event with sequence 6. -/
theorem failed_wait_changes_ledger :
    (idle_state.l_cin_compats 0).event_first = [] ∧
    (idle_state.l_cin_compats 0).netplay_count = 5 ∧
    idle_state.udp_in = [] ∧ idle_state.l_udpChannel ≠ -1 ∧
    (netplay_get_input idle_state 0 timeout_env).map
        (fun r => (r.2, r.1.l_udpChannel, r.1.emu_state, (r.1.l_cin_compats 0).netplay_count,
          (r.1.l_cin_compats 0).event_first))
      = some (0, -1, M64EMU_STOPPED, 5, [⟨6, 9, 2⟩]) := by
  decide

/-- C6, as amended.  The function `netplay_process` never consults the received length.  A datagram `d`
is decoded from the receive packet, whose bytes past the received length are the ones it held
before (`data.drop d.length`), so `d` has the effect of the full-length datagram
`d ++ data.drop d.length`.  When the packet then starts with `tag` (1 or 3), a slot below 4,
`status`, `lag` and an event count `n` whose events lie inside the packet, it is processed
without any fault: the status mask becomes `status`, the lag entry of the slot becomes `lag`
for tag 1 and the lag table is unchanged for tag 3, and the ledgers change only by the usual
inserts - also when `d` is shorter than its header or than `5 + 9 * n`. -/
theorem netplay_process_ignores_length (s : Netplay) (data d : List Nat) (q : List (List Nat))
    (p : Fin 4) (tag status lag n : Nat) (rest : List Nat)
    (h_fit : d.length ≤ data.length)
    (h_packet : d ++ data.drop d.length = [tag, p.val, status, lag, n] ++ rest)
    (h_tag : tag = 1 ∨ tag = 3) (h_n : 9 * n ≤ rest.length) :
    netplay_process_loop (d :: q) data s
      = netplay_process_loop ((d ++ data.drop d.length) :: q) data s ∧
    ∃ s1, netplay_process_packet s (UDP_Recv data d).1 = some s1 ∧
      s1.l_status = status ∧
      s1.l_player_lag = (if tag = 1 then Function.update s.l_player_lag p lag
        else s.l_player_lag) ∧
      ledgers_grow s s1 := by
  have h1 := (UDP_Recv_fits data d h_fit).1
  have hlen : (d ++ data.drop d.length).length ≤ data.length := by
    simp only [List.length_append, List.length_drop]; omega
  have h2 := (UDP_Recv_fits data (d ++ data.drop d.length) hlen).1
  have hnil : data.drop (d ++ data.drop d.length).length = [] := by
    apply List.drop_of_length_le
    simp only [List.length_append, List.length_drop]; omega
  rw [hnil, List.append_nil] at h2
  refine ⟨?_, ?_⟩
  · simp only [netplay_process_loop, h1, h2]
  · rw [h1, h_packet]
    exact netplay_process_packet_decodes s p tag status lag n rest h_tag h_n

set_option maxRecDepth 100000 in
/-- C6, an instance of the amended statement: the four-byte datagram `{1, 0, 1, 7}` received
into a zeroed packet. -/
theorem netplay_process_ignores_length_witness :
    netplay_process_loop ([1, 0, 1, 7] :: []) (alloc_packet 512 []) idle_state
      = netplay_process_loop (([1, 0, 1, 7] ++ (alloc_packet 512 []).drop [1, 0, 1, 7].length)
          :: []) (alloc_packet 512 []) idle_state ∧
    ∃ s1, netplay_process_packet idle_state (UDP_Recv (alloc_packet 512 []) [1, 0, 1, 7]).1
        = some s1 ∧
      s1.l_status = 1 ∧
      s1.l_player_lag = (if 1 = 1 then Function.update idle_state.l_player_lag 0 7
        else idle_state.l_player_lag) ∧
      ledgers_grow idle_state s1 :=
  netplay_process_ignores_length idle_state (alloc_packet 512 []) [1, 0, 1, 7] [] 0 1 1 7 0
    (List.replicate 507 0) (by decide) (by decide) (by decide) (by decide)

set_option maxRecDepth 100000 in
/-- C6, the claim as stated fails.  A datagram of four bytes, shorter than the five-byte header,
is not rejected: processing returns normally and has changed the lag table and the status
mask.  A datagram of five bytes that announces one event, received after a complete datagram
into the same packet, is not rejected either: the nine bytes left in the packet are decoded and
an event is inserted for its slot. -/
theorem truncated_datagram_accepted :
    (idle_state.l_player_lag 0, idle_state.l_status) = (0, 0) ∧
    (netplay_process { idle_state with udp_in := [[1, 0, 1, 7]] } []).map
        (fun s => (s.l_player_lag 0, s.l_status)) = some (7, 1) ∧
    (idle_state.l_cin_compats 1).event_first = [] ∧
    (netplay_process { idle_state with
        udp_in := [[3, 0, 0, 0, 1, 0, 0, 0, 6, 0, 0, 0, 9, 2], [1, 1, 0, 0, 1]] } []).map
        (fun s => (s.l_cin_compats 1).event_first) = some [⟨6, 9, 2⟩] := by
  decide

/-- C11 (amended). `buffer_size(slot)` is the number `n` of events buffered for the slot reduced
modulo 256 (the loop counts in a `uint8_t`), and this is the value of byte 11 of the request
`netplay_request_input` sends.  For `n` up to 255 it is `n`, which is `min(n, 255)`. -/
theorem buffer_size_wraps (s : Netplay) (i : Fin 4) :
    buffer_size s i.val = some ((s.l_cin_compats i).event_first.length % 256) ∧
    (∃ s1 request, netplay_request_input s i.val = some s1 ∧
      s1.udp_out = s.udp_out ++ [(s.l_udpChannel, request)] ∧ request.length = 12 ∧
      request[11]? = some ((s.l_cin_compats i).event_first.length % 256)) ∧
    ((s.l_cin_compats i).event_first.length ≤ 255 →
      (s.l_cin_compats i).event_first.length % 256
        = min (s.l_cin_compats i).event_first.length 255) := by
  refine ⟨buffer_size_val s i, ⟨_, _, netplay_request_input_eq s i, rfl, ?_, ?_⟩, ?_⟩
  · simp [net_write32]
  · simp [net_write32]
  · intro h
    rw [Nat.mod_eq_of_lt (by omega), Nat.min_eq_left h]

set_option maxRecDepth 100000 in
/-- C11, the claim as stated fails.  After the five datagrams of `full_updates` are drained, slot 0
holds 256 events; `buffer_size(0)` is 0, not `min(256, 255) = 255`, although the ledger is not
empty, and byte 11 of the next request is 0. -/
theorem full_ledger_reports_zero :
    (netplay_process full_state []).map
        (fun s => ((s.l_cin_compats 0).event_first.length, buffer_size s 0))
      = some (256, some 0) ∧
    min 256 255 = 255 ∧
    ((netplay_process full_state []).bind (fun s => netplay_request_input s 0)).map
      (fun s => s.udp_out.map (fun d => d.2[11]?)) = some [some 0] := by
  have hp : netplay_process full_state []
      = some (full_updates.foldl apply_update { full_state with udp_in := [] }) :=
    netplay_process_wf full_state [] full_updates rfl (by decide)
  have hlen := full_updates_length
  have hout : (full_updates.foldl apply_update { full_state with udp_in := [] }).udp_out = [] :=
    by decide
  refine ⟨?_, by decide, ?_⟩
  · rw [hp, Option.map_some']
    have hb := buffer_size_val (full_updates.foldl apply_update { full_state with udp_in := [] }) 0
    rw [hlen] at hb
    rw [show ((0 : Fin 4) : Nat) = 0 from rfl] at hb
    rw [hb, hlen]
  · rw [hp, Option.some_bind]
    have hr := netplay_request_input_eq
      (full_updates.foldl apply_update { full_state with udp_in := [] }) 0
    rw [hlen] at hr
    rw [show ((0 : Fin 4) : Nat) = 0 from rfl] at hr
    rw [hr, Option.map_some']
    simp [UDP_Send, hout, net_write32]

/-- C12. On a call of `netplay_get_input(slot)` whose drain step (`netplay_process`) leaves the
state `s1`, the request is sent and the fast-forward decision is taken on the lag indicator, the
pending count (`buffer_size`) and the lag-buffer target of `s1`: if the lag indicator is nonzero
and the pending count is greater than the target, `netplay_lag()` becomes 1, the speed limiter
0 and the override "fast-forward on, toggle inhibited"; otherwise `netplay_lag()` becomes 0, the
speed limiter 1 and the override "fast-forward off".  Nothing later in the call changes the
three settings: they are the same in every state the call returns. -/
theorem netplay_get_input_lag_policy (s s1 : Netplay) (i : Fin 4) (env : poll_env)
    (h_drain : netplay_process s env.mem = some s1) :
    ∃ s2 s3 size, netplay_request_input s1 i.val = some s2 ∧
      netplay_lag_policy s2 i.val = some s3 ∧ buffer_size s1 i.val = some size ∧
      (if s1.l_player_lag i ≠ 0 ∧ size > s1.l_buffer_target then
          netplay_lag s3 = 1 ∧ s3.speed_limiter = 0 ∧
          s3.ff_override = some { fastforward := true, inhibit_toggle := true }
        else
          netplay_lag s3 = 0 ∧ s3.speed_limiter = 1 ∧
          s3.ff_override = some { fastforward := false, inhibit_toggle := true }) ∧
      ∀ (s4 : Netplay) (keys : Nat), netplay_get_input s i.val env = some (s4, keys) →
        netplay_lag s4 = netplay_lag s3 ∧ s4.speed_limiter = s3.speed_limiter ∧
        s4.ff_override = s3.ff_override := by
  have hreq := netplay_request_input_eq s1 i
  obtain ⟨hsp, hlag, htarget⟩ := netplay_request_input_speed _ _ _ hreq
  have hcin := (netplay_request_input_cin _ _ _ hreq).1
  obtain ⟨s3, hpol, hs3⟩ := netplay_lag_policy_eq (UDP_Send s1
      ([UDP_REQUEST_KEY_INFO, i.val] ++ net_write32 s1.l_reg_id
        ++ net_write32 (s1.l_cin_compats i).netplay_count
        ++ [to_u8 s1.l_spectator, (s1.l_cin_compats i).event_first.length % 256])) i
  rw [hlag, htarget, hcin] at hs3
  refine ⟨_, s3, _, hreq, hpol, buffer_size_val s1 i, ?_, ?_⟩
  · by_cases hc : s1.l_player_lag i ≠ 0 ∧
        (s1.l_cin_compats i).event_first.length % 256 > s1.l_buffer_target
    · rw [if_pos hc] at hs3 ⊢
      simp only [speed_state, Prod.mk.injEq] at hs3
      exact hs3
    · rw [if_neg hc] at hs3 ⊢
      simp only [speed_state, Prod.mk.injEq] at hs3
      exact hs3
  · intro s4 keys hget
    simp only [netplay_get_input, Option.bind_eq_bind, Option.bind_eq_some] at hget
    obtain ⟨sa, hsa, sb, hsb, sc, hsc, r, hr, hcons⟩ := hget
    rw [h_drain] at hsa
    cases hsa
    rw [hreq] at hsb
    cases hsb
    rw [hpol] at hsc
    cases hsc
    have h1 := netplay_ensure_valid_speed _ _ _ _ _ _ hr
    have h2 := netplay_consume_speed _ _ _ _ _ hcons
    have h3 := h2.trans h1
    simp only [speed_state, Prod.mk.injEq] at h3
    exact h3

set_option maxRecDepth 100000 in
/-- C12, instances: in `lagging_state` (lag indicator 1, three events buffered, target 2) the call
switches fast-forward on; in `buffered_state` (lag indicator 0) it switches it off. -/
theorem netplay_get_input_lag_policy_witness :
    (netplay_process lagging_state scenario_env.mem = some lagging_state ∧
      ∃ s2 s3 size, netplay_request_input lagging_state (0 : Fin 4).val = some s2 ∧
        netplay_lag_policy s2 (0 : Fin 4).val = some s3 ∧
        buffer_size lagging_state (0 : Fin 4).val = some size ∧
        (if lagging_state.l_player_lag 0 ≠ 0 ∧ size > lagging_state.l_buffer_target then
            netplay_lag s3 = 1 ∧ s3.speed_limiter = 0 ∧
            s3.ff_override = some { fastforward := true, inhibit_toggle := true }
          else
            netplay_lag s3 = 0 ∧ s3.speed_limiter = 1 ∧
            s3.ff_override = some { fastforward := false, inhibit_toggle := true }) ∧
        ∀ (s4 : Netplay) (keys : Nat),
          netplay_get_input lagging_state (0 : Fin 4).val scenario_env = some (s4, keys) →
          netplay_lag s4 = netplay_lag s3 ∧ s4.speed_limiter = s3.speed_limiter ∧
          s4.ff_override = s3.ff_override) ∧
    (netplay_get_input lagging_state 0 scenario_env).map
        (fun r => (netplay_lag r.1, r.1.speed_limiter, r.1.ff_override))
      = some (1, 0, some { fastforward := true, inhibit_toggle := true }) ∧
    (netplay_get_input buffered_state 0 scenario_env).map
        (fun r => (netplay_lag r.1, r.1.speed_limiter, r.1.ff_override))
      = some (0, 1, some { fastforward := false, inhibit_toggle := true }) :=
  ⟨⟨rfl, netplay_get_input_lag_policy lagging_state lagging_state 0 scenario_env rfl⟩,
   by decide, by decide⟩

/-- C13. Processing a well-formed update datagram with status byte `s` when the last observed mask
is `m` appends to the log exactly: the desync message if bit 0 of `s` and `m` differ, then, for
`k = 1, 2, 3, 4` in this order, "player `k` has disconnected" if bit `k` differs - one message
for each differing bit among bits 0 to 4 and nothing else.  The mask is `s` afterwards, so an
update datagram with the same status processed next logs nothing.  The ledgers afterwards are
given by the slot, the events and the ledgers before alone: the status byte and the mask do
not enter. -/
theorem netplay_process_status_report (st : Netplay) (u : update_datagram) (post : List Nat)
    (hu : u.well_formed) :
    ∃ s1, netplay_process_packet st (u.bytes ++ post) = some s1 ∧
      s1.log = st.log ++
        ((if bit_flipped u.status st.l_status 0 then [log_message.desync st.l_vi_counter]
          else [])
         ++ ([1, 2, 3, 4].filter (bit_flipped u.status st.l_status)).map
              log_message.player_disconnected) ∧
      s1.l_status = u.status ∧
      (∀ (u2 : update_datagram) (post2 : List Nat), u2.well_formed → u2.status = u.status →
        ∃ s2, netplay_process_packet s1 (u2.bytes ++ post2) = some s2 ∧ s2.log = s1.log ∧
          s2.l_status = u.status) ∧
      ∀ q : Fin 4, s1.l_cin_compats q =
        if q = u.player then
          { event_first := u.events.foldl (ledger_insert (st.l_cin_compats q).netplay_count)
              (st.l_cin_compats q).event_first,
            netplay_count := (st.l_cin_compats q).netplay_count }
        else st.l_cin_compats q := by
  refine ⟨_, netplay_process_packet_wf st u post hu, ?_, (apply_update_status st u).2, ?_, ?_⟩
  · rw [(apply_update_status st u).1, status_logs_eq]
  · intro u2 post2 hu2 hst
    refine ⟨_, netplay_process_packet_wf _ u2 post2 hu2, ?_, ?_⟩
    · rw [(apply_update_status _ u2).1, (apply_update_status st u).2, hst, status_logs_self,
        List.append_nil]
    · rw [(apply_update_status _ u2).2, hst]
  · intro q
    exact apply_update_cin st u q

set_option maxRecDepth 100000 in
/-- C13, an instance: the status byte `0x25` against the mask 0 logs the desync message and
"player 2 has disconnected" (bit 5 is not reported), and the same datagram again logs nothing. -/
theorem netplay_process_status_report_witness :
    status_update.well_formed ∧
    (∃ s1, netplay_process_packet idle_state (status_update.bytes ++ []) = some s1 ∧
      s1.log = idle_state.log ++
        ((if bit_flipped status_update.status idle_state.l_status 0
            then [log_message.desync idle_state.l_vi_counter] else [])
         ++ ([1, 2, 3, 4].filter (bit_flipped status_update.status idle_state.l_status)).map
              log_message.player_disconnected) ∧
      s1.l_status = status_update.status ∧
      (∀ (u2 : update_datagram) (post2 : List Nat), u2.well_formed →
        u2.status = status_update.status →
        ∃ s2, netplay_process_packet s1 (u2.bytes ++ post2) = some s2 ∧ s2.log = s1.log ∧
          s2.l_status = status_update.status) ∧
      ∀ q : Fin 4, s1.l_cin_compats q =
        if q = status_update.player then
          { event_first := status_update.events.foldl
              (ledger_insert (idle_state.l_cin_compats q).netplay_count)
              (idle_state.l_cin_compats q).event_first,
            netplay_count := (idle_state.l_cin_compats q).netplay_count }
        else idle_state.l_cin_compats q) ∧
    (netplay_process_packet idle_state status_update.bytes).map (fun s => (s.log, s.l_status))
      = some ([log_message.desync 0, log_message.player_disconnected 2], 37) ∧
    ((netplay_process_packet idle_state status_update.bytes).bind
        (fun s => netplay_process_packet s status_update.bytes)).map (fun s => (s.log, s.l_status))
      = some ([log_message.desync 0, log_message.player_disconnected 2], 37) :=
  ⟨by decide, netplay_process_status_report idle_state status_update [] (by decide),
   by decide, by decide⟩

/-- C14. On a live session that receives the 24 bytes `table` (in reads of any sizes, none of
which fails), `netplay_read_registration` sends the one byte `{6}`, installs the caller's
ledger table and decodes four 6-byte entries at the byte offsets 0, 6, 12, 18, whether or not
earlier entries are assigned: registration id (big-endian u32), peripheral byte `p`, raw-flag
byte `r`.  An entry with id 0 sets the slot to Present = 0, peripheral none, raw flag 0.  An
entry with nonzero id sets Present = 1, the raw flag to the `char` received and the peripheral
to the `char` received, except that transfer pak becomes none in every slot and memory pak
becomes none in slots 1 to 3 (slot 0 keeps it).
The table is read through a plain `char` array.  Where plain `char` is unsigned the `char`
received is the byte received; where it is signed this holds for the bytes below 128 only,
and a byte from 128 on is stored as the byte minus 256.
When the first read fails (`TCP_Recv` returns -1 or -2), the call sends `{6}` and returns all
the same, leaves the stream as it is and decodes, in the same way, the 24 bytes the local
array `input_data` happened to hold. -/
theorem netplay_read_registration_table (char_signed : Bool) (s : Netplay)
    (cin_compats : Fin 4 → controller_input_compat) (table rest mem : List Nat)
    (h_init : s.l_netplay_is_init ≠ 0) (h_len : table.length = 24) :
    ((∀ o ∈ s.tcp_recv_ret, o = none) → s.tcp_in.flatten = table ++ rest →
      ∃ s1, netplay_read_registration char_signed s cin_compats mem = some s1 ∧
        s1.tcp_out = s.tcp_out ++ [[6]] ∧ s1.tcp_in.flatten = rest ∧
        s1.l_cin_compats = cin_compats ∧
        (∀ i : Fin 4, ∃ id p r, net_read32 table (6 * i.val) = some id ∧
          table[6 * i.val + 4]? = some p ∧ table[6 * i.val + 5]? = some r ∧
          s1.Controls i =
            (if id = 0 then { Present := 0, RawData := 0, Plugin := (PLUGIN_NONE : Int) }
             else { Present := 1, RawData := to_char char_signed r,
                    Plugin := if to_char char_signed p = (PLUGIN_TRANSFER_PAK : Int) ∨
                        (i ≠ 0 ∧ to_char char_signed p = (PLUGIN_MEMPAK : Int))
                      then (PLUGIN_NONE : Int) else to_char char_signed p }))) ∧
    (∀ b : Nat, b < 256 → to_char false b = (b : Int)) ∧
    (∀ b : Nat, b < 128 → to_char true b = (b : Int)) ∧
    (∀ b : Nat, 128 ≤ b → b < 256 → to_char true b = (b : Int) - 256) ∧
    (∀ (f : tcp_failure) (os : List (Option tcp_failure)), s.tcp_recv_ret = some f :: os →
      ∃ s1, netplay_read_registration char_signed s cin_compats mem = some s1 ∧
        s1.tcp_out = s.tcp_out ++ [[6]] ∧ s1.tcp_in = s.tcp_in ∧
        s1.l_cin_compats = cin_compats ∧
        (∀ i : Fin 4, ∃ id p r, net_read32 (local_array 24 mem) (6 * i.val) = some id ∧
          (local_array 24 mem)[6 * i.val + 4]? = some p ∧
          (local_array 24 mem)[6 * i.val + 5]? = some r ∧
          s1.Controls i =
            (if id = 0 then { Present := 0, RawData := 0, Plugin := (PLUGIN_NONE : Int) }
             else { Present := 1, RawData := to_char char_signed r,
                    Plugin := if to_char char_signed p = (PLUGIN_TRANSFER_PAK : Int) ∨
                        (i ≠ 0 ∧ to_char char_signed p = (PLUGIN_MEMPAK : Int))
                      then (PLUGIN_NONE : Int) else to_char char_signed p }))) := by
  refine ⟨?_, to_char_unsigned, to_char_small true, ?_, ?_⟩
  · intro h_ok h_in
    have hlen : 24 - 0 ≤ s.tcp_in.flatten.length := by rw [h_in]; simp [h_len]
    obtain ⟨q, os, hr, hq, -⟩ := tcp_recv_while_delivers true 24 s.tcp_recv_ret s.tcp_in
      (local_array 24 mem) 0 h_ok (by omega) (by rw [local_array_length]) hlen
    have htake : (local_array 24 mem).take 0 ++ s.tcp_in.flatten.take (24 - 0)
        ++ (local_array 24 mem).drop 24 = table := by
      have hd : (local_array 24 mem).drop 24 = [] :=
        List.drop_of_length_le (by rw [local_array_length])
      rw [hd, h_in, List.take_zero, List.nil_append, List.append_nil, Nat.sub_zero, ← h_len,
        List.take_left]
    have hdrop : s.tcp_in.flatten.drop (24 - 0) = rest := by
      rw [h_in, Nat.sub_zero, ← h_len, List.drop_left]
    rw [htake] at hr
    rw [hdrop] at hq
    have hrun : netplay_read_registration char_signed s cin_compats mem
        = read_registration_loop char_signed table [0, 1, 2, 3] 0
            { s with l_cin_compats := cin_compats, cin_compats_null := false,
                     events_freed := fun _ => false, tcp_out := s.tcp_out ++ [[6]],
                     tcp_send_ret := s.tcp_send_ret.tail, tcp_in := q, tcp_recv_ret := os } := by
      unfold netplay_read_registration
      rw [if_neg h_init]
      simp only [TCP_Send, TCP_GET_REGISTRATION, hr, Option.bind_eq_bind, Option.some_bind]
    obtain ⟨s1, h1, h2, h3, h4, h5⟩ := read_registration_loop_table char_signed table h_len
      { s with l_cin_compats := cin_compats, cin_compats_null := false,
               events_freed := fun _ => false, tcp_out := s.tcp_out ++ [[6]],
               tcp_send_ret := s.tcp_send_ret.tail, tcp_in := q, tcp_recv_ret := os }
    exact ⟨s1, hrun.trans h1, h2, by rw [h3]; exact hq, h4, h5⟩
  · intro b h1 h2
    unfold to_char
    have : b % 256 = b := Nat.mod_eq_of_lt h2
    rw [this, if_pos rfl, if_neg (by omega)]
  · intro f os hf
    have hr := tcp_recv_while_fail_first true 24 f os s.tcp_in (local_array 24 mem) (by omega)
    simp only [if_true] at hr
    have hrun : netplay_read_registration char_signed s cin_compats mem
        = read_registration_loop char_signed (local_array 24 mem) [0, 1, 2, 3] 0
            { s with l_cin_compats := cin_compats, cin_compats_null := false,
                     events_freed := fun _ => false, tcp_out := s.tcp_out ++ [[6]],
                     tcp_send_ret := s.tcp_send_ret.tail, tcp_in := s.tcp_in,
                     tcp_recv_ret := os } := by
      unfold netplay_read_registration
      rw [if_neg h_init]
      simp only [TCP_Send, TCP_GET_REGISTRATION, hf, hr, Option.bind_eq_bind, Option.some_bind]
    obtain ⟨s1, h1, h2, h3, h4, h5⟩ := read_registration_loop_table char_signed
      (local_array 24 mem) (local_array_length 24 mem)
      { s with l_cin_compats := cin_compats, cin_compats_null := false,
               events_freed := fun _ => false, tcp_out := s.tcp_out ++ [[6]],
               tcp_send_ret := s.tcp_send_ret.tail, tcp_in := s.tcp_in, tcp_recv_ret := os }
    exact ⟨s1, hrun.trans h1, h2, h3, h4, h5⟩

set_option maxRecDepth 100000 in
/-- C14, instances on a build with signed plain `char`.  The table of `table_state` arrives in
reads of 10, 1 and 13 bytes; slot 0 (id 9, memory pak, raw flag 1) keeps memory pak, slot 1
(id 0, followed by the bytes 7, 7) is unassigned and slot 2 is still decoded at offset 12
(id 1, memory pak, which becomes none), slot 3 (id 1, transfer pak) gets none.  The table of
`high_byte_state` gives slot 0 a nonzero id, the peripheral byte 200 and the raw-flag byte
200: with signed `char` the values stored are -56 and -56, with unsigned `char` they are the
bytes received. -/
theorem netplay_read_registration_table_witness :
    (table_state.l_netplay_is_init ≠ 0 ∧
      [0, 0, 0, 9, 2, 1, 0, 0, 0, 0, 7, 7, 0, 0, 0, 1, 2, 0, 0, 0, 0, 1, 4, 0].length = 24 ∧
      (∀ o ∈ table_state.tcp_recv_ret, o = none) ∧
      table_state.tcp_in.flatten
        = [0, 0, 0, 9, 2, 1, 0, 0, 0, 0, 7, 7, 0, 0, 0, 1, 2, 0, 0, 0, 0, 1, 4, 0] ++ []) ∧
    (∃ s1, netplay_read_registration true table_state (fun _ => ⟨[], 0⟩) [] = some s1 ∧
      s1.tcp_out = table_state.tcp_out ++ [[6]] ∧ s1.tcp_in.flatten = [] ∧
      s1.l_cin_compats = (fun _ => ⟨[], 0⟩) ∧
      (∀ i : Fin 4, ∃ id p r,
        net_read32 [0, 0, 0, 9, 2, 1, 0, 0, 0, 0, 7, 7, 0, 0, 0, 1, 2, 0, 0, 0, 0, 1, 4, 0]
          (6 * i.val) = some id ∧
        [0, 0, 0, 9, 2, 1, 0, 0, 0, 0, 7, 7, 0, 0, 0, 1, 2, 0, 0, 0, 0, 1, 4, 0][6 * i.val + 4]?
          = some p ∧
        [0, 0, 0, 9, 2, 1, 0, 0, 0, 0, 7, 7, 0, 0, 0, 1, 2, 0, 0, 0, 0, 1, 4, 0][6 * i.val + 5]?
          = some r ∧
        s1.Controls i =
          (if id = 0 then { Present := 0, RawData := 0, Plugin := (PLUGIN_NONE : Int) }
           else { Present := 1, RawData := to_char true r,
                  Plugin := if to_char true p = (PLUGIN_TRANSFER_PAK : Int) ∨
                      (i ≠ 0 ∧ to_char true p = (PLUGIN_MEMPAK : Int))
                    then (PLUGIN_NONE : Int) else to_char true p }))) ∧
    (netplay_read_registration true table_state (fun _ => ⟨[], 0⟩) []).map
        (fun s => [s.Controls 0, s.Controls 1, s.Controls 2, s.Controls 3])
      = some [{ Present := 1, RawData := 1, Plugin := 2 },
              { Present := 0, RawData := 0, Plugin := 1 },
              { Present := 1, RawData := 0, Plugin := 1 },
              { Present := 1, RawData := 0, Plugin := 1 }] ∧
    high_byte_state.tcp_in.flatten.take 6 = [0, 0, 0, 9, 200, 200] ∧
    (netplay_read_registration true high_byte_state (fun _ => ⟨[], 0⟩) []).map
        (fun s => ((s.Controls 0).Present, (s.Controls 0).RawData, (s.Controls 0).Plugin))
      = some (1, -56, -56) ∧
    (netplay_read_registration false high_byte_state (fun _ => ⟨[], 0⟩) []).map
        (fun s => ((s.Controls 0).Present, (s.Controls 0).RawData, (s.Controls 0).Plugin))
      = some (1, 200, 200) :=
  ⟨⟨by decide, by decide, by decide, by decide⟩,
   (netplay_read_registration_table true table_state (fun _ => ⟨[], 0⟩)
     [0, 0, 0, 9, 2, 1, 0, 0, 0, 0, 7, 7, 0, 0, 0, 1, 2, 0, 0, 0, 0, 1, 4, 0] [] []
     (by decide) (by decide)).1 (by decide) (by decide),
   by decide, by decide, by decide, by decide⟩

/-- C15. `netplay_register_player(player, plugin, rawdata, reg_id)` sends exactly one message,
the 8 bytes `{5, player, plugin, rawdata, reg_id big-endian}`, and nothing on the datagram
channel.  When no read fails and the stream delivers the two bytes `status`, `target` (in
one read or in two reads of one byte), it returns `status`, stores `target` as the lag-buffer
target and `reg_id` as the registration id: the next request datagram carries `reg_id` in
bytes 2 to 5 and the disconnect notice of `netplay_stop` is `{7, reg_id big-endian}`.
When the first read fails (`TCP_Recv` returns -1 or -2), the call still sends the message and
returns: the failure is added to the byte count, which ends the loop, nothing is taken from
the stream, and the value returned and the lag-buffer target stored are the two bytes the
local array `response` happened to hold, not a response. -/
theorem netplay_register_player_exchange (s : Netplay)
    (player plugin rawdata reg_id status target : Nat) (rest mem : List Nat) :
    ((∀ o ∈ s.tcp_recv_ret, o = none) → s.tcp_in.flatten = [status, target] ++ rest →
      ∃ s1, netplay_register_player s player plugin rawdata reg_id mem = some (s1, status) ∧
        s1.tcp_out = s.tcp_out ++ [[5, player, plugin, rawdata] ++ net_write32 reg_id] ∧
        ([5, player, plugin, rawdata] ++ net_write32 reg_id).length = 8 ∧
        s1.udp_out = s.udp_out ∧ s1.tcp_in.flatten = rest ∧
        s1.l_buffer_target = target ∧ s1.l_reg_id = reg_id ∧
        (∀ i : Fin 4, ∃ s2 tail, netplay_request_input s1 i.val = some s2 ∧
          s2.udp_out
            = s1.udp_out ++ [(s1.l_udpChannel, [2, i.val] ++ net_write32 reg_id ++ tail)]) ∧
        (events_allocated s → s1.l_udpSocket = true → s1.l_tcpSocket = true →
          ∃ s2, netplay_stop s1 = some (s2, m64p_error.M64ERR_SUCCESS) ∧
            s2.tcp_out = s1.tcp_out ++ [[7] ++ net_write32 reg_id])) ∧
    (∀ (f : tcp_failure) (os : List (Option tcp_failure)), s.tcp_recv_ret = some f :: os →
      ∃ s1, netplay_register_player s player plugin rawdata reg_id mem
          = some (s1, mem.getD 0 0) ∧
        s1.tcp_out = s.tcp_out ++ [[5, player, plugin, rawdata] ++ net_write32 reg_id] ∧
        s1.tcp_in = s.tcp_in ∧ s1.tcp_recv_ret = os ∧
        s1.l_buffer_target = mem.getD 1 0 ∧ s1.l_reg_id = reg_id) := by
  constructor
  · intro h_ok h_in
    have hlen : 2 - 0 ≤ s.tcp_in.flatten.length := by rw [h_in]; simp
    obtain ⟨q, os1, hr, hq, -⟩ := tcp_recv_while_delivers true 2 s.tcp_recv_ret s.tcp_in
      (local_array 2 mem) 0 h_ok (by omega) (by rw [local_array_length]) hlen
    have hbuf : (local_array 2 mem).take 0 ++ s.tcp_in.flatten.take (2 - 0)
        ++ (local_array 2 mem).drop 2 = [status, target] := by
      rw [h_in, local_array_two]; simp
    have hdrop : s.tcp_in.flatten.drop (2 - 0) = rest := by
      rw [h_in]; simp
    rw [hbuf] at hr
    rw [hdrop] at hq
    have hrun : netplay_register_player s player plugin rawdata reg_id mem
        = some ({ s with l_reg_id := reg_id,
                         tcp_out := s.tcp_out
                           ++ [[5, player, plugin, rawdata] ++ net_write32 reg_id],
                         tcp_send_ret := s.tcp_send_ret.tail, tcp_in := q,
                         tcp_recv_ret := os1, l_buffer_target := target }, status) := by
      unfold netplay_register_player
      simp [TCP_Send, TCP_REGISTER_PLAYER, hr]
    refine ⟨_, hrun, rfl, by simp [net_write32], rfl, hq, rfl, rfl, ?_, ?_⟩
    · intro i
      refine ⟨_, net_write32 (s.l_cin_compats i).netplay_count
        ++ [to_u8 s.l_spectator, (s.l_cin_compats i).event_first.length % 256],
        netplay_request_input_eq _ i, ?_⟩
      simp [UDP_Send, UDP_REQUEST_KEY_INFO]
    · intro ha h1 h2
      exact ⟨_, netplay_stop_live _ h1 h2 ha, rfl⟩
  · intro f os hf
    have hrun : netplay_register_player s player plugin rawdata reg_id mem
        = some ({ s with l_reg_id := reg_id,
                         tcp_out := s.tcp_out
                           ++ [[5, player, plugin, rawdata] ++ net_write32 reg_id],
                         tcp_send_ret := s.tcp_send_ret.tail, tcp_in := s.tcp_in,
                         tcp_recv_ret := os, l_buffer_target := mem.getD 1 0 },
                mem.getD 0 0) := by
      unfold netplay_register_player
      simp [TCP_Send, TCP_REGISTER_PLAYER, hf, tcp_recv_while_fail_first, local_array_two]
    exact ⟨_, hrun, rfl, rfl, rfl, rfl, rfl⟩

set_option maxRecDepth 100000 in
/-- C15, instances: the response `{0, 3}` arrives in two reads of one byte; and the same
stream when the first `TCP_Recv` fails with -1 while the array `response` holds 9, 8: the
call returns 9 and stores the target 8, and the response stays in the stream. -/
theorem netplay_register_player_exchange_witness :
    ((∀ o ∈ register_state.tcp_recv_ret, o = none) ∧
      register_state.tcp_in.flatten = [0, 3] ++ []) ∧
    (∃ s1, netplay_register_player register_state 1 2 0 305419896 [9, 8] = some (s1, 0) ∧
      s1.tcp_out = register_state.tcp_out ++ [[5, 1, 2, 0] ++ net_write32 305419896] ∧
      ([5, 1, 2, 0] ++ net_write32 305419896).length = 8 ∧
      s1.udp_out = register_state.udp_out ∧ s1.tcp_in.flatten = [] ∧
      s1.l_buffer_target = 3 ∧ s1.l_reg_id = 305419896 ∧
      (∀ i : Fin 4, ∃ s2 tail, netplay_request_input s1 i.val = some s2 ∧
        s2.udp_out = s1.udp_out
          ++ [(s1.l_udpChannel, [2, i.val] ++ net_write32 305419896 ++ tail)]) ∧
      (events_allocated register_state → s1.l_udpSocket = true → s1.l_tcpSocket = true →
        ∃ s2, netplay_stop s1 = some (s2, m64p_error.M64ERR_SUCCESS) ∧
          s2.tcp_out = s1.tcp_out ++ [[7] ++ net_write32 305419896])) ∧
    (netplay_register_player register_state 1 2 0 305419896 [9, 8]).map
        (fun r => (r.1.tcp_out, r.2, r.1.l_buffer_target, r.1.l_reg_id))
      = some ([[5, 1, 2, 0, 18, 52, 86, 120]], 0, 3, 305419896) ∧
    register_failed_state.tcp_recv_ret = [some tcp_failure.error] ∧
    (netplay_register_player register_failed_state 1 2 0 305419896 [9, 8]).map
        (fun r => (r.1.tcp_out, r.2, r.1.l_buffer_target, r.1.tcp_in))
      = some ([[5, 1, 2, 0, 18, 52, 86, 120]], 9, 8, [[0], [3]]) :=
  ⟨⟨by decide, by decide⟩,
   (netplay_register_player_exchange register_state 1 2 0 305419896 0 3 [] [9, 8]).1
     (by decide) (by decide),
   by decide, by decide, by decide⟩

/-- C16 (amended). While no session is live - the flag `netplay_is_init()` is 0 and no datagram
socket is held, which is the case at program start, after every `netplay_stop` that returned
success, and after a failed `netplay_start` other than one that failed at host resolution -
`netplay_send_config` and `netplay_receive_config` fail with `M64ERR_NOT_INIT`,
`netplay_stop` fails with `M64ERR_INVALID_STATE`, and each of them leaves the state, the
transport included, as it is. -/
theorem no_session_calls_fail (s : Netplay) (data : List Nat) (size : Int)
    (h : no_session s) :
    netplay_send_config s data size = some (s, m64p_error.M64ERR_NOT_INIT) ∧
    netplay_receive_config s data size = some (s, m64p_error.M64ERR_NOT_INIT, data) ∧
    netplay_stop s = some (s, m64p_error.M64ERR_INVALID_STATE) ∧
    (∀ host : Netplay, no_session (netplay_initial host)) ∧
    (∀ s0 s1 : Netplay, netplay_stop s0 = some (s1, m64p_error.M64ERR_SUCCESS) →
      no_session s1) ∧
    (∀ env : start_env, (netplay_start s env).2 ≠ m64p_error.M64ERR_SUCCESS →
      ¬ (env.net_init = 0 ∧ env.udp_open = true ∧ env.resolve_failed = true) →
      no_session (netplay_start s env).1) := by
  refine ⟨?_, ?_, netplay_stop_closed s h.2, fun host => ⟨rfl, rfl⟩,
    netplay_stop_success, fun env h1 h2 => netplay_start_failed s env h h1 h2⟩
  · simp [netplay_send_config, h.1]
  · simp [netplay_receive_config, h.1]

set_option maxRecDepth 100000 in
/-- C16, instances: at program start, and after the stop of a started session. -/
theorem no_session_calls_fail_witness :
    no_session (netplay_initial idle_state) ∧
    (netplay_send_config (netplay_initial idle_state) [1, 2, 3] 3
        = some (netplay_initial idle_state, m64p_error.M64ERR_NOT_INIT) ∧
      netplay_receive_config (netplay_initial idle_state) [1, 2, 3] 3
        = some (netplay_initial idle_state, m64p_error.M64ERR_NOT_INIT, [1, 2, 3]) ∧
      netplay_stop (netplay_initial idle_state)
        = some (netplay_initial idle_state, m64p_error.M64ERR_INVALID_STATE) ∧
      (∀ host : Netplay, no_session (netplay_initial host)) ∧
      (∀ s0 s1 : Netplay, netplay_stop s0 = some (s1, m64p_error.M64ERR_SUCCESS) →
        no_session s1) ∧
      (∀ env : start_env,
        (netplay_start (netplay_initial idle_state) env).2 ≠ m64p_error.M64ERR_SUCCESS →
        ¬ (env.net_init = 0 ∧ env.udp_open = true ∧ env.resolve_failed = true) →
        no_session (netplay_start (netplay_initial idle_state) env).1)) ∧
    (∃ s1, netplay_stop started_state = some (s1, m64p_error.M64ERR_SUCCESS) ∧
      no_session s1 ∧
      (netplay_send_config s1 [1] 1).map (fun r => r.2) = some m64p_error.M64ERR_NOT_INIT) :=
  ⟨by decide, no_session_calls_fail (netplay_initial idle_state) [1, 2, 3] 3 (by decide),
   ⟨_, netplay_stop_live started_state (by decide) (by decide) (by decide), by decide,
    by decide⟩⟩

set_option maxRecDepth 100000 in
/-- C16, the claim as stated fails.  At program start no session is live, and `netplay_stop`
returns `M64ERR_INVALID_STATE`, not `M64ERR_NOT_INIT`; so does a second `netplay_stop` after
the stop of a started session.  After a `netplay_start` that failed at host resolution no
session is live either (`netplay_is_init()` is 0), but the datagram socket is still open:
`netplay_stop` returns `M64ERR_SUCCESS` and closes it. -/
theorem stop_without_session :
    netplay_is_init (netplay_initial idle_state) = 0 ∧
    (netplay_stop (netplay_initial idle_state)).map (fun r => r.2)
      = some m64p_error.M64ERR_INVALID_STATE ∧
    (netplay_stop started_state).map (fun r => netplay_is_init r.1) = some 0 ∧
    ((netplay_stop started_state).bind (fun r => netplay_stop r.1)).map (fun r => r.2)
      = some m64p_error.M64ERR_INVALID_STATE ∧
    (netplay_start (netplay_initial idle_state) start_unresolved).2
      = m64p_error.M64ERR_SYSTEM_FAIL ∧
    netplay_is_init (netplay_start (netplay_initial idle_state) start_unresolved).1 = 0 ∧
    (netplay_start (netplay_initial idle_state) start_unresolved).1.l_udpSocket = true ∧
    (netplay_stop (netplay_start (netplay_initial idle_state) start_unresolved).1).map
        (fun r => (r.2, r.1.l_udpSocket))
      = some (m64p_error.M64ERR_SUCCESS, false) := by
  decide

/-- C17. On a live session (what a successful `netplay_start` leaves) none of whose event lists
points at freed nodes - as is the case for the session started first, which has no table -
`netplay_stop` sends one message on the reliable channel, the 5 bytes
`{7, registration id big-endian}`, and nothing on the datagram channel; then - for every value
the send returns, the values the transport will report being part of the state `s` - it
clears both channel handles, sets the datagram route to -1 and `netplay_is_init()` to 0 and
returns `M64ERR_SUCCESS`.  A second `netplay_stop` directly afterwards returns the error
`M64ERR_INVALID_STATE` and leaves the state as it is: it sends nothing.
The condition on the event lists is needed: `netplay_stop` frees the nodes of every event
list and leaves `event_first` pointing at them, so when a table was installed and one of its
lists was not empty, the session started next is live and `netplay_stop` on it frees these
nodes a second time: it has no defined result. -/
theorem netplay_stop_teardown (s : Netplay) (h : live_session s) (h_alloc : events_allocated s) :
    ∃ s1, netplay_stop s = some (s1, m64p_error.M64ERR_SUCCESS) ∧
      s1.tcp_out = s.tcp_out ++ [[7] ++ net_write32 s.l_reg_id] ∧
      ([7] ++ net_write32 s.l_reg_id).length = 5 ∧
      s1.udp_out = s.udp_out ∧
      s1.l_udpSocket = false ∧ s1.l_tcpSocket = false ∧ s1.l_udpChannel = -1 ∧
      netplay_is_init s1 = 0 ∧
      netplay_stop s1 = some (s1, m64p_error.M64ERR_INVALID_STATE) ∧
      (∀ (s0 : Netplay) (env : start_env),
        (netplay_start s0 env).2 = m64p_error.M64ERR_SUCCESS →
        live_session (netplay_start s0 env).1) ∧
      (∀ (host : Netplay) (env : start_env),
        events_allocated (netplay_start (netplay_initial host) env).1) ∧
      (∀ (env : start_env) (i : Fin 4), s.cin_compats_null = false →
        (s.l_cin_compats i).event_first ≠ [] →
        (netplay_start s1 env).2 = m64p_error.M64ERR_SUCCESS →
        live_session (netplay_start s1 env).1 ∧
          netplay_stop (netplay_start s1 env).1 = none) := by
  refine ⟨_, netplay_stop_live s h.2.1 h.2.2 h_alloc, rfl, by simp [net_write32], rfl, rfl, rfl,
    rfl, rfl, netplay_stop_closed _ rfl, fun s0 env h0 => (netplay_start_live s0 env h0).1,
    ?_, ?_⟩
  · intro host env
    left
    rw [(netplay_start_heap _ env).1]
    rfl
  · intro env i hn he hstart
    have hl := (netplay_start_live _ env hstart).1
    obtain ⟨h1, h2, h3⟩ := netplay_start_heap
      ({ s with events_freed := freed_after_stop s,
                tcp_out := s.tcp_out ++ [[7] ++ net_write32 s.l_reg_id],
                tcp_send_ret := s.tcp_send_ret.tail,
                l_udpSocket := false, l_tcpSocket := false, l_udpChannel := -1,
                l_netplay_is_init := 0 } : Netplay) env
    refine ⟨hl, netplay_stop_twice _ i hl.2.1 (by rw [h1]; exact hn) ?_ (by rw [h3]; exact he)⟩
    rw [h2]
    simp [freed_after_stop, hn, he]

set_option maxRecDepth 100000 in
/-- C17, instances: the session `buffered_state`, which holds events in a table and whose
nodes are allocated, is torn down; after the next successful `netplay_start` the session is
live and `netplay_stop` has no defined result.  The session started first (`started_state`,
whose transport reports 0 bytes sent for the notice) has no table and is torn down. -/
theorem netplay_stop_teardown_witness :
    (live_session buffered_state ∧ events_allocated buffered_state) ∧
    (∃ s1, netplay_stop buffered_state = some (s1, m64p_error.M64ERR_SUCCESS) ∧
      s1.tcp_out = buffered_state.tcp_out ++ [[7] ++ net_write32 buffered_state.l_reg_id] ∧
      ([7] ++ net_write32 buffered_state.l_reg_id).length = 5 ∧
      s1.udp_out = buffered_state.udp_out ∧
      s1.l_udpSocket = false ∧ s1.l_tcpSocket = false ∧ s1.l_udpChannel = -1 ∧
      netplay_is_init s1 = 0 ∧
      netplay_stop s1 = some (s1, m64p_error.M64ERR_INVALID_STATE) ∧
      (∀ (s0 : Netplay) (env : start_env),
        (netplay_start s0 env).2 = m64p_error.M64ERR_SUCCESS →
        live_session (netplay_start s0 env).1) ∧
      (∀ (host : Netplay) (env : start_env),
        events_allocated (netplay_start (netplay_initial host) env).1) ∧
      (∀ (env : start_env) (i : Fin 4), buffered_state.cin_compats_null = false →
        (buffered_state.l_cin_compats i).event_first ≠ [] →
        (netplay_start s1 env).2 = m64p_error.M64ERR_SUCCESS →
        live_session (netplay_start s1 env).1 ∧
          netplay_stop (netplay_start s1 env).1 = none)) ∧
    (buffered_state.cin_compats_null = false ∧
      (buffered_state.l_cin_compats 0).event_first ≠ []) ∧
    (netplay_stop buffered_state).map (fun r => (r.2, r.1.tcp_out, r.1.events_freed 0))
      = some (m64p_error.M64ERR_SUCCESS, [[7, 0, 0, 0, 77]], true) ∧
    restarted_state.map (fun r => decide (live_session r)) = some true ∧
    restarted_state.bind netplay_stop = none ∧
    (live_session started_state ∧ events_allocated started_state) ∧
    (TCP_Send started_state ([7] ++ net_write32 started_state.l_reg_id)).2 = 0 ∧
    (netplay_stop started_state).map (fun r => (r.2, r.1.tcp_out))
      = some (m64p_error.M64ERR_SUCCESS, [[7, 0, 0, 0, 0]]) :=
  ⟨⟨by decide, by decide⟩, netplay_stop_teardown buffered_state (by decide) (by decide),
   ⟨by decide, by decide⟩, by decide, by decide, Option.isNone_iff_eq_none.mp (by decide),
   ⟨by decide, by decide⟩, by decide, by decide⟩

/-- C18. Let a session be started and `netplay_check_sync` be called `k - 1` times (with any
register values), `k - 1` below `2^32`.  Then the frame counter is `k - 1`, and the `k`-th call
sends a datagram if and only if `k - 1` is a multiple of 600: the datagram `{4, k - 1 as a
big-endian u32, the N = CP0_REGS_COUNT registers as big-endian u32 in index order}` of
`4 N + 5` bytes on the current route.  The call leaves the frame counter at `k` (one more;
only the call at counter `2^32 - 1` wraps to 0). -/
theorem netplay_check_sync_period (s0 : Netplay) (env : start_env)
    (earlier : List (Nat → Nat)) (cp0_regs : Nat → Nat) (k : Nat)
    (h_start : (netplay_start s0 env).2 = m64p_error.M64ERR_SUCCESS)
    (h_k : earlier.length + 1 = k) (h_range : k - 1 < 4294967296) :
    ∃ s, s = earlier.foldl netplay_check_sync (netplay_start s0 env).1 ∧
      s.l_vi_counter = k - 1 ∧
      (netplay_check_sync s cp0_regs).udp_out = s.udp_out ++
        (if (k - 1) % 600 = 0 then
          [(s.l_udpChannel, [4] ++ net_write32 (k - 1)
            ++ ((List.range CP0_REGS_COUNT).map (fun i => net_write32 (cp0_regs i))).flatten)]
         else []) ∧
      ([4] ++ net_write32 (k - 1)
        ++ ((List.range CP0_REGS_COUNT).map (fun i => net_write32 (cp0_regs i))).flatten).length
        = 4 * CP0_REGS_COUNT + 5 ∧
      (netplay_check_sync s cp0_regs).l_vi_counter = k % 4294967296 ∧
      (k < 4294967296 → (netplay_check_sync s cp0_regs).l_vi_counter = s.l_vi_counter + 1) := by
  obtain ⟨hlive, hvi, -⟩ := netplay_start_live s0 env h_start
  obtain ⟨g1, g2⟩ := check_sync_calls_counter earlier _ hlive.1 (by rw [hvi]; decide)
  rw [hvi, Nat.zero_add] at g2
  have hk : earlier.length = k - 1 := by omega
  rw [hk, Nat.mod_eq_of_lt h_range] at g2
  obtain ⟨f1, f2, f3, f4⟩ := netplay_check_sync_live _ cp0_regs g1
  rw [g2] at f2 f4
  refine ⟨_, rfl, g2, f4, ?_, ?_, ?_⟩
  · rw [List.length_append, List.length_append, flatten_net_write32_length, List.length_range,
      net_write32_length]
    simp only [List.length_singleton]
    omega
  · rw [f2]; congr 1; omega
  · intro hlt
    rw [f2, g2, Nat.mod_eq_of_lt (by omega)]

set_option maxRecDepth 100000 in
/-- C18, instances: the first call and the second call after a start. -/
theorem netplay_check_sync_period_witness :
    ((netplay_start (netplay_initial idle_state) start_ok).2 = m64p_error.M64ERR_SUCCESS ∧
      ([] : List (Nat → Nat)).length + 1 = 1 ∧ 1 - 1 < 4294967296) ∧
    (∃ s, s = ([] : List (Nat → Nat)).foldl netplay_check_sync
          (netplay_start (netplay_initial idle_state) start_ok).1 ∧
      s.l_vi_counter = 1 - 1 ∧
      (netplay_check_sync s example_regs).udp_out = s.udp_out ++
        (if (1 - 1) % 600 = 0 then
          [(s.l_udpChannel, [4] ++ net_write32 (1 - 1)
            ++ ((List.range CP0_REGS_COUNT).map
                  (fun i => net_write32 (example_regs i))).flatten)]
         else []) ∧
      ([4] ++ net_write32 (1 - 1)
        ++ ((List.range CP0_REGS_COUNT).map
              (fun i => net_write32 (example_regs i))).flatten).length
        = 4 * CP0_REGS_COUNT + 5 ∧
      (netplay_check_sync s example_regs).l_vi_counter = 1 % 4294967296 ∧
      (1 < 4294967296 →
        (netplay_check_sync s example_regs).l_vi_counter = s.l_vi_counter + 1)) ∧
    ((netplay_check_sync (netplay_start (netplay_initial idle_state) start_ok).1
        example_regs).udp_out.map (fun d => (d.2.take 9, d.2.length)))
      = [([4, 0, 0, 0, 0, 0, 0, 0, 1], 133)] ∧
    ((netplay_check_sync (netplay_check_sync
        (netplay_start (netplay_initial idle_state) start_ok).1 example_regs)
        example_regs).udp_out.length, (netplay_check_sync (netplay_check_sync
        (netplay_start (netplay_initial idle_state) start_ok).1 example_regs)
        example_regs).l_vi_counter) = (1, 2) :=
  ⟨⟨by decide, by decide, by decide⟩,
   netplay_check_sync_period (netplay_initial idle_state) start_ok [] example_regs 1
     (by decide) (by decide) (by decide),
   by decide, by decide⟩

/-- C19. When slot 0 is locally owned and the caller's buffer holds at least `size` bytes,
`netplay_read_storage(filename, data, size)` sends exactly one message on the reliable
channel and nothing on the datagram channel: the tag byte 1, the characters of `filename`
after its last `'.'` (none if it has no `'.'`), a NUL byte, `size` as a big-endian u32 and
the `size` first bytes of `data`, `6 + len(extension) + size` bytes in all (lengths are 32-bit
quantities in the code: the total is taken below `2^32`).  The caller's buffer is returned
unchanged. -/
theorem netplay_read_storage_push (s : Netplay) (filename data : List Nat) (size : Nat)
    (ret_init : file_status_t)
    (h_owner : s.l_netplay_control 0 ≠ -1) (h_buf : size ≤ data.length)
    (h_len : 6 + (file_extension filename).length + size < 4294967296) :
    ∃ status, netplay_read_storage s filename data size ret_init
        = some ({ s with tcp_out := s.tcp_out ++ [[1] ++ file_extension filename ++ [0]
                            ++ net_write32 size ++ data.take size],
                         tcp_send_ret := s.tcp_send_ret.tail },
                status, data) ∧
      ([1] ++ file_extension filename ++ [0] ++ net_write32 size ++ data.take size).length
        = 6 + (file_extension filename).length + size ∧
      net_read32 (net_write32 size) 0 = some size ∧
      ((46 ∉ filename ∧ file_extension filename = []) ∨
        (∃ pre, filename = pre ++ [46] ++ file_extension filename ∧
          46 ∉ file_extension filename)) := by
  refine ⟨ret_init, ?_, ?_, ?_, file_extension_spec filename⟩
  · unfold netplay_read_storage
    rw [if_neg (by omega), if_pos h_owner]
    simp [TCP_Send, TCP_SEND_SAVE]
  · simp [net_write32, List.length_take, Nat.min_eq_left h_buf]
    omega
  · have := net_read32_write32 size (by omega) []
    simpa using this

set_option maxRecDepth 100000 in
/-- C19, instances: the name `"a.b.sra"` (extension `"sra"`) with two bytes of data, and a name
without a dot. -/
theorem netplay_read_storage_push_witness :
    (owner_state.l_netplay_control 0 ≠ -1 ∧ 2 ≤ [9, 8, 7].length ∧
      6 + (file_extension [97, 46, 98, 46, 115, 114, 97]).length + 2 < 4294967296) ∧
    (∃ status, netplay_read_storage owner_state [97, 46, 98, 46, 115, 114, 97] [9, 8, 7] 2
          file_status_t.file_read_error
        = some ({ owner_state with
                    tcp_out := owner_state.tcp_out
                      ++ [[1] ++ file_extension [97, 46, 98, 46, 115, 114, 97] ++ [0]
                            ++ net_write32 2 ++ [9, 8, 7].take 2],
                    tcp_send_ret := owner_state.tcp_send_ret.tail },
                status, [9, 8, 7]) ∧
      ([1] ++ file_extension [97, 46, 98, 46, 115, 114, 97] ++ [0] ++ net_write32 2
          ++ [9, 8, 7].take 2).length
        = 6 + (file_extension [97, 46, 98, 46, 115, 114, 97]).length + 2 ∧
      net_read32 (net_write32 2) 0 = some 2 ∧
      ((46 ∉ [97, 46, 98, 46, 115, 114, 97] ∧
          file_extension [97, 46, 98, 46, 115, 114, 97] = []) ∨
        (∃ pre, [97, 46, 98, 46, 115, 114, 97]
            = pre ++ [46] ++ file_extension [97, 46, 98, 46, 115, 114, 97] ∧
          46 ∉ file_extension [97, 46, 98, 46, 115, 114, 97]))) ∧
    (netplay_read_storage owner_state [97, 46, 98, 46, 115, 114, 97] [9, 8, 7] 2
        file_status_t.file_read_error).map (fun r => (r.1.tcp_out, r.2.2))
      = some ([[1, 115, 114, 97, 0, 0, 0, 0, 2, 9, 8]], [9, 8, 7]) ∧
    (netplay_read_storage owner_state [115, 97, 118, 101] [9, 8, 7] 3
        file_status_t.file_read_error).map (fun r => (r.1.tcp_out, r.2.2))
      = some ([[1, 0, 0, 0, 0, 3, 9, 8, 7]], [9, 8, 7]) :=
  ⟨⟨by decide, by decide, by decide⟩,
   netplay_read_storage_push owner_state [97, 46, 98, 46, 115, 114, 97] [9, 8, 7] 2
     file_status_t.file_read_error (by decide) (by decide) (by decide),
   by decide, by decide⟩

/-- C20. For a `size_t` of 32 or 64 bits and every byte string `m` that a `size_t` can
measure, `md5_init`, one `md5_append` of `m` and `md5_finish` return, and the digest is that
of RFC 1321 for `m` with the appended bit length taken from `count[0..1]`.  When `size_t` has
32 bits, or `m` is shorter than 2^29 bytes, `count` is the bit length of `m` and the digest is
the RFC 1321 MD5 digest of `m`.  When `size_t` has 64 bits and `m` has 2^29 bytes or more
(fewer than 2^61), the carry test of `md5_append` fires although `count[0]` did not wrap:
`count[1]` is one more than the high word of the bit length, so `count` is not the bit length
of `m`. -/
theorem md5_digest_rfc1321 (size_bits : Nat) (pms : md5_state_t) (m : List Nat)
    (h_size : size_bits = 32 ∨ size_bits = 64) (h_buf : pms.buf.length = 64)
    (h_bytes : ∀ b ∈ m, b < 256) (h_len : m.length < 2 ^ size_bits) :
    ∃ pms1, md5_append size_bits (md5_init pms) m = some pms1 ∧
      md5_digest size_bits pms m
        = some (rfc1321_digest_with m (pms1.count0 + 4294967296 * pms1.count1)) ∧
      ((size_bits = 32 ∨ m.length < 536870912) →
        pms1.count0 + 4294967296 * pms1.count1 = 8 * m.length ∧
        md5_digest size_bits pms m = some (rfc1321_md5 m)) ∧
      (size_bits = 64 → 536870912 ≤ m.length → m.length < 2305843009213693952 →
        pms1.count0 = (8 * m.length) % 4294967296 ∧
        pms1.count1 = (m.length / 536870912 + 1) % 4294967296 ∧
        pms1.count0 + 4294967296 * pms1.count1 ≠ 8 * m.length) := by
  obtain ⟨pms1, h1, habs1, hcount⟩ := md5_append_absorbed size_bits (md5_init pms) [] m h_size
    (md5_init_absorbed pms h_buf) (fun b hb => absurd hb (List.not_mem_nil b)) h_bytes
    (by simpa using h_len)
  rw [List.nil_append] at habs1
  obtain ⟨pms2, h2⟩ := md5_finish_eq size_bits pms1 m h_size habs1 h_bytes
  have hd : md5_digest size_bits pms m
      = some (rfc1321_digest_with m (pms1.count0 + 4294967296 * pms1.count1)) := by
    unfold md5_digest
    simp only [Option.bind_eq_bind]
    rw [h1, Option.some_bind, h2, Option.some_bind]
  have hc0 : pms1.count0 = (8 * m.length) % 4294967296 := habs1.1
  have hi0 : (md5_init pms).count0 = 0 := rfl
  have hi1 : (md5_init pms).count1 = 0 := rfl
  rw [hi0, hi1, Nat.shiftLeft_eq, Nat.shiftRight_eq_div_pow] at hcount
  have h2w : (size_bits = 32 ∧ m.length < 4294967296) ∨
      (size_bits = 64 ∧ m.length < 18446744073709551616) := by
    rcases h_size with rfl | rfl
    · exact Or.inl ⟨rfl, by norm_num at h_len; exact h_len⟩
    · exact Or.inr ⟨rfl, by norm_num at h_len; exact h_len⟩
  refine ⟨pms1, h1, hd, ?_, ?_⟩
  · intro hsmall
    have hc1 : pms1.count1 = m.length / 536870912 := by
      rcases h2w with ⟨rfl, hl⟩ | ⟨rfl, hl⟩
      · split_ifs at hcount with hif <;> omega
      · have hlt : m.length < 536870912 := by
          rcases hsmall with h | h
          · exact absurd h (by decide)
          · exact h
        split_ifs at hcount with hif <;> omega
    have hsum : pms1.count0 + 4294967296 * pms1.count1 = 8 * m.length := by
      rw [hc0, hc1]; omega
    refine ⟨hsum, ?_⟩
    rw [hd, hsum]
    rfl
  · intro h64 hge hlt
    subst h64
    have hc1 : pms1.count1 = (m.length / 536870912 + 1) % 4294967296 := by
      split_ifs at hcount with hif <;> omega
    refine ⟨hc0, hc1, ?_⟩
    rw [hc0, hc1]
    omega

set_option maxRecDepth 100000 in
/-- C20, instances: the empty string and "abc" (with a `size_t` of 64 and of 32 bits) give the
digests d41d8cd98f00b204e9800998ecf8427e and 900150983cd24fb0d6963f7d28e17f72; one
`md5_append` of 2^29 zero bytes with a `size_t` of 64 bits leaves `count = {0, 2}`, which
stands for 2^33 bits, while the 2^29 bytes are 2^32 bits. -/
theorem md5_digest_rfc1321_witness :
    ((64 = 32 ∨ 64 = 64) ∧ md5_zero_state.buf.length = 64 ∧ (∀ b ∈ ([] : List Nat), b < 256) ∧
      ([] : List Nat).length < 2 ^ 64) ∧
    (md5_digest 64 md5_zero_state [] = some (rfc1321_md5 []) ∧
      md5_digest 64 md5_zero_state []
        = some [0xd4, 0x1d, 0x8c, 0xd9, 0x8f, 0x00, 0xb2, 0x04,
                0xe9, 0x80, 0x09, 0x98, 0xec, 0xf8, 0x42, 0x7e]) ∧
    (md5_digest 32 md5_zero_state [97, 98, 99] = some (rfc1321_md5 [97, 98, 99]) ∧
      md5_digest 32 md5_zero_state [97, 98, 99]
        = some [0x90, 0x01, 0x50, 0x98, 0x3c, 0xd2, 0x4f, 0xb0,
                0xd6, 0x96, 0x3f, 0x7d, 0x28, 0xe1, 0x7f, 0x72]) ∧
    (∃ pms1, md5_append 64 (md5_init md5_zero_state) (List.replicate 536870912 0) = some pms1 ∧
      pms1.count0 = 0 ∧ pms1.count1 = 2 ∧ 8 * 536870912 = 0 + 4294967296 * 1) :=
  ⟨⟨by decide, by decide, by decide, by decide⟩,
   ⟨(md5_digest_rfc1321 64 md5_zero_state [] (by decide) (by decide) (by decide)
      (by decide)).elim (fun _ h => (h.2.2.1 (Or.inr (by decide))).2), by decide⟩,
   ⟨(md5_digest_rfc1321 32 md5_zero_state [97, 98, 99] (by decide) (by decide) (by decide)
      (by decide)).elim (fun _ h => (h.2.2.1 (Or.inl rfl)).2), by decide⟩,
   (md5_digest_rfc1321 64 md5_zero_state (List.replicate 536870912 0) (Or.inr rfl) (by decide)
      (fun b hb => by rw [List.eq_of_mem_replicate hb]; decide)
      (by rw [List.length_replicate]; norm_num)).elim
     (fun pms1 h => ⟨pms1, h.1, by
        have h3 := h.2.2.2 rfl (by rw [List.length_replicate])
          (by rw [List.length_replicate]; norm_num)
        rw [List.length_replicate] at h3
        exact ⟨h3.1, h3.2.1, rfl⟩⟩)⟩

/-- C22. Let the receive queue hold one update datagram (tag 1 or 3, at most 56 events, 32-bit
fields) for slot `p`, whose counter is `c`, and let `e` be one of its events, `before` the
events in front of it, `after` those behind it.  `netplay_process` returns; with `l` the ledger
of the slot when `e` is reached (the events of `before` processed), `e` is inserted if and
only if `(e.count - c) mod 2^32 <= 0x7FFFFFFF` and no event of `l` has the sequence number of
`e`, and the events of `after` are processed from there.  The test is on the 32-bit
difference: with `c = 0xFFFFFFFF` the sequence number 0 passes it, with `c = 0` the sequence
number `0xFFFFFFFF` fails it, and for every counter `c` the sequence number before it
(`c - 1`, the one just consumed) fails it. -/
theorem netplay_process_insert_test (s : Netplay) (mem : List Nat) (u : update_datagram)
    (before after : List netplay_event) (e : netplay_event)
    (h_queue : s.udp_in = [u.bytes]) (h_wf : u.well_formed)
    (h_events : u.events = before ++ e :: after) :
    ∃ s1, netplay_process s mem = some s1 ∧
      (s1.l_cin_compats u.player).netplay_count = (s.l_cin_compats u.player).netplay_count ∧
      (s1.l_cin_compats u.player).event_first
        = after.foldl (ledger_insert (s.l_cin_compats u.player).netplay_count)
            (if u32_sub e.count (s.l_cin_compats u.player).netplay_count ≤ 2147483647 ∧
                e.count ∉ (before.foldl (ledger_insert (s.l_cin_compats u.player).netplay_count)
                  (s.l_cin_compats u.player).event_first).map netplay_event.count
             then e :: before.foldl (ledger_insert (s.l_cin_compats u.player).netplay_count)
                  (s.l_cin_compats u.player).event_first
             else before.foldl (ledger_insert (s.l_cin_compats u.player).netplay_count)
                  (s.l_cin_compats u.player).event_first) ∧
      (∀ a b : Nat, ((u32_sub a b : Nat) : Int) = ((a : Int) - (b : Int)) % 4294967296) ∧
      u32_sub 0 4294967295 ≤ 2147483647 ∧
      ¬ u32_sub 4294967295 0 ≤ 2147483647 ∧
      (∀ c : Nat, c < 4294967296 →
        ¬ u32_sub ((c + 4294967295) % 4294967296) c ≤ 2147483647) := by
  have hq : s.udp_in = [u].map update_datagram.bytes := by rw [h_queue]; rfl
  have hrun := netplay_process_wf s mem [u] hq (by intro x hx; rw [List.mem_singleton.1 hx]; exact h_wf)
  refine ⟨_, hrun, ?_, ?_, u32_sub_int, by decide, by decide, ?_⟩
  · rw [List.foldl_cons, List.foldl_nil, apply_update_cin, if_pos rfl]
  · rw [List.foldl_cons, List.foldl_nil, apply_update_cin, if_pos rfl, h_events,
      List.foldl_append, List.foldl_cons, ledger_insert_eq]
  · intro c hc
    unfold u32_sub
    omega

set_option maxRecDepth 100000 in
/-- C22, an instance: slot 1 has the counter `0xFFFFFFFF` and an empty ledger, and the datagram
`wrap_update` carries the one event of sequence number 0, which is inserted. -/
theorem netplay_process_insert_test_witness :
    (wrap_state.udp_in = [wrap_update.bytes] ∧ wrap_update.well_formed ∧
      wrap_update.events = [] ++ (⟨0, 7, 1⟩ : netplay_event) :: []) ∧
    (∃ s1, netplay_process wrap_state [] = some s1 ∧
      (s1.l_cin_compats 1).netplay_count = 4294967295 ∧
      (s1.l_cin_compats 1).event_first = [⟨0, 7, 1⟩]) :=
  ⟨⟨by decide, by decide, by decide⟩,
   (netplay_process_insert_test wrap_state [] wrap_update [] [] ⟨0, 7, 1⟩
      (by decide) (by decide) (by decide)).elim
     (fun s1 h => ⟨s1, h.1, h.2.1, h.2.2.1.trans (by decide)⟩)⟩

/-- C30. Let two datagrams differ in the tag only: tag 1 (input update) and tag 3 (gratuitous
update), both for the slot `p` (below 4) with the same status byte, lag byte, event count `n`
and at least `9 n` bytes of events.  Both are processed; the gratuitous update leaves the lag
indicators as they are; the input update sets the lag indicator of slot `p` to the lag byte
and leaves the other three; apart from the lag indicators the two resulting states are equal,
in particular the status mask, the log and the ledgers.  No datagram with tag 3 that is
processed changes a lag indicator. -/
theorem netplay_process_packet_lag (s : Netplay) (p : Fin 4) (status lag n : Nat)
    (rest : List Nat) (h_n : 9 * n ≤ rest.length) :
    ∃ s1 s3, netplay_process_packet s ([1, p.val, status, lag, n] ++ rest) = some s1 ∧
      netplay_process_packet s ([3, p.val, status, lag, n] ++ rest) = some s3 ∧
      s3.l_player_lag = s.l_player_lag ∧
      s1.l_player_lag p = lag ∧ (∀ q, q ≠ p → s1.l_player_lag q = s.l_player_lag q) ∧
      s1 = { s3 with l_player_lag := s1.l_player_lag } ∧
      s1.l_status = s3.l_status ∧ s1.log = s3.log ∧ s1.l_cin_compats = s3.l_cin_compats ∧
      (∀ (t : Netplay) (data : List Nat), data[0]? = some 3 →
        netplay_process_packet s data = some t → t.l_player_lag = s.l_player_lag) := by
  have e1 := netplay_process_packet_raw s p 1 status lag n rest (Or.inl rfl) h_n
  have e3 := netplay_process_packet_raw s p 3 status lag n rest (Or.inr rfl) h_n
  rw [datagram_events_rest] at e1 e3
  rw [apply_update_tags] at e1
  refine ⟨_, _, e1, e3, apply_update_gratuitous_lag _ _ _ _ _, ?_, ?_, rfl, rfl, rfl, rfl,
    fun t data h0 h => netplay_process_packet_gratuitous s t data h0 h⟩
  · simp
  · intro q hq
    simp [Function.update_noteq hq]

set_option maxRecDepth 100000 in
/-- C30, an instance: the datagram of the example scenario (slot 0, one event) with the lag
byte 9, as an input update and as a gratuitous update. -/
theorem netplay_process_packet_lag_witness :
    9 * 1 ≤ [0, 0, 0, 5, 0, 0, 0, 128, 1].length ∧
    (netplay_process_packet idle_state
        ([1, (0 : Fin 4).val, 0, 9, 1] ++ [0, 0, 0, 5, 0, 0, 0, 128, 1])).map
      (fun t => ([t.l_player_lag 0, t.l_player_lag 1, t.l_player_lag 2, t.l_player_lag 3],
        (t.l_cin_compats 0).event_first)) = some ([9, 0, 0, 0], [⟨5, 128, 1⟩]) ∧
    (netplay_process_packet idle_state
        ([3, (0 : Fin 4).val, 0, 9, 1] ++ [0, 0, 0, 5, 0, 0, 0, 128, 1])).map
      (fun t => ([t.l_player_lag 0, t.l_player_lag 1, t.l_player_lag 2, t.l_player_lag 3],
        (t.l_cin_compats 0).event_first)) = some ([0, 0, 0, 0], [⟨5, 128, 1⟩]) ∧
    (∃ s1 s3, netplay_process_packet idle_state
          ([1, (0 : Fin 4).val, 0, 9, 1] ++ [0, 0, 0, 5, 0, 0, 0, 128, 1]) = some s1 ∧
        netplay_process_packet idle_state
          ([3, (0 : Fin 4).val, 0, 9, 1] ++ [0, 0, 0, 5, 0, 0, 0, 128, 1]) = some s3 ∧
        s1 = { s3 with l_player_lag := s1.l_player_lag }) :=
  ⟨by decide, by decide, by decide,
   (netplay_process_packet_lag idle_state 0 0 9 1 [0, 0, 0, 5, 0, 0, 0, 128, 1]
      (by decide)).elim
     (fun s1 h => h.elim (fun s3 h3 => ⟨s1, s3, h3.1, h3.2.1, h3.2.2.2.2.2.1⟩))⟩

/-- C26. The slot byte of an update datagram is used as an index without a check.  When it is
4 or more: an input update (tag 1) stores the lag byte at `l_player_lag[player]`, outside the
table (the embedding has no result, `none`); a gratuitous update (tag 3) with at least one
event reads `l_cin_compats[player]`, outside the table; a gratuitous update without events
accesses no table but still updates the status mask and logs the change. -/
theorem netplay_process_packet_slot_unchecked (s : Netplay) (player status lag n : Nat)
    (rest : List Nat) (h : 4 ≤ player) :
    idx4 player = none ∧
    netplay_process_packet s ([1, player, status, lag, n] ++ rest) = none ∧
    (1 ≤ n → netplay_process_packet s ([3, player, status, lag, n] ++ rest) = none) ∧
    netplay_process_packet s ([3, player, status, lag, 0] ++ rest)
      = some (if status ≠ s.l_status then
          { s with log := s.log ++ status_logs status s.l_status s.l_vi_counter,
                   l_status := status }
        else s) := by
  have hidx : idx4 player = none := by
    unfold idx4
    rw [dif_neg (by omega)]
  refine ⟨hidx, ?_, ?_, ?_⟩
  · unfold netplay_process_packet
    simp [UDP_RECEIVE_KEY_INFO, UDP_RECEIVE_KEY_INFO_GRATUITOUS, hidx]
  · intro hn
    obtain ⟨m, rfl⟩ : ∃ m, n = m + 1 := ⟨n - 1, by omega⟩
    unfold netplay_process_packet
    simp only [UDP_RECEIVE_KEY_INFO, UDP_RECEIVE_KEY_INFO_GRATUITOUS]
    simp only [List.cons_append, List.nil_append, List.getElem?_cons_zero,
      List.getElem?_cons_succ, Option.bind_eq_bind, Option.some_bind, or_true, if_true,
      show ¬ (3 = 1) by decide, if_false]
    unfold netplay_process_events
    simp only [hidx, Option.bind_eq_bind, Option.none_bind, Option.bind_none]
  · unfold netplay_process_packet
    simp only [UDP_RECEIVE_KEY_INFO, UDP_RECEIVE_KEY_INFO_GRATUITOUS]
    simp only [List.cons_append, List.nil_append, List.getElem?_cons_zero,
      List.getElem?_cons_succ, Option.bind_eq_bind, Option.some_bind, or_true, if_true,
      show ¬ (3 = 1) by decide, if_false]
    rfl

set_option maxRecDepth 100000 in
/-- C26, instances with the slot byte 4: the input update `{1, 4, 0, 9, 0}`, the gratuitous
update `{3, 4, 0, 0, 1, ...}` with one event, and the gratuitous update `{3, 4, 1, 0, 0}`
without events, which changes the status mask from 0 to 1 and logs the desync message. -/
theorem netplay_process_packet_slot_unchecked_witness :
    4 ≤ 4 ∧
    netplay_process_packet idle_state ([1, 4, 0, 9, 0] ++ []) = none ∧
    netplay_process_packet idle_state ([3, 4, 0, 0, 1] ++ [0, 0, 0, 5, 0, 0, 0, 128, 1])
      = none ∧
    (netplay_process_packet idle_state ([3, 4, 1, 0, 0] ++ [])).map
        (fun t => (t.l_status, t.log)) = some (1, [log_message.desync 0]) :=
  ⟨by decide,
   (netplay_process_packet_slot_unchecked idle_state 4 0 9 0 [] (by decide)).2.1,
   (netplay_process_packet_slot_unchecked idle_state 4 0 0 1 [0, 0, 0, 5, 0, 0, 0, 128, 1]
      (by decide)).2.2.1 (by decide),
   by decide⟩

/-- C25. Whenever `netplay_ensure_valid(slot)` returns a nonzero value, in the state it leaves
the ledger of the slot holds an event whose sequence number is the slot's counter
(`check_valid` is true); the search loop of `netplay_get_input` therefore stops at an event
`e` of the list, the first with that sequence number, before the end of the list, and the
rest of the call returns the buttons of `e` and removes it. -/
theorem netplay_ensure_valid_found (s s1 : Netplay) (i : Fin 4) (ticks0 : Nat)
    (trace : List wait_event) (r : Int)
    (h_ret : netplay_ensure_valid s i.val ticks0 trace = some (s1, r)) (h_r : r ≠ 0) :
    check_valid s1 i.val (s1.l_cin_compats i).netplay_count = some true ∧
    ∃ pre e post, (s1.l_cin_compats i).event_first = pre ++ e :: post ∧
      e.count = (s1.l_cin_compats i).netplay_count ∧
      (∀ x ∈ pre, x.count ≠ (s1.l_cin_compats i).netplay_count) ∧
      find_event (s1.l_cin_compats i).event_first (s1.l_cin_compats i).netplay_count
        = some pre.length ∧
      ∃ s2, netplay_consume s1 i.val r = some (s2, e.buttons) ∧
        (s2.l_cin_compats i).event_first = pre ++ post := by
  have hv := netplay_ensure_valid_success s s1 i ticks0 trace r h_ret h_r
  obtain ⟨pre, e, post, hl, he, hpre, hf⟩ := find_event_split _ _ hv
  refine ⟨?_, pre, e, post, hl, he, hpre, hf, ?_⟩
  · unfold check_valid
    rw [cin_val]
    simp only [Option.bind_eq_bind, Option.some_bind]
    rw [hv]
  · refine ⟨_, netplay_consume_found s1 i r h_r pre post e hl he hpre, ?_⟩
    simp

set_option maxRecDepth 100000 in
/-- C25, instances.  In `buffered_state` slot 0 already holds the wanted event (sequence 5) in
the middle of its list: `netplay_ensure_valid` returns 1 at once and the search stops at
position 1.  In the idle session the event arrives during the wait of `answered_env`:
`netplay_ensure_valid` returns 1 and the search stops at position 0. -/
theorem netplay_ensure_valid_found_witness :
    (netplay_ensure_valid buffered_state (0 : Fin 4).val 0 [] = some (buffered_state, 1) ∧
      (1 : Int) ≠ 0) ∧
    (∃ pre e post, (buffered_state.l_cin_compats 0).event_first = pre ++ e :: post ∧
      e.count = 5 ∧ pre.length = 1 ∧
      ∃ s2, netplay_consume buffered_state (0 : Fin 4).val 1 = some (s2, e.buttons) ∧
        (s2.l_cin_compats 0).event_first = pre ++ post) ∧
    (∃ s1, netplay_ensure_valid idle_state (0 : Fin 4).val 0 answered_env.trace = some (s1, 1) ∧
      find_event (s1.l_cin_compats 0).event_first (s1.l_cin_compats 0).netplay_count
        = some 0) := by
  refine ⟨⟨netplay_ensure_valid_ready buffered_state 0 0 [] (by decide), by decide⟩, ?_, ?_⟩
  · obtain ⟨-, pre, e, post, h1, h2, -, h4, h5⟩ :=
      netplay_ensure_valid_found buffered_state buffered_state 0 0 [] 1
        (netplay_ensure_valid_ready buffered_state 0 0 [] (by decide)) (by decide)
    refine ⟨pre, e, post, h1, h2, ?_, h5⟩
    have h6 : find_event (buffered_state.l_cin_compats 0).event_first
        (buffered_state.l_cin_compats 0).netplay_count = some 1 := by decide
    rw [h6] at h4
    exact (Option.some.inj h4).symm
  · have hx : (netplay_ensure_valid idle_state (0 : Fin 4).val 0 answered_env.trace).map
        (fun p => (p.2, find_event (p.1.l_cin_compats 0).event_first
          (p.1.l_cin_compats 0).netplay_count)) = some (1, some 0) := by decide
    cases h : netplay_ensure_valid idle_state (0 : Fin 4).val 0 answered_env.trace with
    | none => rw [h] at hx; cases hx
    | some p =>
      obtain ⟨s1, r⟩ := p
      rw [h] at hx
      simp only [Option.map_some', Option.some.injEq, Prod.mk.injEq] at hx
      obtain ⟨hr, hf⟩ := hx
      subst hr
      exact ⟨s1, rfl, hf⟩

/-- C27. When slot 0 is locally owned (and the caller's buffer holds `size` bytes),
`netplay_read_storage` returns, and the status it returns is the value the local variable
`ret` held before: the branch that pushes the save region never assigns `ret`, in
particular it does not set it to `file_ok`. -/
theorem netplay_read_storage_owner_status (s : Netplay) (filename data : List Nat) (size : Nat)
    (ret_init : file_status_t)
    (h_owner : s.l_netplay_control 0 ≠ -1) (h_buf : size ≤ data.length) :
    (netplay_read_storage s filename data size ret_init).map (fun r => r.2.1)
      = some ret_init := by
  unfold netplay_read_storage
  rw [if_neg (by omega), if_pos h_owner]
  rfl

set_option maxRecDepth 100000 in
/-- C27, an instance: the owner of slot 0 pushes two bytes while `ret` holds
`file_open_error`; the call returns `file_open_error`. -/
theorem netplay_read_storage_owner_status_witness :
    (owner_state.l_netplay_control 0 ≠ -1 ∧ 2 ≤ [1, 2].length) ∧
    (netplay_read_storage owner_state [97, 46, 98] [1, 2] 2 file_status_t.file_open_error).map
      (fun r => r.2.1) = some file_status_t.file_open_error ∧
    file_status_t.file_open_error ≠ file_status_t.file_ok :=
  ⟨⟨by decide, by decide⟩,
   netplay_read_storage_owner_status owner_state [97, 46, 98] [1, 2] 2
     file_status_t.file_open_error (by decide) (by decide),
   by decide⟩

/-- C28. On a live session, with `size` bytes in the caller's buffer.
`netplay_send_config(data, size)`: if slot 0 is not locally owned and `size` is not 1, it
returns `M64ERR_INVALID_STATE` and leaves the state as it is; otherwise it sends the one
message of the `size` first bytes of `data` and returns `M64ERR_SUCCESS` if the value the
transport reports is at least `size`, `M64ERR_SYSTEM_FAIL` if it is less; so it returns
`M64ERR_INVALID_STATE` exactly in the first case.
`netplay_receive_config(data, size)`: if slot 0 is locally owned it returns
`M64ERR_INVALID_STATE` and leaves the state and the buffer as they are; otherwise, when no
read fails and the stream delivers `size` bytes (in reads of any sizes), it returns
`M64ERR_SUCCESS` with these `size` bytes at the start of the buffer, the stream advanced by
exactly `size` bytes and nothing sent.
When slot 0 is not locally owned, `size` is positive and the first read fails (`TCP_Recv`
returns -1 or -2), the call does not return `M64ERR_SUCCESS` after reading `size` bytes: the
failure is added to the `int` byte count, which becomes negative, and the next `TCP_Recv` is
handed `&data[recv]`, an address before the caller's buffer - the call has no defined
result.  Unlike `netplay_send_config`, the function never looks at what the transport
returns. -/
theorem netplay_config_exchange (s : Netplay) (data : List Nat) (size : Nat)
    (h_live : s.l_netplay_is_init ≠ 0) (h_buf : size ≤ data.length) :
    ((s.l_netplay_control 0 = -1 ∧ size ≠ 1) →
      netplay_send_config s data size = some (s, m64p_error.M64ERR_INVALID_STATE)) ∧
    (¬ (s.l_netplay_control 0 = -1 ∧ size ≠ 1) →
      netplay_send_config s data size
        = some ({ s with tcp_out := s.tcp_out ++ [data.take size],
                         tcp_send_ret := s.tcp_send_ret.tail },
                if s.tcp_send_ret.headD (size : Int) < (size : Int)
                then m64p_error.M64ERR_SYSTEM_FAIL else m64p_error.M64ERR_SUCCESS)) ∧
    ((netplay_send_config s data size).map Prod.snd = some m64p_error.M64ERR_INVALID_STATE ↔
      (s.l_netplay_control 0 = -1 ∧ size ≠ 1)) ∧
    (s.l_netplay_control 0 ≠ -1 →
      netplay_receive_config s data size
        = some (s, m64p_error.M64ERR_INVALID_STATE, data)) ∧
    (s.l_netplay_control 0 = -1 → (∀ o ∈ s.tcp_recv_ret, o = none) →
      size ≤ s.tcp_in.flatten.length →
      ∃ q os, netplay_receive_config s data size
          = some ({ s with tcp_in := q, tcp_recv_ret := os }, m64p_error.M64ERR_SUCCESS,
                  s.tcp_in.flatten.take size ++ data.drop size) ∧
        q.flatten = s.tcp_in.flatten.drop size ∧ (∀ o ∈ os, o = none)) ∧
    (s.l_netplay_control 0 = -1 → 0 < size →
      ∀ (f : tcp_failure) (os : List (Option tcp_failure)), s.tcp_recv_ret = some f :: os →
        netplay_receive_config s data size = none) := by
  have hsz : ¬ ((size : Int) < 0 ∨ (data.length : Int) < (size : Int)) := by omega
  have hlen : ((data.take size).length : Int) = (size : Int) := by
    rw [List.length_take, Nat.min_eq_left h_buf]
  have hinv : (s.l_netplay_control 0 = -1 ∧ size ≠ 1) →
      netplay_send_config s data size = some (s, m64p_error.M64ERR_INVALID_STATE) := by
    intro h
    unfold netplay_send_config
    rw [if_neg h_live, if_neg]
    intro hc
    rcases hc with hc | hc
    · exact hc h.1
    · exact h.2 (by exact_mod_cast hc)
  have hsend : ¬ (s.l_netplay_control 0 = -1 ∧ size ≠ 1) →
      netplay_send_config s data size
        = some ({ s with tcp_out := s.tcp_out ++ [data.take size],
                         tcp_send_ret := s.tcp_send_ret.tail },
                if s.tcp_send_ret.headD (size : Int) < (size : Int)
                then m64p_error.M64ERR_SYSTEM_FAIL else m64p_error.M64ERR_SUCCESS) := by
    intro h
    have hc : s.l_netplay_control 0 ≠ -1 ∨ (size : Int) = 1 := by
      by_cases h1 : s.l_netplay_control 0 = -1
      · right
        have : size = 1 := by
          by_contra h2
          exact h ⟨h1, h2⟩
        rw [this]; rfl
      · exact Or.inl h1
    unfold netplay_send_config
    rw [if_neg h_live, if_pos hc, if_neg hsz]
    simp only [TCP_Send, Int.toNat_ofNat, hlen]
    split_ifs <;> rfl
  refine ⟨hinv, hsend, ?_, ?_, ?_, ?_⟩
  · constructor
    · intro h
      by_contra hn
      rw [hsend hn] at h
      simp only [Option.map_some', Option.some.injEq] at h
      split_ifs at h
    · intro h
      rw [hinv h]
      rfl
  · intro h
    unfold netplay_receive_config
    rw [if_neg h_live, if_neg h]
  · intro h h_ok hs
    obtain ⟨q, os, hr, hq, hos⟩ := tcp_recv_while_delivers false size s.tcp_recv_ret s.tcp_in
      data 0 h_ok (by omega) h_buf (by omega)
    refine ⟨q, os, ?_, hq, hos⟩
    unfold netplay_receive_config
    rw [if_neg h_live, if_pos h, if_neg (by omega)]
    simp only [Int.toNat_ofNat, hr, Option.bind_eq_bind, Option.some_bind, List.take_zero,
      List.nil_append, Nat.sub_zero]
  · intro h hpos f os hf
    unfold netplay_receive_config
    rw [if_neg h_live, if_pos h, if_neg (by omega)]
    simp only [Int.toNat_ofNat, hf, tcp_recv_while_fail_first false size f os s.tcp_in data hpos,
      Bool.false_eq_true, if_false, Option.bind_eq_bind, Option.none_bind]

set_option maxRecDepth 100000 in
/-- C28, instances on the idle session (slot 0 not owned) and on `owner_state`: a send of three
bytes by a peer is refused, a send of one byte by a peer and a send of three bytes by the owner
succeed, the owner's send fails when the transport reports two bytes sent; a receive by the
owner is refused, a receive of seven bytes by `peer_state` takes them from the first two reads
of the stream; a receive of three bytes by `config_failed_state`, whose first read fails
with -1, has no defined result. -/
theorem netplay_config_exchange_witness :
    (idle_state.l_netplay_is_init ≠ 0 ∧ 3 ≤ [1, 2, 3].length) ∧
    netplay_send_config idle_state [1, 2, 3] (3 : Nat)
      = some (idle_state, m64p_error.M64ERR_INVALID_STATE) ∧
    (netplay_send_config idle_state [1, 2, 3] (1 : Nat)).map (fun r => (r.1.tcp_out, r.2))
      = some ([[1]], m64p_error.M64ERR_SUCCESS) ∧
    (netplay_send_config owner_state [1, 2, 3] (3 : Nat)).map (fun r => (r.1.tcp_out, r.2))
      = some ([[1, 2, 3]], m64p_error.M64ERR_SUCCESS) ∧
    (netplay_send_config { owner_state with tcp_send_ret := [2] } [1, 2, 3] (3 : Nat)).map
        (fun r => (r.1.tcp_out, r.2))
      = some ([[1, 2, 3]], m64p_error.M64ERR_SYSTEM_FAIL) ∧
    netplay_receive_config owner_state [1, 2, 3] (3 : Nat)
      = some (owner_state, m64p_error.M64ERR_INVALID_STATE, [1, 2, 3]) ∧
    (netplay_receive_config peer_state [9, 9, 9, 9, 9, 9, 9, 9] (7 : Nat)).map
        (fun r => (r.1.tcp_in, r.2))
      = some ([[2, 0, 0, 0, 3, 255, 255, 255], [255, 0, 0, 0, 5], [128, 0, 0, 0]],
              m64p_error.M64ERR_SUCCESS, [0, 0, 0, 1, 0, 0, 0, 9]) ∧
    (config_failed_state.l_netplay_is_init ≠ 0 ∧ config_failed_state.l_netplay_control 0 = -1 ∧
      config_failed_state.tcp_recv_ret = [some tcp_failure.error] ∧
      config_failed_state.tcp_in = [[1, 2, 3, 4]]) ∧
    netplay_receive_config config_failed_state [9, 9, 9] (3 : Nat) = none :=
  ⟨⟨by decide, by decide⟩,
   (netplay_config_exchange idle_state [1, 2, 3] 3 (by decide) (by decide)).1
     ⟨by decide, by decide⟩,
   by decide, by decide, by decide,
   (netplay_config_exchange owner_state [1, 2, 3] 3 (by decide) (by decide)).2.2.2.1
     (by decide),
   by decide, ⟨by decide, by decide, by decide, by decide⟩,
   Option.isNone_iff_eq_none.mp (by decide)⟩

/-- C29. After a successful `netplay_start` (every slot unassigned, spectator flag 1, next
controller 0), let `netplay_set_controller` be called once on each player of a list of
distinct players (slots below 4), in order.  The calls return; afterwards
`netplay_get_controller` gives `j - 1` for the `j`-th player of the list (`j` for position
`j` counted from 0) and -1 for every player not in the list, `netplay_next_controller()` is
the number of players of the list, and the spectator flag is 0 if the list is not empty
(it stays 1 if it is).  Two different players of the list have different controller
indices. -/
theorem netplay_set_controller_order (s0 : Netplay) (env : start_env)
    (players : List (Fin 4))
    (h_start : (netplay_start s0 env).2 = m64p_error.M64ERR_SUCCESS)
    (h_distinct : players.Nodup) :
    netplay_next_controller (netplay_start s0 env).1 = 0 ∧
    (netplay_start s0 env).1.l_spectator = 1 ∧
    (∀ q : Fin 4, netplay_get_controller (netplay_start s0 env).1 q.val = some (-1)) ∧
    ∃ s, set_controllers (players.map Fin.val) (netplay_start s0 env).1 = some s ∧
      (∀ (j : Nat) (p : Fin 4), players[j]? = some p →
        netplay_get_controller s p.val = some (j : Int)) ∧
      (∀ q : Fin 4, q ∉ players → netplay_get_controller s q.val = some (-1)) ∧
      netplay_next_controller s = (players.length : Int) ∧
      (players ≠ [] → s.l_spectator = 0) ∧ (players = [] → s.l_spectator = 1) ∧
      (∀ (j k : Nat) (p q : Fin 4), players[j]? = some p → players[k]? = some q → p ≠ q →
        netplay_get_controller s p.val ≠ netplay_get_controller s q.val) := by
  have hs : (netplay_start s0 env).1.l_netplay_controller = 0 ∧
      (netplay_start s0 env).1.l_spectator = 1 ∧
      (netplay_start s0 env).1.l_netplay_control = fun _ => -1 := by
    unfold netplay_start at h_start ⊢
    split_ifs at h_start ⊢ with h1 h2 h3 h4 h5
    exact ⟨rfl, rfl, rfl⟩
  obtain ⟨hc0, hsp0, hctl0⟩ := hs
  have hlen : players.length ≤ 4 := by
    have := List.Nodup.length_le_card h_distinct
    simpa using this
  obtain ⟨s, hrun, hc, hctl, hother, hspec, hnil⟩ := set_controllers_spec players
    (netplay_start s0 env).1 h_distinct (by rw [hc0]) (by rw [hc0]; omega)
  have hget : ∀ (t : Netplay) (q : Fin 4),
      netplay_get_controller t q.val = some (t.l_netplay_control q) := by
    intro t q
    unfold netplay_get_controller
    rw [idx4_val]
    rfl
  refine ⟨hc0, hsp0, ?_, s, hrun, ?_, ?_, ?_, hspec, ?_, ?_⟩
  · intro q
    rw [hget, hctl0]
  · intro j p hjp
    rw [hget, hctl j p hjp, hc0, Int.zero_add]
  · intro q hq
    rw [hget, hother q hq, hctl0]
  · unfold netplay_next_controller
    rw [hc, hc0, Int.zero_add]
  · intro h
    rw [hnil h]
    exact hsp0
  · intro j k p q hj hk hpq
    rw [hget, hget, hctl j p hj, hctl k q hk, hc0]
    intro h
    simp only [Option.some.injEq, Int.zero_add, Nat.cast_inj] at h
    subst h
    rw [hj] at hk
    exact hpq (Option.some.inj hk)

set_option maxRecDepth 100000 in
/-- C29, an instance: after the start of `started_state`, players 2 and 0 are set in this
order; player 2 gets controller 0, player 0 gets controller 1, players 1 and 3 keep -1. -/
theorem netplay_set_controller_order_witness :
    ((netplay_start (netplay_initial { idle_state with tcp_send_ret := [0] }) start_ok).2
        = m64p_error.M64ERR_SUCCESS ∧ ([2, 0] : List (Fin 4)).Nodup) ∧
    (∃ s, set_controllers (([2, 0] : List (Fin 4)).map Fin.val) started_state = some s ∧
      netplay_get_controller s 2 = some 0 ∧ netplay_get_controller s 0 = some 1 ∧
      netplay_get_controller s 1 = some (-1) ∧ netplay_get_controller s 3 = some (-1) ∧
      netplay_next_controller s = 2 ∧ s.l_spectator = 0) :=
  ⟨⟨by decide, by decide⟩,
   (netplay_set_controller_order (netplay_initial { idle_state with tcp_send_ret := [0] })
      start_ok [2, 0] (by decide) (by decide)).2.2.2.elim
     (fun s h => ⟨s, h.1, h.2.1 0 2 rfl, h.2.1 1 0 rfl, h.2.2.1 1 (by decide),
       h.2.2.1 3 (by decide), h.2.2.2.1, h.2.2.2.2.1 (by decide)⟩)⟩

/-- C21. Let a connected native handle hold in its read buffer the complete frames of the
payloads `payloads` one after the other - each frame the length `L` of its payload as a
4-byte big-endian number and then the `L` payload bytes, with `0 < L <= bufsize` - and after
them the bytes `rest`.  A call of `net_recv` (for every `recv` behaviour: the socket is not
read) returns `NET_OK`, has copied the payload of the first frame to the start of `buf` and
nothing else, sets `*out_len` to its length, and leaves the handle connected with the bytes
behind the first frame in the read buffer, in order.  So `payloads.length` calls return the
payloads one per call in the order of arrival and leave `rest` buffered. -/
theorem net_recv_frames (h : net_handle_t) (buf : List Nat) (bufsize : Nat)
    (sock : List recv_result) (payloads : List (List Nat)) (rest : List Nat)
    (h_conn : h.connected ≠ 0) (h_cap : h.rd_buf.length = RD_BUF_SIZE)
    (h_len : h.rd_buf_len ≤ RD_BUF_SIZE)
    (h_buf : h.rd_buf.take h.rd_buf_len = (payloads.map net_frame).flatten ++ rest)
    (h_size : ∀ p ∈ payloads, 0 < p.length ∧ p.length ≤ bufsize)
    (h_caller : bufsize ≤ buf.length) :
    (∀ (p : List Nat) (ps : List (List Nat)) (ol : Nat), payloads = p :: ps →
      ∃ h1, net_recv (some h) buf bufsize (some ol) sock
          = some ⟨net_status_t.NET_OK, some h1, p ++ buf.drop p.length, some p.length, sock⟩ ∧
        h1.connected = h.connected ∧ h1.rd_buf_len = ((ps.map net_frame).flatten ++ rest).length ∧
        h1.rd_buf.take h1.rd_buf_len = (ps.map net_frame).flatten ++ rest) ∧
    ∃ hn bufn, net_recv_calls payloads.length h buf bufsize sock
        = some (payloads, hn, bufn, sock) ∧
      hn.connected = h.connected ∧ hn.rd_buf_len = rest.length ∧
      hn.rd_buf.take hn.rd_buf_len = rest := by
  refine ⟨?_, net_recv_calls_frames payloads h buf bufsize sock rest h_conn h_cap h_len h_buf
    (fun p hp => (h_size p hp).2) h_caller⟩
  intro p ps ol hps
  subst hps
  rw [List.map_cons, List.flatten_cons, List.append_assoc] at h_buf
  obtain ⟨h1, hrun, hc1, -, -, hl1, -, hb1⟩ := net_recv_frame h buf bufsize ol sock p
    ((ps.map net_frame).flatten ++ rest) h_conn h_cap h_len h_buf
    (h_size p (List.mem_cons_self _ _)).2 h_caller
  exact ⟨h1, hrun, hc1, hl1, hb1⟩

set_option maxRecDepth 100000 in
/-- C21, an instance: `framed_handle` holds the frames of `[1, 2, 3]` and `[9]` and then two
bytes of an incomplete header; two calls with an 8-byte buffer return `[1, 2, 3]` and then
`[9]`, and the two bytes stay buffered. -/
theorem net_recv_frames_witness :
    (framed_handle.connected ≠ 0 ∧ framed_handle.rd_buf.length = RD_BUF_SIZE ∧
      framed_handle.rd_buf_len ≤ RD_BUF_SIZE ∧
      framed_handle.rd_buf.take framed_handle.rd_buf_len
        = ([[1, 2, 3], [9]].map net_frame).flatten ++ [0, 0] ∧
      (∀ p ∈ [[1, 2, 3], [9]], 0 < p.length ∧ p.length ≤ 8) ∧
      8 ≤ (List.replicate 8 7).length) ∧
    (∃ h1, net_recv (some framed_handle) (List.replicate 8 7) 8 (some 5) []
        = some ⟨net_status_t.NET_OK, some h1, [1, 2, 3, 7, 7, 7, 7, 7], some 3, []⟩ ∧
      h1.rd_buf.take h1.rd_buf_len = [0, 0, 0, 1, 9, 0, 0]) ∧
    (∃ hn bufn, net_recv_calls 2 framed_handle (List.replicate 8 7) 8 []
        = some ([[1, 2, 3], [9]], hn, bufn, []) ∧
      hn.rd_buf_len = 2 ∧ hn.rd_buf.take hn.rd_buf_len = [0, 0]) := by
  have hyp : framed_handle.connected ≠ 0 ∧ framed_handle.rd_buf.length = RD_BUF_SIZE ∧
      framed_handle.rd_buf_len ≤ RD_BUF_SIZE ∧
      framed_handle.rd_buf.take framed_handle.rd_buf_len
        = ([[1, 2, 3], [9]].map net_frame).flatten ++ [0, 0] ∧
      (∀ p ∈ [[1, 2, 3], [9]], 0 < p.length ∧ p.length ≤ 8) ∧
      8 ≤ (List.replicate 8 7).length :=
    ⟨by decide, framed_handle_length, by decide, framed_handle_frames, by decide, by decide⟩
  obtain ⟨h1, h2, h3, h4, h5, h6⟩ := hyp
  have key := net_recv_frames framed_handle (List.replicate 8 7) 8 [] [[1, 2, 3], [9]] [0, 0]
    h1 h2 h3 h4 h5 h6
  refine ⟨⟨h1, h2, h3, h4, h5, h6⟩, ?_, ?_⟩
  · obtain ⟨k1, hk1, -, -, hk4⟩ := key.1 [1, 2, 3] [[9]] 5 rfl
    exact ⟨k1, hk1, hk4.trans (by decide)⟩
  · obtain ⟨hn, bufn, hk1, -, hk3, hk4⟩ := key.2
    exact ⟨hn, bufn, hk1, hk3, hk4⟩

/-- C23. Start from a session with empty ledgers (32-bit counters, byte datagrams in the
receive queue) and let any sequence of calls follow, each the arrival of a datagram of bytes,
a run of `netplay_process`, or a call of `netplay_get_input` for any slot with any behaviour
of the network and the clock during its wait.  In every state so reached, every event `e`
buffered for a slot with counter `c` satisfies `(e.count - c) mod 2^32 <= 0x7FFFFFFF`: no
buffered event is older than the counter of its slot.  Moreover no two buffered events of a
slot share a sequence number. -/
theorem ledger_never_stale (s0 s : Netplay) (calls : List session_call)
    (h_fresh : fresh_session s0) (h_bytes : ∀ c ∈ calls, c.bytes_ok)
    (h_run : run_calls calls s0 = some s) :
    ∀ q : Fin 4,
      (∀ e ∈ (s.l_cin_compats q).event_first,
        u32_sub e.count (s.l_cin_compats q).netplay_count ≤ 2147483647 ∧
        ¬ is_stale e.count (s.l_cin_compats q).netplay_count) ∧
      ((s.l_cin_compats q).event_first.map netplay_event.count).Nodup := by
  have hinv := run_calls_inv calls s0 s h_run h_bytes (fresh_session_inv s0 h_fresh)
  intro q
  obtain ⟨-, h2, h3⟩ := hinv.1 q
  refine ⟨fun e he => ⟨(h2 e he).2, (not_stale_iff _ _).2 (h2 e he).2⟩, h3⟩

set_option maxRecDepth 100000 in
/-- C23, an instance: in `wrap_session` slot 0 has the counter `0xFFFFFFFF`.  The calls of
`wrap_calls` deliver the events with the sequence numbers `0xFFFFFFFF` and 0, consume the
first (the counter wraps to 0) and receive the same datagram again: the event consumed is
not buffered again, the ledger holds the event with sequence number 0 only. -/
theorem ledger_never_stale_witness :
    (fresh_session wrap_session ∧ ∀ c ∈ wrap_calls, c.bytes_ok) ∧
    (run_calls wrap_calls wrap_session).map
        (fun s => ((s.l_cin_compats 0).netplay_count, (s.l_cin_compats 0).event_first))
      = some (0, [⟨0, 2, 1⟩]) ∧
    (∃ s, run_calls wrap_calls wrap_session = some s ∧
      ∀ q : Fin 4,
        (∀ e ∈ (s.l_cin_compats q).event_first,
          u32_sub e.count (s.l_cin_compats q).netplay_count ≤ 2147483647 ∧
          ¬ is_stale e.count (s.l_cin_compats q).netplay_count) ∧
        ((s.l_cin_compats q).event_first.map netplay_event.count).Nodup) := by
  have h1 : fresh_session wrap_session := by decide
  have h2 : ∀ c ∈ wrap_calls, c.bytes_ok := by decide
  have h3 : (run_calls wrap_calls wrap_session).map
        (fun s => ((s.l_cin_compats 0).netplay_count, (s.l_cin_compats 0).event_first))
      = some (0, [⟨0, 2, 1⟩]) := by decide
  refine ⟨⟨h1, h2⟩, h3, ?_⟩
  cases h : run_calls wrap_calls wrap_session with
  | none => rw [h] at h3; cases h3
  | some s => exact ⟨s, rfl, ledger_never_stale wrap_session s wrap_calls h1 h2 h⟩

end NetplayWs
